import Mathlib

/-! Dali: reverse-mode automatic differentiation and synchronized memory.

A shallow embedding of the parts of the Dali sources that carry the tape of
backward closures (`MatOps.cpp`, `Mat.cpp`, `Backward.cpp`) and the dual
CPU/GPU storage (`SynchronizedMemory.cu.cpp`, CUDA build), followed by the
properties proved about them.

Conventions of the embedding.
* The scalar type `R` (`float` / `double`) is the field of rationals: every
  statement is about exact arithmetic.
* An Eigen matrix is a shape together with a coefficient function; only the
  coefficients inside the shape are meaningful.  The shape guards of the
  primitives make every expression read inside the shapes of its operands.
* `shared_ptr` storage is a store indexed by addresses; a `Mat` handle is a
  pair of addresses (values, gradient) and its `constant` flag.
* An operation that can throw returns `Except String _` together with the
  state it leaves behind.
-/

namespace Dali

/-- The scalar type `R` of the class templates, in exact arithmetic. -/
abbrev R := ℚ

/-- An `Eigen::Matrix<R, Dynamic, Dynamic>`: shape and coefficients. -/
structure EigenMat where
  rows : Nat
  cols : Nat
  coeff : Nat → Nat → R

namespace EigenMat

/-- `eigen_mat::Zero(n, d)`. -/
def Zero (n d : Nat) : EigenMat := ⟨n, d, fun _ _ => 0⟩

/-- `a.transpose()`. -/
def transpose (a : EigenMat) : EigenMat := ⟨a.cols, a.rows, fun i j => a.coeff j i⟩

/-- The matrix product `a * b`. -/
def mul (a b : EigenMat) : EigenMat :=
  ⟨a.rows, b.cols, fun i j => ∑ c ∈ Finset.range a.cols, a.coeff i c * b.coeff c j⟩

/-- The sum `a + b`. -/
def add (a b : EigenMat) : EigenMat := ⟨a.rows, a.cols, fun i j => a.coeff i j + b.coeff i j⟩

/-- The difference `a - b`. -/
def sub (a b : EigenMat) : EigenMat := ⟨a.rows, a.cols, fun i j => a.coeff i j - b.coeff i j⟩

/-- The opposite `-a`. -/
def neg (a : EigenMat) : EigenMat := ⟨a.rows, a.cols, fun i j => - a.coeff i j⟩

/-- The multiple `alpha * a`. -/
def scale (a : EigenMat) (alpha : R) : EigenMat :=
  ⟨a.rows, a.cols, fun i j => alpha * a.coeff i j⟩

/-- The coefficient-wise image `a.unaryExpr(f)`. -/
def unaryExpr (a : EigenMat) (f : R → R) : EigenMat :=
  ⟨a.rows, a.cols, fun i j => f (a.coeff i j)⟩

/-- The coefficient-wise inverse `a.array().inverse()`. -/
def cwiseInverse (a : EigenMat) : EigenMat := ⟨a.rows, a.cols, fun i j => 1 / a.coeff i j⟩

/-- The coefficient-wise square `a.array().square()`. -/
def cwiseSquare (a : EigenMat) : EigenMat :=
  ⟨a.rows, a.cols, fun i j => a.coeff i j * a.coeff i j⟩

/-- The row-broadcast product `a.array().rowwise() * b.row(0).array()`. -/
def rowwiseMul (a b : EigenMat) : EigenMat :=
  ⟨a.rows, a.cols, fun i j => a.coeff i j * b.coeff 0 j⟩

/-- The row of column sums `a.colwise().sum()`. -/
def colwiseSum (a : EigenMat) : EigenMat :=
  ⟨1, a.cols, fun _ j => ∑ r ∈ Finset.range a.rows, a.coeff r j⟩

/-- The coefficient-wise product `a.array() * b.array()`. -/
def cwiseMul (a b : EigenMat) : EigenMat :=
  ⟨a.rows, a.cols, fun i j => a.coeff i j * b.coeff i j⟩

/-- The column-broadcast sum `a.colwise() + b.col(0)`. -/
def colwiseAdd (a b : EigenMat) : EigenMat :=
  ⟨a.rows, a.cols, fun i j => a.coeff i j + b.coeff i 0⟩

/-- The column-broadcast difference `a.colwise() - b.col(0)`. -/
def colwiseSub (a b : EigenMat) : EigenMat :=
  ⟨a.rows, a.cols, fun i j => a.coeff i j - b.coeff i 0⟩

/-- The column-broadcast product `a.array().colwise() * b.col(0).array()`. -/
def colwiseMul (a b : EigenMat) : EigenMat :=
  ⟨a.rows, a.cols, fun i j => a.coeff i j * b.coeff i 0⟩

/-- The column of row sums `a.rowwise().sum()`. -/
def rowwiseSum (a : EigenMat) : EigenMat :=
  ⟨a.rows, 1, fun i _ => ∑ c ∈ Finset.range a.cols, a.coeff i c⟩

/-- The sum of all coefficients `a.array().sum()`. -/
def sum (a : EigenMat) : R :=
  ∑ i ∈ Finset.range a.rows, ∑ j ∈ Finset.range a.cols, a.coeff i j

/-- The mean of all coefficients `a.array().mean()`: the sum divided by the
size of the matrix (an Eigen `Index`, not truncated). -/
def mean (a : EigenMat) : R := a.sum / ((a.rows * a.cols : Nat) : R)

/-- The block `a.block(i0, j0, p, q)`. -/
def block (a : EigenMat) (i0 j0 p q : Nat) : EigenMat :=
  ⟨p, q, fun i j => a.coeff (i0 + i) (j0 + j)⟩

/-- The row `a.row(r)` as a `1 × cols` matrix. -/
def row (a : EigenMat) (r : Nat) : EigenMat := ⟨1, a.cols, fun _ j => a.coeff r j⟩

/-- The column `a.col(c)` as a `rows × 1` matrix. -/
def col (a : EigenMat) (c : Nat) : EigenMat := ⟨a.rows, 1, fun i _ => a.coeff i c⟩

/-- The assignment `a.block(i0, j0, p, q) = b`. -/
def setBlock (a : EigenMat) (i0 j0 p q : Nat) (b : EigenMat) : EigenMat :=
  ⟨a.rows, a.cols, fun i j =>
    if i0 ≤ i ∧ i < i0 + p ∧ j0 ≤ j ∧ j < j0 + q then b.coeff (i - i0) (j - j0)
    else a.coeff i j⟩

/-- The assignment `a.col(c) = b` of a column vector. -/
def setCol (a : EigenMat) (c : Nat) (b : EigenMat) : EigenMat :=
  ⟨a.rows, a.cols, fun i j => if j = c then b.coeff i 0 else a.coeff i j⟩

/-- The assignment `a(0) = v` of the first coefficient. -/
def setFirst (a : EigenMat) (v : R) : EigenMat :=
  ⟨a.rows, a.cols, fun i j => if i = 0 ∧ j = 0 then v else a.coeff i j⟩

end EigenMat

/-- A `Mat<R>` handle: the address of its shared `MatInternal` (values and
dimensions), the address of its shared `GradInternal`, and the `constant`
flag read by the `GRAD` macro. -/
structure Mat where
  m : Nat
  g : Nat
  constant : Bool
deriving DecidableEq

/-- The left-hand side of a statement of a backward rule: the gradient of a
tensor, reached through the `GRAD` macro or directly. -/
structure Target where
  x : Mat
  guarded : Bool

/-- `GRAD(X)`, that is `if (!(X).constant) (X).dw()`. -/
def GRAD (x : Mat) : Target := ⟨x, true⟩

/-- `(X).dw()` without the macro. -/
def DW (x : Mat) : Target := ⟨x, false⟩

/-- One statement `lhs += rhs` of a backward rule.  The increment of each
coefficient is computed from `out.dw()`, the current gradient of the output
tensor of the rule; the values the right-hand side reads are fixed when the
statement is formed, since no backward rule writes to values. -/
structure Stmt where
  lhs : Target
  inc : EigenMat → Nat → Nat → R

namespace Stmt

/-- `lhs.noalias() += e`, also written `lhs += e`. -/
def addAssign (lhs : Target) (e : EigenMat → EigenMat) : Stmt :=
  ⟨lhs, fun dout i j => (e dout).coeff i j⟩

/-- `lhs.noalias() -= e`. -/
def subAssign (lhs : Target) (e : EigenMat → EigenMat) : Stmt :=
  ⟨lhs, fun dout i j => - (e dout).coeff i j⟩

/-- `lhs.array() += c` for a scalar `c`. -/
def arrayAddAssign (lhs : Target) (c : EigenMat → R) : Stmt :=
  ⟨lhs, fun dout _ _ => c dout⟩

/-- `lhs.row(r).noalias() += v` for a row vector `v`. -/
def rowAddAssign (lhs : Target) (r : Nat) (v : EigenMat → EigenMat) : Stmt :=
  ⟨lhs, fun dout i j => if i = r then (v dout).coeff 0 j else 0⟩

/-- `lhs(r, c) += v` for a scalar `v`. -/
def coeffAddAssign (lhs : Target) (r c : Nat) (v : EigenMat → R) : Stmt :=
  ⟨lhs, fun dout i j => if i = r ∧ j = c then v dout else 0⟩

/-- `lhs(r, c) -= v` for a scalar `v`. -/
def coeffSubAssign (lhs : Target) (r c : Nat) (v : EigenMat → R) : Stmt :=
  ⟨lhs, fun dout i j => if i = r ∧ j = c then - v dout else 0⟩

/-- Whether the statement writes: always, except through `GRAD` on a constant
tensor. -/
def active (st : Stmt) : Bool := !(st.lhs.guarded && st.lhs.x.constant)

end Stmt

/-- `Mat::number_of_elements()`: the product of the dimensions accumulated in
an `unsigned int`. -/
def number_of_elements (a : EigenMat) : Nat :=
  [a.rows, a.cols].foldl (fun dim n => (dim * n) % 2 ^ 32) 1

/-- The loop of the closure of the vector form of `hstack`:
`GRAD(mat).noalias() += out.dw().block(0, offset, mat.dims(0), mat.dims(1));
offset += mat.dims(1)`. -/
def hstackStmts (w : Nat → EigenMat) : List Mat → Nat → List Stmt
  | [], _ => []
  | mat :: rest, offset =>
    Stmt.addAssign (GRAD mat) (fun dout => dout.block 0 offset (w mat.m).rows (w mat.m).cols)
      :: hstackStmts w rest (offset + (w mat.m).cols)

/-- The loop of the closure of the vector form of `vstack`:
`GRAD(mat).noalias() += out.dw().block(offset, 0, mat.dims(0), mat.dims(1));
offset += mat.dims(0)`. -/
def vstackStmts (w : Nat → EigenMat) : List Mat → Nat → List Stmt
  | [], _ => []
  | mat :: rest, offset =>
    Stmt.addAssign (GRAD mat) (fun dout => dout.block offset 0 (w mat.m).rows (w mat.m).cols)
      :: vstackStmts w rest (offset + (w mat.m).rows)

/-- The body of the closure of the vector form of `mul_add_mul_with_bias`: while
the pointer is not at the last element, `GRAD(*ptr) += out.dw() *
(*(ptr+1)).w().transpose(); GRAD(*(ptr+1)) += (*ptr).w().transpose() * out.dw();
ptr += 2`, then `GRAD(bias) += out.dw().rowwise().sum()` for the last element.
On a vector of even length the pointer steps over the last element and the code
reads past the end; the statements stop there. -/
def mulAddMulStmts (w : Nat → EigenMat) : List Mat → List Stmt
  | [] => []
  | [bias] => [ Stmt.addAssign (GRAD bias) (fun dout => dout.rowwiseSum) ]
  | a :: b :: rest =>
    Stmt.addAssign (GRAD a) (fun dout => dout.mul (w b.m).transpose)
      :: Stmt.addAssign (GRAD b) (fun dout => (w a.m).transpose.mul dout)
      :: mulAddMulStmts w rest

/-- The backward closures recorded by the primitives of `MatOps.cpp`: the tag
names the primitive, the arguments are the captures of the lambda.  A helper
that the lambda calls and whose definition is not part of the sources
(`utils::dtanh_operator`, `utils::sign_operator`, the coefficient-wise `pow`,
the constant `EPS`) is an argument as well. -/
inductive Closure
  | eltmul_broadcast (matrix1 matrix2 out : Mat)
  | eltmul (matrix1 matrix2 out : Mat)
  | eltmul_scalar (matrix : Mat) (alpha : R) (out : Mat)
  | eltmul_broadcast_rowwise (matrix1 row_vector out : Mat)
  | eltmul_rowwise (matrix1 matrix2 out : Mat)
  | add (matrix1 matrix2 out : Mat)
  | sub (matrix1 matrix2 out : Mat)
  | add_scalar (matrix1 out : Mat)
  | add_broadcast (matrix1 matrix2 out : Mat)
  | sub_broadcast (matrix1 matrix2 out : Mat)
  | sub_broadcast_reversed (matrix1 matrix2 out : Mat)
  | add_vector (matrices : List Mat) (out : Mat)
  | square (matrix out : Mat)
  | sqrt (matrix out : Mat)
  | elt_inv (matrix out : Mat)
  | pow (matrix out : Mat) (other : R) (pow : R → R → R)
  | sigmoid (matrix out : Mat)
  | softmax (matrix : Mat) (temperature : R) (out : Mat)
  | steep_sigmoid (matrix out : Mat) (aggressiveness : R)
  | sum (matrix out : Mat)
  | mean (matrix out : Mat)
  | sigmoid_binary_cross_entropy (matrix : Mat) (t : R) (out : Mat) (sigmoided_input : EigenMat)
  | binary_cross_entropy (matrix : Mat) (t : R) (out : Mat) (EPS : R)
  | cross_entropy (matrix : Mat) (answer_idx : Nat) (out : Mat) (EPS : R)
  | softmax_cross_entropy (matrix probs : Mat) (answer_idx : Nat) (out : Mat)
  | log (matrix out : Mat)
  | exp (matrix out : Mat)
  | hstack (matrix1 matrix2 out : Mat)
  | hstack_vector (matrices : List Mat) (out : Mat)
  | vstack (matrix1 matrix2 out : Mat)
  | vstack_vector (matrices : List Mat) (out : Mat)
  | transpose (matrix out : Mat)
  | tanh (matrix out : Mat) (dtanh_operator : R → R)
  | relu (matrix out : Mat) (sign_operator : R → R)
  | mul (matrix1 matrix2 out : Mat)
  | mul_with_bias (matrix1 matrix2 bias out : Mat)
  | mul_add_broadcast_mul_with_bias (matrix1 input_to_1 matrix2 input_to_2 bias out : Mat)
  | mul_add_mul_with_bias (matrix1 input_to_1 matrix2 input_to_2 bias out : Mat)
  | mul_add_mul_with_bias_vector (matrices : List Mat) (out : Mat)
  | rows_pluck (matrix out : Mat) (indices : List Nat)
  | dropout (matrix out : Mat) (bool_mat : EigenMat)
  | dropout_normalized (matrix out : Mat) (bool_mat : EigenMat)
  | fast_dropout (matrix out : Mat) (randn_mat : EigenMat)
  | rows_cols_pluck (matrix out : Mat) (row_indices col_indices : List Nat)
  | row_pluck (matrix out : Mat) (row : Nat)

namespace Closure

/-- The captured output tensor of a closure. -/
def out : Closure → Mat
  | eltmul_broadcast _ _ o | eltmul _ _ o | eltmul_scalar _ _ o
  | eltmul_broadcast_rowwise _ _ o | eltmul_rowwise _ _ o | add _ _ o | sub _ _ o
  | add_scalar _ o | add_broadcast _ _ o | sub_broadcast _ _ o
  | sub_broadcast_reversed _ _ o | add_vector _ o | square _ o | sqrt _ o | elt_inv _ o
  | pow _ o _ _ | sigmoid _ o | softmax _ _ o | steep_sigmoid _ o _ | sum _ o | mean _ o
  | sigmoid_binary_cross_entropy _ _ o _ | binary_cross_entropy _ _ o _
  | cross_entropy _ _ o _ | softmax_cross_entropy _ _ _ o | log _ o | exp _ o
  | hstack _ _ o | hstack_vector _ o | vstack _ _ o | vstack_vector _ o | transpose _ o
  | tanh _ o _ | relu _ o _ | mul _ _ o | mul_with_bias _ _ _ o
  | mul_add_broadcast_mul_with_bias _ _ _ _ _ o | mul_add_mul_with_bias _ _ _ _ _ o
  | mul_add_mul_with_bias_vector _ o
  | rows_pluck _ o _ | dropout _ o _ | dropout_normalized _ o _ | fast_dropout _ o _
  | rows_cols_pluck _ o _ _
  | row_pluck _ o _ => o

/-- The body of a closure, statement by statement, as written in `MatOps.cpp`,
for the value store `w`: `w x.m` is `x.w()`, and `dout` is `out.dw()`.  An
index read past the end of an index vector is read as `0`. -/
def stmts (w : Nat → EigenMat) : Closure → List Stmt
  | eltmul_broadcast matrix1 matrix2 _ =>
    [ Stmt.addAssign (GRAD matrix1) (fun dout => dout.colwiseMul (w matrix2.m)),
      Stmt.addAssign (GRAD matrix2) (fun dout => ((w matrix1.m).cwiseMul dout).rowwiseSum) ]
  | eltmul matrix1 matrix2 _ =>
    [ Stmt.addAssign (GRAD matrix1) (fun dout => (w matrix2.m).cwiseMul dout),
      Stmt.addAssign (GRAD matrix2) (fun dout => (w matrix1.m).cwiseMul dout) ]
  | eltmul_scalar matrix alpha _ =>
    [ Stmt.addAssign (GRAD matrix) (fun dout => dout.scale alpha) ]
  | eltmul_broadcast_rowwise matrix1 row_vector _ =>
    [ Stmt.addAssign (GRAD matrix1) (fun dout => dout.rowwiseMul (w row_vector.m)),
      Stmt.addAssign (GRAD row_vector) (fun dout => ((w matrix1.m).cwiseMul dout).colwiseSum) ]
  | eltmul_rowwise matrix1 matrix2 _ =>
    [ Stmt.addAssign (GRAD matrix1) (fun dout => (w matrix2.m).transpose.cwiseMul dout),
      Stmt.addAssign (GRAD matrix2) (fun dout => ((w matrix1.m).cwiseMul dout).transpose) ]
  | add matrix1 matrix2 _ =>
    [ Stmt.addAssign (GRAD matrix1) (fun dout => dout),
      Stmt.addAssign (GRAD matrix2) (fun dout => dout) ]
  | sub matrix1 matrix2 _ =>
    [ Stmt.addAssign (GRAD matrix1) (fun dout => dout),
      Stmt.subAssign (GRAD matrix2) (fun dout => dout) ]
  | add_scalar matrix1 _ =>
    [ Stmt.addAssign (GRAD matrix1) (fun dout => dout) ]
  | add_broadcast matrix1 matrix2 _ =>
    [ Stmt.addAssign (GRAD matrix1) (fun dout => dout),
      Stmt.addAssign (GRAD matrix2) (fun dout => dout.rowwiseSum) ]
  | sub_broadcast matrix1 matrix2 _ =>
    [ Stmt.addAssign (GRAD matrix1) (fun dout => dout),
      Stmt.subAssign (GRAD matrix2) (fun dout => dout.rowwiseSum) ]
  | sub_broadcast_reversed matrix1 matrix2 _ =>
    [ Stmt.subAssign (GRAD matrix1) (fun dout => dout),
      Stmt.addAssign (GRAD matrix2) (fun dout => dout.rowwiseSum) ]
  | add_vector matrices _ =>
    matrices.map (fun matrix => Stmt.addAssign (GRAD matrix) (fun dout => dout))
  | square matrix _ =>
    [ Stmt.addAssign (GRAD matrix) (fun dout => ((w matrix.m).cwiseMul dout).scale 2) ]
  | sqrt matrix o =>
    [ Stmt.addAssign (GRAD matrix) (fun dout => ((w o.m).cwiseInverse.cwiseMul dout).scale (1 / 2)) ]
  | elt_inv matrix o =>
    [ Stmt.addAssign (GRAD matrix) (fun dout => ((w o.m).cwiseSquare.cwiseMul dout).neg) ]
  | pow matrix _ other pw =>
    [ Stmt.addAssign (GRAD matrix) (fun dout =>
        (((w matrix.m).unaryExpr (fun x => pw x (other - 1))).cwiseMul dout).scale other) ]
  | sigmoid matrix o =>
    [ Stmt.addAssign (GRAD matrix) (fun dout =>
        ((w o.m).sub (w o.m).cwiseSquare).cwiseMul dout) ]
  | softmax matrix temperature o =>
    [ Stmt.addAssign (GRAD matrix) (fun dout =>
        (((w o.m).sub (w o.m).cwiseSquare).unaryExpr (fun x => x / temperature)).cwiseMul dout) ]
  | steep_sigmoid matrix o aggressiveness =>
    [ Stmt.addAssign (GRAD matrix) (fun dout =>
        (((w o.m).sub (w o.m).cwiseSquare).scale aggressiveness).cwiseMul dout) ]
  | sum matrix _ =>
    [ Stmt.arrayAddAssign (GRAD matrix) (fun dout => dout.coeff 0 0) ]
  | mean matrix _ =>
    [ Stmt.arrayAddAssign (GRAD matrix) (fun dout =>
        (1 / (number_of_elements (w matrix.m) : R)) * dout.coeff 0 0) ]
  | sigmoid_binary_cross_entropy matrix t _ sigmoided_input =>
    [ Stmt.addAssign (GRAD matrix) (fun dout =>
        (sigmoided_input.unaryExpr (fun x => x - t)).cwiseMul dout) ]
  | binary_cross_entropy matrix t _ EPS =>
    [ Stmt.addAssign (GRAD matrix) (fun dout =>
        ((w matrix.m).unaryExpr (fun x => (t - x) / (x * (x - 1) + EPS))).cwiseMul dout) ]
  | cross_entropy matrix answer_idx _ EPS =>
    [ Stmt.coeffAddAssign (GRAD matrix) answer_idx 0 (fun dout =>
        -1 / ((w matrix.m).coeff answer_idx 0 + EPS) * dout.coeff 0 0) ]
  | softmax_cross_entropy matrix probs answer_idx _ =>
    [ Stmt.addAssign (GRAD matrix) (fun dout => (w probs.m).scale (dout.coeff 0 0)),
      Stmt.coeffSubAssign (GRAD matrix) answer_idx 0 (fun dout => 1 * dout.coeff 0 0) ]
  | log matrix _ =>
    [ Stmt.addAssign (GRAD matrix) (fun dout => (w matrix.m).cwiseInverse.cwiseMul dout) ]
  | exp matrix o =>
    [ Stmt.addAssign (GRAD matrix) (fun dout => (w o.m).cwiseMul dout) ]
  | hstack matrix1 matrix2 _ =>
    [ Stmt.addAssign (GRAD matrix1) (fun dout =>
        dout.block 0 0 (w matrix1.m).rows (w matrix1.m).cols),
      Stmt.addAssign (GRAD matrix2) (fun dout =>
        dout.block 0 (w matrix1.m).cols (w matrix2.m).rows (w matrix2.m).cols) ]
  | hstack_vector matrices _ => hstackStmts w matrices 0
  | vstack matrix1 matrix2 _ =>
    [ Stmt.addAssign (GRAD matrix1) (fun dout =>
        dout.block 0 0 (w matrix1.m).rows (w matrix1.m).cols),
      Stmt.addAssign (GRAD matrix2) (fun dout =>
        dout.block (w matrix1.m).rows 0 (w matrix2.m).rows (w matrix2.m).cols) ]
  | vstack_vector matrices _ => vstackStmts w matrices 0
  | transpose matrix _ =>
    [ Stmt.addAssign (GRAD matrix) (fun dout => dout.transpose) ]
  | tanh matrix o dtanh_operator =>
    [ Stmt.addAssign (GRAD matrix) (fun dout =>
        ((w o.m).unaryExpr dtanh_operator).cwiseMul dout) ]
  | relu matrix o sign_operator =>
    [ Stmt.addAssign (GRAD matrix) (fun dout =>
        ((w o.m).unaryExpr sign_operator).cwiseMul dout) ]
  | mul matrix1 matrix2 _ =>
    [ Stmt.addAssign (GRAD matrix1) (fun dout => dout.mul (w matrix2.m).transpose),
      Stmt.addAssign (GRAD matrix2) (fun dout => (w matrix1.m).transpose.mul dout) ]
  | mul_with_bias matrix1 matrix2 bias _ =>
    [ Stmt.addAssign (GRAD matrix1) (fun dout => dout.mul (w matrix2.m).transpose),
      Stmt.addAssign (GRAD matrix2) (fun dout => (w matrix1.m).transpose.mul dout),
      Stmt.addAssign (GRAD bias) (fun dout => dout.rowwiseSum) ]
  | mul_add_broadcast_mul_with_bias matrix1 input_to_1 matrix2 input_to_2 bias _ =>
    [ Stmt.addAssign (GRAD matrix1) (fun dout => dout.rowwiseSum.mul (w input_to_1.m).transpose),
      Stmt.addAssign (GRAD input_to_1) (fun dout =>
        ((w matrix1.m).transpose.mul dout).rowwiseSum),
      Stmt.addAssign (GRAD matrix2) (fun dout => dout.mul (w input_to_2.m).transpose),
      Stmt.addAssign (GRAD input_to_2) (fun dout => (w matrix2.m).transpose.mul dout),
      Stmt.addAssign (GRAD bias) (fun dout => dout.rowwiseSum) ]
  | mul_add_mul_with_bias matrix1 input_to_1 matrix2 input_to_2 bias _ =>
    [ Stmt.addAssign (GRAD matrix1) (fun dout => dout.mul (w input_to_1.m).transpose),
      Stmt.addAssign (GRAD input_to_1) (fun dout => (w matrix1.m).transpose.mul dout),
      Stmt.addAssign (GRAD matrix2) (fun dout => dout.mul (w input_to_2.m).transpose),
      Stmt.addAssign (GRAD input_to_2) (fun dout => (w matrix2.m).transpose.mul dout),
      Stmt.addAssign (GRAD bias) (fun dout => dout.rowwiseSum) ]
  | rows_pluck matrix o indices =>
    (List.range (w o.m).cols).map (fun i =>
      Stmt.rowAddAssign (GRAD matrix) (indices.getD i 0) (fun dout => (dout.col i).transpose))
  | mul_add_mul_with_bias_vector matrices _ => mulAddMulStmts w matrices
  | dropout matrix _ bool_mat =>
    [ Stmt.addAssign (GRAD matrix) (fun dout => dout.cwiseMul bool_mat) ]
  | dropout_normalized matrix _ bool_mat =>
    [ Stmt.addAssign (GRAD matrix) (fun dout => dout.cwiseMul bool_mat) ]
  | fast_dropout matrix _ randn_mat =>
    [ Stmt.addAssign (GRAD matrix) (fun dout => dout.cwiseMul randn_mat) ]
  | rows_cols_pluck matrix o row_indices col_indices =>
    (List.range (w o.m).cols).map (fun i =>
      Stmt.coeffAddAssign (DW matrix) (row_indices.getD i 0) (col_indices.getD i 0)
        (fun dout => dout.coeff 0 i))
  | row_pluck matrix _ row =>
    [ Stmt.rowAddAssign (GRAD matrix) row (fun dout => (dout.col 0).transpose) ]

end Closure

/-- The state of the program: the stores behind the `shared_ptr`s
(`MatInternal::w`, `MatInternal::id`, `GradInternal::dw`), the counter
`MatInternal::next_matrix`, the next unused address, and the tape of `graph`
with its flag `graph::backprop_enabled`. -/
structure State where
  w : Nat → EigenMat
  id : Nat → Nat
  dw : Nat → EigenMat
  next_matrix : Nat
  next_addr : Nat
  tape : List Closure
  backprop_enabled : Bool

/-- Execution of one statement of a backward rule whose output tensor is
`out`: unless the statement is skipped by the `GRAD` macro, the increment,
computed from the current gradient of `out`, is added in place to the gradient
of the tensor on the left. -/
def Stmt.exec (out : Mat) (st : Stmt) (s : State) : State :=
  if st.active then
    { s with
      dw := Function.update s.dw st.lhs.x.g
        (EigenMat.mk (s.dw st.lhs.x.g).rows (s.dw st.lhs.x.g).cols
          (fun i j => (s.dw st.lhs.x.g).coeff i j + st.inc (s.dw out.g) i j)) }
  else s

/-- A call of a closure: its statements in order. -/
def Closure.run (c : Closure) (s : State) : State :=
  (c.stmts s.w).foldl (fun t st => st.exec c.out t) s

namespace graph

/-- Modelled from the spec: `graph::emplace_back` of `dali/mat/Tape.h`, which is
not part of the sources.  It appends the closure at the end of the tape (the
callers test `graph::backprop_enabled` themselves). -/
def emplace_back (c : Closure) (s : State) : State :=
  { s with tape := s.tape ++ [c] }

/-- Modelled from the spec: `graph::backward` of `dali/mat/Tape.h`, which is not
part of the sources.  It calls every closure of the tape in reverse insertion
order and leaves the tape empty. -/
def backward (s : State) : State :=
  { s.tape.reverse.foldl (fun t c => c.run t) s with tape := [] }

end graph

/-- Modelled from the spec: `utils::assert2`, whose definition is not part of
the sources.  It raises an error carrying the message when the condition is
false and does nothing otherwise. -/
def assert2 (cond : Bool) (msg : String) : Except String Unit :=
  if cond then .ok () else .error msg

namespace State

/-- The assignment `x.w() = v`. -/
def assign (s : State) (x : Mat) (v : EigenMat) : State :=
  { s with w := Function.update s.w x.m v }

/-- The guarded recording `if (graph::backprop_enabled) graph::emplace_back(c)`. -/
def record (s : State) (c : Closure) : State :=
  if s.backprop_enabled then graph.emplace_back c s else s

end State

namespace Mat

/-- The constructor `Mat(n, d, empty)` of `Mat.cpp`: a new `MatInternal` with the
next id, zero values when `empty` is set and uninitialised values otherwise
(whatever the store holds at the new address), and a new zero `GradInternal`. -/
def new (n d : Nat) (empty : Bool) (s : State) : Mat × State :=
  (⟨s.next_addr, s.next_addr, false⟩,
   { s with
      w := Function.update s.w s.next_addr
        (if empty then EigenMat.Zero n d else ⟨n, d, (s.w s.next_addr).coeff⟩)
      id := Function.update s.id s.next_addr s.next_matrix
      dw := Function.update s.dw s.next_addr (EigenMat.Zero n d)
      next_matrix := s.next_matrix + 1
      next_addr := s.next_addr + 1 })

/-- Modelled from the spec: `Mat::empty_like` of `Mat.h`, which is not part of
the sources: a new tensor with the shape of its argument, uninitialised values
and a zero gradient. -/
def empty_like (x : Mat) (s : State) : Mat × State :=
  new (s.w x.m).rows (s.w x.m).cols false s

/-- `Mat::grad()` of `Mat.cpp`: the assertion that the tensor is `1 × 1`, then
`dw(0) += 1`. -/
def grad (x : Mat) (s : State) : Except String Unit × State :=
  match assert2 (decide ((s.w x.m).rows = 1 ∧ (s.w x.m).cols = 1))
      "Grad only works on a \"scalar\" matrix, a 1x1 matrix. Call G.sum or G.mean before using grad." with
  | .error e => (.error e, s)
  | .ok _ =>
    (.ok (), { s with
      dw := Function.update s.dw x.g
        (EigenMat.mk (s.dw x.g).rows (s.dw x.g).cols
          (fun i j => if i = 0 ∧ j = 0 then (s.dw x.g).coeff 0 0 + 1 else (s.dw x.g).coeff i j)) })

end Mat

namespace MatOps

/-- `MatOps::eltmul_broadcast`. -/
def eltmul_broadcast (matrix1 matrix2 : Mat) (s : State) : Except String Mat × State :=
  match assert2 (decide ((s.w matrix1.m).rows = (s.w matrix2.m).rows ∧ (s.w matrix2.m).cols = 1))
      "Matrices cannot be element multiplied with broadcast, they do not have the same dimensions." with
  | .error e => (.error e, s)
  | .ok _ =>
    let r := Mat.empty_like matrix1 s
    let t := r.2.assign r.1 ((r.2.w matrix1.m).colwiseMul (r.2.w matrix2.m))
    (.ok r.1, t.record (.eltmul_broadcast matrix1 matrix2 r.1))

/-- `MatOps::eltmul` on two matrices, with its implicit broadcast. -/
def eltmul (matrix1 matrix2 : Mat) (s : State) : Except String Mat × State :=
  if (s.w matrix1.m).cols ≠ (s.w matrix2.m).cols ∧
      ((s.w matrix1.m).cols = 1 ∨ (s.w matrix2.m).cols = 1) then
    if (s.w matrix1.m).cols = 1 then eltmul_broadcast matrix2 matrix1 s
    else eltmul_broadcast matrix1 matrix2 s
  else
    match assert2 (decide ((s.w matrix1.m).rows = (s.w matrix2.m).rows ∧
          (s.w matrix1.m).cols = (s.w matrix2.m).cols))
        "Matrices cannot be element-wise multiplied, they do not have the same dimensions." with
    | .error e => (.error e, s)
    | .ok _ =>
      let r := Mat.empty_like matrix1 s
      let t := r.2.assign r.1 ((r.2.w matrix1.m).cwiseMul (r.2.w matrix2.m))
      (.ok r.1, t.record (.eltmul matrix1 matrix2 r.1))

/-- `MatOps::add_broadcast`. -/
def add_broadcast (matrix1 matrix2 : Mat) (s : State) : Except String Mat × State :=
  if (s.w matrix1.m).rows ≠ (s.w matrix2.m).rows ∨ (s.w matrix2.m).cols ≠ 1 then
    (.error "Matrices cannot be added with broadcast, they do not have the same dimensions.", s)
  else
    let r := Mat.empty_like matrix1 s
    let t := r.2.assign r.1 ((r.2.w matrix1.m).colwiseAdd (r.2.w matrix2.m))
    (.ok r.1, t.record (.add_broadcast matrix1 matrix2 r.1))

/-- `MatOps::sub_broadcast`. -/
def sub_broadcast (matrix1 matrix2 : Mat) (s : State) : Except String Mat × State :=
  if (s.w matrix1.m).rows ≠ (s.w matrix2.m).rows ∨ (s.w matrix2.m).cols ≠ 1 then
    (.error "Matrices cannot be substracted with broadcast, they do not have the same dimensions.", s)
  else
    let r := Mat.empty_like matrix1 s
    let t := r.2.assign r.1 ((r.2.w matrix1.m).colwiseSub (r.2.w matrix2.m))
    (.ok r.1, t.record (.sub_broadcast matrix1 matrix2 r.1))

/-- `MatOps::sub_broadcast_reversed`. -/
def sub_broadcast_reversed (matrix1 matrix2 : Mat) (s : State) : Except String Mat × State :=
  if (s.w matrix1.m).rows ≠ (s.w matrix2.m).rows ∨ (s.w matrix2.m).cols ≠ 1 then
    (.error "Matrices cannot be substracted with broadcast, they do not have the same dimensions.", s)
  else
    let r := Mat.empty_like matrix1 s
    let t := r.2.assign r.1 ((r.2.w matrix1.m).neg.colwiseAdd (r.2.w matrix2.m))
    (.ok r.1, t.record (.sub_broadcast_reversed matrix1 matrix2 r.1))

/-- `MatOps::add` on two matrices, with its implicit broadcast. -/
def add (matrix1 matrix2 : Mat) (s : State) : Except String Mat × State :=
  if (s.w matrix1.m).cols ≠ (s.w matrix2.m).cols ∧
      ((s.w matrix1.m).cols = 1 ∨ (s.w matrix2.m).cols = 1) then
    if (s.w matrix1.m).cols = 1 then add_broadcast matrix2 matrix1 s
    else add_broadcast matrix1 matrix2 s
  else if (s.w matrix1.m).rows ≠ (s.w matrix2.m).rows ∨
      (s.w matrix1.m).cols ≠ (s.w matrix2.m).cols then
    (.error "Matrices cannot be added, they do not have the same dimensions.", s)
  else
    let r := Mat.empty_like matrix1 s
    let t := r.2.assign r.1 ((r.2.w matrix1.m).add (r.2.w matrix2.m))
    (.ok r.1, t.record (.add matrix1 matrix2 r.1))

/-- `MatOps::sub` on two matrices, with its implicit broadcast. -/
def sub (matrix1 matrix2 : Mat) (s : State) : Except String Mat × State :=
  if (s.w matrix1.m).cols ≠ (s.w matrix2.m).cols ∧
      ((s.w matrix1.m).cols = 1 ∨ (s.w matrix2.m).cols = 1) then
    if (s.w matrix1.m).cols = 1 then sub_broadcast_reversed matrix2 matrix1 s
    else sub_broadcast matrix1 matrix2 s
  else if (s.w matrix1.m).rows ≠ (s.w matrix2.m).rows ∨
      (s.w matrix1.m).cols ≠ (s.w matrix2.m).cols then
    (.error "Matrices cannot be added, they do not have the same dimensions.", s)
  else
    let r := Mat.empty_like matrix1 s
    let t := r.2.assign r.1 ((r.2.w matrix1.m).sub (r.2.w matrix2.m))
    (.ok r.1, t.record (.sub matrix1 matrix2 r.1))

/-- `MatOps::sum`. -/
def sum (matrix : Mat) (s : State) : Except String Mat × State :=
  let r := Mat.new 1 1 false s
  let t := r.2.assign r.1 ((r.2.w r.1.m).setFirst (r.2.w matrix.m).sum)
  (.ok r.1, t.record (.sum matrix r.1))

/-- `MatOps::mean`. -/
def mean (matrix : Mat) (s : State) : Except String Mat × State :=
  let r := Mat.new 1 1 false s
  let t := r.2.assign r.1 ((r.2.w r.1.m).setFirst (r.2.w matrix.m).mean)
  (.ok r.1, t.record (.mean matrix r.1))

/-- `MatOps::hstack` on two matrices. -/
def hstack (matrix1 matrix2 : Mat) (s : State) : Except String Mat × State :=
  if (s.w matrix1.m).rows ≠ (s.w matrix2.m).rows then
    (.error "Matrices cannot be joined -- they do not have the same number of rows.", s)
  else
    let r := Mat.new (s.w matrix1.m).rows ((s.w matrix1.m).cols + (s.w matrix2.m).cols) false s
    let t1 := r.2.assign r.1 ((r.2.w r.1.m).setBlock 0 0
      (r.2.w matrix1.m).rows (r.2.w matrix1.m).cols (r.2.w matrix1.m))
    let t2 := t1.assign r.1 ((t1.w r.1.m).setBlock 0 (t1.w matrix1.m).cols
      (t1.w matrix2.m).rows (t1.w matrix2.m).cols (t1.w matrix2.m))
    (.ok r.1, t2.record (.hstack matrix1 matrix2 r.1))

/-- `MatOps::vstack` on two matrices. -/
def vstack (matrix1 matrix2 : Mat) (s : State) : Except String Mat × State :=
  if (s.w matrix1.m).cols ≠ (s.w matrix2.m).cols then
    (.error "Matrices cannot be horizontally stacked -- they do not have the same number of cols.", s)
  else
    let r := Mat.new ((s.w matrix1.m).rows + (s.w matrix2.m).rows) (s.w matrix1.m).cols false s
    let t1 := r.2.assign r.1 ((r.2.w r.1.m).setBlock 0 0
      (r.2.w matrix1.m).rows (r.2.w matrix1.m).cols (r.2.w matrix1.m))
    let t2 := t1.assign r.1 ((t1.w r.1.m).setBlock (t1.w matrix1.m).rows 0
      (t1.w matrix2.m).rows (t1.w matrix2.m).cols (t1.w matrix2.m))
    (.ok r.1, t2.record (.vstack matrix1 matrix2 r.1))

/-- The copy loop of the vector form of `hstack`:
`out.w().block(0, offset, mat.dims(0), mat.dims(1)) = mat.w(); offset += mat.dims(1)`. -/
def hstackFill (out : Mat) : List Mat → Nat → State → State
  | [], _, s => s
  | mat :: rest, offset, s =>
    hstackFill out rest (offset + (s.w mat.m).cols)
      (s.assign out ((s.w out.m).setBlock 0 offset (s.w mat.m).rows (s.w mat.m).cols (s.w mat.m)))

/-- The copy loop of the vector form of `vstack`:
`out.w().block(offset, 0, mat.dims(0), mat.dims(1)) = mat.w(); offset += mat.dims(0)`. -/
def vstackFill (out : Mat) : List Mat → Nat → State → State
  | [], _, s => s
  | mat :: rest, offset, s =>
    vstackFill out rest (offset + (s.w mat.m).rows)
      (s.assign out ((s.w out.m).setBlock offset 0 (s.w mat.m).rows (s.w mat.m).cols (s.w mat.m)))

/-- `MatOps::hstack` on a vector of matrices.  For an empty vector the source
constructs a matrix with `-1` rows, which has no meaning: the embedding reports
it as an error. -/
def hstack_vector (matrices : List Mat) (s : State) : Except String Mat × State :=
  match matrices with
  | [] => (.error "Mat(-1, 0, false)", s)
  | first :: _ =>
    if matrices.any (fun mat => decide ((s.w mat.m).rows ≠ (s.w first.m).rows)) then
      (.error "Matrices cannot be joined -- they do not have the same number of rows.", s)
    else
      let r := Mat.new (s.w first.m).rows ((matrices.map (fun mat => (s.w mat.m).cols)).sum) false s
      let t := hstackFill r.1 matrices 0 r.2
      (.ok r.1, t.record (.hstack_vector matrices r.1))

/-- `MatOps::vstack` on a vector of matrices (the `assert` on a non-empty vector
is an error of the embedding). -/
def vstack_vector (matrices : List Mat) (s : State) : Except String Mat × State :=
  match matrices with
  | [] => (.error "assert(matrices.size() > 0)", s)
  | first :: _ =>
    if matrices.any (fun mat => decide ((s.w mat.m).cols ≠ (s.w first.m).cols)) then
      (.error "Matrices cannot be horizontally stacked -- they do not have the same number of cols.", s)
    else
      let r := Mat.new ((matrices.map (fun mat => (s.w mat.m).rows)).sum) (s.w first.m).cols false s
      let t := vstackFill r.1 matrices 0 r.2
      (.ok r.1, t.record (.vstack_vector matrices r.1))

/-- `MatOps::transpose`. -/
def transpose (matrix : Mat) (s : State) : Except String Mat × State :=
  let r := Mat.new (s.w matrix.m).cols (s.w matrix.m).rows false s
  let t := r.2.assign r.1 (r.2.w matrix.m).transpose
  (.ok r.1, t.record (.transpose matrix r.1))

/-- `MatOps::mul`. -/
def mul (matrix1 matrix2 : Mat) (s : State) : Except String Mat × State :=
  if (s.w matrix1.m).cols ≠ (s.w matrix2.m).rows then
    (.error "matmul dimensions misaligned.", s)
  else
    let r := Mat.new (s.w matrix1.m).rows (s.w matrix2.m).cols false s
    let t := r.2.assign r.1 ((r.2.w matrix1.m).mul (r.2.w matrix2.m))
    (.ok r.1, t.record (.mul matrix1 matrix2 r.1))

/-- `MatOps::mul_with_bias`. -/
def mul_with_bias (matrix1 matrix2 bias : Mat) (s : State) : Except String Mat × State :=
  if (s.w matrix1.m).cols ≠ (s.w matrix2.m).rows then
    (.error "matmul dimensions misaligned.", s)
  else if (s.w matrix1.m).rows ≠ (s.w bias.m).rows ∨ (s.w bias.m).cols ≠ 1 then
    (.error "Matrices cannot be added with broadcast, they do not have the same dimensions.", s)
  else
    let r := Mat.new (s.w matrix1.m).rows (s.w matrix2.m).cols false s
    let t := r.2.assign r.1
      (((r.2.w matrix1.m).mul (r.2.w matrix2.m)).colwiseAdd (r.2.w bias.m))
    (.ok r.1, t.record (.mul_with_bias matrix1 matrix2 bias r.1))

/-- The copy loop of `rows_pluck`:
`out.w().col(offset) = matrix.w().row(indices[offset]).transpose()`. -/
def rowsPluckFill (matrix out : Mat) : List Nat → Nat → State → State
  | [], _, s => s
  | index :: rest, offset, s =>
    rowsPluckFill matrix out rest (offset + 1)
      (s.assign out ((s.w out.m).setCol offset ((s.w matrix.m).row index).transpose))

/-- `MatOps::rows_pluck`. -/
def rows_pluck (matrix : Mat) (indices : List Nat) (s : State) : Except String Mat × State :=
  let r := Mat.new (s.w matrix.m).cols indices.length false s
  let t := rowsPluckFill matrix r.1 indices 0 r.2
  (.ok r.1, t.record (.rows_pluck matrix r.1 indices))

/-- `MatOps::row_pluck`. -/
def row_pluck (matrix : Mat) (row : Nat) (s : State) : Except String Mat × State :=
  let r := Mat.new (s.w matrix.m).cols 1 false s
  let t := r.2.assign r.1 ((r.2.w matrix.m).row row).transpose
  (.ok r.1, t.record (.row_pluck matrix r.1 row))

end MatOps

/-- A `Backward<T>` record of `Backward.cpp`: the operation tag, the operand
tensors, the output tensor, the row index of `row_pluck`, and the index data of
`rows_pluck` with its length. -/
structure Backward where
  type : Nat
  matrices : List Mat
  out : Mat
  ix : Nat
  indices : List Nat
  num_indices : Nat

namespace Backward

/-- The constructor `Backward(x, out, indices, type)` for an index vector. -/
def ofIndices (x out : Mat) (indices : List Nat) (type : Nat) : Backward :=
  ⟨type, [x], out, 0, indices, indices.length⟩

/-- The statements of `Backward<T>::backward_rows_pluck()`: for `i` from `0` to
`num_indices`, `matrices[0]->dw.row(*index_ptr).noalias() +=
out->dw.col(i).transpose()` (an index read past the end of the index data is
read as `0`). -/
def rowsPluckStmts (b : Backward) : List Stmt :=
  match b.matrices with
  | [] => []
  | x :: _ =>
    (List.range b.num_indices).map (fun i =>
      Stmt.rowAddAssign (DW x) (b.indices.getD i 0) (fun dout => (dout.col i).transpose))

/-- `Backward<T>::backward_rows_pluck()`. -/
def backward_rows_pluck (b : Backward) (s : State) : State :=
  b.rowsPluckStmts.foldl (fun t st => st.exec b.out t) s

end Backward

/-! ## SynchronizedMemory (CUDA build) -/

/-- The enumeration `PreferredDevice`. -/
inductive PreferredDevice
  | DEVICE_GPU
  | DEVICE_CPU
deriving DecidableEq

/-- The two locations of a synchronized memory. -/
inductive Device
  | cpu
  | gpu
deriving DecidableEq

/-- The calls into mshadow that touch a buffer, kept as a log: `AllocSpace` of
the buffer of a location, and `Copy` into the buffer of a location. -/
inductive Call
  | AllocSpace (d : Device)
  | Copy (dst : Device)
deriving DecidableEq

/-- An `mshadow::Tensor<Device, 2, R>`: its shape and the contents behind its
data pointer (meaningful once the space is allocated). -/
structure Tensor where
  shape_ : Nat × Nat
  dptr_ : Nat → R

/-- `mshadow::Copy(dst, src)`: the contents of `src` are written into `dst`. -/
def Copy (dst src : Tensor) : Tensor := { dst with dptr_ := src.dptr_ }

/-- The fields of `SynchronizedMemory<R, 2>` in the CUDA build, and the log of
the mshadow calls made on its two buffers. -/
structure SynchronizedMemory where
  mem_gpu : Tensor
  allocated_gpu : Bool
  gpu_fresh : Bool
  allocated_cpu : Bool
  mem_cpu : Tensor
  cpu_fresh : Bool
  preferred_device : PreferredDevice
  calls : List Call

namespace SynchronizedMemory

/-- The constructor `SynchronizedMemory(n, d, preferred_device)`.  The contents
that the two buffers show once allocated are not initialised by the code; they
are the arguments `cpu0` and `gpu0`. -/
def new (n d : Nat) (preferred_device : PreferredDevice) (cpu0 gpu0 : Nat → R) :
    SynchronizedMemory :=
  { mem_gpu := ⟨(n, d), gpu0⟩, allocated_gpu := false, gpu_fresh := false,
    allocated_cpu := false, mem_cpu := ⟨(n, d), cpu0⟩, cpu_fresh := false,
    preferred_device := preferred_device, calls := [] }

/-- `prefers_cpu()`. -/
def prefers_cpu (s : SynchronizedMemory) : Bool := decide (s.preferred_device = .DEVICE_CPU)

/-- `prefers_gpu()`. -/
def prefers_gpu (s : SynchronizedMemory) : Bool := decide (s.preferred_device = .DEVICE_GPU)

/-- `to_gpu()`. -/
def to_gpu (s : SynchronizedMemory) : SynchronizedMemory :=
  if !s.gpu_fresh then
    let s1 := if !s.allocated_gpu then
        { s with allocated_gpu := true, calls := s.calls ++ [Call.AllocSpace .gpu] }
      else s
    let s2 := if s1.cpu_fresh then
        { s1 with mem_gpu := Copy s1.mem_gpu s1.mem_cpu, calls := s1.calls ++ [Call.Copy .gpu] }
      else s1
    { s2 with gpu_fresh := true }
  else s

/-- `to_cpu()`. -/
def to_cpu (s : SynchronizedMemory) : SynchronizedMemory :=
  if !s.cpu_fresh then
    let s1 := if !s.allocated_cpu then
        { s with allocated_cpu := true, calls := s.calls ++ [Call.AllocSpace .cpu] }
      else s
    let s2 := if s1.gpu_fresh then
        { s1 with mem_cpu := Copy s1.mem_cpu s1.mem_gpu, calls := s1.calls ++ [Call.Copy .cpu] }
      else s1
    { s2 with cpu_fresh := true }
  else s

/-- `cpu_data()`: the returned buffer and the memory after the call. -/
def cpu_data (s : SynchronizedMemory) : Tensor × SynchronizedMemory :=
  ((to_cpu s).mem_cpu, to_cpu s)

/-- `mutable_cpu_data()`: the returned buffer and the memory after the call. -/
def mutable_cpu_data (s : SynchronizedMemory) : Tensor × SynchronizedMemory :=
  ((to_cpu s).mem_cpu, { to_cpu s with gpu_fresh := false })

/-- `gpu_data()`: the returned buffer and the memory after the call. -/
def gpu_data (s : SynchronizedMemory) : Tensor × SynchronizedMemory :=
  ((to_gpu s).mem_gpu, to_gpu s)

/-- `mutable_gpu_data()`: the returned buffer and the memory after the call. -/
def mutable_gpu_data (s : SynchronizedMemory) : Tensor × SynchronizedMemory :=
  ((to_gpu s).mem_gpu, { to_gpu s with cpu_fresh := false })

/-- `copy_data_from(data_source)`. -/
def copy_data_from (s : SynchronizedMemory) (data_source : Tensor) : SynchronizedMemory :=
  if s.prefers_cpu then
    { s with allocated_cpu := true, mem_cpu := Copy s.mem_cpu data_source, cpu_fresh := true,
             calls := s.calls ++ [Call.AllocSpace .cpu, Call.Copy .cpu] }
  else
    { s with allocated_gpu := true, mem_gpu := Copy s.mem_gpu data_source, gpu_fresh := true,
             calls := s.calls ++ [Call.AllocSpace .gpu, Call.Copy .gpu] }

/-- The copy constructor `SynchronizedMemory(other)`: the new memory and `other`
after the read made on it.  As for `new`, `cpu0` and `gpu0` are the contents of
the buffers of the new memory before anything is written to them. -/
def copy (other : SynchronizedMemory) (cpu0 gpu0 : Nat → R) :
    SynchronizedMemory × SynchronizedMemory :=
  let s : SynchronizedMemory :=
    { allocated_gpu := false, mem_gpu := ⟨other.mem_gpu.shape_, gpu0⟩, gpu_fresh := false,
      allocated_cpu := false, mem_cpu := ⟨other.mem_cpu.shape_, cpu0⟩, cpu_fresh := false,
      preferred_device := other.preferred_device, calls := [] }
  if other.cpu_fresh then
    (copy_data_from s (cpu_data other).1, (cpu_data other).2)
  else if other.gpu_fresh then
    (copy_data_from s (gpu_data other).1, (gpu_data other).2)
  else (s, other)

/-- A write of the contents of the CPU buffer through the reference returned by
`mutable_cpu_data()`. -/
def write_cpu (s : SynchronizedMemory) (V : Nat → R) : SynchronizedMemory :=
  { (mutable_cpu_data s).2 with mem_cpu := { (mutable_cpu_data s).2.mem_cpu with dptr_ := V } }

/-- A write of the contents of the GPU buffer through the reference returned by
`mutable_gpu_data()`. -/
def write_gpu (s : SynchronizedMemory) (V : Nat → R) : SynchronizedMemory :=
  { (mutable_gpu_data s).2 with mem_gpu := { (mutable_gpu_data s).2.mem_gpu with dptr_ := V } }

end SynchronizedMemory

/-- One use of a synchronized memory by a client: one of the four accessors,
a mutable accessor possibly followed by a write through the returned
reference (`none`: the reference is not written to). -/
inductive Access
  | cpu_data
  | gpu_data
  | mutable_cpu_data (write : Option (Nat → R))
  | mutable_gpu_data (write : Option (Nat → R))

namespace Access

/-- The memory after one use. -/
def apply (s : SynchronizedMemory) : Access → SynchronizedMemory
  | cpu_data => (SynchronizedMemory.cpu_data s).2
  | gpu_data => (SynchronizedMemory.gpu_data s).2
  | mutable_cpu_data none => (SynchronizedMemory.mutable_cpu_data s).2
  | mutable_cpu_data (some V) => SynchronizedMemory.write_cpu s V
  | mutable_gpu_data none => (SynchronizedMemory.mutable_gpu_data s).2
  | mutable_gpu_data (some V) => SynchronizedMemory.write_gpu s V

/-- The memory after a sequence of uses. -/
def run (s : SynchronizedMemory) (accs : List Access) : SynchronizedMemory :=
  accs.foldl apply s

/-- Whether a use goes through an accessor of the given location. -/
def touches : Access → Device → Bool
  | cpu_data, .cpu => true
  | mutable_cpu_data _, .cpu => true
  | gpu_data, .gpu => true
  | mutable_gpu_data _, .gpu => true
  | _, _ => false

end Access

/-- The calls logged between a memory `s` and a later memory `t`. -/
def newCalls (s t : SynchronizedMemory) : List Call := t.calls.drop s.calls.length

/-- The state of a program that has created no tensor yet. -/
def State.init (backprop_enabled : Bool) : State :=
  { w := fun _ => EigenMat.Zero 0 0, id := fun _ => 0, dw := fun _ => EigenMat.Zero 0 0,
    next_matrix := 0, next_addr := 0, tape := [], backprop_enabled := backprop_enabled }

/-- The state after `k` successive calls of `x.grad()`. -/
def gradTimes (x : Mat) (k : Nat) (s : State) : State :=
  (fun t => (x.grad t).2)^[k] s

/-- Coherence of a memory: when both locations are fresh the two buffers hold
the same contents. -/
def Coherent (s : SynchronizedMemory) : Prop :=
  s.cpu_fresh = true → s.gpu_fresh = true → s.mem_cpu.dptr_ = s.mem_gpu.dptr_

/-- The allocation discipline of a memory: a fresh location is allocated, and
`AllocSpace` has been called on a buffer once if it is allocated and never
otherwise. -/
def AllocInv (s : SynchronizedMemory) : Prop :=
  (s.cpu_fresh = true → s.allocated_cpu = true) ∧
  (s.gpu_fresh = true → s.allocated_gpu = true) ∧
  s.calls.count (Call.AllocSpace .cpu) = (if s.allocated_cpu then 1 else 0) ∧
  s.calls.count (Call.AllocSpace .gpu) = (if s.allocated_gpu then 1 else 0)

/-- A memory as one of the two constructors leaves it. -/
def Constructed (s : SynchronizedMemory) : Prop :=
  (∃ n d dev cpu0 gpu0, s = SynchronizedMemory.new n d dev cpu0 gpu0) ∨
  (∃ other cpu0 gpu0, s = (SynchronizedMemory.copy other cpu0 gpu0).1)

/-- The addresses of the gradients that a list of statements writes. -/
def writes (L : List Stmt) : List Nat :=
  (L.filter Stmt.active).map (fun st => st.lhs.x.g)

/-- What a statement adds to the coefficient `(i, j)` of the gradient stored at
address `a`, when the gradient of the output is `dout`. -/
def Stmt.contrib (st : Stmt) (a : Nat) (dout : EigenMat) (i j : Nat) : R :=
  if st.active = true ∧ st.lhs.x.g = a then st.inc dout i j else 0

/-- What a list of statements adds to the coefficient `(i, j)` of the gradient
stored at address `a`, when the gradient of the output is `dout`. -/
def contribs (L : List Stmt) (a : Nat) (dout : EigenMat) (i j : Nat) : R :=
  (L.map (fun st => st.contrib a dout i j)).sum

/-- The addresses of the gradients that a closure writes when it is called
with the value store `w`. -/
def Closure.targets (c : Closure) (w : Nat → EigenMat) : List Nat := writes (c.stmts w)

/-- The state in which the gradient of `x` has been set to `G`. -/
def State.setDw (s : State) (x : Mat) (G : EigenMat) : State :=
  { s with dw := Function.update s.dw x.g G }

/-- The state in which the values of `x` have been set to `V`. -/
def State.setW (s : State) (x : Mat) (V : EigenMat) : State :=
  { s with w := Function.update s.w x.m V }

/-- The matrix of shape `n × d` whose coefficients are all one. -/
def EigenMat.ones (n d : Nat) : EigenMat := ⟨n, d, fun _ _ => 1⟩

/-- A state with recording enabled and two tensors: `A` at address `0`, a
`2 × 3` matrix of ones, and `B` at address `1`, a `3 × 1` vector of ones. -/
def onesState : State :=
  ((Mat.new 3 1 true
      (((Mat.new 2 3 true (State.init true)).2).assign ⟨0, 0, false⟩ (EigenMat.ones 2 3))).2).assign
    ⟨1, 1, false⟩ (EigenMat.ones 3 1)

/-- The entrywise inner product of two families of coefficients over the shape
`n × d`. -/
def inner (n d : Nat) (a b : Nat → Nat → R) : R :=
  ∑ i ∈ Finset.range n, ∑ j ∈ Finset.range d, a i j * b i j

/-- The backward rule recorded by the call `op` is the adjoint of its forward map
in the operand `X`, at the state `s`.  For all values `X'` of `X` (of the shape
`X` has in `s`) and all output gradients `G`: the call succeeds on `X'` and on
the zero matrix, records one closure `c` on `X'`, and
`⟨F(X') − F(0), G⟩ = ⟨X', C_X(G)⟩`, where `F` is the value of the returned
tensor and `C_X(G)` is what a call of `c` adds to the gradient of `X` when the
gradient of the returned tensor is `G`. -/
def AdjointIn (op : State → Except String Mat × State) (X : Mat) (s : State) : Prop :=
  ∀ X' G : Nat → Nat → R,
    ∃ out0 s0 out1 s1 c,
      op (s.setW X ⟨(s.w X.m).rows, (s.w X.m).cols, fun _ _ => 0⟩) = (.ok out0, s0) ∧
      op (s.setW X ⟨(s.w X.m).rows, (s.w X.m).cols, X'⟩) = (.ok out1, s1) ∧
      s1.tape = s.tape ++ [c] ∧
      (s0.w out0.m).rows = (s1.w out1.m).rows ∧ (s0.w out0.m).cols = (s1.w out1.m).cols ∧
      inner (s1.w out1.m).rows (s1.w out1.m).cols
          (fun i j => (s1.w out1.m).coeff i j - (s0.w out0.m).coeff i j) G
        = inner (s.w X.m).rows (s.w X.m).cols X'
            (fun i j =>
              ((c.run (s1.setDw out1 ⟨(s1.w out1.m).rows, (s1.w out1.m).cols, G⟩)).dw
                  X.g).coeff i j
                - ((s1.setDw out1 ⟨(s1.w out1.m).rows, (s1.w out1.m).cols, G⟩).dw
                  X.g).coeff i j)

/-- A state with recording enabled and one tensor, at address `0`, of shape
`65536 × 65537`: it has `2 ^ 32 + 65536` entries. -/
def bigState : State := (Mat.new 65536 65537 true (State.init true)).2

/-- The matrix coefficients that are `1` at `(0, 0)` and `0` elsewhere. -/
def unitAt00 : Nat → Nat → R := fun i j => if i = 0 ∧ j = 0 then 1 else 0

/-- The coefficients written by the copy loop of the vector form of `hstack`,
as a function of the coefficients `base` the output holds before the loop. -/
def hstackCoeff (w : Nat → EigenMat) : List Mat → Nat → (Nat → Nat → R) → Nat → Nat → R
  | [], _, base => base
  | mat :: rest, offset, base =>
    hstackCoeff w rest (offset + (w mat.m).cols) (fun i j =>
      if 0 ≤ i ∧ i < 0 + (w mat.m).rows ∧ offset ≤ j ∧ j < offset + (w mat.m).cols
      then (w mat.m).coeff (i - 0) (j - offset) else base i j)

/-- The coefficients written by the copy loop of the vector form of `vstack`,
as a function of the coefficients `base` the output holds before the loop. -/
def vstackCoeff (w : Nat → EigenMat) : List Mat → Nat → (Nat → Nat → R) → Nat → Nat → R
  | [], _, base => base
  | mat :: rest, offset, base =>
    vstackCoeff w rest (offset + (w mat.m).rows) (fun i j =>
      if offset ≤ i ∧ i < offset + (w mat.m).rows ∧ 0 ≤ j ∧ j < 0 + (w mat.m).cols
      then (w mat.m).coeff (i - offset) (j - 0) else base i j)

/-- The total number of columns of a list of tensors. -/
def totalCols (w : Nat → EigenMat) (L : List Mat) : Nat := (L.map (fun mat => (w mat.m).cols)).sum

/-- The total number of rows of a list of tensors. -/
def totalRows (w : Nat → EigenMat) (L : List Mat) : Nat := (L.map (fun mat => (w mat.m).rows)).sum

/-! ### Device choice and reductions of `SynchronizedMemory` -/

/-- The value that the definition of the static member
`SynchronizedMemory<R, dimension>::tie_breaker_device` gives it. -/
def tie_breaker_device_init : PreferredDevice := .DEVICE_GPU

/-- `should_compute_on_gpu` on an `initializer_list` of memories (CUDA build).
The static member `tie_breaker_device` is the argument of that name. -/
def should_compute_on_gpu (tie_breaker_device : PreferredDevice)
    (sts : List SynchronizedMemory) : Bool :=
  if sts.length = 1 then
    match sts with
    | mat :: _ => mat.prefers_gpu && (mat.gpu_fresh || (!mat.cpu_fresh && !mat.gpu_fresh))
    | [] => false
  else
    let everybody := sts.foldl
      (fun (e : Bool × Bool) st => (e.1 && st.prefers_cpu, e.2 && st.prefers_gpu)) (true, true)
    if everybody.1 then false
    else if everybody.2 then true
    else decide (tie_breaker_device = .DEVICE_GPU)

/-- `should_compute_on_gpu` on a `std::vector` of memories (CUDA build). -/
def should_compute_on_gpu_vector (tie_breaker_device : PreferredDevice)
    (sts : List SynchronizedMemory) : Bool :=
  if sts.length = 1 then
    match sts with
    | mat :: _ => mat.prefers_gpu && (mat.gpu_fresh || (!mat.cpu_fresh && !mat.gpu_fresh))
    | [] => false
  else
    let everybody := sts.foldl
      (fun (e : Bool × Bool) st => (e.1 && st.prefers_cpu, e.2 && st.prefers_gpu)) (true, true)
    if everybody.1 then false
    else if everybody.2 then true
    else decide (tie_breaker_device = .DEVICE_GPU)

namespace TensorOps

/-- Modelled from the spec: `TensorOps::sum` of `TensorOps.h`, which is not part
of the sources: the reduction of the first `n` entries of a buffer by addition. -/
def sum (t : Tensor) (n : Nat) : R := ∑ i ∈ Finset.range n, t.dptr_ i

/-- Modelled from the spec: `TensorOps::equals` of `TensorOps.h`, which is not
part of the sources: whether the first `n` entries of two buffers are equal. -/
def equals (a b : Tensor) (n : Nat) : Bool :=
  (List.range n).all (fun i => decide (a.dptr_ i = b.dptr_ i))

/-- Modelled from the spec: `TensorOps::allclose` of `TensorOps.h`, which is not
part of the sources: whether the first `n` entries of two buffers differ by at
most `tol`. -/
def allclose (a b : Tensor) (n : Nat) (tol : R) : Bool :=
  (List.range n).all (fun i => decide (|a.dptr_ i - b.dptr_ i| ≤ tol))

end TensorOps

namespace SynchronizedMemory

/-- `SynchronizedMemory::number_of_elements()`: the product of the two
dimensions accumulated in an `unsigned int`. -/
def number_of_elements (s : SynchronizedMemory) : Nat :=
  [s.mem_cpu.shape_.1, s.mem_cpu.shape_.2].foldl (fun dim n => (dim * n) % 2 ^ 32) 1

/-- `SynchronizedMemory::sum()` in the CUDA build: the value and the memory
after the call. -/
def sum (tie_breaker_device : PreferredDevice) (s : SynchronizedMemory) :
    R × SynchronizedMemory :=
  if should_compute_on_gpu tie_breaker_device [s] then
    (TensorOps.sum (gpu_data s).1 s.number_of_elements, (gpu_data s).2)
  else
    (TensorOps.sum (cpu_data s).1 s.number_of_elements, (cpu_data s).2)

/-- `SynchronizedMemory::operator==(other)` in the CUDA build, for two distinct
memories: the result, and the two memories after the call. -/
def operator_eq (tie_breaker_device : PreferredDevice) (s other : SynchronizedMemory) :
    Bool × SynchronizedMemory × SynchronizedMemory :=
  if should_compute_on_gpu tie_breaker_device [s, other] then
    (TensorOps.equals (gpu_data s).1 (gpu_data other).1 s.number_of_elements,
      (gpu_data s).2, (gpu_data other).2)
  else
    (TensorOps.equals (cpu_data s).1 (cpu_data other).1 s.number_of_elements,
      (cpu_data s).2, (cpu_data other).2)

/-- `SynchronizedMemory::allclose(other, tol)` in the CUDA build, for two
distinct memories: the result, and the two memories after the call. -/
def allclose (tie_breaker_device : PreferredDevice) (s other : SynchronizedMemory) (tol : R) :
    Bool × SynchronizedMemory × SynchronizedMemory :=
  if should_compute_on_gpu tie_breaker_device [s, other] then
    (TensorOps.allclose (gpu_data s).1 (gpu_data other).1 s.number_of_elements tol,
      (gpu_data s).2, (gpu_data other).2)
  else
    (TensorOps.allclose (cpu_data s).1 (cpu_data other).1 s.number_of_elements tol,
      (cpu_data s).2, (cpu_data other).2)

end SynchronizedMemory

/-- A memory that prefers the CPU and whose contents were last written on the
GPU: only its GPU location is fresh. -/
def cpuPreferringGpuFresh : SynchronizedMemory :=
  (SynchronizedMemory.new 1 1 .DEVICE_CPU (fun _ => 0) (fun _ => 0)).write_gpu (fun _ => 1)

/-- A memory that prefers the GPU and whose contents were last written on the
CPU: only its CPU location is fresh. -/
def gpuPreferringCpuFresh : SynchronizedMemory :=
  (SynchronizedMemory.new 1 1 .DEVICE_GPU (fun _ => 0) (fun _ => 0)).write_cpu (fun _ => 1)

/-! ### Handles: copies, identity, loading -/

namespace Mat

/-- The copy constructor `Mat(other, copy_w, copy_dw)` of `Mat.cpp`.  With
`copy_w` the new handle points to a new `MatInternal` built by its copy
constructor (values, dimensions and `id` of the source; the counter is not
touched), otherwise to the `MatInternal` of `other`; with `copy_dw` it points to
a new `GradInternal` built by its copy constructor (the gradient of the
source), otherwise to the `GradInternal` of `other`.  The constructor does not
set the member `constant`; its initial value, from a declaration that is not
part of the sources, is taken to be `false` as for the other constructors. -/
def copy (other : Mat) (copy_w copy_dw : Bool) (s : State) : Mat × State :=
  (⟨if copy_w then s.next_addr else other.m, if copy_dw then s.next_addr else other.g, false⟩,
   { s with
      w := if copy_w then Function.update s.w s.next_addr (s.w other.m) else s.w
      id := if copy_w then Function.update s.id s.next_addr (s.id other.m) else s.id
      dw := if copy_dw then Function.update s.dw s.next_addr (s.dw other.g) else s.dw
      next_addr := s.next_addr + 1 })

/-- `Mat::shallow_copy(m)`, that is `Mat(m, false, true)`. -/
def shallow_copy (m : Mat) (s : State) : Mat × State := copy m false true s

/-- `Mat::id()`. -/
def id (x : Mat) (s : State) : Nat := s.id x.m

/-- `Mat::dims()`, the dimensions kept by the `MatInternal`. -/
def dims (x : Mat) (s : State) : Nat × Nat := ((s.w x.m).rows, (s.w x.m).cols)

/-- `operator==(A, B)` of `Mat.cpp`. -/
def operator_eq (A B : Mat) (s : State) : Bool := decide (A.id s = B.id s)

/-- `operator!=(A, B)` of `Mat.cpp`. -/
def operator_ne (A B : Mat) (s : State) : Bool := decide (A.id s ≠ B.id s)

/-- `std::hash<Mat<R>>::operator()(k)`: the id, converted to `std::size_t` (the
ids handed out by the counter are not negative, the conversion keeps them). -/
def hash (k : Mat) (s : State) : Nat := k.id s

/-- The shape of the gradient storage of a handle is the shape of its value
storage. -/
def ShapesAgree (x : Mat) (s : State) : Prop :=
  (s.dw x.g).rows = (s.w x.m).rows ∧ (s.dw x.g).cols = (s.w x.m).cols

end Mat

/-- A `cnpy::NpyArray` (cnpy is a library outside the repository): the shape, the
size in bytes of one entry, the order flag, and the entries of the data buffer
read at that entry size. -/
structure NpyArray where
  shape : List Nat
  word_size : Nat
  fortran_order : Bool
  data : Nat → R

namespace NpyArray

/-- The matrix that `Mat.cpp` maps over the data buffer of an array, for the
dimensions `n × d`: an `Eigen::Map` with `RowMajor` order when `fortran_order` is
set, with `ColMajor` order otherwise. -/
def wrapped (arr : NpyArray) (n d : Nat) : EigenMat :=
  ⟨n, d, fun i j => if arr.fortran_order then arr.data (i * d + j) else arr.data (j * n + i)⟩

end NpyArray

namespace Mat

/-- The constructor `Mat(n, d, std)` and the constructor `Mat(n, d, lower,
upper)` of `Mat.cpp`: `Mat(n, d, false)`, then the values are drawn at random;
the draws are the argument `randn`. -/
def random (n d : Nat) (randn : Nat → Nat → R) (s : State) : Mat × State :=
  ((new n d false s).1, (new n d false s).2.assign (new n d false s).1 ⟨n, d, randn⟩)

/-- The constructor `Mat(fname)` of `Mat.cpp`, on the array `arr` that
`cnpy::npy_load(fname)` returns: a new `MatInternal` and a new zero
`GradInternal` of the dimensions of the array, then the values are read from the
data buffer; an entry size other than that of `double` (8) or `float` (4) is an
error.  An array without dimensions makes the code read past the end of the
shape, which is read here as `0`. -/
def ofNpy (arr : NpyArray) (s : State) : Except String Mat × State :=
  let r := new (arr.shape.getD 0 0) (if arr.shape.length > 1 then arr.shape.getD 1 0 else 1)
    false s
  if arr.word_size = 8 ∨ arr.word_size = 4 then
    (.ok r.1, r.2.assign r.1 (arr.wrapped (r.2.w r.1.m).rows (r.2.w r.1.m).cols))
  else
    (.error "Could not load numpy matrix : File dtype not recognized as float or double.", r.2)

/-- `Mat::npy_load(arr)` of `Mat.cpp`: the handle after the call, whether the
call returned, and the state.  The handle is pointed to a new `MatInternal` of
the dimensions of the array (the default of its third constructor argument, from
a declaration that is not part of the sources, is the argument `empty`); the
`GradInternal` of the handle is not touched.  Then the values are read from the
data buffer; an entry size other than that of `double` (8) or `float` (4) is an
error. -/
def npy_load (x : Mat) (arr : NpyArray) (empty : Bool) (s : State) :
    Except String Unit × Mat × State :=
  let n := arr.shape.getD 0 0
  let d := if arr.shape.length > 1 then arr.shape.getD 1 0 else 1
  let x1 : Mat := { x with m := s.next_addr }
  let s1 : State :=
    { s with
      w := Function.update s.w s.next_addr
        (if empty then EigenMat.Zero n d else ⟨n, d, (s.w s.next_addr).coeff⟩)
      id := Function.update s.id s.next_addr s.next_matrix
      next_matrix := s.next_matrix + 1
      next_addr := s.next_addr + 1 }
  if arr.word_size = 8 ∨ arr.word_size = 4 then
    (.ok (), x1, s1.assign x1 (arr.wrapped (s1.w x1.m).rows (s1.w x1.m).cols))
  else
    (.error "Could not load numpy matrix : not recognized as float or double.", x1, s1)

end Mat

/-- The calls that create or repoint `MatInternal`s and `GradInternal`s: the
shape constructor, the copy constructor, and `npy_load`. -/
inductive MatCall
  | new (n d : Nat) (empty : Bool)
  | copy (other : Mat) (copy_w copy_dw : Bool)
  | npy_load (x : Mat) (arr : NpyArray) (empty : Bool)

namespace MatCall

/-- The state after a call. -/
def run (s : State) : MatCall → State
  | new n d empty => (Mat.new n d empty s).2
  | copy other copy_w copy_dw => (Mat.copy other copy_w copy_dw s).2
  | npy_load x arr empty => (Mat.npy_load x arr empty s).2.2

/-- The state after a sequence of calls. -/
def runAll (s : State) (calls : List MatCall) : State := calls.foldl run s

end MatCall

/-- A `4 × 5` array of `double` entries, all zero. -/
def npy45 : NpyArray := ⟨[4, 5], 8, false, fun _ => 0⟩

/-- The replay of the tape in insertion order, the first recorded closure
first.  The code never replays in this order (`graph.backward` is the replay it
performs); the definition serves to compare the two orders. -/
def replayInInsertionOrder (s : State) : State :=
  { s.tape.foldl (fun t c => c.run t) s with tape := [] }

/-! ### The remaining primitives of `MatOps.cpp` -/

/-- The scalar functions and constants that `MatOps.cpp` uses and whose
definitions are not part of the sources: the `<cmath>` functions behind Eigen's
`exp`, `log`, `sqrt` and `pow`, the functors of `utils` (`steep_sigmoid_operator`
with its aggressiveness), the constant `EPS`, and the default value of the
argument `temperature` of `softmax`, which `softmax_cross_entropy` relies on. -/
structure Scalars where
  exp : R → R
  log : R → R
  sqrt : R → R
  pow : R → R → R
  sigmoid_operator : R → R
  steep_sigmoid_operator : R → R → R
  tanh_operator : R → R
  dtanh_operator : R → R
  relu_operator : R → R
  sign_operator : R → R
  EPS : R
  temperature : R

namespace EigenMat

/-- The assignment `a.fill(v)`. -/
def fill (a : EigenMat) (v : R) : EigenMat := ⟨a.rows, a.cols, fun _ _ => v⟩

/-- The row of column maxima `a.colwise().maxCoeff()`. -/
def colwiseMaxCoeff (a : EigenMat) : EigenMat :=
  ⟨1, a.cols, fun _ j => (List.range a.rows).foldl (fun acc i => max acc (a.coeff i j))
    (a.coeff 0 j)⟩

/-- The row-broadcast difference `a.rowwise() - b.row(0)`. -/
def rowwiseSub (a b : EigenMat) : EigenMat :=
  ⟨a.rows, a.cols, fun i j => a.coeff i j - b.coeff 0 j⟩

/-- The row-broadcast quotient `a.array().rowwise() / b.row(0).array()`. -/
def rowwiseDiv (a b : EigenMat) : EigenMat :=
  ⟨a.rows, a.cols, fun i j => a.coeff i j / b.coeff 0 j⟩

/-- The assignment `a(r, c) = v` of one coefficient. -/
def setCoeff (a : EigenMat) (r c : Nat) (v : R) : EigenMat :=
  ⟨a.rows, a.cols, fun i j => if i = r ∧ j = c then v else a.coeff i j⟩

/-- The position of the coefficient `(i, j)` in the data of a matrix in Eigen's
default column-major storage order. -/
def flat (a : EigenMat) (i j : Nat) : Nat := j * a.rows + i

end EigenMat

namespace MatOps

/-- `MatOps::eltmul` with a scalar. -/
def eltmul_scalar (matrix : Mat) (alpha : R) (s : State) : Except String Mat × State :=
  let r := Mat.empty_like matrix s
  let t := r.2.assign r.1 ((r.2.w matrix.m).unaryExpr (fun x => x * alpha))
  (.ok r.1, t.record (.eltmul_scalar matrix alpha r.1))

/-- `MatOps::eltmul_broadcast_rowwise`. -/
def eltmul_broadcast_rowwise (matrix1 row_vector : Mat) (s : State) :
    Except String Mat × State :=
  if (s.w matrix1.m).cols ≠ (s.w row_vector.m).cols ∨ (s.w row_vector.m).rows ≠ 1 then
    (.error "Matrices A and B^T cannot be element multiplied with broadcast, they do not have the same dimensions.", s)
  else
    let r := Mat.empty_like matrix1 s
    let t := r.2.assign r.1 ((r.2.w matrix1.m).rowwiseMul (r.2.w row_vector.m))
    (.ok r.1, t.record (.eltmul_broadcast_rowwise matrix1 row_vector r.1))

/-- `MatOps::eltmul_rowwise`. -/
def eltmul_rowwise (matrix1 matrix2 : Mat) (s : State) : Except String Mat × State :=
  if (s.w matrix1.m).rows ≠ (s.w matrix2.m).cols ∨ (s.w matrix1.m).cols ≠ (s.w matrix2.m).rows then
    (.error "Matrices A and B^T cannot be element-wise multiplied, they do not have the same dimensions.", s)
  else
    let r := Mat.empty_like matrix1 s
    let t := r.2.assign r.1 ((r.2.w matrix1.m).cwiseMul (r.2.w matrix2.m).transpose)
    (.ok r.1, t.record (.eltmul_rowwise matrix1 matrix2 r.1))

/-- `MatOps::add` with a scalar. -/
def add_scalar (matrix1 : Mat) (alpha : R) (s : State) : Except String Mat × State :=
  let r := Mat.empty_like matrix1 s
  let t := r.2.assign r.1 ((r.2.w matrix1.m).unaryExpr (fun x => x + alpha))
  (.ok r.1, t.record (.add_scalar matrix1 r.1))

/-- `MatOps::add` on a vector of matrices (the `initializer_list` overload builds
the vector and calls this one).  The output starts uninitialised and every
matrix is added to it; on an empty vector the code dereferences `begin()`, which
is an error here. -/
def add_vector (matrices : List Mat) (s : State) : Except String Mat × State :=
  match matrices with
  | [] => (.error "*matrices.begin()", s)
  | first :: _ =>
    let r := Mat.empty_like first s
    let t := matrices.foldl (fun t matrix => t.assign r.1 ((t.w r.1.m).add (t.w matrix.m))) r.2
    (.ok r.1, t.record (.add_vector matrices r.1))

/-- `MatOps::square`. -/
def square (matrix : Mat) (s : State) : Except String Mat × State :=
  let r := Mat.empty_like matrix s
  let t := r.2.assign r.1 (r.2.w matrix.m).cwiseSquare
  (.ok r.1, t.record (.square matrix r.1))

/-- `MatOps::sqrt`. -/
def sqrt (f : Scalars) (matrix : Mat) (s : State) : Except String Mat × State :=
  let r := Mat.empty_like matrix s
  let t := r.2.assign r.1 ((r.2.w matrix.m).unaryExpr f.sqrt)
  (.ok r.1, t.record (.sqrt matrix r.1))

/-- `MatOps::elt_inv`. -/
def elt_inv (matrix : Mat) (s : State) : Except String Mat × State :=
  let r := Mat.empty_like matrix s
  let t := r.2.assign r.1 (r.2.w matrix.m).cwiseInverse
  (.ok r.1, t.record (.elt_inv matrix r.1))

/-- `MatOps::fill`: nothing is recorded. -/
def fill (matrix : Mat) (filler : R) (s : State) : Except String Mat × State :=
  let r := Mat.empty_like matrix s
  let t := r.2.assign r.1 ((r.2.w r.1.m).fill filler)
  (.ok r.1, t)

/-- `MatOps::pow`. -/
def pow (f : Scalars) (matrix : Mat) (other : R) (s : State) : Except String Mat × State :=
  if other = -1 then elt_inv matrix s
  else if other = 0 then fill matrix 1 s
  else if other = 1 / 2 then sqrt f matrix s
  else if other = 1 then (.ok matrix, s)
  else if other = 2 then square matrix s
  else
    let r := Mat.empty_like matrix s
    let t := r.2.assign r.1 ((r.2.w matrix.m).unaryExpr (fun x => f.pow x other))
    (.ok r.1, t.record (.pow matrix r.1 other f.pow))

/-- `MatOps::sigmoid`. -/
def sigmoid (f : Scalars) (matrix : Mat) (s : State) : Except String Mat × State :=
  let r := Mat.empty_like matrix s
  let t := r.2.assign r.1 ((r.2.w matrix.m).unaryExpr f.sigmoid_operator)
  (.ok r.1, t.record (.sigmoid matrix r.1))

/-- `MatOps::softmax_no_grad`: nothing is recorded, and the argument
`temperature` is not used. -/
def softmax_no_grad (f : Scalars) (matrix : Mat) (_temperature : R) (s : State) :
    Except String Mat × State :=
  let r := Mat.empty_like matrix s
  let layer_max := (r.2.w matrix.m).colwiseMaxCoeff
  let exped_distributions := ((r.2.w matrix.m).rowwiseSub layer_max).unaryExpr f.exp
  let total_distribution := exped_distributions.colwiseSum
  let t := r.2.assign r.1 (exped_distributions.rowwiseDiv total_distribution)
  (.ok r.1, t)

/-- `MatOps::softmax`. -/
def softmax (f : Scalars) (matrix : Mat) (temperature : R) (s : State) :
    Except String Mat × State :=
  match softmax_no_grad f matrix temperature s with
  | (.error e, t) => (.error e, t)
  | (.ok out, t) => (.ok out, t.record (.softmax matrix temperature out))

/-- `MatOps::steep_sigmoid`. -/
def steep_sigmoid (f : Scalars) (matrix : Mat) (aggressiveness : R) (s : State) :
    Except String Mat × State :=
  let r := Mat.empty_like matrix s
  let t := r.2.assign r.1 ((r.2.w matrix.m).unaryExpr (f.steep_sigmoid_operator aggressiveness))
  (.ok r.1, t.record (.steep_sigmoid matrix r.1 aggressiveness))

/-- `MatOps::sigmoid_binary_cross_entropy` (the `assert` on `t` is an error
here). -/
def sigmoid_binary_cross_entropy (f : Scalars) (matrix : Mat) (t : R) (s : State) :
    Except String Mat × State :=
  if ¬ (0 ≤ t ∧ t ≤ 1) then (.error "assert(0 <= t && t <= 1)", s)
  else
    let r := Mat.empty_like matrix s
    let sigmoided_input := (r.2.w matrix.m).unaryExpr f.sigmoid_operator
    let u := r.2.assign r.1 (sigmoided_input.unaryExpr (fun x =>
      - (t * f.log (x + f.EPS) + (1 - t) * f.log (100000001 / 100000000 - x))))
    (.ok r.1, u.record (.sigmoid_binary_cross_entropy matrix t r.1 sigmoided_input))

/-- `MatOps::binary_cross_entropy` (the `assert` on `t` is an error here). -/
def binary_cross_entropy (f : Scalars) (matrix : Mat) (t : R) (s : State) :
    Except String Mat × State :=
  if ¬ (0 ≤ t ∧ t ≤ 1) then (.error "assert(0 <= t && t <= 1)", s)
  else
    let r := Mat.new (s.w matrix.m).rows (s.w matrix.m).cols false s
    let u := r.2.assign r.1 ((r.2.w matrix.m).unaryExpr (fun x =>
      - (t * f.log (x + f.EPS) + (1 - t) * f.log (1 - x + f.EPS))))
    (.ok r.1, u.record (.binary_cross_entropy matrix t r.1 f.EPS))

/-- `MatOps::cross_entropy`. -/
def cross_entropy (f : Scalars) (matrix : Mat) (answer_idx : Nat) (s : State) :
    Except String Mat × State :=
  let r := Mat.new 1 1 false s
  let u := r.2.assign r.1 ((r.2.w r.1.m).setCoeff 0 0
    (- f.log ((r.2.w matrix.m).coeff answer_idx 0 + f.EPS)))
  (.ok r.1, u.record (.cross_entropy matrix answer_idx r.1 f.EPS))

/-- `MatOps::softmax_cross_entropy`: the output is built first, then
`softmax(matrix)` is called with the default temperature, which records the
closure of `softmax`, then the closure of `softmax_cross_entropy` is recorded. -/
def softmax_cross_entropy (f : Scalars) (matrix : Mat) (answer_idx : Nat) (s : State) :
    Except String Mat × State :=
  let r := Mat.new 1 1 false s
  match softmax f matrix f.temperature r.2 with
  | (.error e, t) => (.error e, t)
  | (.ok probs, t) =>
    let u := t.assign r.1 ((t.w r.1.m).setCoeff 0 0 (- f.log ((t.w probs.m).coeff answer_idx 0)))
    (.ok r.1, u.record (.softmax_cross_entropy matrix probs answer_idx r.1))

/-- `MatOps::log`. -/
def log (f : Scalars) (matrix : Mat) (s : State) : Except String Mat × State :=
  let r := Mat.empty_like matrix s
  let t := r.2.assign r.1 ((r.2.w matrix.m).unaryExpr f.log)
  (.ok r.1, t.record (.log matrix r.1))

/-- `MatOps::exp`. -/
def exp (f : Scalars) (matrix : Mat) (s : State) : Except String Mat × State :=
  let r := Mat.empty_like matrix s
  let t := r.2.assign r.1 ((r.2.w matrix.m).unaryExpr f.exp)
  (.ok r.1, t.record (.exp matrix r.1))

/-- `MatOps::tanh`. -/
def tanh (f : Scalars) (matrix : Mat) (s : State) : Except String Mat × State :=
  let r := Mat.empty_like matrix s
  let t := r.2.assign r.1 ((r.2.w matrix.m).unaryExpr f.tanh_operator)
  (.ok r.1, t.record (.tanh matrix r.1 f.dtanh_operator))

/-- `MatOps::relu`. -/
def relu (f : Scalars) (matrix : Mat) (s : State) : Except String Mat × State :=
  let r := Mat.empty_like matrix s
  let t := r.2.assign r.1 ((r.2.w matrix.m).unaryExpr f.relu_operator)
  (.ok r.1, t.record (.relu matrix r.1 f.sign_operator))

end MatOps

namespace MatOps

/-- `MatOps::mul_add_broadcast_mul_with_bias`. -/
def mul_add_broadcast_mul_with_bias (matrix1 input_to_1 matrix2 input_to_2 bias : Mat)
    (s : State) : Except String Mat × State :=
  if (s.w matrix1.m).cols ≠ (s.w input_to_1.m).rows then
    (.error "matmul 1 dimensions misaligned.", s)
  else if (s.w matrix2.m).cols ≠ (s.w input_to_2.m).rows then
    (.error "matmul 2 dimensions misaligned.", s)
  else if (s.w matrix2.m).rows ≠ (s.w bias.m).rows ∨ (s.w matrix1.m).rows ≠ (s.w bias.m).rows ∨
      (s.w input_to_1.m).cols ≠ 1 ∨ (s.w bias.m).cols ≠ 1 then
    (.error "Matrices cannot be added with broadcast, they do not have the same dimensions.", s)
  else
    let r := Mat.new (s.w matrix1.m).rows (s.w input_to_2.m).cols false s
    let t := r.2.assign r.1
      (((r.2.w matrix2.m).mul (r.2.w input_to_2.m)).colwiseAdd
        ((r.2.w bias.m).add ((r.2.w matrix1.m).mul (r.2.w input_to_1.m))))
    (.ok r.1, t.record
      (.mul_add_broadcast_mul_with_bias matrix1 input_to_1 matrix2 input_to_2 bias r.1))

/-- `MatOps::mul_add_mul_with_bias` on five matrices. -/
def mul_add_mul_with_bias (matrix1 input_to_1 matrix2 input_to_2 bias : Mat) (s : State) :
    Except String Mat × State :=
  if (s.w matrix1.m).cols ≠ (s.w input_to_1.m).rows then
    (.error "matmul 1 dimensions misaligned.", s)
  else if (s.w matrix2.m).cols ≠ (s.w input_to_2.m).rows then
    (.error "matmul 2 dimensions misaligned.", s)
  else if (s.w matrix2.m).rows ≠ (s.w bias.m).rows ∨ (s.w matrix1.m).rows ≠ (s.w bias.m).rows ∨
      (s.w bias.m).cols ≠ 1 then
    (.error "Matrices cannot be added with broadcast, they do not have the same dimensions.", s)
  else if (s.w input_to_1.m).cols ≠ (s.w input_to_2.m).cols then
    if (s.w input_to_1.m).cols = 1 then
      mul_add_broadcast_mul_with_bias matrix1 input_to_1 matrix2 input_to_2 bias s
    else mul_add_broadcast_mul_with_bias matrix2 input_to_2 matrix1 input_to_1 bias s
  else
    let r := Mat.new (s.w matrix1.m).rows (s.w input_to_1.m).cols false s
    let t := r.2.assign r.1
      ((((r.2.w matrix1.m).mul (r.2.w input_to_1.m)).add
        ((r.2.w matrix2.m).mul (r.2.w input_to_2.m))).colwiseAdd (r.2.w bias.m))
    (.ok r.1, t.record (.mul_add_mul_with_bias matrix1 input_to_1 matrix2 input_to_2 bias r.1))

/-- The loops of the vector form of `mul_add_mul_with_bias`: while the pointer
is not at the last element, `out.w() += (*ptr).w() * (*(ptr + 1)).w(); ptr += 2`,
then `out.w().colwise() += bias.w().col(0)` for the last element.  On a vector
of even length the pointer steps over the last element and the code reads past
the end, which is an error here. -/
def mulAddMulFill (out : Mat) : List Mat → State → Except String State
  | [], _ => .error "read past the end of the vector"
  | [bias], s => .ok (s.assign out ((s.w out.m).colwiseAdd (s.w bias.m)))
  | a :: b :: rest, s =>
    mulAddMulFill out rest (s.assign out ((s.w out.m).add ((s.w a.m).mul (s.w b.m))))

/-- `MatOps::mul_add_mul_with_bias` on a vector of matrices (the
`initializer_list` overload builds the vector and calls this one).  A vector with
fewer than two elements makes the code read `matrices[1]` past the end, which is
an error here. -/
def mul_add_mul_with_bias_vector (matrices : List Mat) (s : State) :
    Except String Mat × State :=
  match matrices with
  | m0 :: m1 :: _ =>
    let r := Mat.new (s.w m0.m).rows (s.w m1.m).cols true s
    match mulAddMulFill r.1 matrices r.2 with
    | .error e => (.error e, s)
    | .ok t => (.ok r.1, t.record (.mul_add_mul_with_bias_vector matrices r.1))
  | _ => (.error "matrices[1]", s)

/-- `MatOps::dropout`.  The draws of the Bernoulli distribution are the argument
`draw`, in the order of the loop; `uninit` holds the coefficients of the new
mask matrix before the loop.  The loop runs over the first
`number_of_elements()` coefficients in storage order (the `assert` on
`drop_prob` is an error here). -/
def dropout (matrix : Mat) (drop_prob : R) (draw : Nat → Bool) (uninit : Nat → Nat → R)
    (s : State) : Except String Mat × State :=
  if ¬ (0 ≤ drop_prob ∧ drop_prob ≤ 1) then
    (.error "assert(0.0 <= drop_prob && drop_prob <= 1.0)", s)
  else if drop_prob < 1 / 1000000 then (.ok matrix, s)
  else
    let r := Mat.empty_like matrix s
    let x := r.2.w matrix.m
    let bool_mat : EigenMat := ⟨x.rows, x.cols, fun i j =>
      if x.flat i j < number_of_elements x then (if draw (x.flat i j) then 1 else 0)
      else uninit i j⟩
    let t := r.2.assign r.1 ⟨x.rows, x.cols, fun i j =>
      if x.flat i j < number_of_elements x then
        (if bool_mat.coeff i j > 0 then x.coeff i j else 0)
      else (r.2.w r.1.m).coeff i j⟩
    (.ok r.1, t.record (.dropout matrix r.1 bool_mat))

/-- `MatOps::dropout_normalized`, with the same arguments as `dropout`. -/
def dropout_normalized (matrix : Mat) (drop_prob : R) (draw : Nat → Bool)
    (uninit : Nat → Nat → R) (s : State) : Except String Mat × State :=
  if ¬ (0 ≤ drop_prob ∧ drop_prob ≤ 1) then
    (.error "assert(0.0 <= drop_prob && drop_prob <= 1.0)", s)
  else if drop_prob < 1 / 1000000 then (.ok matrix, s)
  else
    let r := Mat.empty_like matrix s
    let x := r.2.w matrix.m
    let normalized_drop_prob : R := 1 / (1 - drop_prob)
    let bool_mat : EigenMat := ⟨x.rows, x.cols, fun i j =>
      if x.flat i j < number_of_elements x then
        (if draw (x.flat i j) then normalized_drop_prob else 0)
      else uninit i j⟩
    let t := r.2.assign r.1 ⟨x.rows, x.cols, fun i j =>
      if x.flat i j < number_of_elements x then
        (if bool_mat.coeff i j > 0 then x.coeff i j else 0)
      else (r.2.w r.1.m).coeff i j⟩
    (.ok r.1, t.record (.dropout_normalized matrix r.1 bool_mat))

/-- `MatOps::fast_dropout`.  The draws of the normal distribution are the
argument `draw`, in the order of the loop; `uninit` holds the coefficients of
the new noise matrix before the loop. -/
def fast_dropout (matrix : Mat) (draw : Nat → R) (uninit : Nat → Nat → R) (s : State) :
    Except String Mat × State :=
  let r := Mat.empty_like matrix s
  let x := r.2.w matrix.m
  let randn_mat : EigenMat := ⟨x.rows, x.cols, fun i j =>
    if x.flat i j < number_of_elements x then draw (x.flat i j) else uninit i j⟩
  let t := r.2.assign r.1 ⟨x.rows, x.cols, fun i j =>
    if x.flat i j < number_of_elements x then randn_mat.coeff i j * x.coeff i j
    else (r.2.w r.1.m).coeff i j⟩
  (.ok r.1, t.record (.fast_dropout matrix r.1 randn_mat))

/-- `MatOps::rows_cols_pluck`: the closure is recorded when recording is enabled
and the matrix is not constant. -/
def rows_cols_pluck (matrix : Mat) (row_indices col_indices : List Nat) (s : State) :
    Except String Mat × State :=
  if row_indices.length ≠ col_indices.length then
    (.error "Cannot pluck column row pairs, not the same amount of row and column indices.", s)
  else
    let r := Mat.new 1 row_indices.length false s
    let t := (List.range row_indices.length).foldl (fun t offset =>
      t.assign r.1 ((t.w r.1.m).setCoeff 0 offset
        ((t.w matrix.m).coeff (row_indices.getD offset 0) (col_indices.getD offset 0)))) r.2
    (.ok r.1,
      if t.backprop_enabled && !matrix.constant then
        graph.emplace_back (.rows_cols_pluck matrix r.1 row_indices col_indices) t
      else t)

/-- `MatOps::consider_constant`: a handle on the storage of `matrix` with the
flag `constant` set. -/
def consider_constant (matrix : Mat) (s : State) : Except String Mat × State :=
  (.ok { (Mat.copy matrix false false s).1 with constant := true },
    (Mat.copy matrix false false s).2)

end MatOps

/-- A call of a primitive of `MatOps.cpp` with its arguments (tensors, scalars,
indices, and the random draws of the dropout primitives).  The
`initializer_list` overloads of `add`, `hstack`, `vstack` and
`mul_add_mul_with_bias` build a vector and call the vector overload; they are
the `_vector` calls. -/
inductive PrimCall
  | eltmul_broadcast (matrix1 matrix2 : Mat)
  | eltmul (matrix1 matrix2 : Mat)
  | eltmul_scalar (matrix : Mat) (alpha : R)
  | eltmul_broadcast_rowwise (matrix1 row_vector : Mat)
  | eltmul_rowwise (matrix1 matrix2 : Mat)
  | add (matrix1 matrix2 : Mat)
  | sub (matrix1 matrix2 : Mat)
  | add_scalar (matrix1 : Mat) (alpha : R)
  | add_broadcast (matrix1 matrix2 : Mat)
  | sub_broadcast (matrix1 matrix2 : Mat)
  | sub_broadcast_reversed (matrix1 matrix2 : Mat)
  | add_vector (matrices : List Mat)
  | square (matrix : Mat)
  | sqrt (matrix : Mat)
  | elt_inv (matrix : Mat)
  | fill (matrix : Mat) (filler : R)
  | pow (matrix : Mat) (other : R)
  | sigmoid (matrix : Mat)
  | softmax_no_grad (matrix : Mat) (temperature : R)
  | softmax (matrix : Mat) (temperature : R)
  | steep_sigmoid (matrix : Mat) (aggressiveness : R)
  | sum (matrix : Mat)
  | mean (matrix : Mat)
  | sigmoid_binary_cross_entropy (matrix : Mat) (t : R)
  | binary_cross_entropy (matrix : Mat) (t : R)
  | cross_entropy (matrix : Mat) (answer_idx : Nat)
  | softmax_cross_entropy (matrix : Mat) (answer_idx : Nat)
  | log (matrix : Mat)
  | exp (matrix : Mat)
  | hstack (matrix1 matrix2 : Mat)
  | hstack_vector (matrices : List Mat)
  | vstack (matrix1 matrix2 : Mat)
  | vstack_vector (matrices : List Mat)
  | transpose (matrix : Mat)
  | tanh (matrix : Mat)
  | relu (matrix : Mat)
  | mul (matrix1 matrix2 : Mat)
  | mul_with_bias (matrix1 matrix2 bias : Mat)
  | mul_add_broadcast_mul_with_bias (matrix1 input_to_1 matrix2 input_to_2 bias : Mat)
  | mul_add_mul_with_bias (matrix1 input_to_1 matrix2 input_to_2 bias : Mat)
  | mul_add_mul_with_bias_vector (matrices : List Mat)
  | rows_pluck (matrix : Mat) (indices : List Nat)
  | dropout (matrix : Mat) (drop_prob : R) (draw : Nat → Bool) (uninit : Nat → Nat → R)
  | dropout_normalized (matrix : Mat) (drop_prob : R) (draw : Nat → Bool)
      (uninit : Nat → Nat → R)
  | fast_dropout (matrix : Mat) (draw : Nat → R) (uninit : Nat → Nat → R)
  | rows_cols_pluck (matrix : Mat) (row_indices col_indices : List Nat)
  | row_pluck (matrix : Mat) (row : Nat)
  | consider_constant (matrix : Mat)

namespace PrimCall

/-- The call itself: the returned tensor, or the error, and the state after. -/
def run (f : Scalars) : PrimCall → State → Except String Mat × State
  | eltmul_broadcast a b => MatOps.eltmul_broadcast a b
  | eltmul a b => MatOps.eltmul a b
  | eltmul_scalar a alpha => MatOps.eltmul_scalar a alpha
  | eltmul_broadcast_rowwise a b => MatOps.eltmul_broadcast_rowwise a b
  | eltmul_rowwise a b => MatOps.eltmul_rowwise a b
  | add a b => MatOps.add a b
  | sub a b => MatOps.sub a b
  | add_scalar a alpha => MatOps.add_scalar a alpha
  | add_broadcast a b => MatOps.add_broadcast a b
  | sub_broadcast a b => MatOps.sub_broadcast a b
  | sub_broadcast_reversed a b => MatOps.sub_broadcast_reversed a b
  | add_vector ms => MatOps.add_vector ms
  | square a => MatOps.square a
  | sqrt a => MatOps.sqrt f a
  | elt_inv a => MatOps.elt_inv a
  | fill a filler => MatOps.fill a filler
  | pow a other => MatOps.pow f a other
  | sigmoid a => MatOps.sigmoid f a
  | softmax_no_grad a temperature => MatOps.softmax_no_grad f a temperature
  | softmax a temperature => MatOps.softmax f a temperature
  | steep_sigmoid a aggressiveness => MatOps.steep_sigmoid f a aggressiveness
  | sum a => MatOps.sum a
  | mean a => MatOps.mean a
  | sigmoid_binary_cross_entropy a t => MatOps.sigmoid_binary_cross_entropy f a t
  | binary_cross_entropy a t => MatOps.binary_cross_entropy f a t
  | cross_entropy a answer_idx => MatOps.cross_entropy f a answer_idx
  | softmax_cross_entropy a answer_idx => MatOps.softmax_cross_entropy f a answer_idx
  | log a => MatOps.log f a
  | exp a => MatOps.exp f a
  | hstack a b => MatOps.hstack a b
  | hstack_vector ms => MatOps.hstack_vector ms
  | vstack a b => MatOps.vstack a b
  | vstack_vector ms => MatOps.vstack_vector ms
  | transpose a => MatOps.transpose a
  | tanh a => MatOps.tanh f a
  | relu a => MatOps.relu f a
  | mul a b => MatOps.mul a b
  | mul_with_bias a b bias => MatOps.mul_with_bias a b bias
  | mul_add_broadcast_mul_with_bias a x b y bias =>
    MatOps.mul_add_broadcast_mul_with_bias a x b y bias
  | mul_add_mul_with_bias a x b y bias => MatOps.mul_add_mul_with_bias a x b y bias
  | mul_add_mul_with_bias_vector ms => MatOps.mul_add_mul_with_bias_vector ms
  | rows_pluck a indices => MatOps.rows_pluck a indices
  | dropout a drop_prob draw uninit => MatOps.dropout a drop_prob draw uninit
  | dropout_normalized a drop_prob draw uninit =>
    MatOps.dropout_normalized a drop_prob draw uninit
  | fast_dropout a draw uninit => MatOps.fast_dropout a draw uninit
  | rows_cols_pluck a rows cols => MatOps.rows_cols_pluck a rows cols
  | row_pluck a row => MatOps.row_pluck a row
  | consider_constant a => MatOps.consider_constant a

/-- The number of closures that a call which returns normally appends to the
tape when recording is enabled. -/
def recorded : PrimCall → Nat
  | fill _ _ => 0
  | softmax_no_grad _ _ => 0
  | consider_constant _ => 0
  | pow _ other => if other = 0 ∨ other = 1 then 0 else 1
  | dropout _ drop_prob _ _ => if drop_prob < 1 / 1000000 then 0 else 1
  | dropout_normalized _ drop_prob _ _ => if drop_prob < 1 / 1000000 then 0 else 1
  | rows_cols_pluck matrix _ _ => if matrix.constant then 0 else 1
  | softmax_cross_entropy _ _ => 2
  | _ => 1

end PrimCall

/-- The state `t` has the tape and the recording flag of the state `s`. -/
def Frame (s t : State) : Prop :=
  t.tape = s.tape ∧ t.backprop_enabled = s.backprop_enabled

/-- What a call that starts in `s` and ends with the result `r` does to the
tape: the recording flag is kept; with recording disabled the tape is kept;
with recording enabled a call that returns normally appends `n` closures. -/
def TapeStep (n : Nat) (s : State) (r : Except String Mat × State) : Prop :=
  r.2.backprop_enabled = s.backprop_enabled ∧
  (s.backprop_enabled = false → r.2.tape = s.tape) ∧
  (s.backprop_enabled = true → (∃ out, r.1 = .ok out) →
    ∃ cs : List Closure, r.2.tape = s.tape ++ cs ∧ cs.length = n)

/-- Scalar functions for examples: every function is the identity on its first
argument, `EPS` is `0` and the default temperature is `1`. -/
def exampleScalars : Scalars :=
  { exp := fun x => x, log := fun x => x, sqrt := fun x => x, pow := fun x _ => x,
    sigmoid_operator := fun x => x, steep_sigmoid_operator := fun x _ => x,
    tanh_operator := fun x => x, dtanh_operator := fun x => x, relu_operator := fun x => x,
    sign_operator := fun x => x, EPS := 0, temperature := 1 }

/-! ### The tag-dispatched rules of `Backward.cpp` -/

/-- The enumerators of `utils::ops` that the `case` labels of `Backward.cpp`
name.  The enumeration is declared in a header that is not part of the sources;
the numeric values of the enumerators are a parameter (`Header.code`). -/
inductive ops
  | add | sub | eltmul | eltmul_rowwise | square | tanh | sigmoid | relu | mul
  | row_pluck | rows_pluck | add_broadcast | sub_broadcast | sub_broadcast_reversed
  | eltmul_broadcast | eltmul_broadcast_rowwise | mul_with_bias | mul_add_mul_with_bias
  | mul_add_broadcast_mul_with_bias | transpose | sum | mean
deriving DecidableEq

namespace ops

/-- The enumerators that `Backward.cpp` names. -/
def all : List ops :=
  [add, sub, eltmul, eltmul_rowwise, square, tanh, sigmoid, relu, mul, row_pluck, rows_pluck,
   add_broadcast, sub_broadcast, sub_broadcast_reversed, eltmul_broadcast,
   eltmul_broadcast_rowwise, mul_with_bias, mul_add_mul_with_bias,
   mul_add_broadcast_mul_with_bias, transpose, sum, mean]

/-- The `case` label that the value `type` matches in a `switch` over these
enumerators, if there is one (the labels of a `switch` are distinct constants,
so at most one matches). -/
def ofType (code : ops → Nat) (type : Nat) : Option ops :=
  all.find? (fun t => decide (code t = type))

end ops

/-- What `Backward.cpp` takes from headers that are not part of the sources:
the numeric values of the enumerators of `utils::ops`, and the product
`matrices[0]->n * matrices[0]->d` of two dimensions, computed in the integer
type of the fields `n` and `d` of the tensor. -/
structure Header where
  code : ops → Nat
  dim_mul : Nat → Nat → Int

/-- The macro `CLIP(X, V)`, that is `(X).array().min(V).max(-V).matrix()`. -/
def CLIP (X : EigenMat) (V : R) : EigenMat :=
  X.unaryExpr (fun x => max (min x V) (-V))

namespace EigenMat

/-- The coefficient-wise maximum with a scalar, `a.array().max(v)`. -/
def cwiseMax (a : EigenMat) (v : R) : EigenMat := a.unaryExpr (fun x => max x v)

end EigenMat

namespace Backward

/-- The statements of a rule that reads `matrices[0]`; indexing `matrices`
beyond its end is undefined behaviour, and the rule has no statements then. -/
def with1 (matrices : List Mat) (k : Mat → List Stmt) : List Stmt :=
  match matrices with
  | m0 :: _ => k m0
  | _ => []

/-- The statements of a rule that reads `matrices[0]` and `matrices[1]`. -/
def with2 (matrices : List Mat) (k : Mat → Mat → List Stmt) : List Stmt :=
  match matrices with
  | m0 :: m1 :: _ => k m0 m1
  | _ => []

/-- The statements of a rule that reads `matrices[0]` to `matrices[2]`. -/
def with3 (matrices : List Mat) (k : Mat → Mat → Mat → List Stmt) : List Stmt :=
  match matrices with
  | m0 :: m1 :: m2 :: _ => k m0 m1 m2
  | _ => []

/-- The statements of a rule that reads `matrices[0]` to `matrices[4]`. -/
def with5 (matrices : List Mat) (k : Mat → Mat → Mat → Mat → Mat → List Stmt) : List Stmt :=
  match matrices with
  | m0 :: m1 :: m2 :: m3 :: m4 :: _ => k m0 m1 m2 m3 m4
  | _ => []

/-- `Backward<T>::op_type()`: the name of the operation tag, `"?"` for a tag
that no `case` names. -/
def op_type (hdr : Header) (b : Backward) : String :=
  match ops.ofType hdr.code b.type with
  | some .add => "add"
  | some .sub => "sub"
  | some .eltmul => "eltmul"
  | some .eltmul_rowwise => "eltmul_rowwise"
  | some .square => "square"
  | some .tanh => "tanh"
  | some .sigmoid => "sigmoid"
  | some .relu => "relu"
  | some .mul => "mul"
  | some .row_pluck => "row_pluck"
  | some .rows_pluck => "rows_pluck"
  | some .add_broadcast => "add_broadcast"
  | some .sub_broadcast => "sub_broadcast"
  | some .sub_broadcast_reversed => "sub_broadcast_reversed"
  | some .eltmul_broadcast => "eltmul_broadcast"
  | some .eltmul_broadcast_rowwise => "eltmul_broadcast_rowwise"
  | some .mul_with_bias => "mul_with_bias"
  | some .mul_add_mul_with_bias => "mul_add_mul_with_bias"
  | some .mul_add_broadcast_mul_with_bias => "mul_add_broadcast_mul_with_bias"
  | some .transpose => "transpose"
  | some .sum => "sum"
  | some .mean => "mean"
  | none => "?"

/-- The loop of `Backward<T>::backward_mul_add_mul_with_bias()`: while the
pointer is not at the last element, `(*ptr)->dw += out->dw *
(*(ptr+1))->w.transpose(); (*(ptr+1))->dw += (*ptr)->w.transpose() * out->dw;
ptr += 2`.  On a vector of even length the pointer steps over the last element
and the code reads past the end; the statements stop there. -/
def mulPairStmts (w : Nat → EigenMat) : List Mat → List Stmt
  | [] => []
  | [_] => []
  | a :: b :: rest =>
    Stmt.addAssign (DW a) (fun dout => dout.mul (w b.m).transpose)
      :: Stmt.addAssign (DW b) (fun dout => (w a.m).transpose.mul dout)
      :: mulPairStmts w rest

/-- The statements of `Backward<T>::backward_mul_add_mul_with_bias()`: first
`bias->dw += out->dw.rowwise().sum()` for `bias = matrices.back()`, then the
loop over the pairs. -/
def mulAddMulWithBiasStmts (w : Nat → EigenMat) (b : Backward) : List Stmt :=
  (match b.matrices.getLast? with
    | some bias => [ Stmt.addAssign (DW bias) (fun dout => dout.rowwiseSum) ]
    | none => [])
  ++ mulPairStmts w b.matrices

/-- The statements of `Backward<T>::backward_rows_pluck(T clip_val)`. -/
def rowsPluckStmtsClip (b : Backward) (clip_val : R) : List Stmt :=
  match b.matrices with
  | [] => []
  | x :: _ =>
    (List.range b.num_indices).map (fun i =>
      Stmt.rowAddAssign (DW x) (b.indices.getD i 0)
        (fun dout => CLIP (dout.col i).transpose clip_val))

/-- The loop of `Backward<T>::backward_mul_add_mul_with_bias(T clip_val)`. -/
def mulPairStmtsClip (w : Nat → EigenMat) (clip_val : R) : List Mat → List Stmt
  | [] => []
  | [_] => []
  | a :: b :: rest =>
    Stmt.addAssign (DW a) (fun dout => CLIP (dout.mul (w b.m).transpose) clip_val)
      :: Stmt.addAssign (DW b) (fun dout => CLIP ((w a.m).transpose.mul dout) clip_val)
      :: mulPairStmtsClip w clip_val rest

/-- The statements of `Backward<T>::backward_mul_add_mul_with_bias(T clip_val)`. -/
def mulAddMulWithBiasStmtsClip (w : Nat → EigenMat) (b : Backward) (clip_val : R) : List Stmt :=
  (match b.matrices.getLast? with
    | some bias => [ Stmt.addAssign (DW bias) (fun dout => CLIP dout.rowwiseSum clip_val) ]
    | none => [])
  ++ mulPairStmtsClip w clip_val b.matrices

end Backward

namespace Backward

/-- The `switch` of `Backward<T>::operator()()`, case by case: the statements
of the rule of the tag, for the value store `w` (`w x.m` is `x->w`, `dout` is
`out->dw`); `none` is the `default` case.  The gradients are written through
`matrices[k]->dw`, without a test of a constant flag.  The functors of `utils`
come from `f`. -/
def rule (hdr : Header) (f : Scalars) (w : Nat → EigenMat) (b : Backward) :
    Option (List Stmt) :=
  match ops.ofType hdr.code b.type with
  | some .add =>
    some (b.matrices.map (fun matrix => Stmt.addAssign (DW matrix) (fun dout => dout)))
  | some .sub => some (with2 b.matrices (fun m0 m1 =>
    [ Stmt.addAssign (DW m0) (fun dout => dout),
      Stmt.subAssign (DW m1) (fun dout => dout) ]))
  | some .add_broadcast => some (with2 b.matrices (fun m0 m1 =>
    [ Stmt.addAssign (DW m0) (fun dout => dout),
      Stmt.addAssign (DW m1) (fun dout => dout.rowwiseSum) ]))
  | some .sub_broadcast => some (with2 b.matrices (fun m0 m1 =>
    [ Stmt.addAssign (DW m0) (fun dout => dout),
      Stmt.subAssign (DW m1) (fun dout => dout.rowwiseSum) ]))
  | some .sub_broadcast_reversed => some (with2 b.matrices (fun m0 m1 =>
    [ Stmt.subAssign (DW m0) (fun dout => dout),
      Stmt.addAssign (DW m1) (fun dout => dout.rowwiseSum) ]))
  | some .eltmul => some (with2 b.matrices (fun m0 m1 =>
    [ Stmt.addAssign (DW m0) (fun dout => (w m1.m).cwiseMul dout),
      Stmt.addAssign (DW m1) (fun dout => (w m0.m).cwiseMul dout) ]))
  | some .eltmul_rowwise => some (with2 b.matrices (fun m0 m1 =>
    [ Stmt.addAssign (DW m0) (fun dout => (w m1.m).transpose.cwiseMul dout),
      Stmt.addAssign (DW m1) (fun dout => ((w m0.m).cwiseMul dout).transpose) ]))
  | some .eltmul_broadcast => some (with2 b.matrices (fun m0 m1 =>
    [ Stmt.addAssign (DW m0) (fun dout => dout.colwiseMul (w m1.m)),
      Stmt.addAssign (DW m1) (fun dout => ((w m0.m).cwiseMul dout).rowwiseSum) ]))
  | some .eltmul_broadcast_rowwise => some (with2 b.matrices (fun m0 m1 =>
    [ Stmt.addAssign (DW m0) (fun dout => dout.rowwiseMul (w m1.m)),
      Stmt.addAssign (DW m1) (fun dout => ((w m0.m).cwiseMul dout).colwiseSum) ]))
  | some .square => some (with1 b.matrices (fun m0 =>
    [ Stmt.addAssign (DW m0) (fun dout => ((w m0.m).cwiseMul dout).scale 2) ]))
  | some .sigmoid => some (with1 b.matrices (fun m0 =>
    [ Stmt.addAssign (DW m0) (fun dout =>
        (((w b.out.m).sub (w b.out.m).cwiseSquare).cwiseMax (1 / 1000000000)).cwiseMul dout) ]))
  | some .mul => some (with2 b.matrices (fun m0 m1 =>
    [ Stmt.addAssign (DW m0) (fun dout => dout.mul (w m1.m).transpose),
      Stmt.addAssign (DW m1) (fun dout => (w m0.m).transpose.mul dout) ]))
  | some .relu => some (with1 b.matrices (fun m0 =>
    [ Stmt.addAssign (DW m0) (fun dout =>
        ((w b.out.m).unaryExpr f.sign_operator).cwiseMul dout) ]))
  | some .tanh => some (with1 b.matrices (fun m0 =>
    [ Stmt.addAssign (DW m0) (fun dout =>
        ((w b.out.m).unaryExpr f.dtanh_operator).cwiseMul dout) ]))
  | some .row_pluck => some (with1 b.matrices (fun m0 =>
    [ Stmt.rowAddAssign (DW m0) b.ix (fun dout => (dout.col 0).transpose) ]))
  | some .rows_pluck => some b.rowsPluckStmts
  | some .mul_with_bias => some (with3 b.matrices (fun m0 m1 m2 =>
    [ Stmt.addAssign (DW m0) (fun dout => dout.mul (w m1.m).transpose),
      Stmt.addAssign (DW m1) (fun dout => (w m0.m).transpose.mul dout),
      Stmt.addAssign (DW m2) (fun dout => dout.rowwiseSum) ]))
  | some .mul_add_mul_with_bias => some (mulAddMulWithBiasStmts w b)
  | some .mul_add_broadcast_mul_with_bias => some (with5 b.matrices (fun m0 m1 m2 m3 m4 =>
    [ Stmt.addAssign (DW m0) (fun dout => dout.rowwiseSum.mul (w m1.m).transpose),
      Stmt.addAssign (DW m1) (fun dout => ((w m0.m).transpose.mul dout).rowwiseSum),
      Stmt.addAssign (DW m2) (fun dout => dout.mul (w m3.m).transpose),
      Stmt.addAssign (DW m3) (fun dout => (w m2.m).transpose.mul dout),
      Stmt.addAssign (DW m4) (fun dout => dout.rowwiseSum) ]))
  | some .transpose => some (with1 b.matrices (fun m0 =>
    [ Stmt.addAssign (DW m0) (fun dout => dout.transpose) ]))
  | some .sum => some (with1 b.matrices (fun m0 =>
    [ Stmt.arrayAddAssign (DW m0) (fun dout => dout.coeff 0 0) ]))
  | some .mean => some (with1 b.matrices (fun m0 =>
    [ Stmt.arrayAddAssign (DW m0) (fun dout =>
        (1 / ((hdr.dim_mul (w m0.m).rows (w m0.m).cols : Int) : R)) * dout.coeff 0 0) ]))
  | none => none

/-- The `switch` of the clipped form `Backward<T>::operator()(T clip_val)`,
case by case. -/
def ruleClip (hdr : Header) (f : Scalars) (w : Nat → EigenMat) (b : Backward) (clip_val : R) :
    Option (List Stmt) :=
  match ops.ofType hdr.code b.type with
  | some .add =>
    some (b.matrices.map (fun matrix =>
      Stmt.addAssign (DW matrix) (fun dout => CLIP dout clip_val)))
  | some .sub => some (with2 b.matrices (fun m0 m1 =>
    [ Stmt.addAssign (DW m0) (fun dout => CLIP dout clip_val),
      Stmt.subAssign (DW m1) (fun dout => CLIP dout clip_val) ]))
  | some .add_broadcast => some (with2 b.matrices (fun m0 m1 =>
    [ Stmt.addAssign (DW m0) (fun dout => CLIP dout clip_val),
      Stmt.addAssign (DW m1) (fun dout => CLIP dout.rowwiseSum clip_val) ]))
  | some .sub_broadcast => some (with2 b.matrices (fun m0 m1 =>
    [ Stmt.addAssign (DW m0) (fun dout => CLIP dout clip_val),
      Stmt.subAssign (DW m1) (fun dout => CLIP dout.rowwiseSum clip_val) ]))
  | some .sub_broadcast_reversed => some (with2 b.matrices (fun m0 m1 =>
    [ Stmt.subAssign (DW m0) (fun dout => CLIP dout clip_val),
      Stmt.addAssign (DW m1) (fun dout => CLIP dout.rowwiseSum clip_val) ]))
  | some .eltmul => some (with2 b.matrices (fun m0 m1 =>
    [ Stmt.addAssign (DW m0) (fun dout => CLIP ((w m1.m).cwiseMul dout) clip_val),
      Stmt.addAssign (DW m1) (fun dout => CLIP ((w m0.m).cwiseMul dout) clip_val) ]))
  | some .eltmul_rowwise => some (with2 b.matrices (fun m0 m1 =>
    [ Stmt.addAssign (DW m0) (fun dout => CLIP ((w m1.m).transpose.cwiseMul dout) clip_val),
      Stmt.addAssign (DW m1) (fun dout => CLIP ((w m0.m).cwiseMul dout).transpose clip_val) ]))
  | some .eltmul_broadcast => some (with2 b.matrices (fun m0 m1 =>
    [ Stmt.addAssign (DW m0) (fun dout => CLIP (dout.colwiseMul (w m1.m)) clip_val),
      Stmt.addAssign (DW m1) (fun dout => CLIP ((w m0.m).cwiseMul dout).rowwiseSum clip_val) ]))
  | some .eltmul_broadcast_rowwise => some (with2 b.matrices (fun m0 m1 =>
    [ Stmt.addAssign (DW m0) (fun dout => CLIP (dout.rowwiseMul (w m1.m)) clip_val),
      Stmt.addAssign (DW m1) (fun dout => CLIP ((w m0.m).cwiseMul dout).colwiseSum clip_val) ]))
  | some .square => some (with1 b.matrices (fun m0 =>
    [ Stmt.addAssign (DW m0) (fun dout => CLIP (((w m0.m).cwiseMul dout).scale 2) clip_val) ]))
  | some .sigmoid => some (with1 b.matrices (fun m0 =>
    [ Stmt.addAssign (DW m0) (fun dout =>
        CLIP ((((w b.out.m).sub (w b.out.m).cwiseSquare).cwiseMax (1 / 1000000000)).cwiseMul
          dout) clip_val) ]))
  | some .mul => some (with2 b.matrices (fun m0 m1 =>
    [ Stmt.addAssign (DW m0) (fun dout => CLIP (dout.mul (w m1.m).transpose) clip_val),
      Stmt.addAssign (DW m1) (fun dout => CLIP ((w m0.m).transpose.mul dout) clip_val) ]))
  | some .relu => some (with1 b.matrices (fun m0 =>
    [ Stmt.addAssign (DW m0) (fun dout =>
        CLIP (((w b.out.m).unaryExpr f.sign_operator).cwiseMul dout) clip_val) ]))
  | some .tanh => some (with1 b.matrices (fun m0 =>
    [ Stmt.addAssign (DW m0) (fun dout =>
        CLIP (((w b.out.m).unaryExpr f.dtanh_operator).cwiseMul dout) clip_val) ]))
  | some .row_pluck => some (with1 b.matrices (fun m0 =>
    [ Stmt.rowAddAssign (DW m0) b.ix (fun dout => CLIP (dout.col 0).transpose clip_val) ]))
  | some .rows_pluck => some (b.rowsPluckStmtsClip clip_val)
  | some .mul_with_bias => some (with3 b.matrices (fun m0 m1 m2 =>
    [ Stmt.addAssign (DW m0) (fun dout => CLIP (dout.mul (w m1.m).transpose) clip_val),
      Stmt.addAssign (DW m1) (fun dout => CLIP ((w m0.m).transpose.mul dout) clip_val),
      Stmt.addAssign (DW m2) (fun dout => CLIP dout.rowwiseSum clip_val) ]))
  | some .mul_add_mul_with_bias => some (mulAddMulWithBiasStmtsClip w b clip_val)
  | some .mul_add_broadcast_mul_with_bias => some (with5 b.matrices (fun m0 m1 m2 m3 m4 =>
    [ Stmt.addAssign (DW m0) (fun dout =>
        CLIP (dout.rowwiseSum.mul (w m1.m).transpose) clip_val),
      Stmt.addAssign (DW m1) (fun dout =>
        CLIP ((w m0.m).transpose.mul dout).rowwiseSum clip_val),
      Stmt.addAssign (DW m2) (fun dout => CLIP (dout.mul (w m3.m).transpose) clip_val),
      Stmt.addAssign (DW m3) (fun dout => CLIP ((w m2.m).transpose.mul dout) clip_val),
      Stmt.addAssign (DW m4) (fun dout => CLIP dout.rowwiseSum clip_val) ]))
  | some .transpose => some (with1 b.matrices (fun m0 =>
    [ Stmt.addAssign (DW m0) (fun dout => CLIP dout.transpose clip_val) ]))
  | some .sum => some (with1 b.matrices (fun m0 =>
    [ Stmt.arrayAddAssign (DW m0) (fun dout => dout.coeff 0 0) ]))
  | some .mean => some (with1 b.matrices (fun m0 =>
    [ Stmt.arrayAddAssign (DW m0) (fun dout =>
        (1 / ((hdr.dim_mul (w m0.m).rows (w m0.m).cols : Int) : R)) * dout.coeff 0 0) ]))
  | none => none

/-- The message of the `std::invalid_argument` of the `default` case. -/
def notImplemented (hdr : Header) (b : Backward) : String :=
  "NotImplemented: Do not know how to backpropagate for this type => "
    ++ b.op_type hdr ++ " (" ++ toString b.type ++ ")"

/-- `Backward<T>::operator()()`: the statements of the rule of the tag, in
order, or the exception of the `default` case. -/
def operator_call (hdr : Header) (f : Scalars) (b : Backward) (s : State) :
    Except String Unit × State :=
  match b.rule hdr f s.w with
  | some L => (.ok (), L.foldl (fun t st => st.exec b.out t) s)
  | none => (.error (b.notImplemented hdr), s)

/-- The clipped form `Backward<T>::operator()(T clip_val)`. -/
def operator_call_clip (hdr : Header) (f : Scalars) (b : Backward) (clip_val : R) (s : State) :
    Except String Unit × State :=
  match b.ruleClip hdr f s.w clip_val with
  | some L => (.ok (), L.foldl (fun t st => st.exec b.out t) s)
  | none => (.error (b.notImplemented hdr), s)

end Backward

/-- Values of the enumerators for examples: `0` to `21` in the order of
`op_type`, and the exact product of the dimensions. -/
def exampleHeader : Header :=
  { code := fun t => (ops.all.indexOf t), dim_mul := fun n d => ((n * d : Nat) : Int) }

/-- Every increment of the statement is at most `V` in absolute value. -/
def Stmt.BoundedBy (V : R) (st : Stmt) : Prop := ∀ dout i j, |st.inc dout i j| ≤ V

/-- A state with a `2 × 2` zero tensor at address `0` and a `1 × 1` tensor at
address `1` whose gradient is `5`. -/
def clipState : State :=
  ((Mat.new 1 1 true (Mat.new 2 2 true (State.init true)).2).2).setDw ⟨1, 1, false⟩
    ⟨1, 1, fun _ _ => 5⟩

/-- The record of the given tag with the operand at address `0` and the output
at address `1`. -/
def clipRecord (t : ops) : Backward := ⟨exampleHeader.code t, [⟨0, 0, false⟩], ⟨1, 1, false⟩, 0, [], 0⟩

/-- A state with recording enabled and one tensor, at address `0`: a `1 × 1`
zero matrix. -/
def sigState : State := (Mat.new 1 1 true (State.init true)).2

/-- The record of the tag `sigmoid` for the operand at address `0` and the
output at address `1`. -/
def sigRecord : Backward := ⟨exampleHeader.code .sigmoid, [⟨0, 0, false⟩], ⟨1, 1, false⟩, 0, [], 0⟩

namespace Backward

end Backward

namespace Mat

/-- The handle with the flag `constant` cleared. -/
def asVariable (x : Mat) : Mat := { x with constant := false }

end Mat

/-- The statement with the flag `constant` of its target cleared. -/
def Stmt.asVariable (st : Stmt) : Stmt := ⟨⟨st.lhs.x.asVariable, st.lhs.guarded⟩, st.inc⟩

namespace Closure

/-- The closure with `g` applied to every captured tensor. -/
def mapMats (g : Mat → Mat) : Closure → Closure
  | eltmul_broadcast matrix1 matrix2 out =>
    Closure.eltmul_broadcast (g matrix1) (g matrix2) (g out)
  | eltmul matrix1 matrix2 out =>
    Closure.eltmul (g matrix1) (g matrix2) (g out)
  | eltmul_scalar matrix alpha out =>
    Closure.eltmul_scalar (g matrix) alpha (g out)
  | eltmul_broadcast_rowwise matrix1 row_vector out =>
    Closure.eltmul_broadcast_rowwise (g matrix1) (g row_vector) (g out)
  | eltmul_rowwise matrix1 matrix2 out =>
    Closure.eltmul_rowwise (g matrix1) (g matrix2) (g out)
  | add matrix1 matrix2 out =>
    Closure.add (g matrix1) (g matrix2) (g out)
  | sub matrix1 matrix2 out =>
    Closure.sub (g matrix1) (g matrix2) (g out)
  | add_scalar matrix1 out =>
    Closure.add_scalar (g matrix1) (g out)
  | add_broadcast matrix1 matrix2 out =>
    Closure.add_broadcast (g matrix1) (g matrix2) (g out)
  | sub_broadcast matrix1 matrix2 out =>
    Closure.sub_broadcast (g matrix1) (g matrix2) (g out)
  | sub_broadcast_reversed matrix1 matrix2 out =>
    Closure.sub_broadcast_reversed (g matrix1) (g matrix2) (g out)
  | add_vector matrices out =>
    Closure.add_vector (matrices.map g) (g out)
  | square matrix out =>
    Closure.square (g matrix) (g out)
  | sqrt matrix out =>
    Closure.sqrt (g matrix) (g out)
  | elt_inv matrix out =>
    Closure.elt_inv (g matrix) (g out)
  | pow matrix out other pw =>
    Closure.pow (g matrix) (g out) other pw
  | sigmoid matrix out =>
    Closure.sigmoid (g matrix) (g out)
  | softmax matrix temperature out =>
    Closure.softmax (g matrix) temperature (g out)
  | steep_sigmoid matrix out aggressiveness =>
    Closure.steep_sigmoid (g matrix) (g out) aggressiveness
  | sum matrix out =>
    Closure.sum (g matrix) (g out)
  | mean matrix out =>
    Closure.mean (g matrix) (g out)
  | sigmoid_binary_cross_entropy matrix t out sigmoided_input =>
    Closure.sigmoid_binary_cross_entropy (g matrix) t (g out) sigmoided_input
  | binary_cross_entropy matrix t out EPS =>
    Closure.binary_cross_entropy (g matrix) t (g out) EPS
  | cross_entropy matrix answer_idx out EPS =>
    Closure.cross_entropy (g matrix) answer_idx (g out) EPS
  | softmax_cross_entropy matrix probs answer_idx out =>
    Closure.softmax_cross_entropy (g matrix) (g probs) answer_idx (g out)
  | log matrix out =>
    Closure.log (g matrix) (g out)
  | exp matrix out =>
    Closure.exp (g matrix) (g out)
  | hstack matrix1 matrix2 out =>
    Closure.hstack (g matrix1) (g matrix2) (g out)
  | hstack_vector matrices out =>
    Closure.hstack_vector (matrices.map g) (g out)
  | vstack matrix1 matrix2 out =>
    Closure.vstack (g matrix1) (g matrix2) (g out)
  | vstack_vector matrices out =>
    Closure.vstack_vector (matrices.map g) (g out)
  | transpose matrix out =>
    Closure.transpose (g matrix) (g out)
  | tanh matrix out dtanh_operator =>
    Closure.tanh (g matrix) (g out) dtanh_operator
  | relu matrix out sign_operator =>
    Closure.relu (g matrix) (g out) sign_operator
  | mul matrix1 matrix2 out =>
    Closure.mul (g matrix1) (g matrix2) (g out)
  | mul_with_bias matrix1 matrix2 bias out =>
    Closure.mul_with_bias (g matrix1) (g matrix2) (g bias) (g out)
  | mul_add_broadcast_mul_with_bias matrix1 input_to_1 matrix2 input_to_2 bias out =>
    Closure.mul_add_broadcast_mul_with_bias (g matrix1) (g input_to_1) (g matrix2) (g input_to_2) (g bias) (g out)
  | mul_add_mul_with_bias matrix1 input_to_1 matrix2 input_to_2 bias out =>
    Closure.mul_add_mul_with_bias (g matrix1) (g input_to_1) (g matrix2) (g input_to_2) (g bias) (g out)
  | mul_add_mul_with_bias_vector matrices out =>
    Closure.mul_add_mul_with_bias_vector (matrices.map g) (g out)
  | rows_pluck matrix out indices =>
    Closure.rows_pluck (g matrix) (g out) indices
  | dropout matrix out bool_mat =>
    Closure.dropout (g matrix) (g out) bool_mat
  | dropout_normalized matrix out bool_mat =>
    Closure.dropout_normalized (g matrix) (g out) bool_mat
  | fast_dropout matrix out randn_mat =>
    Closure.fast_dropout (g matrix) (g out) randn_mat
  | rows_cols_pluck matrix out row_indices col_indices =>
    Closure.rows_cols_pluck (g matrix) (g out) row_indices col_indices
  | row_pluck matrix out row =>
    Closure.row_pluck (g matrix) (g out) row

/-- Whether the closure is the one of `rows_cols_pluck`, the only closure that
writes a gradient without the macro `GRAD`. -/
def isRowsColsPluck : Closure → Bool
  | rows_cols_pluck _ _ _ _ => true
  | _ => false

end Closure

/-- Scalar functions for the softmax example: `exp` is `x ↦ 2 ^ ⌊x⌋`, which maps
a difference of integers to the quotient of the images; the other functions
are those of `exampleScalars`. -/
def powerScalars : Scalars := { exampleScalars with exp := fun x => (2 : R) ^ (Int.floor x) }

/-- A state with recording enabled and one tensor, at address `0`: the column
with the entries `0` and `1`. -/
def columnState : State :=
  ((Mat.new 2 1 true (State.init true)).2).assign ⟨0, 0, false⟩ ⟨2, 1, fun i _ => (i : R)⟩

/-! ### `argmax` and `argmax_slice` of `Mat.cpp` -/

namespace EigenMat

/-- The entry at position `k` of `a.data()`, in Eigen's default column-major
storage order. -/
def data (a : EigenMat) (k : Nat) : R := a.coeff (k % a.rows) (k / a.rows)

end EigenMat

/-- The body of the loops of `argmax` and `argmax_slice` for the loop variable
`j`, on the triple of `i`, `current_max` (`none` is the initial `-infinity`)
and the offset of `ptr` from `A->w.data()`:
`if (*ptr > current_max) { current_max = *ptr; i = j; } ptr++`. -/
def argmaxBody (data : Nat → R) (st : Int × Option R × Nat) (j : Int) : Int × Option R × Nat :=
  if (match st.2.1 with
      | none => true
      | some current_max => decide (current_max < data st.2.2)) then
    (j, some (data st.2.2), st.2.2 + 1)
  else (st.1, st.2.1, st.2.2 + 1)

/-- `argmax(A)` of `Mat.cpp`: `j` runs from `0` to `A->number_of_elements()`,
`i` starts at `0` and `ptr` at `A->w.data()`. -/
def argmax (A : EigenMat) : Int :=
  (((List.range (number_of_elements A)).map (fun k : Nat => (k : Int))).foldl
    (argmaxBody A.data) (0, none, 0)).1

/-- `argmax_slice(A, min, max)` of `Mat.cpp`: `j` runs from `min` to `max`,
`i` starts at `0` and `ptr` at `A->w.data()`. -/
def argmax_slice (A : EigenMat) (min max : Int) : Int :=
  (((List.range (max - min).toNat).map (fun k : Nat => min + (k : Int))).foldl
    (argmaxBody A.data) (0, none, 0)).1

/-- The column with the entries `5`, `1`, `9`. -/
def sliceExample : EigenMat := ⟨3, 1, fun i _ => if i = 0 then 5 else if i = 1 then 1 else 9⟩

/-! ### `DataFormatDimMapping` of `dali/array/op/spatial/utils.cpp` -/

/-- `std::string::find(c)` on a string given by the list of its characters:
the position of the first occurrence, `none` for `std::string::npos`. -/
def string_find (data_format : List Char) (c : Char) : Option Nat :=
  if data_format.indexOf c < data_format.length then some (data_format.indexOf c) else none

/-- The members of `internal::DataFormatDimMapping`; `none` stands for the
value that `std::string::npos` is converted to. -/
structure DataFormatDimMapping where
  n_dim : Option Nat
  c_dim : Option Nat
  h_dim : Option Nat
  w_dim : Option Nat

namespace DataFormatDimMapping

/-- The constructor `DataFormatDimMapping(data_format)`: the four positions,
then the assertion that none is `MISS` and that the string has four
characters. -/
def new (data_format : List Char) : Except String DataFormatDimMapping :=
  let n_dim := string_find data_format 'N'
  let c_dim := string_find data_format 'C'
  let h_dim := string_find data_format 'H'
  let w_dim := string_find data_format 'W'
  match assert2 (decide (n_dim ≠ none ∧ c_dim ≠ none ∧ h_dim ≠ none ∧ w_dim ≠ none ∧
      data_format.length = 4))
      ("data_format must be a permutation of letters N,C,H,W (was "
        ++ String.mk data_format ++ ").") with
  | .error e => .error e
  | .ok _ => .ok ⟨n_dim, c_dim, h_dim, w_dim⟩

end DataFormatDimMapping

/-! ### The operations of `dali/tensor/op/binary.cu.cpp` -/

namespace EigenMat

/-- Modelled from the spec: the lazy tensor expression
`b.wrapper()[0].broadcast<0>(shape)`, whose definition is not part of the
sources: row `0` of `b`, read as a column vector, repeated across the columns
of the shape `n × d`. -/
def broadcast0 (b : EigenMat) (n d : Nat) : EigenMat := ⟨n, d, fun i _ => b.coeff 0 i⟩

/-- Modelled from the spec: `sum_cols(a)`, whose definition is not part of the
sources: the vector of the row sums of `a` (the sum runs over the columns). -/
def sum_cols (a : EigenMat) : EigenMat :=
  ⟨1, a.rows, fun _ i => ∑ c ∈ Finset.range a.cols, a.coeff i c⟩

/-- The coefficient-wise quotient `a / b` of two tensor expressions. -/
def cwiseQuotient (a b : EigenMat) : EigenMat :=
  ⟨a.rows, a.cols, fun i j => a.coeff i j / b.coeff i j⟩

end EigenMat

/-- `lhs.wrapper()[0] -= v`, the subtraction of a vector from row `0`. -/
def Stmt.row0SubAssign (lhs : Target) (v : EigenMat → EigenMat) : Stmt :=
  ⟨lhs, fun dout i j => if i = 0 then - (v dout).coeff 0 j else 0⟩

/-- The backward closures recorded by `add`, `sub`, their broadcast forms, the
vector form of `add`, `eltdivide` and `eltdivide_broadcast` in `binary.cu.cpp`,
with the captures of the lambda.  The functor `op::div_grad`, whose definition
is not part of the sources, is an argument. -/
inductive BinaryClosure
  | add (matrix1 matrix2 out : Mat)
  | sub (matrix1 matrix2 out : Mat)
  | add_broadcast (matrix1 matrix2 out : Mat)
  | sub_broadcast (matrix1 matrix2 out : Mat)
  | sub_broadcast_reversed (matrix1 matrix2 out : Mat)
  | add_vector (matrices : List Mat) (out : Mat)
  | eltdivide (matrix1 matrix2 out : Mat)
  | eltdivide_broadcast (matrix1 matrix2 out : Mat) (div_grad : R → R → R)

namespace BinaryClosure

/-- The captured output tensor of a closure. -/
def out : BinaryClosure → Mat
  | add _ _ o | sub _ _ o | add_broadcast _ _ o | sub_broadcast _ _ o
  | sub_broadcast_reversed _ _ o | add_vector _ o | eltdivide _ _ o
  | eltdivide_broadcast _ _ o _ => o

/-- The body of a closure, statement by statement.  Modelled from the spec: the
macros `SAFE_GRAD` and `GRAD` of `dali/tensor/__MatMacros__.h`, which is not
part of the sources: `SAFE_GRAD(X)` is the gradient of `X` unless `X` is
constant, `GRAD(out)` is the gradient of `out`; `w x.m` is `MAT(x)`. -/
def stmts (w : Nat → EigenMat) : BinaryClosure → List Stmt
  | add matrix1 matrix2 _ =>
    [ Stmt.addAssign (Dali.GRAD matrix1) (fun dout => dout),
      Stmt.addAssign (Dali.GRAD matrix2) (fun dout => dout) ]
  | sub matrix1 matrix2 _ =>
    [ Stmt.addAssign (Dali.GRAD matrix1) (fun dout => dout),
      Stmt.subAssign (Dali.GRAD matrix2) (fun dout => dout) ]
  | add_broadcast matrix1 matrix2 _ =>
    [ Stmt.addAssign (Dali.GRAD matrix1) (fun dout => dout),
      Stmt.rowAddAssign (Dali.GRAD matrix2) 0 (fun dout => dout.sum_cols) ]
  | sub_broadcast matrix1 matrix2 _ =>
    [ Stmt.addAssign (Dali.GRAD matrix1) (fun dout => dout),
      Stmt.row0SubAssign (Dali.GRAD matrix2) (fun dout => dout.sum_cols) ]
  | sub_broadcast_reversed matrix1 matrix2 _ =>
    [ Stmt.subAssign (Dali.GRAD matrix1) (fun dout => dout),
      Stmt.rowAddAssign (Dali.GRAD matrix2) 0 (fun dout => dout.sum_cols) ]
  | add_vector matrices _ =>
    matrices.map (fun matrix => Stmt.addAssign (Dali.GRAD matrix) (fun dout => dout))
  | eltdivide matrix1 matrix2 _ =>
    [ Stmt.addAssign (Dali.GRAD matrix1) (fun dout => (w matrix2.m).cwiseInverse.cwiseMul dout),
      Stmt.subAssign (Dali.GRAD matrix2) (fun dout =>
        ((w matrix1.m).cwiseQuotient (w matrix2.m).cwiseSquare).cwiseMul dout) ]
  | eltdivide_broadcast matrix1 matrix2 _ div_grad =>
    [ Stmt.addAssign (Dali.GRAD matrix1) (fun dout =>
        dout.cwiseQuotient ((w matrix2.m).broadcast0 dout.rows dout.cols)),
      ⟨Dali.GRAD matrix2, fun dout _ j =>
        - ∑ c ∈ Finset.range dout.cols,
            div_grad ((w matrix1.m).coeff j c) ((w matrix2.m).coeff 0 j) * dout.coeff j c⟩ ]

/-- A call of a closure: its statements in order. -/
def run (c : BinaryClosure) (s : State) : State :=
  (c.stmts s.w).foldl (fun t st => st.exec c.out t) s

end BinaryClosure

/-- The state of the tensor library of `dali/tensor`: the stores and the flag
`graph::backprop_enabled` of `State`, and the tape of the closures of
`binary.cu.cpp`. -/
structure TensorState where
  mem : State
  tape : List BinaryClosure

namespace TensorState

/-- The guarded recording `if (graph::backprop_enabled) graph::emplace_back(c)`
(the tape is modelled from the spec, as for `MatOps.cpp`). -/
def record (s : TensorState) (mem : State) (c : BinaryClosure) : TensorState :=
  ⟨mem, if mem.backprop_enabled then s.tape ++ [c] else s.tape⟩

end TensorState

/-- Modelled from the spec: `Mat::zeros_like` of `dali/tensor/Mat.h`, which is
not part of the sources: a new tensor with the shape of its argument, zero
values and a zero gradient. -/
def Mat.zeros_like (x : Mat) (s : State) : Mat × State :=
  Mat.new (s.w x.m).rows (s.w x.m).cols true s

namespace Binary

/-- `Binary::add_broadcast`: the two assertions (`ASSERT2`, modelled as
`assert2`), then `out = matrix1 + matrix2[0]` broadcast along dimension `0`. -/
def add_broadcast (matrix1 matrix2 : Mat) (s : TensorState) : Except String Mat × TensorState :=
  match assert2 (decide ((s.mem.w matrix2.m).rows = 1))
      "Second argument to add_broadcast must be a vector (first dimension=1)" with
  | .error e => (.error e, s)
  | .ok _ =>
    match assert2 (decide ((s.mem.w matrix1.m).rows = (s.mem.w matrix2.m).cols))
        ("vector-like argument to add_broadcast must have outer dimension ("
          ++ toString (s.mem.w matrix2.m).cols
          ++ ") equal to inner dimension of first argument ("
          ++ toString (s.mem.w matrix1.m).rows ++ ").") with
    | .error e => (.error e, s)
    | .ok _ =>
      let r := Mat.empty_like matrix1 s.mem
      let t := r.2.assign r.1 ((r.2.w matrix1.m).add
        ((r.2.w matrix2.m).broadcast0 (r.2.w matrix1.m).rows (r.2.w matrix1.m).cols))
      (.ok r.1, s.record t (.add_broadcast matrix1 matrix2 r.1))

/-- `Binary::sub_broadcast`. -/
def sub_broadcast (matrix1 matrix2 : Mat) (s : TensorState) : Except String Mat × TensorState :=
  match assert2 (decide ((s.mem.w matrix2.m).rows = 1))
      "Second argument to sub_broadcast must be a vector (first dimension=1)" with
  | .error e => (.error e, s)
  | .ok _ =>
    match (if (s.mem.w matrix1.m).rows ≠ (s.mem.w matrix2.m).cols then
        assert2 (decide ((s.mem.w matrix1.m).rows = (s.mem.w matrix2.m).cols))
          ("vector-like argument to sub_broadcast must have outer dimension ("
          ++ toString (s.mem.w matrix2.m).cols
          ++ ") equal to inner dimension of first argument ("
          ++ toString (s.mem.w matrix1.m).rows ++ ").")
      else .ok ()) with
    | .error e => (.error e, s)
    | .ok _ =>
      let r := Mat.empty_like matrix1 s.mem
      let t := r.2.assign r.1 ((r.2.w matrix1.m).sub
        ((r.2.w matrix2.m).broadcast0 (r.2.w matrix1.m).rows (r.2.w matrix1.m).cols))
      (.ok r.1, s.record t (.sub_broadcast matrix1 matrix2 r.1))

/-- `Binary::sub_broadcast_reversed`. -/
def sub_broadcast_reversed (matrix1 matrix2 : Mat) (s : TensorState) :
    Except String Mat × TensorState :=
  match assert2 (decide ((s.mem.w matrix2.m).rows = 1))
      "Second argument to sub_broadcast_reversed must be a vector (first dimension=1)" with
  | .error e => (.error e, s)
  | .ok _ =>
    match (if (s.mem.w matrix1.m).rows ≠ (s.mem.w matrix2.m).cols then
        assert2 (decide ((s.mem.w matrix1.m).rows = (s.mem.w matrix2.m).cols))
          ("vector-like argument to sub_broadcast_reversed must have outer dimension ("
          ++ toString (s.mem.w matrix2.m).cols
          ++ ") equal to inner dimension of first argument ("
          ++ toString (s.mem.w matrix1.m).rows ++ ").")
      else .ok ()) with
    | .error e => (.error e, s)
    | .ok _ =>
      let r := Mat.empty_like matrix1 s.mem
      let t := r.2.assign r.1
        (((r.2.w matrix2.m).broadcast0 (r.2.w matrix1.m).rows (r.2.w matrix1.m).cols).sub
          (r.2.w matrix1.m))
      (.ok r.1, s.record t (.sub_broadcast_reversed matrix1 matrix2 r.1))

/-- `Binary::add` on two tensors: the broadcast forms when the first
dimensions differ and one of them is `1`, otherwise the assertion that the
dimensions are equal and the entrywise sum. -/
def add (matrix1 matrix2 : Mat) (s : TensorState) : Except String Mat × TensorState :=
  if (s.mem.w matrix1.m).rows ≠ (s.mem.w matrix2.m).rows ∧
      ((s.mem.w matrix1.m).rows = 1 ∨ (s.mem.w matrix2.m).rows = 1) then
    if (s.mem.w matrix1.m).rows = 1 then add_broadcast matrix2 matrix1 s
    else add_broadcast matrix1 matrix2 s
  else
    match assert2 (decide ((s.mem.w matrix1.m).rows = (s.mem.w matrix2.m).rows ∧
        (s.mem.w matrix1.m).cols = (s.mem.w matrix2.m).cols))
        "Matrices cannot be added, they do not have the same dimensions." with
    | .error e => (.error e, s)
    | .ok _ =>
      let r := Mat.empty_like matrix1 s.mem
      let t := r.2.assign r.1 ((r.2.w matrix1.m).add (r.2.w matrix2.m))
      (.ok r.1, s.record t (.add matrix1 matrix2 r.1))

/-- `Binary::sub` on two tensors. -/
def sub (matrix1 matrix2 : Mat) (s : TensorState) : Except String Mat × TensorState :=
  if (s.mem.w matrix1.m).rows ≠ (s.mem.w matrix2.m).rows ∧
      ((s.mem.w matrix1.m).rows = 1 ∨ (s.mem.w matrix2.m).rows = 1) then
    if (s.mem.w matrix1.m).rows = 1 then sub_broadcast_reversed matrix2 matrix1 s
    else sub_broadcast matrix1 matrix2 s
  else
    match assert2 (decide ((s.mem.w matrix1.m).rows = (s.mem.w matrix2.m).rows ∧
        (s.mem.w matrix1.m).cols = (s.mem.w matrix2.m).cols))
        "Matrices cannot be subtracted, they do not have the same dimensions." with
    | .error e => (.error e, s)
    | .ok _ =>
      let r := Mat.empty_like matrix1 s.mem
      let t := r.2.assign r.1 ((r.2.w matrix1.m).sub (r.2.w matrix2.m))
      (.ok r.1, s.record t (.sub matrix1 matrix2 r.1))

/-- `Binary::add` on a vector of tensors (the `initializer_list` overload
builds the vector and calls this one): the assertion that the vector is not
empty, an output of zeros with the shape of the first tensor, and
`MAT(out) += MAT(matrix).wrapper()` for every tensor; the shapes are not
compared. -/
def add_vector (matrices : List Mat) (s : TensorState) : Except String Mat × TensorState :=
  match assert2 (decide (matrices.length > 0)) "Got 0 matrices to add." with
  | .error e => (.error e, s)
  | .ok _ =>
    match matrices with
    | [] => (.error "matrices.front()", s)
    | front :: _ =>
      let r := Mat.zeros_like front s.mem
      let t := matrices.foldl
        (fun t matrix => t.assign r.1 ((t.w r.1.m).add (t.w matrix.m))) r.2
      (.ok r.1, s.record t (.add_vector matrices r.1))

end Binary

/-- A state of the tensor library with recording enabled and three tensors:
`A` at address `0`, of shape `2 × 3` with `A[i][j] = 10·i + j`; a row `B` at
address `1`, of shape `1 × 2` with the entries `100` and `200`; a column `C`
at address `2`, of shape `2 × 1` with the entries `100` and `200`. -/
def binaryState : TensorState :=
  ⟨((((Mat.new 2 1 true (Mat.new 1 2 true (Mat.new 2 3 true (State.init true)).2).2).2).assign
      ⟨0, 0, false⟩ ⟨2, 3, fun i j => 10 * (i : R) + (j : R)⟩).assign
      ⟨1, 1, false⟩ ⟨1, 2, fun _ j => 100 * ((j : R) + 1)⟩).assign
      ⟨2, 2, false⟩ ⟨2, 1, fun i _ => 100 * ((i : R) + 1)⟩, []⟩

/-- A state with recording enabled and two tensors of different shapes: a
`1 × 1` tensor with the value `1` at address `0` and a `2 × 2` tensor with the
values `2` at address `1`. -/
def mixedState : State :=
  (((Mat.new 2 2 true (Mat.new 1 1 true (State.init true)).2).2).assign
    ⟨0, 0, false⟩ ⟨1, 1, fun _ _ => 1⟩).assign ⟨1, 1, false⟩ ⟨2, 2, fun _ _ => 2⟩

/-- A state in which the memory that has not been allocated yet holds the
value `7`, with one `1 × 1` tensor with the value `1` at address `0`. -/
def junkState : State :=
  ((Mat.new 1 1 true { State.init true with w := fun _ => ⟨0, 0, fun _ _ => 7⟩ }).2).assign
    ⟨0, 0, false⟩ ⟨1, 1, fun _ _ => 1⟩

/-! ### `canonical_reshape` of `dali/array/function/typed_array.h` -/

/-- The value of a 32-bit `int` in which the arithmetic result `x` is stored:
`x` reduced modulo `2 ^ 32` into the range from `-2 ^ 31` to `2 ^ 31 - 1`
(two's complement wrap-around). -/
def wrapInt32 (x : Int) : Int := (x + 2147483648) % 4294967296 - 2147483648

/-- The body of the loop of `canonical_reshape` for the index `i`, on the pair
of `res` (an `mshadow::Shape<dstdim>`, indexed from `0`) and `residual_shape`:
`residual_shape *= src_shape[i]; int dst_index = i - src_shape.size() + dstdim;
if (dst_index >= 0) { res[dst_index] = residual_shape; residual_shape = 1; }`.
The product is formed in the 32-bit `int` `residual_shape` and wraps around;
the entries of `res` are the `int` values assigned to them. -/
def canonicalReshapeBody (dstdim : Nat) (src_shape : List Int) (st : (Nat → Int) × Int)
    (i : Nat) : (Nat → Int) × Int :=
  let residual_shape := wrapInt32 (st.2 * src_shape.getD i 0)
  let dst_index : Int := (i : Int) - (src_shape.length : Int) + (dstdim : Int)
  if dst_index ≥ 0 then (Function.update st.1 dst_index.toNat residual_shape, 1)
  else (st.1, residual_shape)

/-- `internal::canonical_reshape<dstdim>(src_shape)`: `res` starts with ones,
`residual_shape` with `1`, and `i` runs from `0` to `src_shape.size()`; the
result is the list of the `dstdim` entries of `res`. -/
def canonical_reshape (dstdim : Nat) (src_shape : List Int) : List Int :=
  (List.range dstdim).map
    ((List.range src_shape.length).foldl (canonicalReshapeBody dstdim src_shape)
      (fun _ => 1, 1)).1

/-! ### `split_str` of `utils.cpp` -/

/-- The character that `ch = ss.get()` stores once the stream is exhausted:
`EOF`, that is `-1`, converted to `char`. -/
def eofChar : Char := Char.ofNat 255

/-- The body of the loop of `split_str` for the character `ch`, on the tuple of
`tokens`, the offset of `delimiter_ptr` from `delimiter.begin()`, `inside` and
`token`. -/
def splitStrBody (delimiter : List Char) (st : List (List Char) × Nat × Nat × List Char)
    (ch : Char) : List (List Char) × Nat × Nat × List Char :=
  if ch = delimiter.getD st.2.1 (Char.ofNat 0) then
    if st.2.1 + 1 = delimiter.length then (st.1 ++ [st.2.2.2], 0, 0, [])
    else (st.1, st.2.1 + 1, st.2.2.1 + 1, st.2.2.2)
  else if st.2.2.1 > 0 then (st.1, 0, 0, st.2.2.2 ++ delimiter.take st.2.1)
  else (st.1, st.2.1, st.2.2.1, st.2.2.2 ++ [ch])

/-- `utils::split_str(original, delimiter)` on strings given by the lists of
their characters.  The loop `while (ss) { ch = ss.get(); … }` runs once for
every character of `original` and once more for the `EOF` that the failing
`get` returns; then the pending token is closed. -/
def split_str (original delimiter : List Char) : List (List Char) :=
  let st := (original ++ [eofChar]).foldl (splitStrBody delimiter) ([], 0, 0, [])
  if st.2.2.1 > 0 then st.1 ++ [st.2.2.2 ++ delimiter.take st.2.1]
  else if st.2.2.2.length > 0 then st.1 ++ [st.2.2.2.dropLast]
  else st.1

/-! ### `convert_to_indexed_minibatches` of `dali/data_processing/Paraphrase.cpp` -/

namespace paraphrase

/-- The lambda `to_index_pair` of `convert_to_indexed_minibatches`: both
sentences encoded by the vocabulary, the similarity score kept.  The method
`encode` of the vocabulary is not part of the sources; it is the argument
`encode`. -/
def to_index_pair {σ : Type} (encode : σ → List Nat) (ex : σ × σ × R) :
    List Nat × List Nat × R :=
  (encode ex.1, encode ex.2.1, ex.2.2)

/-- The body of the loop of `convert_to_indexed_minibatches` for one example:
a new minibatch is opened when the size of the last one is `minibatch_size`,
then the encoded example is appended to the last minibatch. -/
def minibatchBody {α β : Type} (f : α → β) (minibatch_size : Int) (dataset : List (List β))
    (ex : α) : List (List β) :=
  let dataset1 :=
    if ((dataset.getLastD []).length : Int) = minibatch_size then dataset ++ [[]] else dataset
  dataset1.dropLast ++ [dataset1.getLastD [] ++ [f ex]]

/-- `convert_to_indexed_minibatches(word_vocab, examples, minibatch_size)`: the
dataset starts with one empty minibatch. -/
def convert_to_indexed_minibatches {σ : Type} (word_vocab_encode : σ → List Nat)
    (examples : List (σ × σ × R)) (minibatch_size : Int) :
    List (List (List Nat × List Nat × R)) :=
  examples.foldl (minibatchBody (to_index_pair word_vocab_encode) minibatch_size) [[]]

/-- The overload of `convert_to_indexed_minibatches` for a `CharacterVocab`,
which has the same body. -/
def convert_to_indexed_minibatches_character {σ : Type} (character_vocab_encode : σ → List Nat)
    (examples : List (σ × σ × R)) (minibatch_size : Int) :
    List (List (List Nat × List Nat × R)) :=
  examples.foldl (minibatchBody (to_index_pair character_vocab_encode) minibatch_size) [[]]

end paraphrase

/-! ### `function_info_helper` of `dali/array/op/spatial/utils.cpp` -/

/-- The enumeration `PADDING_T`, declared in a header that is not part of the
sources: the two values that `function_info_helper` names, and any other
value. -/
inductive PADDING_T
  | PADDING_T_SAME
  | PADDING_T_VALID
  | other
deriving DecidableEq

/-- The fields that `function_info_helper` fills in `PoolFunctionInfo` and
`ConvFunctionInfo`. -/
structure FunctionInfo where
  batch_size : Int
  in_channels : Int
  in_h : Int
  in_w : Int
  out_h : Int
  out_w : Int
  padding_h : Int
  padding_w : Int
  odd_padding_h : Int
  odd_padding_w : Int

/-- Modelled from the spec: `internal::int_ceil(a, b)`, whose definition is not
part of the sources: the quotient `a / b` rounded up. -/
def int_ceil (a b : Int) : Int := Int.ceil ((a : ℚ) / (b : ℚ))

/-- `input_shape[dim]` for a member of `DataFormatDimMapping`; a read outside
the vector is undefined behaviour and reads `0` here. -/
def shapeAt (input_shape : List Int) (dim : Option Nat) : Int :=
  match dim with
  | some k => input_shape.getD k 0
  | none => 0

/-- `internal::function_info_helper`: the sizes read off `input_shape`, the
output sizes and the total padding for the kind of padding (`ASSERT2(false, …)`
for an unrecognised one), then the split of the total padding into its odd part
and its half, with the division and remainder of `int`. -/
def function_info_helper (input_shape : List Int) (window_h window_w stride_h stride_w : Int)
    (padding : PADDING_T) (mapping : DataFormatDimMapping) : Except String FunctionInfo :=
  let batch_size := shapeAt input_shape mapping.n_dim
  let in_channels := shapeAt input_shape mapping.c_dim
  let in_h := shapeAt input_shape mapping.h_dim
  let in_w := shapeAt input_shape mapping.w_dim
  match padding with
  | .PADDING_T_SAME =>
    let out_h := int_ceil in_h stride_h
    let out_w := int_ceil in_w stride_w
    let padding_h := max 0 ((out_h - 1) * stride_h + window_h - in_h)
    let padding_w := max 0 ((out_w - 1) * stride_w + window_w - in_w)
    .ok ⟨batch_size, in_channels, in_h, in_w, out_h, out_w, padding_h.tdiv 2, padding_w.tdiv 2,
      padding_h.tmod 2, padding_w.tmod 2⟩
  | .PADDING_T_VALID =>
    let out_h := int_ceil (in_h - window_h + 1) stride_h
    let out_w := int_ceil (in_w - window_w + 1) stride_w
    let padding_h : Int := 0
    let padding_w : Int := 0
    .ok ⟨batch_size, in_channels, in_h, in_w, out_h, out_w, padding_h.tdiv 2, padding_w.tdiv 2,
      padding_h.tmod 2, padding_w.tmod 2⟩
  | .other =>
    .error "Unrecognized value of padding passed to Pool2dFunction."

namespace Binary

/-- `Binary::eltdivide_broadcast_reversed`.  The macro `DONT_COMPILE` is defined
at the top of `binary.cu.cpp`, so the body under `#ifndef DONT_COMPILE` is left
out and the function is `return Mat<R>(1,1)`.  Modelled from the spec: the
constructor `Mat<R>(1, 1)` of `dali/tensor/Mat.h`, which is not part of the
sources: a new `1 × 1` tensor; whether its values are set to zero is the
argument `zeroed`. -/
def eltdivide_broadcast_reversed (zeroed : Bool) (_matrix1 _matrix2 : Mat) (s : TensorState) :
    Except String Mat × TensorState :=
  (.ok (Mat.new 1 1 zeroed s.mem).1, ⟨(Mat.new 1 1 zeroed s.mem).2, s.tape⟩)

/-- `Binary::eltmul_broadcast_rowwise` on two tensors: `return Mat<R>(1,1)`, as
for `eltdivide_broadcast_reversed`. -/
def eltmul_broadcast_rowwise (zeroed : Bool) (_matrix1 _row_vector : Mat) (s : TensorState) :
    Except String Mat × TensorState :=
  (.ok (Mat.new 1 1 zeroed s.mem).1, ⟨(Mat.new 1 1 zeroed s.mem).2, s.tape⟩)

/-- `Binary::eltmul_rowwise` on two tensors: `return Mat<R>(1,1)`, as for
`eltdivide_broadcast_reversed`. -/
def eltmul_rowwise (zeroed : Bool) (_matrix1 _matrix2 : Mat) (s : TensorState) :
    Except String Mat × TensorState :=
  (.ok (Mat.new 1 1 zeroed s.mem).1, ⟨(Mat.new 1 1 zeroed s.mem).2, s.tape⟩)

/-- `Binary::eltdivide_broadcast`: the assertion, then
`out = matrix1 / matrix2[0]` broadcast along dimension `0`. -/
def eltdivide_broadcast (div_grad : R → R → R) (matrix1 matrix2 : Mat) (s : TensorState) :
    Except String Mat × TensorState :=
  match assert2 (decide ((s.mem.w matrix1.m).rows = (s.mem.w matrix2.m).cols ∧
      (s.mem.w matrix2.m).rows = 1))
      "Matrices cannot be element divided with broadcast, they do not have the same dimensions." with
  | .error e => (.error e, s)
  | .ok _ =>
    let r := Mat.empty_like matrix1 s.mem
    let t := r.2.assign r.1 ((r.2.w matrix1.m).cwiseQuotient
      ((r.2.w matrix2.m).broadcast0 (r.2.w matrix1.m).rows (r.2.w matrix1.m).cols))
    (.ok r.1, s.record t (.eltdivide_broadcast matrix1 matrix2 r.1 div_grad))

/-- `Binary::eltdivide`: the broadcast forms when the second dimensions
differ and a first dimension is `1`, otherwise the assertion that the
dimensions are equal and the entrywise quotient. -/
def eltdivide (zeroed : Bool) (div_grad : R → R → R) (matrix1 matrix2 : Mat)
    (s : TensorState) : Except String Mat × TensorState :=
  if (s.mem.w matrix1.m).cols ≠ (s.mem.w matrix2.m).cols ∧
      ((s.mem.w matrix1.m).rows = 1 ∨ (s.mem.w matrix2.m).rows = 1) then
    if (s.mem.w matrix1.m).rows = 1 then eltdivide_broadcast_reversed zeroed matrix2 matrix1 s
    else eltdivide_broadcast div_grad matrix1 matrix2 s
  else
    match assert2 (decide ((s.mem.w matrix1.m).rows = (s.mem.w matrix2.m).rows ∧
        (s.mem.w matrix1.m).cols = (s.mem.w matrix2.m).cols))
        "Matrices cannot be element-wise divided, they do not have the same dimensions." with
    | .error e => (.error e, s)
    | .ok _ =>
      let r := Mat.empty_like matrix1 s.mem
      let t := r.2.assign r.1 ((r.2.w matrix1.m).cwiseQuotient (r.2.w matrix2.m))
      (.ok r.1, s.record t (.eltdivide matrix1 matrix2 r.1))

end Binary

/-- Every increment that the statements of `L` make, run in order from `s` for
the output tensor `out`, is at most `V` in absolute value: the increment of
each statement is taken at the gradient of `out` that the statement reads when
it runs. -/
def Stmt.BoundedRun (V : R) (out : Mat) : List Stmt → State → Prop
  | [], _ => True
  | st :: L, s =>
    (∀ i j, |st.inc (s.dw out.g) i j| ≤ V) ∧ Stmt.BoundedRun V out L (st.exec out s)

/-- The statement `st'` writes to the same left-hand side as `st`, and makes the
same increment wherever the increment of `st` is at most `V` in absolute
value. -/
def Stmt.AgreesWithin (V : R) (st st' : Stmt) : Prop :=
  st'.lhs = st.lhs ∧ ∀ dout i j, |st.inc dout i j| ≤ V → st'.inc dout i j = st.inc dout i j

/-- A state with two `2 × 2` tensors, at addresses `0` and `1`; the gradient of
the second has every coefficient equal to `1 / 2`. -/
def smallState : State :=
  ((Mat.new 2 2 true (Mat.new 2 2 true (State.init true)).2).2).setDw ⟨1, 1, false⟩
    ⟨2, 2, fun _ _ => 1 / 2⟩

/-! ### The pair loop of `mul_add_mul_with_bias` at the level of the pointer -/

/-- How a run of a loop over a vector ends: the loop test failed and the loop
was left (`exit`); the body read the element at a position that is not inside
the vector (`pastEnd`, undefined behaviour in the code); or the loop was still
running after the given number of iterations (`running`, with the offset of
the pointer). -/
inductive LoopEnd (σ : Type)
  | exit (s : σ)
  | pastEnd (pos : Nat) (s : σ)
  | running (ptr : Nat) (s : σ)

/-- The loop `auto matrices_ptr = matrices.begin(); while (matrices_ptr !=
(matrices.end() - 1)) { body(*matrices_ptr, *(matrices_ptr + 1)); matrices_ptr
+= 2; }`, which `MatOps::mul_add_mul_with_bias`, its closure and
`Backward::backward_mul_add_mul_with_bias` share.  The pointer is its offset
`ptr` from `matrices.begin()`, so that `matrices.end() - 1` is the offset
`size - 1` (an integer: it is `-1` for the empty vector); at most `fuel`
iterations are run. -/
def pairLoop {σ : Type} (matrices : List Mat) (body : Mat → Mat → σ → σ) :
    Nat → Nat → σ → LoopEnd σ
  | 0, ptr, s => .running ptr s
  | fuel + 1, ptr, s =>
    if (ptr : Int) = (matrices.length : Int) - 1 then .exit s
    else
      match matrices[ptr]?, matrices[ptr + 1]? with
      | some a, some b => pairLoop matrices body fuel (ptr + 2) (body a b s)
      | none, _ => .pastEnd ptr s
      | some _, none => .pastEnd (ptr + 1) s

/-- The pairs `(M_0, M_1), (M_2, M_3), …` of consecutive elements of a vector;
a last element without a partner is in no pair. -/
def pairsOf : List Mat → List (Mat × Mat)
  | a :: b :: rest => (a, b) :: pairsOf rest
  | _ => []

namespace MatOps

/-- The body of the loop of `MatOps::mul_add_mul_with_bias`:
`out.w() += (*matrices_ptr).w() * (*(matrices_ptr + 1)).w()`. -/
def mulAddMulBody (out a b : Mat) (s : State) : State :=
  s.assign out ((s.w out.m).add ((s.w a.m).mul (s.w b.m)))

/-- The loop of `MatOps::mul_add_mul_with_bias` run through the pointer, and
the statement after it, `out.w().colwise() += (*(matrices.begin() +
matrices.size() - 1)).w().col(0)`. -/
def mulAddMulFillPtr (out : Mat) (matrices : List Mat) (fuel : Nat) (s : State) :
    LoopEnd State :=
  match pairLoop matrices (mulAddMulBody out) fuel 0 s with
  | .exit t =>
    (match matrices[matrices.length - 1]? with
      | some bias => .exit (t.assign out ((t.w out.m).colwiseAdd (t.w bias.m)))
      | none => .pastEnd (matrices.length - 1) t)
  | r => r

end MatOps

/-- The statements of the closure of the vector form of
`mul_add_mul_with_bias`, gathered through the pointer: the loop, then
`GRAD(bias).noalias() += out.dw().rowwise().sum()` for
`bias = *(matrices.begin() + matrices.size() - 1)`. -/
def mulAddMulStmtsPtr (w : Nat → EigenMat) (matrices : List Mat) (fuel : Nat) :
    LoopEnd (List Stmt) :=
  match pairLoop matrices (fun a b L => L ++
      [ Stmt.addAssign (GRAD a) (fun dout => dout.mul (w b.m).transpose),
        Stmt.addAssign (GRAD b) (fun dout => (w a.m).transpose.mul dout) ]) fuel 0 [] with
  | .exit L =>
    (match matrices[matrices.length - 1]? with
      | some bias => .exit (L ++ [ Stmt.addAssign (GRAD bias) (fun dout => dout.rowwiseSum) ])
      | none => .pastEnd (matrices.length - 1) L)
  | r => r

/-- The statements of `Backward<T>::backward_mul_add_mul_with_bias()`, gathered
through the pointer: `bias->dw.noalias() += out->dw.rowwise().sum()` for
`bias = matrices.back()`, then the loop. -/
def Backward.mulAddMulWithBiasStmtsPtr (w : Nat → EigenMat) (b : Backward) (fuel : Nat) :
    LoopEnd (List Stmt) :=
  match b.matrices.getLast? with
  | some bias =>
    pairLoop b.matrices (fun x y L => L ++
      [ Stmt.addAssign (DW x) (fun dout => dout.mul (w y.m).transpose),
        Stmt.addAssign (DW y) (fun dout => (w x.m).transpose.mul dout) ]) fuel 0
      [ Stmt.addAssign (DW bias) (fun dout => dout.rowwiseSum) ]
  | none => .pastEnd 0 []

/-! ### `Layers.cpp`: `RNN` and `LSTM` -/

/-- Sequencing of two calls on a state of type `σ`: the second call runs on the
result and the state of the first; an exception of the first call propagates. -/
def thenCall {σ α β : Type} (c : σ → Except String α × σ) (k : α → σ → Except String β × σ) :
    σ → Except String β × σ :=
  fun s =>
    match c s with
    | (.ok a, t) => k a t
    | (.error e, t) => (.error e, t)

/-- What `Layers.cpp` uses of the class `Graph<T>`, whose definition is not part
of the sources: the six methods that `RNN::activate` and `LSTM::activate` call,
on a state of type `σ` that holds the graph and the memory of the tensors.
The class is a parameter of the layers. -/
structure Graph (σ : Type) where
  mul : Mat → Mat → σ → Except String Mat × σ
  add : Mat → Mat → σ → Except String Mat × σ
  add_broadcast : Mat → Mat → σ → Except String Mat × σ
  eltmul : Mat → Mat → σ → Except String Mat × σ
  sigmoid : Mat → σ → Except String Mat × σ
  tanh : Mat → σ → Except String Mat × σ

/-- The members of `RNN<T>`: the parameter tensors `Wx`, `Wh`, `b` and the
sizes. -/
structure RNN where
  Wx : Mat
  Wh : Mat
  b : Mat
  hidden_size : Int
  input_size : Int
  output_size : Int

/-- The members of `LSTM<T>`. -/
structure LSTM where
  hidden_size : Int
  input_size : Int
  input_layer : RNN
  forget_layer : RNN
  output_layer : RNN
  cell_layer : RNN

/-- `RNN<T>::activate`, that is `G.add_broadcast(G.add(G.mul(Wx, input_vector),
G.mul(Wh, prev_hidden)), b)`.  The language does not fix the order in which the
two arguments of `G.add` are evaluated; `left_first` is that order. -/
def RNN.activate {σ : Type} (G : Graph σ) (left_first : Bool) (L : RNN)
    (input_vector prev_hidden : Mat) : σ → Except String Mat × σ :=
  if left_first then
    thenCall (G.mul L.Wx input_vector) fun m1 =>
    thenCall (G.mul L.Wh prev_hidden) fun m2 =>
    thenCall (G.add m1 m2) fun sum => G.add_broadcast sum L.b
  else
    thenCall (G.mul L.Wh prev_hidden) fun m2 =>
    thenCall (G.mul L.Wx input_vector) fun m1 =>
    thenCall (G.add m1 m2) fun sum => G.add_broadcast sum L.b

/-- The first four statements of `LSTM<T>::activate`: `input_gate`,
`forget_gate`, `output_gate` and `cell_write`, in this order in the result. -/
def LSTM.gates {σ : Type} (G : Graph σ) (left_first : Bool) (L : LSTM)
    (input_vector hidden_prev : Mat) : σ → Except String (Mat × Mat × Mat × Mat) × σ :=
  thenCall (L.input_layer.activate G left_first input_vector hidden_prev) fun a1 =>
  thenCall (G.sigmoid a1) fun input_gate =>
  thenCall (L.forget_layer.activate G left_first input_vector hidden_prev) fun a2 =>
  thenCall (G.sigmoid a2) fun forget_gate =>
  thenCall (L.output_layer.activate G left_first input_vector hidden_prev) fun a3 =>
  thenCall (G.sigmoid a3) fun output_gate =>
  thenCall (L.output_layer.activate G left_first input_vector hidden_prev) fun a4 =>
  thenCall (G.tanh a4) fun cell_write =>
  fun s => (.ok (input_gate, forget_gate, output_gate, cell_write), s)

/-- `LSTM<T>::activate`: the pair `(cell_d, hidden_d)`. -/
def LSTM.activate {σ : Type} (G : Graph σ) (left_first : Bool) (L : LSTM)
    (input_vector cell_prev hidden_prev : Mat) : σ → Except String (Mat × Mat) × σ :=
  thenCall (L.input_layer.activate G left_first input_vector hidden_prev) fun a1 =>
  thenCall (G.sigmoid a1) fun input_gate =>
  thenCall (L.forget_layer.activate G left_first input_vector hidden_prev) fun a2 =>
  thenCall (G.sigmoid a2) fun forget_gate =>
  thenCall (L.output_layer.activate G left_first input_vector hidden_prev) fun a3 =>
  thenCall (G.sigmoid a3) fun output_gate =>
  thenCall (L.output_layer.activate G left_first input_vector hidden_prev) fun a4 =>
  thenCall (G.tanh a4) fun cell_write =>
  thenCall (G.eltmul forget_gate cell_prev) fun retain_cell =>
  thenCall (G.eltmul input_gate cell_write) fun write_cell =>
  thenCall (G.add retain_cell write_cell) fun cell_d =>
  thenCall (G.tanh cell_d) fun tanh_cell =>
  thenCall (G.eltmul output_gate tanh_cell) fun hidden_d =>
  fun s => (.ok (cell_d, hidden_d), s)

/-- Modelled from the spec: the class `Graph<T>` is not part of the sources; its
six methods are taken to be the primitives of the same names of `MatOps.cpp`,
which compute the value, allocate the output tensor and record the backward
closure on the tape of the state. -/
def matOpsGraph (f : Scalars) : Graph State :=
  { mul := MatOps.mul, add := MatOps.add, add_broadcast := MatOps.add_broadcast,
    eltmul := MatOps.eltmul, sigmoid := MatOps.sigmoid f, tanh := MatOps.tanh f }

/-- The value that `MatOps::add` gives to its output, with its implicit
broadcast of an operand of one column. -/
def addValue (a b : EigenMat) : EigenMat :=
  if a.cols ≠ b.cols ∧ (a.cols = 1 ∨ b.cols = 1) then
    (if a.cols = 1 then b.colwiseAdd a else a.colwiseAdd b)
  else a.add b

/-- The value of `RNN::activate` over the primitives of `MatOps.cpp`, from the
values of the parameters and of the two inputs. -/
def RNN.preActivation (Wx x Wh h b : EigenMat) : EigenMat :=
  (addValue (Wx.mul x) (Wh.mul h)).colwiseAdd b

/-- The two states are the same but for the values, the gradients and the ids
held at the addresses in `A`. -/
def AgreeOff (A : Set Nat) (s1 s2 : State) : Prop :=
  s1.next_addr = s2.next_addr ∧ s1.next_matrix = s2.next_matrix ∧ s1.tape = s2.tape ∧
  s1.backprop_enabled = s2.backprop_enabled ∧
  ∀ a, a ∉ A → s1.w a = s2.w a ∧ s1.dw a = s2.dw a ∧ s1.id a = s2.id a

/-- Calling the closure on two states that agree off `A` gives two states that
agree off `A`. -/
def ClosureOK (A : Set Nat) (c : Closure) : Prop :=
  ∀ t1 t2, AgreeOff A t1 t2 → AgreeOff A (c.run t1) (c.run t2)

/-- The two states agree off `A`, the addresses in `A` are allocated, and
every closure on the tape keeps the agreement off `A`. -/
def SimOff (A : Set Nat) (s1 s2 : State) : Prop :=
  AgreeOff A s1 s2 ∧ (∀ a ∈ A, a < s1.next_addr) ∧ ∀ c ∈ s1.tape, ClosureOK A c

/-- Neither the values nor the gradient of the tensor are held at an address
in `A`. -/
def Mat.Off (A : Set Nat) (x : Mat) : Prop := x.m ∉ A ∧ x.g ∉ A

/-- The parameters of the layer are held off `A`. -/
def RNN.Off (A : Set Nat) (L : RNN) : Prop := L.Wx.Off A ∧ L.Wh.Off A ∧ L.b.Off A

/-- The call, run from two related states, returns the same result, a good
one when it returns normally, and ends in two related states. -/
def Preserves {σ α : Type} (Sim : σ → σ → Prop) (good : α → Prop)
    (c : σ → Except String α × σ) : Prop :=
  ∀ s1 s2, Sim s1 s2 →
    (c s1).1 = (c s2).1 ∧ Sim (c s1).2 (c s2).2 ∧ ∀ r, (c s1).1 = .ok r → good r

/-- Every method of the graph, called on good operands, preserves the relation
and returns a good tensor. -/
def Graph.Respects {σ : Type} (G : Graph σ) (Sim : σ → σ → Prop) (good : Mat → Prop) : Prop :=
  (∀ x y, good x → good y → Preserves Sim good (G.mul x y)) ∧
  (∀ x y, good x → good y → Preserves Sim good (G.add x y)) ∧
  (∀ x y, good x → good y → Preserves Sim good (G.add_broadcast x y)) ∧
  (∀ x y, good x → good y → Preserves Sim good (G.eltmul x y)) ∧
  (∀ x, good x → Preserves Sim good (G.sigmoid x)) ∧
  (∀ x, good x → Preserves Sim good (G.tanh x))

/-- A call that started in `s` has ended in `t` with the new tensor `r`: the
tensors that existed in `s` have kept their values, `r` was allocated by the
call, and its value is `V`. -/
def ReturnsValue (s t : State) (r : Mat) (V : EigenMat) : Prop :=
  s.next_addr ≤ r.m ∧ r.m < t.next_addr ∧ (∀ a, a < s.next_addr → t.w a = s.w a) ∧ t.w r.m = V

/-- A state with recording enabled and fifteen `1 × 1` zero tensors, at the
addresses `0` to `14`. -/
def lstmState : State := (fun t => (Mat.new 1 1 true t).2)^[15] (State.init true)

/-- The tensor handle at the address `a`. -/
def Mat.ofAddr (a : Nat) : Mat := ⟨a, a, false⟩

/-- An `LSTM` over the tensors `0` to `11` of `lstmState`: the parameters of
`input_layer`, `forget_layer`, `output_layer` and `cell_layer`, in this
order. -/
def exampleLSTM : LSTM :=
  { hidden_size := 1, input_size := 1,
    input_layer := ⟨Mat.ofAddr 0, Mat.ofAddr 1, Mat.ofAddr 2, 1, 1, 1⟩,
    forget_layer := ⟨Mat.ofAddr 3, Mat.ofAddr 4, Mat.ofAddr 5, 1, 1, 1⟩,
    output_layer := ⟨Mat.ofAddr 6, Mat.ofAddr 7, Mat.ofAddr 8, 1, 1, 1⟩,
    cell_layer := ⟨Mat.ofAddr 9, Mat.ofAddr 10, Mat.ofAddr 11, 1, 1, 1⟩ }

/-- The state `lstmState` with another value, the `1 × 1` matrix `7`, for the
first parameter of `cell_layer` of `exampleLSTM`. -/
def lstmState2 : State := lstmState.setW (Mat.ofAddr 9) ⟨1, 1, fun _ _ => 7⟩

/-- The layers of `exampleLSTM` with the parameters of `cell_layer` permuted and
other sizes for it. -/
def exampleLSTM2 : LSTM :=
  { exampleLSTM with cell_layer := ⟨Mat.ofAddr 10, Mat.ofAddr 11, Mat.ofAddr 9, 2, 2, 2⟩ }

/-- The state after `MatOps::sigmoid` (with the scalar functions of the example,
the identity) on the `1 × 1` operand with the value `a` at address `0`, in which
the gradient of the output, at address `1`, has been set to `g`: the output has
the value `a`, and the gradient of the operand is zero. -/
def sigOutState (a g : R) : State :=
  (MatOps.sigmoid exampleScalars ⟨0, 0, false⟩
    ((Mat.new 1 1 true (State.init true)).2.assign ⟨0, 0, false⟩ ⟨1, 1, fun _ _ => a⟩)).2.setDw
    ⟨1, 1, false⟩ ⟨1, 1, fun _ _ => g⟩

/-- A state with recording enabled and three `1 × 1` tensors, at the addresses
`0`, `1` and `2`, all zero, in which the gradient of the third has been set
to `5`. -/
def clipAddState : State :=
  ((Mat.new 1 1 true (Mat.new 1 1 true (Mat.new 1 1 true (State.init true)).2).2).2).setDw
    ⟨2, 2, false⟩ ⟨1, 1, fun _ _ => 5⟩

/-- The record of the tag `add` with the operands at the addresses `0` and `1`
and the output at address `2`. -/
def clipAddRecord : Backward :=
  ⟨exampleHeader.code .add, [⟨0, 0, false⟩, ⟨1, 1, false⟩], ⟨2, 2, false⟩, 0, [], 0⟩

/-- A state with six `1 × 1` tensors: the operands at the addresses `0` to `4`
have the value `1` and the gradient `0`, the output at address `5` has the
value `1 / 2` and the gradient `1`. -/
def dispatchState : State :=
  { w := fun a => ⟨1, 1, fun _ _ => if a = 5 then 1 / 2 else 1⟩
    id := fun a => a
    dw := fun a => ⟨1, 1, fun _ _ => if a = 5 then 1 else 0⟩
    next_matrix := 6
    next_addr := 6
    tape := []
    backprop_enabled := true }

/-- The record of the given tag with the operands at the addresses `0` to `4`,
the output at address `5`, the row index `0` and the index data `{0}`. -/
def dispatchRecord (t : ops) : Backward :=
  ⟨exampleHeader.code t,
    [⟨0, 0, false⟩, ⟨1, 1, false⟩, ⟨2, 2, false⟩, ⟨3, 3, false⟩, ⟨4, 4, false⟩],
    ⟨5, 5, false⟩, 0, [0], 1⟩

/-- The state after `MatOps::add(A, A)` and `MatOps::eltmul(A, A)` on the `1 × 1`
tensor `A` with the value `3` at address `0`, with recording enabled, in which
the gradient of the output of `add`, at address `1`, has been set to `5` and
the gradient of the output of `eltmul`, at address `2`, to `7`. -/
def fanState : State :=
  (((MatOps.eltmul ⟨0, 0, false⟩ ⟨0, 0, false⟩
      (MatOps.add ⟨0, 0, false⟩ ⟨0, 0, false⟩
        ((Mat.new 1 1 true (State.init true)).2.assign ⟨0, 0, false⟩
          ⟨1, 1, fun _ _ => 3⟩)).2).2).setDw
    ⟨1, 1, false⟩ ⟨1, 1, fun _ _ => 5⟩).setDw ⟨2, 2, false⟩ ⟨1, 1, fun _ _ => 7⟩

/-- A state with recording enabled and one tensor: `A` at address `0`, a
`2 × 2` matrix of ones. -/
def squareState : State :=
  ((Mat.new 2 2 true (State.init true)).2).assign ⟨0, 0, false⟩ (EigenMat.ones 2 2)

section SynchronizedMemoryFacts

open SynchronizedMemory

theorem to_cpu_fresh (s : SynchronizedMemory) : (to_cpu s).cpu_fresh = true := by
  rcases s with ⟨mg, ag, gf, ac, mc, cf, pd, calls⟩
  cases gf <;> cases cf <;> cases ac <;> simp [to_cpu]

theorem to_gpu_fresh (s : SynchronizedMemory) : (to_gpu s).gpu_fresh = true := by
  rcases s with ⟨mg, ag, gf, ac, mc, cf, pd, calls⟩
  cases gf <;> cases cf <;> cases ag <;> simp [to_gpu]

theorem to_cpu_other (s : SynchronizedMemory) :
    (to_cpu s).gpu_fresh = s.gpu_fresh ∧ (to_cpu s).allocated_gpu = s.allocated_gpu ∧
      (to_cpu s).mem_gpu = s.mem_gpu := by
  rcases s with ⟨mg, ag, gf, ac, mc, cf, pd, calls⟩
  cases gf <;> cases cf <;> cases ac <;> simp [to_cpu]

theorem to_gpu_other (s : SynchronizedMemory) :
    (to_gpu s).cpu_fresh = s.cpu_fresh ∧ (to_gpu s).allocated_cpu = s.allocated_cpu ∧
      (to_gpu s).mem_cpu = s.mem_cpu := by
  rcases s with ⟨mg, ag, gf, ac, mc, cf, pd, calls⟩
  cases gf <;> cases cf <;> cases ag <;> simp [to_gpu]

theorem to_cpu_of_fresh (s : SynchronizedMemory) (h : s.cpu_fresh = true) : to_cpu s = s := by
  simp [to_cpu, h]

theorem to_gpu_of_fresh (s : SynchronizedMemory) (h : s.gpu_fresh = true) : to_gpu s = s := by
  simp [to_gpu, h]

theorem coherent_apply (s : SynchronizedMemory) (a : Access) (h : Coherent s) :
    Coherent (a.apply s) := by
  rcases s with ⟨mg, ag, gf, ac, mc, cf, pd, calls⟩
  rcases a with _ | _ | (_ | V) | (_ | V) <;>
    cases gf <;> cases cf <;> cases ag <;> cases ac <;>
    simp_all [Coherent, Access.apply, cpu_data, gpu_data, mutable_cpu_data, mutable_gpu_data,
      write_cpu, write_gpu, to_cpu, to_gpu, Copy]

theorem coherent_run (accs : List Access) (s : SynchronizedMemory) (h : Coherent s) :
    Coherent (Access.run s accs) := by
  induction accs generalizing s with
  | nil => exact h
  | cons a rest ih => exact ih (a.apply s) (coherent_apply s a h)

theorem coherent_constructed (s : SynchronizedMemory) (h : Constructed s) : Coherent s := by
  rcases h with ⟨n, d, dev, c, g, rfl⟩ | ⟨other, c, g, rfl⟩
  · simp [Coherent, new]
  · rcases other with ⟨mg, ag, gf, ac, mc, cf, pd, calls⟩
    cases gf <;> cases cf <;> cases pd <;>
      simp [Coherent, SynchronizedMemory.copy, copy_data_from, prefers_cpu]

theorem some_fresh_apply (s : SynchronizedMemory) (a : Access) :
    (a.apply s).cpu_fresh = true ∨ (a.apply s).gpu_fresh = true := by
  rcases a with _ | _ | (_ | V) | (_ | V)
  · exact Or.inl (to_cpu_fresh s)
  · exact Or.inr (to_gpu_fresh s)
  · exact Or.inl (to_cpu_fresh s)
  · exact Or.inl (to_cpu_fresh s)
  · exact Or.inr (to_gpu_fresh s)
  · exact Or.inr (to_gpu_fresh s)

theorem allocInv_apply (s : SynchronizedMemory) (a : Access) (h : AllocInv s) :
    AllocInv (a.apply s) ∧
      (a.apply s).allocated_cpu = (s.allocated_cpu || a.touches .cpu) ∧
      (a.apply s).allocated_gpu = (s.allocated_gpu || a.touches .gpu) := by
  rcases s with ⟨mg, ag, gf, ac, mc, cf, pd, calls⟩
  rcases a with _ | _ | (_ | V) | (_ | V) <;>
    cases gf <;> cases cf <;> cases ag <;> cases ac <;>
    simp_all [AllocInv, Access.apply, Access.touches, cpu_data, gpu_data, mutable_cpu_data,
      mutable_gpu_data, write_cpu, write_gpu, to_cpu, to_gpu, List.count_append]

theorem allocInv_run (accs : List Access) (s : SynchronizedMemory) (h : AllocInv s) :
    AllocInv (Access.run s accs) ∧
      (Access.run s accs).allocated_cpu = (s.allocated_cpu || accs.any (fun a => a.touches .cpu)) ∧
      (Access.run s accs).allocated_gpu = (s.allocated_gpu || accs.any (fun a => a.touches .gpu)) := by
  induction accs generalizing s with
  | nil => simpa [Access.run] using h
  | cons a rest ih =>
    obtain ⟨h1, h2, h3⟩ := allocInv_apply s a h
    obtain ⟨k1, k2, k3⟩ := ih (a.apply s) h1
    refine ⟨k1, ?_, ?_⟩
    · show (Access.run (a.apply s) rest).allocated_cpu = _
      rw [k2, h2, List.any_cons, Bool.or_assoc]
    · show (Access.run (a.apply s) rest).allocated_gpu = _
      rw [k3, h3, List.any_cons, Bool.or_assoc]

theorem allocInv_constructed (s : SynchronizedMemory) (h : Constructed s) : AllocInv s := by
  rcases h with ⟨n, d, dev, c, g, rfl⟩ | ⟨other, c, g, rfl⟩
  · simp [AllocInv, new]
  · rcases other with ⟨mg, ag, gf, ac, mc, cf, pd, calls⟩
    cases gf <;> cases cf <;> cases pd <;>
      simp [AllocInv, SynchronizedMemory.copy, copy_data_from, prefers_cpu]

end SynchronizedMemoryFacts

section SynchronizedMemoryClaims

open SynchronizedMemory

/-- C6. Flag transitions of the four accessors from any state: `cpu_data` ends
with `cpu_fresh` set and `gpu_fresh` unchanged, `gpu_data` ends with `gpu_fresh`
set and `cpu_fresh` unchanged, `mutable_cpu_data` ends with `cpu_fresh` set and
`gpu_fresh` cleared, `mutable_gpu_data` ends with `gpu_fresh` set and
`cpu_fresh` cleared.  An accessor copies into its own location exactly when
that location was stale and the other one fresh (the buffer then holds the
contents of the other one, and is unchanged otherwise), it never copies into
the other location nor changes the other buffer, and a read-only access to a
fresh location returns the buffer and leaves the whole memory, log of
allocations and copies included, as it was. -/
theorem accessor_flag_transitions (s : SynchronizedMemory) :
    ((cpu_data s).2.cpu_fresh = true ∧ (cpu_data s).2.gpu_fresh = s.gpu_fresh) ∧
    ((gpu_data s).2.gpu_fresh = true ∧ (gpu_data s).2.cpu_fresh = s.cpu_fresh) ∧
    ((mutable_cpu_data s).2.cpu_fresh = true ∧ (mutable_cpu_data s).2.gpu_fresh = false) ∧
    ((mutable_gpu_data s).2.gpu_fresh = true ∧ (mutable_gpu_data s).2.cpu_fresh = false) ∧
    ((Call.Copy .cpu ∈ newCalls s (cpu_data s).2 ↔ (s.cpu_fresh = false ∧ s.gpu_fresh = true)) ∧
      Call.Copy .gpu ∉ newCalls s (cpu_data s).2 ∧ (cpu_data s).2.mem_gpu = s.mem_gpu ∧
      (cpu_data s).2.mem_cpu =
        (if s.cpu_fresh = false ∧ s.gpu_fresh = true then Copy s.mem_cpu s.mem_gpu
         else s.mem_cpu)) ∧
    ((Call.Copy .cpu ∈ newCalls s (mutable_cpu_data s).2 ↔
        (s.cpu_fresh = false ∧ s.gpu_fresh = true)) ∧
      Call.Copy .gpu ∉ newCalls s (mutable_cpu_data s).2 ∧
      (mutable_cpu_data s).2.mem_gpu = s.mem_gpu ∧
      (mutable_cpu_data s).2.mem_cpu =
        (if s.cpu_fresh = false ∧ s.gpu_fresh = true then Copy s.mem_cpu s.mem_gpu
         else s.mem_cpu)) ∧
    ((Call.Copy .gpu ∈ newCalls s (gpu_data s).2 ↔ (s.gpu_fresh = false ∧ s.cpu_fresh = true)) ∧
      Call.Copy .cpu ∉ newCalls s (gpu_data s).2 ∧ (gpu_data s).2.mem_cpu = s.mem_cpu ∧
      (gpu_data s).2.mem_gpu =
        (if s.gpu_fresh = false ∧ s.cpu_fresh = true then Copy s.mem_gpu s.mem_cpu
         else s.mem_gpu)) ∧
    ((Call.Copy .gpu ∈ newCalls s (mutable_gpu_data s).2 ↔
        (s.gpu_fresh = false ∧ s.cpu_fresh = true)) ∧
      Call.Copy .cpu ∉ newCalls s (mutable_gpu_data s).2 ∧
      (mutable_gpu_data s).2.mem_cpu = s.mem_cpu ∧
      (mutable_gpu_data s).2.mem_gpu =
        (if s.gpu_fresh = false ∧ s.cpu_fresh = true then Copy s.mem_gpu s.mem_cpu
         else s.mem_gpu)) ∧
    (s.cpu_fresh = true → (cpu_data s).2 = s ∧ (cpu_data s).1 = s.mem_cpu) ∧
    (s.gpu_fresh = true → (gpu_data s).2 = s ∧ (gpu_data s).1 = s.mem_gpu) := by
  rcases s with ⟨mg, ag, gf, ac, mc, cf, pd, calls⟩
  cases gf <;> cases cf <;> cases ag <;> cases ac <;>
    simp [cpu_data, gpu_data, mutable_cpu_data, mutable_gpu_data, to_cpu, to_gpu, newCalls]

/-- Witness of C6: a memory whose GPU side alone is fresh; `cpu_data` copies
the GPU contents to the CPU side, after which a second `cpu_data` changes
nothing. -/
theorem accessor_flag_transitions_witness :
    (cpu_data (cpu_data (write_gpu (new 1 1 .DEVICE_GPU (fun _ => 0) (fun _ => 0))
        (fun _ => 7))).2).2
      = (cpu_data (write_gpu (new 1 1 .DEVICE_GPU (fun _ => 0) (fun _ => 0)) (fun _ => 7))).2 :=
  ((accessor_flag_transitions
      (cpu_data (write_gpu (new 1 1 .DEVICE_GPU (fun _ => 0) (fun _ => 0))
        (fun _ => 7))).2).2.2.2.2.2.2.2.2.1 rfl).1

/-- C7. No silent divergent copies: in every state reached from one of the two
constructors by a sequence of accessor calls, each mutable access possibly
followed at once by a write through the returned reference, the CPU buffer and
the GPU buffer hold the same contents whenever both freshness flags are set. -/
theorem no_silent_divergent_copies (s0 : SynchronizedMemory) (h0 : Constructed s0)
    (accs : List Access) :
    (Access.run s0 accs).cpu_fresh = true → (Access.run s0 accs).gpu_fresh = true →
      (Access.run s0 accs).mem_cpu.dptr_ = (Access.run s0 accs).mem_gpu.dptr_ :=
  coherent_run accs s0 (coherent_constructed s0 h0)

/-- Witness of C7: a write on the CPU side followed by a read on the GPU side
leaves both locations fresh, with equal contents. -/
theorem no_silent_divergent_copies_witness :
    (Access.run (new 2 3 .DEVICE_CPU (fun _ => 0) (fun _ => 1))
        [Access.mutable_cpu_data (some (fun k => (k : R) + 5)), Access.gpu_data]).mem_cpu.dptr_
      = (Access.run (new 2 3 .DEVICE_CPU (fun _ => 0) (fun _ => 1))
        [Access.mutable_cpu_data (some (fun k => (k : R) + 5)), Access.gpu_data]).mem_gpu.dptr_ :=
  no_silent_divergent_copies (new 2 3 .DEVICE_CPU (fun _ => 0) (fun _ => 1))
    (Or.inl ⟨2, 3, .DEVICE_CPU, fun _ => 0, fun _ => 1, rfl⟩)
    [Access.mutable_cpu_data (some (fun k => (k : R) + 5)), Access.gpu_data] rfl rfl

/-- C8. Coherence round trip: from any state, after the values `V` are written
through `mutable_cpu_data()`, a following `gpu_data()` returns `V`, and
`cpu_data()` returns `V` as well, both right after the write and after the
read on the GPU; symmetrically for a write through `mutable_gpu_data()`.  From
a state where both locations are fresh a mutable access clears the freshness
flag of the other location and changes nothing else. -/
theorem coherence_round_trip (s : SynchronizedMemory) (V : Nat → R) :
    (gpu_data (write_cpu s V)).1.dptr_ = V ∧
    (cpu_data (write_cpu s V)).1.dptr_ = V ∧
    (cpu_data (gpu_data (write_cpu s V)).2).1.dptr_ = V ∧
    (cpu_data (write_gpu s V)).1.dptr_ = V ∧
    (gpu_data (write_gpu s V)).1.dptr_ = V ∧
    (gpu_data (cpu_data (write_gpu s V)).2).1.dptr_ = V ∧
    (s.cpu_fresh = true → s.gpu_fresh = true →
      (mutable_cpu_data s).2 = { s with gpu_fresh := false } ∧
      (mutable_gpu_data s).2 = { s with cpu_fresh := false }) := by
  rcases s with ⟨mg, ag, gf, ac, mc, cf, pd, calls⟩
  cases gf <;> cases cf <;> cases ag <;> cases ac <;>
    simp [cpu_data, gpu_data, mutable_cpu_data, mutable_gpu_data, write_cpu, write_gpu,
      to_cpu, to_gpu, Copy]

/-- Witness of C8: after a CPU write and a GPU read both locations are fresh;
a mutable CPU access then clears the GPU flag only. -/
theorem coherence_round_trip_witness :
    (mutable_cpu_data (gpu_data (write_cpu (new 1 2 .DEVICE_GPU (fun _ => 0) (fun _ => 0))
        (fun _ => 3))).2).2
      = { (gpu_data (write_cpu (new 1 2 .DEVICE_GPU (fun _ => 0) (fun _ => 0))
            (fun _ => 3))).2 with gpu_fresh := false } :=
  ((coherence_round_trip
      (gpu_data (write_cpu (new 1 2 .DEVICE_GPU (fun _ => 0) (fun _ => 0)) (fun _ => 3))).2
      (fun _ => 0)).2.2.2.2.2.2 rfl rfl).1

/-- C9. From any state, the freshly constructed one included, after an accessor
call and after any sequence of later accessor calls at least one of `cpu_fresh`
and `gpu_fresh` is set. -/
theorem some_location_fresh (s : SynchronizedMemory) (a : Access) (later : List Access) :
    (Access.run (a.apply s) later).cpu_fresh = true ∨
      (Access.run (a.apply s) later).gpu_fresh = true := by
  induction later generalizing s a with
  | nil => exact some_fresh_apply s a
  | cons b rest ih => exact ih (a.apply s) b

/-- C10. Over any sequence of accessor calls on a memory created by either
constructor, `AllocSpace` is called at most once on each buffer: a buffer is
allocated exactly when the constructor allocated it or an accessor of its
location has been called, the number of its allocations is then one and zero
otherwise; an allocated flag stays set under further calls, and a location is
fresh only if it is allocated. -/
theorem allocated_at_most_once (s0 : SynchronizedMemory) (h0 : Constructed s0)
    (accs more : List Access) :
    (Access.run s0 accs).calls.count (Call.AllocSpace .cpu) ≤ 1 ∧
    (Access.run s0 accs).calls.count (Call.AllocSpace .gpu) ≤ 1 ∧
    (Access.run s0 accs).calls.count (Call.AllocSpace .cpu)
      = (if (Access.run s0 accs).allocated_cpu then 1 else 0) ∧
    (Access.run s0 accs).calls.count (Call.AllocSpace .gpu)
      = (if (Access.run s0 accs).allocated_gpu then 1 else 0) ∧
    (Access.run s0 accs).allocated_cpu
      = (s0.allocated_cpu || accs.any (fun a => a.touches .cpu)) ∧
    (Access.run s0 accs).allocated_gpu
      = (s0.allocated_gpu || accs.any (fun a => a.touches .gpu)) ∧
    ((Access.run s0 accs).allocated_cpu = true →
      (Access.run s0 (accs ++ more)).allocated_cpu = true) ∧
    ((Access.run s0 accs).allocated_gpu = true →
      (Access.run s0 (accs ++ more)).allocated_gpu = true) ∧
    ((Access.run s0 accs).cpu_fresh = true → (Access.run s0 accs).allocated_cpu = true) ∧
    ((Access.run s0 accs).gpu_fresh = true → (Access.run s0 accs).allocated_gpu = true) := by
  obtain ⟨⟨i1, i2, i3, i4⟩, a1, a2⟩ := allocInv_run accs s0 (allocInv_constructed s0 h0)
  obtain ⟨-, b1, b2⟩ := allocInv_run (accs ++ more) s0 (allocInv_constructed s0 h0)
  refine ⟨?_, ?_, i3, i4, a1, a2, ?_, ?_, i1, i2⟩
  · rw [i3]; split <;> simp
  · rw [i4]; split <;> simp
  · intro h
    rw [a1] at h
    rw [b1, List.any_append, ← Bool.or_assoc, h, Bool.true_or]
  · intro h
    rw [a2] at h
    rw [b2, List.any_append, ← Bool.or_assoc, h, Bool.true_or]

/-- Witness of C10: a memory copy-constructed from a source fresh on the GPU
and preferring the CPU, then read on the GPU and twice on the CPU: one
allocation of each buffer. -/
theorem allocated_at_most_once_witness :
    (Access.run (copy (write_gpu (new 1 1 .DEVICE_CPU (fun _ => 0) (fun _ => 0)) (fun _ => 2))
        (fun _ => 0) (fun _ => 0)).1
        [Access.gpu_data, Access.cpu_data, Access.cpu_data]).calls.count (Call.AllocSpace .cpu) ≤ 1 ∧
    (Access.run (copy (write_gpu (new 1 1 .DEVICE_CPU (fun _ => 0) (fun _ => 0)) (fun _ => 2))
        (fun _ => 0) (fun _ => 0)).1
        [Access.gpu_data, Access.cpu_data, Access.cpu_data]).calls.count (Call.AllocSpace .gpu) ≤ 1 :=
  ⟨(allocated_at_most_once _ (Or.inr ⟨_, _, _, rfl⟩)
      [Access.gpu_data, Access.cpu_data, Access.cpu_data] []).1,
   (allocated_at_most_once _ (Or.inr ⟨_, _, _, rfl⟩)
      [Access.gpu_data, Access.cpu_data, Access.cpu_data] []).2.1⟩

end SynchronizedMemoryClaims

section GradFacts

theorem grad_ok (x : Mat) (s : State) (h : (s.w x.m).rows = 1 ∧ (s.w x.m).cols = 1) :
    x.grad s = (.ok (), { s with
      dw := Function.update s.dw x.g
        (EigenMat.mk (s.dw x.g).rows (s.dw x.g).cols
          (fun i j => if i = 0 ∧ j = 0 then (s.dw x.g).coeff 0 0 + 1 else (s.dw x.g).coeff i j)) }) := by
  simp [Mat.grad, assert2, h]

theorem grad_error (x : Mat) (s : State) (h : ¬ ((s.w x.m).rows = 1 ∧ (s.w x.m).cols = 1)) :
    ∃ e, x.grad s = (.error e, s) := by
  simp [Mat.grad, assert2, h]

theorem gradTimes_spec (x : Mat) (s : State) (h : (s.w x.m).rows = 1 ∧ (s.w x.m).cols = 1)
    (k : Nat) :
    (gradTimes x k s).w = s.w ∧
      ((gradTimes x k s).dw x.g).coeff 0 0 = (s.dw x.g).coeff 0 0 + k := by
  induction k with
  | zero => simp [gradTimes]
  | succ k ih =>
    have hw : ((gradTimes x k s).w x.m).rows = 1 ∧ ((gradTimes x k s).w x.m).cols = 1 := by
      rw [ih.1]; exact h
    have e : gradTimes x (k + 1) s = (x.grad (gradTimes x k s)).2 := by
      simp [gradTimes, Function.iterate_succ_apply']
    rw [e, grad_ok x _ hw]
    refine ⟨ih.1, ?_⟩
    simp [ih.2]
    ring

end GradFacts

/-- C5. `Mat::grad()` succeeds exactly when the tensor is `1 × 1`.  On a
`1 × 1` tensor a call adds one to the single gradient cell and changes nothing
else in the state; `k` calls add `k`, each of them succeeding, so that `k`
calls on a newly constructed tensor leave its gradient equal to `k`.  On a
tensor of any other shape the call fails and leaves the state, hence the
gradient, unchanged. -/
theorem grad_scalar_seed (x : Mat) (s : State) :
    ((x.grad s).1 = .ok () ↔ ((s.w x.m).rows = 1 ∧ (s.w x.m).cols = 1)) ∧
    ((s.w x.m).rows = 1 ∧ (s.w x.m).cols = 1 →
      ((x.grad s).2.dw x.g).coeff 0 0 = (s.dw x.g).coeff 0 0 + 1 ∧
      (∀ i j, ¬ (i = 0 ∧ j = 0) → ((x.grad s).2.dw x.g).coeff i j = (s.dw x.g).coeff i j) ∧
      ((x.grad s).2.dw x.g).rows = (s.dw x.g).rows ∧
      ((x.grad s).2.dw x.g).cols = (s.dw x.g).cols ∧
      (∀ a, a ≠ x.g → (x.grad s).2.dw a = s.dw a) ∧
      (x.grad s).2.w = s.w ∧ (x.grad s).2.id = s.id ∧ (x.grad s).2.tape = s.tape ∧
      (x.grad s).2.next_matrix = s.next_matrix ∧ (x.grad s).2.next_addr = s.next_addr ∧
      (x.grad s).2.backprop_enabled = s.backprop_enabled ∧
      ∀ k, ((gradTimes x k s).dw x.g).coeff 0 0 = (s.dw x.g).coeff 0 0 + k ∧
        (x.grad (gradTimes x k s)).1 = .ok ()) ∧
    (¬ ((s.w x.m).rows = 1 ∧ (s.w x.m).cols = 1) →
      (∃ e, (x.grad s).1 = .error e) ∧ (x.grad s).2 = s) ∧
    (∀ k empty,
      ((gradTimes (Mat.new 1 1 empty s).1 k (Mat.new 1 1 empty s).2).dw
        (Mat.new 1 1 empty s).1.g).coeff 0 0 = k) := by
  refine ⟨?_, ?_, ?_, ?_⟩
  · constructor
    · intro h
      by_contra hc
      obtain ⟨e, he⟩ := grad_error x s hc
      rw [he] at h
      cases h
    · intro h
      rw [grad_ok x s h]
  · intro h
    rw [grad_ok x s h]
    refine ⟨by simp, ?_, by simp, by simp, ?_, rfl, rfl, rfl, rfl, rfl, rfl, ?_⟩
    · intro i j hij
      simp [hij]
    · intro a ha
      simp [Function.update_noteq ha]
    · intro k
      obtain ⟨hw, hk⟩ := gradTimes_spec x s h k
      refine ⟨hk, ?_⟩
      rw [grad_ok x _ (by rw [hw]; exact h)]
  · intro h
    obtain ⟨e, he⟩ := grad_error x s h
    rw [he]
    exact ⟨⟨e, rfl⟩, rfl⟩
  · intro k empty
    have h : (((Mat.new 1 1 empty s).2).w (Mat.new 1 1 empty s).1.m).rows = 1 ∧
        (((Mat.new 1 1 empty s).2).w (Mat.new 1 1 empty s).1.m).cols = 1 := by
      cases empty <;> simp [Mat.new, EigenMat.Zero]
    rw [(gradTimes_spec _ _ h k).2]
    simp [Mat.new, EigenMat.Zero]

/-- Witness of C5: on a new `1 × 1` tensor one call gives gradient `1` and two
calls give `2`; on a new `2 × 3` tensor the call fails and changes nothing. -/
theorem grad_scalar_seed_witness :
    ((gradTimes (Mat.new 1 1 true (State.init true)).1 1
        (Mat.new 1 1 true (State.init true)).2).dw
        (Mat.new 1 1 true (State.init true)).1.g).coeff 0 0 = 1 ∧
    ((gradTimes (Mat.new 1 1 true (State.init true)).1 2
        (Mat.new 1 1 true (State.init true)).2).dw
        (Mat.new 1 1 true (State.init true)).1.g).coeff 0 0 = 2 ∧
    ((∃ e, ((Mat.new 2 3 true (State.init true)).1.grad
        (Mat.new 2 3 true (State.init true)).2).1 = .error e) ∧
      ((Mat.new 2 3 true (State.init true)).1.grad (Mat.new 2 3 true (State.init true)).2).2
        = (Mat.new 2 3 true (State.init true)).2) := by
  refine ⟨?_, ?_, ?_⟩
  · simpa using (grad_scalar_seed (Mat.new 1 1 true (State.init true)).1 (State.init true)).2.2.2 1 true
  · simpa using (grad_scalar_seed (Mat.new 1 1 true (State.init true)).1 (State.init true)).2.2.2 2 true
  · exact (grad_scalar_seed (Mat.new 2 3 true (State.init true)).1
      (Mat.new 2 3 true (State.init true)).2).2.2.1 (by simp [Mat.new, State.init, EigenMat.Zero])

section TapeFacts

theorem exec_fields (out : Mat) (st : Stmt) (s : State) :
    (st.exec out s).w = s.w ∧ (st.exec out s).id = s.id ∧ (st.exec out s).tape = s.tape ∧
      (st.exec out s).next_matrix = s.next_matrix ∧ (st.exec out s).next_addr = s.next_addr ∧
      (st.exec out s).backprop_enabled = s.backprop_enabled := by
  unfold Stmt.exec
  split <;> simp

theorem exec_dw_other (out : Mat) (st : Stmt) (s : State) (a : Nat)
    (h : st.active = true → st.lhs.x.g ≠ a) : (st.exec out s).dw a = s.dw a := by
  unfold Stmt.exec
  split
  · rename_i hact
    simp [Function.update_noteq (Ne.symm (h hact))]
  · rfl

theorem exec_dw_coeff (out : Mat) (st : Stmt) (s : State) (a i j : Nat) :
    ((st.exec out s).dw a).coeff i j = (s.dw a).coeff i j + st.contrib a (s.dw out.g) i j ∧
      ((st.exec out s).dw a).rows = (s.dw a).rows ∧
      ((st.exec out s).dw a).cols = (s.dw a).cols := by
  unfold Stmt.exec Stmt.contrib
  by_cases hact : st.active = true
  · by_cases ha : st.lhs.x.g = a
    · subst ha
      simp [hact]
    · simp [hact, ha, Function.update_noteq (Ne.symm ha)]
  · simp [hact]

theorem foldl_fields (out : Mat) (L : List Stmt) (s : State) :
    (L.foldl (fun t st => st.exec out t) s).w = s.w ∧
      (L.foldl (fun t st => st.exec out t) s).id = s.id ∧
      (L.foldl (fun t st => st.exec out t) s).tape = s.tape ∧
      (L.foldl (fun t st => st.exec out t) s).next_matrix = s.next_matrix ∧
      (L.foldl (fun t st => st.exec out t) s).next_addr = s.next_addr ∧
      (L.foldl (fun t st => st.exec out t) s).backprop_enabled = s.backprop_enabled := by
  induction L generalizing s with
  | nil => simp
  | cons st L ih =>
    obtain ⟨h1, h2, h3, h4, h5, h6⟩ := ih (st.exec out s)
    obtain ⟨k1, k2, k3, k4, k5, k6⟩ := exec_fields out st s
    simp only [List.foldl_cons]
    exact ⟨h1.trans k1, h2.trans k2, h3.trans k3, h4.trans k4, h5.trans k5, h6.trans k6⟩

theorem foldl_dw_other (out : Mat) (L : List Stmt) (s : State) (a : Nat) (h : a ∉ writes L) :
    (L.foldl (fun t st => st.exec out t) s).dw a = s.dw a := by
  induction L generalizing s with
  | nil => simp
  | cons st L ih =>
    simp only [List.foldl_cons]
    have h1 : a ∉ writes L := by
      intro hm
      apply h
      unfold writes at hm ⊢
      by_cases hact : st.active = true
      · simp only [List.filter_cons, hact, if_true, List.map_cons, List.mem_cons]
        exact Or.inr hm
      · simp only [List.filter_cons, hact]
        exact hm
    rw [ih _ h1]
    apply exec_dw_other
    intro hact hg
    apply h
    unfold writes
    simp only [List.filter_cons, hact, if_true, List.map_cons, List.mem_cons]
    exact Or.inl hg.symm

theorem foldl_dw_coeff (out : Mat) (L : List Stmt) (s : State) (a i j : Nat)
    (h : out.g ∉ writes L) :
    ((L.foldl (fun t st => st.exec out t) s).dw a).coeff i j
        = (s.dw a).coeff i j + contribs L a (s.dw out.g) i j ∧
      ((L.foldl (fun t st => st.exec out t) s).dw a).rows = (s.dw a).rows ∧
      ((L.foldl (fun t st => st.exec out t) s).dw a).cols = (s.dw a).cols := by
  induction L generalizing s with
  | nil => simp [contribs]
  | cons st L ih =>
    simp only [List.foldl_cons]
    have h1 : out.g ∉ writes L := by
      intro hm
      apply h
      unfold writes at hm ⊢
      by_cases hact : st.active = true
      · simp only [List.filter_cons, hact, if_true, List.map_cons, List.mem_cons]
        exact Or.inr hm
      · simp only [List.filter_cons, hact]
        exact hm
    have h2 : (st.exec out s).dw out.g = s.dw out.g := by
      apply exec_dw_other
      intro hact hg
      apply h
      unfold writes
      simp only [List.filter_cons, hact, if_true, List.map_cons, List.mem_cons]
      exact Or.inl hg.symm
    obtain ⟨e1, e2, e3⟩ := ih (st.exec out s) h1
    obtain ⟨f1, f2, f3⟩ := exec_dw_coeff out st s a i j
    refine ⟨?_, e2.trans f2, e3.trans f3⟩
    rw [e1, f1, h2]
    simp only [contribs, List.map_cons, List.sum_cons]
    ring

theorem run_fields (c : Closure) (s : State) :
    (c.run s).w = s.w ∧ (c.run s).id = s.id ∧ (c.run s).tape = s.tape ∧
      (c.run s).next_matrix = s.next_matrix ∧ (c.run s).next_addr = s.next_addr ∧
      (c.run s).backprop_enabled = s.backprop_enabled :=
  foldl_fields c.out (c.stmts s.w) s

theorem run_dw_other (c : Closure) (s : State) (a : Nat) (h : a ∉ c.targets s.w) :
    (c.run s).dw a = s.dw a :=
  foldl_dw_other c.out (c.stmts s.w) s a h

theorem run_dw_coeff (c : Closure) (s : State) (a i j : Nat) (h : c.out.g ∉ c.targets s.w) :
    ((c.run s).dw a).coeff i j
        = (s.dw a).coeff i j + contribs (c.stmts s.w) a (s.dw c.out.g) i j ∧
      ((c.run s).dw a).rows = (s.dw a).rows ∧ ((c.run s).dw a).cols = (s.dw a).cols :=
  foldl_dw_coeff c.out (c.stmts s.w) s a i j h

end TapeFacts

section FanOut

theorem run_run_coeff (c1 c2 : Closure) (s : State) (a i j : Nat)
    (h11 : c1.out.g ∉ c1.targets s.w) (h12 : c1.out.g ∉ c2.targets s.w)
    (h22 : c2.out.g ∉ c2.targets s.w) :
    ((c1.run (c2.run s)).dw a).coeff i j
      = (s.dw a).coeff i j + (((c1.run s).dw a).coeff i j - (s.dw a).coeff i j)
          + (((c2.run s).dw a).coeff i j - (s.dw a).coeff i j) := by
  have hw : (c2.run s).w = s.w := (run_fields c2 s).1
  have hd : (c2.run s).dw c1.out.g = s.dw c1.out.g := run_dw_other c2 s _ h12
  have e1 := (run_dw_coeff c1 (c2.run s) a i j (by rw [hw]; exact h11)).1
  have e2 := (run_dw_coeff c1 s a i j h11).1
  have e3 := (run_dw_coeff c2 s a i j h22).1
  rw [hw, hd] at e1
  rw [e1, e2, e3]
  ring

end FanOut

/-- C2. Fan-out accumulation.  Let two recorded closures be such that the
gradient of the output of each is written by neither of them (the output
gradients are the same in the joint graph and in the two graphs with one
consumer each).  Then, for every gradient storage, replaying both closures, in
either order, changes each coefficient by the sum of the changes made by each
closure replayed alone from the same state.  A tensor that is both operands of
one operation receives both contributions: the closure recorded by `add(A, A)`
adds `2·dOut` to `dA` and the closure recorded by `eltmul(A, A)` adds
`2·(A∘dOut)`. -/
theorem fan_out_accumulation :
    (∀ (c1 c2 : Closure) (s : State) (a i j : Nat),
      c1.out.g ∉ c1.targets s.w → c1.out.g ∉ c2.targets s.w →
      c2.out.g ∉ c1.targets s.w → c2.out.g ∉ c2.targets s.w →
      ((c1.run (c2.run s)).dw a).coeff i j
          = (s.dw a).coeff i j + (((c1.run s).dw a).coeff i j - (s.dw a).coeff i j)
              + (((c2.run s).dw a).coeff i j - (s.dw a).coeff i j) ∧
        ((c2.run (c1.run s)).dw a).coeff i j
          = (s.dw a).coeff i j + (((c1.run s).dw a).coeff i j - (s.dw a).coeff i j)
              + (((c2.run s).dw a).coeff i j - (s.dw a).coeff i j)) ∧
    (∀ (A : Mat) (s : State), A.constant = false → A.m < s.next_addr → A.g < s.next_addr →
      s.backprop_enabled = true →
      ∃ out s1, MatOps.add A A s = (.ok out, s1) ∧ s1.tape = s.tape ++ [Closure.add A A out] ∧
        ∀ (t : State) (i j : Nat),
          (((Closure.add A A out).run t).dw A.g).coeff i j
            = (t.dw A.g).coeff i j + 2 * (t.dw out.g).coeff i j) ∧
    (∀ (A : Mat) (s : State), A.constant = false → A.m < s.next_addr → A.g < s.next_addr →
      s.backprop_enabled = true →
      ∃ out s1, MatOps.eltmul A A s = (.ok out, s1) ∧
        s1.tape = s.tape ++ [Closure.eltmul A A out] ∧
        ∀ (t : State) (i j : Nat),
          (((Closure.eltmul A A out).run t).dw A.g).coeff i j
            = (t.dw A.g).coeff i j + 2 * ((t.w A.m).coeff i j * (t.dw out.g).coeff i j)) := by
  refine ⟨?_, ?_, ?_⟩
  · intro c1 c2 s a i j h11 h12 h21 h22
    refine ⟨run_run_coeff c1 c2 s a i j h11 h12 h22, ?_⟩
    rw [run_run_coeff c2 c1 s a i j h22 h21 h11]
    ring
  · intro A s hc hm hg hb
    refine ⟨⟨s.next_addr, s.next_addr, false⟩, (MatOps.add A A s).2, ?_, ?_, ?_⟩
    · simp [MatOps.add, Mat.empty_like, Mat.new]
    · simp [MatOps.add, Mat.empty_like, State.record, State.assign, Mat.new, hb,
        graph.emplace_back]
    · intro t i j
      have hne : (⟨s.next_addr, s.next_addr, false⟩ : Mat).g ∉
          (Closure.add A A ⟨s.next_addr, s.next_addr, false⟩).targets t.w := by
        simp [Closure.targets, writes, Closure.stmts, Stmt.addAssign, GRAD, Stmt.active, hc]
        omega
      rw [(run_dw_coeff _ t A.g i j hne).1]
      simp [Closure.stmts, contribs, Stmt.contrib, Stmt.addAssign, GRAD, Stmt.active, hc,
        Closure.out]
      ring
  · intro A s hc hm hg hb
    refine ⟨⟨s.next_addr, s.next_addr, false⟩, (MatOps.eltmul A A s).2, ?_, ?_, ?_⟩
    · simp [MatOps.eltmul, assert2, Mat.empty_like, Mat.new]
    · simp [MatOps.eltmul, assert2, Mat.empty_like, State.record, State.assign, Mat.new, hb,
        graph.emplace_back]
    · intro t i j
      have hne : (⟨s.next_addr, s.next_addr, false⟩ : Mat).g ∉
          (Closure.eltmul A A ⟨s.next_addr, s.next_addr, false⟩).targets t.w := by
        simp [Closure.targets, writes, Closure.stmts, Stmt.addAssign, GRAD, Stmt.active, hc]
        omega
      rw [(run_dw_coeff _ t A.g i j hne).1]
      simp [Closure.stmts, contribs, Stmt.contrib, Stmt.addAssign, GRAD, Stmt.active, hc,
        Closure.out, EigenMat.cwiseMul]
      ring

/-- Witness of C2: the `1 × 1` tensor `A = 3` at address `0` is both operands of
an `add`, whose output at address `1` has the gradient `5`, and of an `eltmul`,
whose output at address `2` has the gradient `7`.  Alone, the closure of `add`
adds `2·5 = 10` and the closure of `eltmul` adds `2·(3·7) = 42` to `dA`;
together, in either order, they add `52`. -/
theorem fan_out_accumulation_witness :
    fanState.tape = [Closure.add ⟨0, 0, false⟩ ⟨0, 0, false⟩ ⟨1, 1, false⟩,
      Closure.eltmul ⟨0, 0, false⟩ ⟨0, 0, false⟩ ⟨2, 2, false⟩] ∧
    (fanState.w 0).coeff 0 0 = 3 ∧ (fanState.dw 0).coeff 0 0 = 0 ∧
    (fanState.dw 1).coeff 0 0 = 5 ∧ (fanState.dw 2).coeff 0 0 = 7 ∧
    (((Closure.add ⟨0, 0, false⟩ ⟨0, 0, false⟩ ⟨1, 1, false⟩).run fanState).dw 0).coeff 0 0
      = 10 ∧
    (((Closure.eltmul ⟨0, 0, false⟩ ⟨0, 0, false⟩ ⟨2, 2, false⟩).run fanState).dw 0).coeff 0 0
      = 42 ∧
    (((Closure.add ⟨0, 0, false⟩ ⟨0, 0, false⟩ ⟨1, 1, false⟩).run
        ((Closure.eltmul ⟨0, 0, false⟩ ⟨0, 0, false⟩ ⟨2, 2, false⟩).run fanState)).dw
          0).coeff 0 0 = 52 ∧
    (((Closure.eltmul ⟨0, 0, false⟩ ⟨0, 0, false⟩ ⟨2, 2, false⟩).run
        ((Closure.add ⟨0, 0, false⟩ ⟨0, 0, false⟩ ⟨1, 1, false⟩).run fanState)).dw
          0).coeff 0 0 = 52 := by
  have hw : (fanState.w 0).coeff 0 0 = 3 := by
    simp [fanState, MatOps.add, MatOps.eltmul, assert2, Mat.empty_like, Mat.new, State.init,
      State.record, State.assign, graph.emplace_back, State.setDw]
  have h0 : (fanState.dw 0).coeff 0 0 = 0 := by
    simp [fanState, MatOps.add, MatOps.eltmul, assert2, Mat.empty_like, Mat.new, State.init,
      State.record, State.assign, graph.emplace_back, State.setDw, EigenMat.Zero]
  have h1 : (fanState.dw 1).coeff 0 0 = 5 := by simp [fanState, State.setDw]
  have h2 : (fanState.dw 2).coeff 0 0 = 7 := by simp [fanState, State.setDw]
  have ht : fanState.tape = [Closure.add ⟨0, 0, false⟩ ⟨0, 0, false⟩ ⟨1, 1, false⟩,
      Closure.eltmul ⟨0, 0, false⟩ ⟨0, 0, false⟩ ⟨2, 2, false⟩] := by
    simp [fanState, MatOps.add, MatOps.eltmul, assert2, Mat.empty_like, Mat.new, State.init,
      State.record, State.assign, graph.emplace_back, State.setDw]
  obtain ⟨o1, s1, e1, -, a1⟩ := fan_out_accumulation.2.1 ⟨0, 0, false⟩
    ((Mat.new 1 1 true (State.init true)).2.assign ⟨0, 0, false⟩ ⟨1, 1, fun _ _ => 3⟩)
    rfl (by decide) (by decide) rfl
  obtain ⟨o2, s2, e2, -, a2⟩ := fan_out_accumulation.2.2 ⟨0, 0, false⟩
    (MatOps.add ⟨0, 0, false⟩ ⟨0, 0, false⟩
      ((Mat.new 1 1 true (State.init true)).2.assign ⟨0, 0, false⟩ ⟨1, 1, fun _ _ => 3⟩)).2
    rfl (by decide) (by decide) rfl
  have ho1 : o1 = ⟨1, 1, false⟩ := by
    have := congrArg Prod.fst e1
    simp [MatOps.add, Mat.empty_like, Mat.new, State.init, State.assign] at this
    exact this.symm
  have ho2 : o2 = ⟨2, 2, false⟩ := by
    have := congrArg Prod.fst e2
    simp [MatOps.add, MatOps.eltmul, assert2, Mat.empty_like, Mat.new, State.init,
      State.assign, State.record, graph.emplace_back] at this
    exact this.symm
  subst ho1 ho2
  have b1 := a1 fanState 0 0
  have b2 := a2 fanState 0 0
  have c := fan_out_accumulation.1 (Closure.add ⟨0, 0, false⟩ ⟨0, 0, false⟩ ⟨1, 1, false⟩)
    (Closure.eltmul ⟨0, 0, false⟩ ⟨0, 0, false⟩ ⟨2, 2, false⟩) fanState 0 0 0
    (by decide) (by decide) (by decide) (by decide)
  have g0 : (⟨0, 0, false⟩ : Mat).g = 0 := rfl
  have m0 : (⟨0, 0, false⟩ : Mat).m = 0 := rfl
  have g1 : (⟨1, 1, false⟩ : Mat).g = 1 := rfl
  have g2 : (⟨2, 2, false⟩ : Mat).g = 2 := rfl
  rw [g0, g1, h0, h1] at b1
  rw [g0, m0, g2, h0, hw, h2] at b2
  rw [b1, b2, h0] at c
  refine ⟨ht, hw, h0, h1, h2, ?_, ?_, ?_, ?_⟩
  · rw [b1]; norm_num
  · rw [b2]; norm_num
  · rw [c.1]; norm_num
  · rw [c.2]; norm_num

section MatmulScenario

theorem mul_eq (A B : Mat) (s : State) (h : (s.w A.m).cols = (s.w B.m).rows)
    (hA : A.m < s.next_addr) (hB : B.m < s.next_addr) :
    MatOps.mul A B s = (.ok ⟨s.next_addr, s.next_addr, false⟩,
      { w := Function.update s.w s.next_addr ((s.w A.m).mul (s.w B.m))
        id := Function.update s.id s.next_addr s.next_matrix
        dw := Function.update s.dw s.next_addr (EigenMat.Zero (s.w A.m).rows (s.w B.m).cols)
        next_matrix := s.next_matrix + 1
        next_addr := s.next_addr + 1
        tape := if s.backprop_enabled then
            s.tape ++ [Closure.mul A B ⟨s.next_addr, s.next_addr, false⟩] else s.tape
        backprop_enabled := s.backprop_enabled }) := by
  have hA' : A.m ≠ s.next_addr := by omega
  have hB' : B.m ≠ s.next_addr := by omega
  simp only [MatOps.mul, h, ne_eq, not_true_eq_false, if_false, Mat.new, State.assign,
    State.record, graph.emplace_back, Function.update_idem, Function.update_noteq hA',
    Function.update_noteq hB', Bool.false_eq_true]
  cases hb : s.backprop_enabled <;> simp

theorem sum_eq (A : Mat) (s : State) (hA : A.m < s.next_addr) :
    MatOps.sum A s = (.ok ⟨s.next_addr, s.next_addr, false⟩,
      { w := Function.update s.w s.next_addr
          (EigenMat.setFirst ⟨1, 1, (s.w s.next_addr).coeff⟩ (s.w A.m).sum)
        id := Function.update s.id s.next_addr s.next_matrix
        dw := Function.update s.dw s.next_addr (EigenMat.Zero 1 1)
        next_matrix := s.next_matrix + 1
        next_addr := s.next_addr + 1
        tape := if s.backprop_enabled then
            s.tape ++ [Closure.sum A ⟨s.next_addr, s.next_addr, false⟩] else s.tape
        backprop_enabled := s.backprop_enabled }) := by
  have hA' : A.m ≠ s.next_addr := by omega
  simp only [MatOps.sum, Mat.new, State.assign,
    State.record, graph.emplace_back, Function.update_idem, Function.update_noteq hA',
    Function.update_same, Bool.false_eq_true, if_false]
  cases hb : s.backprop_enabled <;> simp



/-- The scenario of a matrix product summed to a loss, for non-constant
operands that may share their gradient storage: the forward values, the tape,
and the gradients after `grad()` and the replay.  The closure of `mul` adds
`dOut·Bᵀ` to `dA` and `Aᵀ·dOut` to `dB`; with `dOut` of ones and zero
gradients before, `dA[i][j]` is `Σ_c B[j][c]` and `dB[j][c]` is `Σ_i A[i][j]`,
and when `A` and `B` share the gradient storage each of them holds both
contributions. -/
theorem matmul_sum_backward_general (s : State) (A B : Mat) (n k m : Nat)
    (hrec : s.backprop_enabled = true) (htape : s.tape = [])
    (hAm : A.m < s.next_addr) (hAg : A.g < s.next_addr)
    (hBm : B.m < s.next_addr) (hBg : B.g < s.next_addr)
    (hAc : A.constant = false) (hBc : B.constant = false)
    (hAn : (s.w A.m).rows = n) (hAk : (s.w A.m).cols = k)
    (hBk : (s.w B.m).rows = k) (hBc' : (s.w B.m).cols = m)
    (hdA : ∀ i j, (s.dw A.g).coeff i j = 0) (hdB : ∀ i j, (s.dw B.g).coeff i j = 0) :
    ∃ out s1 loss s2 s3,
      MatOps.mul A B s = (.ok out, s1) ∧
      (s1.w out.m).rows = n ∧ (s1.w out.m).cols = m ∧
      (∀ i j, (s1.w out.m).coeff i j
        = ∑ c ∈ Finset.range k, (s.w A.m).coeff i c * (s.w B.m).coeff c j) ∧
      MatOps.sum out s1 = (.ok loss, s2) ∧
      (s2.w loss.m).rows = 1 ∧ (s2.w loss.m).cols = 1 ∧
      (s2.w loss.m).coeff 0 0
        = ∑ i ∈ Finset.range n, ∑ j ∈ Finset.range m, (s1.w out.m).coeff i j ∧
      loss.grad s2 = (.ok (), s3) ∧
      s3.tape = [Closure.mul A B out, Closure.sum out loss] ∧
      (∀ i j, i < n → j < k → ((graph.backward s3).dw A.g).coeff i j
        = ∑ c ∈ Finset.range m, (s.w B.m).coeff j c
          + (if A.g = B.g then ∑ r ∈ Finset.range n, (s.w A.m).coeff r i else 0)) ∧
      (∀ j c, j < k → c < m → ((graph.backward s3).dw B.g).coeff j c
        = ∑ i ∈ Finset.range n, (s.w A.m).coeff i j
          + (if A.g = B.g then ∑ r ∈ Finset.range m, (s.w B.m).coeff c r else 0)) := by
  have hA1 : A.g ≠ s.next_addr := by omega
  have hA2 : A.g ≠ s.next_addr + 1 := by omega
  have hB1 : B.g ≠ s.next_addr := by omega
  have hB2 : B.g ≠ s.next_addr + 1 := by omega
  have hA3 : A.m ≠ s.next_addr := by omega
  have hA4 : A.m ≠ s.next_addr + 1 := by omega
  have hB3 : B.m ≠ s.next_addr := by omega
  have hB4 : B.m ≠ s.next_addr + 1 := by omega
  have e1 := mul_eq A B s (hAk.trans hBk.symm) hAm hBm
  simp only [hrec, if_true, htape, List.nil_append] at e1
  obtain ⟨s1, hs1⟩ : ∃ s1 : State, s1 = (MatOps.mul A B s).2 := ⟨_, rfl⟩
  rw [e1] at hs1
  simp only at hs1
  have e1' : MatOps.mul A B s = (.ok ⟨s.next_addr, s.next_addr, false⟩, s1) := by rw [e1, hs1]
  have a1 : s1.next_addr = s.next_addr + 1 := by rw [hs1]
  have e2 := sum_eq ⟨s.next_addr, s.next_addr, false⟩ s1 (by rw [a1]; simp)
  obtain ⟨s2, hs2⟩ : ∃ s2 : State, s2 = (MatOps.sum ⟨s.next_addr, s.next_addr, false⟩ s1).2 :=
    ⟨_, rfl⟩
  have e2' : MatOps.sum ⟨s.next_addr, s.next_addr, false⟩ s1
      = (.ok ⟨s.next_addr + 1, s.next_addr + 1, false⟩, s2) := by rw [hs2, e2, a1]
  rw [e2] at hs2
  simp only [hs1, if_true, List.singleton_append] at hs2
  have hg : (s2.w (⟨s.next_addr + 1, s.next_addr + 1, false⟩ : Mat).m).rows = 1 ∧
      (s2.w (⟨s.next_addr + 1, s.next_addr + 1, false⟩ : Mat).m).cols = 1 := by
    rw [hs2]; simp [EigenMat.setFirst]
  have e3 := grad_ok ⟨s.next_addr + 1, s.next_addr + 1, false⟩ s2 hg
  obtain ⟨s3, hs3⟩ : ∃ s3 : State,
      s3 = (Mat.grad ⟨s.next_addr + 1, s.next_addr + 1, false⟩ s2).2 := ⟨_, rfl⟩
  have e3' : Mat.grad ⟨s.next_addr + 1, s.next_addr + 1, false⟩ s2 = (.ok (), s3) := by
    rw [hs3, e3]
  rw [e3] at hs3
  simp only [hs2] at hs3
  have w1 : s1.w s.next_addr = (s.w A.m).mul (s.w B.m) := by rw [hs1]; simp
  have t3 : s3.tape = [Closure.mul A B ⟨s.next_addr, s.next_addr, false⟩,
      Closure.sum ⟨s.next_addr, s.next_addr, false⟩ ⟨s.next_addr + 1, s.next_addr + 1, false⟩] := by
    rw [hs3]
  have w3A : s3.w A.m = s.w A.m := by
    rw [hs3]; simp [Function.update_noteq hA3, Function.update_noteq hA4]
  have w3B : s3.w B.m = s.w B.m := by
    rw [hs3]; simp [Function.update_noteq hB3, Function.update_noteq hB4]
  have d3A : s3.dw A.g = s.dw A.g := by
    rw [hs3]; simp [Function.update_noteq hA1, Function.update_noteq hA2]
  have d3B : s3.dw B.g = s.dw B.g := by
    rw [hs3]; simp [Function.update_noteq hB1, Function.update_noteq hB2]
  have d3o : s3.dw s.next_addr = EigenMat.Zero n m := by
    rw [hs3]; simp [hAn, hBc']
  have d3l : (s3.dw (s.next_addr + 1)).coeff 0 0 = 1 := by
    rw [hs3]; simp [EigenMat.Zero]
  -- the replay
  have hb : (graph.backward s3).dw
      = ((Closure.mul A B ⟨s.next_addr, s.next_addr, false⟩).run
          ((Closure.sum ⟨s.next_addr, s.next_addr, false⟩
            ⟨s.next_addr + 1, s.next_addr + 1, false⟩).run s3)).dw := by
    simp [graph.backward, t3]
  have hsum_t : s.next_addr + 1 ∉ (Closure.sum ⟨s.next_addr, s.next_addr, false⟩
      ⟨s.next_addr + 1, s.next_addr + 1, false⟩).targets s3.w := by
    simp [Closure.targets, writes, Closure.stmts, Stmt.arrayAddAssign, GRAD, Stmt.active]
  have hsumA : A.g ∉ (Closure.sum ⟨s.next_addr, s.next_addr, false⟩
      ⟨s.next_addr + 1, s.next_addr + 1, false⟩).targets s3.w := by
    simp [Closure.targets, writes, Closure.stmts, Stmt.arrayAddAssign, GRAD, Stmt.active, hA1]
  have hsumB : B.g ∉ (Closure.sum ⟨s.next_addr, s.next_addr, false⟩
      ⟨s.next_addr + 1, s.next_addr + 1, false⟩).targets s3.w := by
    simp [Closure.targets, writes, Closure.stmts, Stmt.arrayAddAssign, GRAD, Stmt.active, hB1]
  obtain ⟨t, ht⟩ : ∃ t : State, t = (Closure.sum ⟨s.next_addr, s.next_addr, false⟩
      ⟨s.next_addr + 1, s.next_addr + 1, false⟩).run s3 := ⟨_, rfl⟩
  have tw : t.w = s3.w := by rw [ht]; exact (run_fields _ s3).1
  have tA : t.dw A.g = s.dw A.g := by rw [ht, run_dw_other _ s3 _ hsumA, d3A]
  have tB : t.dw B.g = s.dw B.g := by rw [ht, run_dw_other _ s3 _ hsumB, d3B]
  have to_ : ∀ i j, (t.dw s.next_addr).coeff i j = 1 ∧ (t.dw s.next_addr).rows = n ∧
      (t.dw s.next_addr).cols = m := by
    intro i j
    obtain ⟨c1, c2, c3⟩ := run_dw_coeff (Closure.sum ⟨s.next_addr, s.next_addr, false⟩
      ⟨s.next_addr + 1, s.next_addr + 1, false⟩) s3 s.next_addr i j hsum_t
    rw [ht]
    refine ⟨?_, ?_, ?_⟩
    · rw [c1, d3o]
      simp [Closure.stmts, contribs, Stmt.contrib, Stmt.arrayAddAssign, GRAD, Stmt.active,
        Closure.out, d3l, EigenMat.Zero]
    · rw [c2, d3o]; rfl
    · rw [c3, d3o]; rfl
  have hmul_t : s.next_addr ∉ (Closure.mul A B ⟨s.next_addr, s.next_addr, false⟩).targets t.w := by
    simp [Closure.targets, writes, Closure.stmts, Stmt.addAssign, GRAD, Stmt.active, hAc, hBc]
    omega
  refine ⟨⟨s.next_addr, s.next_addr, false⟩, s1, ⟨s.next_addr + 1, s.next_addr + 1, false⟩, s2,
    s3, e1', ?_, ?_, ?_, e2', hg.1, hg.2, ?_, e3', t3, ?_, ?_⟩
  · rw [w1]; simp [EigenMat.mul, hAn]
  · rw [w1]; simp [EigenMat.mul, hBc']
  · intro i j; rw [w1]; simp [EigenMat.mul, hAk]
  · rw [hs2]
    simp [EigenMat.setFirst, EigenMat.sum, w1, EigenMat.mul, hAn, hBc']
  · intro i j hi hj
    rw [hb, ← ht, (run_dw_coeff _ t A.g i j hmul_t).1, tA, hdA]
    by_cases hAB : A.g = B.g
    · rw [if_pos hAB]
      simp [Closure.stmts, contribs, Stmt.contrib, Stmt.addAssign, GRAD, Stmt.active, hAc, hBc,
        Closure.out, hAB.symm, EigenMat.mul, EigenMat.transpose, tw, w3A, w3B, hAn,
        (to_ 0 0).2.2, fun i j => (to_ i j).1]
    · rw [if_neg hAB]
      simp [Closure.stmts, contribs, Stmt.contrib, Stmt.addAssign, GRAD, Stmt.active, hAc, hBc,
        Closure.out, Ne.symm hAB, EigenMat.mul, EigenMat.transpose, tw, w3B, (to_ 0 0).2.2,
        fun i j => (to_ i j).1]
  · intro j c hj hc
    rw [hb, ← ht, (run_dw_coeff _ t B.g j c hmul_t).1, tB, hdB]
    by_cases hAB : A.g = B.g
    · rw [if_pos hAB]
      simp [Closure.stmts, contribs, Stmt.contrib, Stmt.addAssign, GRAD, Stmt.active, hAc, hBc,
        Closure.out, hAB, EigenMat.mul, EigenMat.transpose, tw, w3A, w3B, hAn,
        (to_ 0 0).2.2, fun i j => (to_ i j).1]
      ring
    · rw [if_neg hAB]
      simp [Closure.stmts, contribs, Stmt.contrib, Stmt.addAssign, GRAD, Stmt.active, hAc, hBc,
        Closure.out, hAB, EigenMat.mul, EigenMat.transpose, tw, w3A, hAn,
        fun i j => (to_ i j).1]

end MatmulScenario

/-- C1 (counterexample). With `A = ones(2 × 2)` used as both operands,
`out = MatOps::mul(A, A)`, `loss = MatOps::sum(out)`, `loss.grad()` and the
replay of the tape leave every entry of `dA` at `4`, the sum of the two
contributions of the closure of `mul`, where `Σ_c A[j][c]` and `Σ_i A[i][j]`
are `2`. -/
theorem matmul_same_operand_accumulates :
    (squareState.dw 0).coeff 0 0 = 0 ∧ (squareState.dw 0).coeff 0 1 = 0 ∧
    (squareState.dw 0).coeff 1 0 = 0 ∧ (squareState.dw 0).coeff 1 1 = 0 ∧
    (MatOps.mul ⟨0, 0, false⟩ ⟨0, 0, false⟩ squareState).1 = .ok ⟨1, 1, false⟩ ∧
    (MatOps.sum ⟨1, 1, false⟩ (MatOps.mul ⟨0, 0, false⟩ ⟨0, 0, false⟩ squareState).2).1
      = .ok ⟨2, 2, false⟩ ∧
    (Mat.grad ⟨2, 2, false⟩
      (MatOps.sum ⟨1, 1, false⟩ (MatOps.mul ⟨0, 0, false⟩ ⟨0, 0, false⟩ squareState).2).2).1
      = .ok () ∧
    ((graph.backward (Mat.grad ⟨2, 2, false⟩
      (MatOps.sum ⟨1, 1, false⟩ (MatOps.mul ⟨0, 0, false⟩ ⟨0, 0, false⟩ squareState).2).2).2).dw
        0).coeff 0 0 = 4 ∧
    ((graph.backward (Mat.grad ⟨2, 2, false⟩
      (MatOps.sum ⟨1, 1, false⟩ (MatOps.mul ⟨0, 0, false⟩ ⟨0, 0, false⟩ squareState).2).2).2).dw
        0).coeff 1 0 = 4 ∧
    ∑ c ∈ Finset.range 2, (squareState.w 0).coeff 0 c = 2 ∧
    ∑ i ∈ Finset.range 2, (squareState.w 0).coeff i 0 = 2 := by
  obtain ⟨out, s1, loss, s2, s3, h1, -, -, -, h5, -, -, -, h9, -, h11, -⟩ :=
    matmul_sum_backward_general squareState ⟨0, 0, false⟩ ⟨0, 0, false⟩ 2 2 2 rfl rfl
      (by decide) (by decide) (by decide) (by decide) rfl rfl rfl rfl rfl rfl
      (fun _ _ => rfl) (fun _ _ => rfl)
  have ho : out = ⟨1, 1, false⟩ := by
    have := congrArg Prod.fst h1
    simp [MatOps.mul, squareState, Mat.new, State.init, State.assign, EigenMat.ones] at this
    exact this.symm
  subst ho
  have hl : loss = ⟨2, 2, false⟩ := by
    have h := congrArg Prod.fst h5
    have es : s1 = (MatOps.mul ⟨0, 0, false⟩ ⟨0, 0, false⟩ squareState).2 := by rw [h1]
    rw [es] at h
    simp [MatOps.sum, MatOps.mul, squareState, Mat.new, State.init, State.assign,
      EigenMat.ones, State.record, graph.emplace_back] at h
    exact h.symm
  subst hl
  have e1 : (MatOps.mul ⟨0, 0, false⟩ ⟨0, 0, false⟩ squareState).2 = s1 := by rw [h1]
  have e2 : (MatOps.sum ⟨1, 1, false⟩ s1).2 = s2 := by rw [h5]
  have e3 : (Mat.grad ⟨2, 2, false⟩ s2).2 = s3 := by rw [h9]
  rw [e1, e2, e3]
  have hw : ∀ i j, (squareState.w 0).coeff i j = 1 := fun i j => by
    simp [squareState, State.assign, EigenMat.ones]
  have hd : ∀ i j, (squareState.dw 0).coeff i j = 0 := fun i j => by
    simp [squareState, State.assign, Mat.new, State.init, EigenMat.Zero]
  have v := fun i j hi hj => h11 i j hi hj
  simp only [if_true, hw] at v
  refine ⟨hd 0 0, hd 0 1, hd 1 0, hd 1 1, by rw [h1], by rw [h5], by rw [h9], ?_, ?_, ?_, ?_⟩
  · rw [v 0 0 (by decide) (by decide)]; norm_num
  · rw [v 1 0 (by decide) (by decide)]; norm_num
  · simp [hw]
  · simp [hw]

/-- C1. With recording enabled, an empty tape and zero gradients, for
non-constant tensors `A` of shape `n × k` and `B` of shape `k × m`:
`MatOps::mul(A, B)` returns the matrix product, `MatOps::sum` of it returns the
`1 × 1` sum of its entries, the tape then holds the two closures, and after
`grad()` on the loss and the replay of the tape in reverse insertion order, for
`A` and `B` with distinct gradient storage, every entry `dA[i][j]` is
`Σ_c B[j][c]` and every entry `dB[j][c]` is `Σ_i A[i][j]`; when `A` and `B`
share their gradient storage, the entry `(i, j)` of it is
`Σ_c B[j][c] + Σ_r A[r][i]`. -/
theorem matmul_sum_backward (s : State) (A B : Mat) (n k m : Nat)
    (hrec : s.backprop_enabled = true) (htape : s.tape = [])
    (hAm : A.m < s.next_addr) (hAg : A.g < s.next_addr)
    (hBm : B.m < s.next_addr) (hBg : B.g < s.next_addr)
    (hAc : A.constant = false) (hBc : B.constant = false)
    (hAn : (s.w A.m).rows = n) (hAk : (s.w A.m).cols = k)
    (hBk : (s.w B.m).rows = k) (hBc' : (s.w B.m).cols = m)
    (hdA : ∀ i j, (s.dw A.g).coeff i j = 0) (hdB : ∀ i j, (s.dw B.g).coeff i j = 0) :
    ∃ out s1 loss s2 s3,
      MatOps.mul A B s = (.ok out, s1) ∧
      (s1.w out.m).rows = n ∧ (s1.w out.m).cols = m ∧
      (∀ i j, (s1.w out.m).coeff i j
        = ∑ c ∈ Finset.range k, (s.w A.m).coeff i c * (s.w B.m).coeff c j) ∧
      MatOps.sum out s1 = (.ok loss, s2) ∧
      (s2.w loss.m).rows = 1 ∧ (s2.w loss.m).cols = 1 ∧
      (s2.w loss.m).coeff 0 0
        = ∑ i ∈ Finset.range n, ∑ j ∈ Finset.range m, (s1.w out.m).coeff i j ∧
      loss.grad s2 = (.ok (), s3) ∧
      s3.tape = [Closure.mul A B out, Closure.sum out loss] ∧
      (A.g ≠ B.g →
        (∀ i j, i < n → j < k → ((graph.backward s3).dw A.g).coeff i j
          = ∑ c ∈ Finset.range m, (s.w B.m).coeff j c) ∧
        (∀ j c, j < k → c < m → ((graph.backward s3).dw B.g).coeff j c
          = ∑ i ∈ Finset.range n, (s.w A.m).coeff i j)) ∧
      (A.g = B.g →
        ∀ i j, i < n → j < k → ((graph.backward s3).dw A.g).coeff i j
          = ∑ c ∈ Finset.range m, (s.w B.m).coeff j c
            + ∑ r ∈ Finset.range n, (s.w A.m).coeff r i) := by
  obtain ⟨out, s1, loss, s2, s3, h1, h2, h3, h4, h5, h6, h7, h8, h9, h10, h11, h12⟩ :=
    matmul_sum_backward_general s A B n k m hrec htape hAm hAg hBm hBg hAc hBc hAn hAk hBk hBc'
      hdA hdB
  refine ⟨out, s1, loss, s2, s3, h1, h2, h3, h4, h5, h6, h7, h8, h9, h10, ?_, ?_⟩
  · intro hAB
    refine ⟨fun i j hi hj => ?_, fun j c hj hc => ?_⟩
    · rw [h11 i j hi hj, if_neg hAB, add_zero]
    · rw [h12 j c hj hc, if_neg hAB, add_zero]
  · intro hAB i j hi hj
    rw [h11 i j hi hj, if_pos hAB]

/-- Witness of C1: `A = ones(2 × 3)` and `B = ones(3 × 1)` give an output whose
entries are `3`, a gradient of `A` whose entries are `1` and a gradient of `B`
whose entries are `2`. -/
theorem matmul_sum_backward_witness :
    ∃ out s1 loss s2 s3,
      MatOps.mul ⟨0, 0, false⟩ ⟨1, 1, false⟩ onesState = (.ok out, s1) ∧
      (s1.w out.m).rows = 2 ∧ (s1.w out.m).cols = 1 ∧
      (∀ i j, (s1.w out.m).coeff i j = 3) ∧
      MatOps.sum out s1 = (.ok loss, s2) ∧
      loss.grad s2 = (.ok (), s3) ∧
      (∀ i j, i < 2 → j < 3 → ((graph.backward s3).dw 0).coeff i j = 1) ∧
      (∀ j c, j < 3 → c < 1 → ((graph.backward s3).dw 1).coeff j c = 2) := by
  obtain ⟨out, s1, loss, s2, s3, h1, h2, h3, h4, h5, -, -, -, h9, -, h11, -⟩ :=
    matmul_sum_backward onesState ⟨0, 0, false⟩ ⟨1, 1, false⟩ 2 3 1 rfl rfl
      (by decide) (by decide) (by decide) (by decide) rfl rfl rfl rfl rfl rfl
      (fun _ _ => rfl) (fun _ _ => rfl)
  refine ⟨out, s1, loss, s2, s3, h1, h2, h3, ?_, h5, h9, ?_, ?_⟩
  · intro i j
    rw [h4]
    simp [onesState, Mat.new, State.assign, EigenMat.ones, Finset.sum_const]
  · intro i j hi hj
    rw [(h11 (by decide)).1 i j hi hj]
    simp [onesState, Mat.new, State.assign, EigenMat.ones, Finset.sum_const]
  · intro j c hj hc
    rw [(h11 (by decide)).2 j c hj hc]
    simp [onesState, Mat.new, State.assign, EigenMat.ones, Finset.sum_const]

section RowsPluck

theorem list_sum_map_range (f : Nat → R) (n : Nat) :
    ((List.range n).map f).sum = ∑ k ∈ Finset.range n, f k := by
  induction n with
  | zero => simp
  | succ n ih => simp [List.range_succ, Finset.sum_range_succ, ih]

theorem record_fields (s : State) (c : Closure) :
    (s.record c).w = s.w ∧ (s.record c).dw = s.dw ∧
      (s.record c).tape = (if s.backprop_enabled = true then s.tape ++ [c] else s.tape) := by
  unfold State.record
  split <;> simp [graph.emplace_back]

theorem rowsPluckFill_spec (A out : Mat) (hne : A.m ≠ out.m) (idx : List Nat) (off : Nat)
    (s : State) :
    (MatOps.rowsPluckFill A out idx off s).w A.m = s.w A.m ∧
    (MatOps.rowsPluckFill A out idx off s).dw = s.dw ∧
    (MatOps.rowsPluckFill A out idx off s).tape = s.tape ∧
    (MatOps.rowsPluckFill A out idx off s).backprop_enabled = s.backprop_enabled ∧
    ((MatOps.rowsPluckFill A out idx off s).w out.m).rows = (s.w out.m).rows ∧
    ((MatOps.rowsPluckFill A out idx off s).w out.m).cols = (s.w out.m).cols ∧
    ∀ j k, ((MatOps.rowsPluckFill A out idx off s).w out.m).coeff j k
      = if off ≤ k ∧ k < off + idx.length then (s.w A.m).coeff (idx.getD (k - off) 0) j
        else (s.w out.m).coeff j k := by
  induction idx generalizing off s with
  | nil =>
    simp only [MatOps.rowsPluckFill, List.length_nil, Nat.add_zero, true_and]
    intro j k
    rw [if_neg (by omega)]
  | cons x rest ih =>
    obtain ⟨h1, h2, h3, h4, h5, h6, h7⟩ := ih (off + 1)
      (s.assign out ((s.w out.m).setCol off ((s.w A.m).row x).transpose))
    have hA : (s.assign out ((s.w out.m).setCol off ((s.w A.m).row x).transpose)).w A.m
        = s.w A.m := by
      simp [State.assign, Function.update_noteq hne]
    simp only [MatOps.rowsPluckFill]
    refine ⟨h1.trans hA, h2, h3, h4, ?_, ?_, ?_⟩
    · rw [h5]; simp [State.assign, EigenMat.setCol]
    · rw [h6]; simp [State.assign, EigenMat.setCol]
    · intro j k
      rw [h7 j k, hA]
      by_cases hk : off + 1 ≤ k ∧ k < off + 1 + rest.length
      · have e : k - off = (k - (off + 1)) + 1 := by omega
        have hk' : off ≤ k ∧ k < off + (x :: rest).length := by
          simp only [List.length_cons]; omega
        rw [if_pos hk, if_pos hk', e]
        simp
      · rw [if_neg hk]
        by_cases hk0 : k = off
        · subst hk0
          simp [State.assign, EigenMat.setCol, EigenMat.row, EigenMat.transpose]
        · have hk' : ¬ (off ≤ k ∧ k < off + (x :: rest).length) := by
            simp only [List.length_cons]; omega
          rw [if_neg hk']
          simp [State.assign, EigenMat.setCol, hk0]

theorem rowsPluck_contribs (tgt : Target) (hact : (tgt.guarded && tgt.x.constant) = false)
    (idx : List Nat) (L : Nat) (dout : EigenMat) (r j : Nat) :
    contribs ((List.range L).map (fun i =>
        Stmt.rowAddAssign tgt (idx.getD i 0) (fun dout => (dout.col i).transpose)))
        tgt.x.g dout r j
      = ∑ k ∈ Finset.range L, (if idx.getD k 0 = r then dout.coeff j k else 0) := by
  unfold contribs
  rw [List.map_map, list_sum_map_range]
  apply Finset.sum_congr rfl
  intro k _
  simp only [Function.comp, Stmt.contrib, Stmt.rowAddAssign, Stmt.active, hact, Bool.not_false,
    and_self, if_true, EigenMat.col, EigenMat.transpose]
  by_cases h : idx.getD k 0 = r
  · rw [if_pos h.symm, if_pos h]
  · rw [if_neg (Ne.symm h), if_neg h]

theorem rowsPluck_writes (tgt : Target) (idx : List Nat) (L : Nat) (a : Nat) (h : a ≠ tgt.x.g) :
    a ∉ writes ((List.range L).map (fun i =>
        Stmt.rowAddAssign tgt (idx.getD i 0) (fun dout => (dout.col i).transpose))) := by
  unfold writes
  simp only [List.mem_map, List.mem_filter, not_exists, not_and]
  intro st hst hg
  obtain ⟨⟨i, -, rfl⟩, -⟩ := hst
  exact h hg.symm

theorem sum_indicator_not_mem (idx : List Nat) (r : Nat) (f : Nat → R) (h : r ∉ idx) :
    ∑ k ∈ Finset.range idx.length, (if idx.getD k 0 = r then f k else 0) = 0 := by
  apply Finset.sum_eq_zero
  intro k hk
  rw [Finset.mem_range] at hk
  rw [if_neg]
  intro e
  apply h
  rw [← e, List.getD_eq_getElem _ _ hk]
  exact List.getElem_mem hk

/-- C3. For a matrix `A` of shape `n × d` and an index list `idx` with entries
below `n`, `rows_pluck(A, idx)` returns the `d × |idx|` matrix whose column `k`
is row `idx[k]` of `A`.  Its backward rule, the recorded closure and
`Backward::backward_rows_pluck` alike, adds to row `r` of `dA` the sum of the
columns `k` of `dOut` with `idx[k] = r`: duplicate indices accumulate, and a row
that does not occur in `idx` is left unchanged. -/
theorem rows_pluck_gather_scatter (s : State) (A : Mat) (idx : List Nat) (n d type : Nat)
    (hAm : A.m < s.next_addr) (hAg : A.g < s.next_addr) (hAc : A.constant = false)
    (_hn : (s.w A.m).rows = n) (hd : (s.w A.m).cols = d) (_hidx : ∀ x ∈ idx, x < n) :
    ∃ out s1, MatOps.rows_pluck A idx s = (.ok out, s1) ∧
      (s1.w out.m).rows = d ∧ (s1.w out.m).cols = idx.length ∧
      (∀ k j, k < idx.length → j < d →
        (s1.w out.m).coeff j k = (s.w A.m).coeff (idx.getD k 0) j) ∧
      (s.backprop_enabled = true → s1.tape = s.tape ++ [Closure.rows_pluck A out idx]) ∧
      ∀ t : State, t.w = s1.w → ∀ r j,
        (((Closure.rows_pluck A out idx).run t).dw A.g).coeff r j
          = (t.dw A.g).coeff r j
            + ∑ k ∈ Finset.range idx.length,
                (if idx.getD k 0 = r then (t.dw out.g).coeff j k else 0) ∧
        (((Backward.ofIndices A out idx type).backward_rows_pluck t).dw A.g).coeff r j
          = (t.dw A.g).coeff r j
            + ∑ k ∈ Finset.range idx.length,
                (if idx.getD k 0 = r then (t.dw out.g).coeff j k else 0) ∧
        (r ∉ idx →
          (((Closure.rows_pluck A out idx).run t).dw A.g).coeff r j = (t.dw A.g).coeff r j ∧
          (((Backward.ofIndices A out idx type).backward_rows_pluck t).dw A.g).coeff r j
            = (t.dw A.g).coeff r j) := by
  have hne : A.m ≠ (⟨s.next_addr, s.next_addr, false⟩ : Mat).m := by
    show A.m ≠ s.next_addr
    omega
  have hge : s.next_addr ≠ A.g := by omega
  obtain ⟨f1, f2, f3, f4, f5, f6, f7⟩ := rowsPluckFill_spec A ⟨s.next_addr, s.next_addr, false⟩
    hne idx 0 (Mat.new (s.w A.m).cols idx.length false s).2
  have hwA : (Mat.new (s.w A.m).cols idx.length false s).2.w A.m = s.w A.m := by
    simp [Mat.new, Function.update_noteq hne]
  have hw2 : (MatOps.rows_pluck A idx s).2.w
      = (MatOps.rowsPluckFill A ⟨s.next_addr, s.next_addr, false⟩ idx 0
          (Mat.new (s.w A.m).cols idx.length false s).2).w :=
    (record_fields _ _).1
  have hcols : ((MatOps.rows_pluck A idx s).2.w s.next_addr).cols = idx.length := by
    rw [hw2]
    exact f6.trans (by simp [Mat.new])
  refine ⟨⟨s.next_addr, s.next_addr, false⟩, (MatOps.rows_pluck A idx s).2, ?_, ?_, hcols, ?_, ?_, ?_⟩
  · simp [MatOps.rows_pluck, Mat.new]
  · rw [hw2]
    exact f5.trans (by simp [Mat.new, hd])
  · intro k j hk hj
    have := f7 j k
    rw [if_pos (by omega), hwA] at this
    rw [hw2]
    simpa using this
  · intro hb
    show ((MatOps.rowsPluckFill A ⟨s.next_addr, s.next_addr, false⟩ idx 0
      (Mat.new (s.w A.m).cols idx.length false s).2).record
      (Closure.rows_pluck A ⟨s.next_addr, s.next_addr, false⟩ idx)).tape = _
    rw [(record_fields _ _).2.2, f4, f3]
    simp [Mat.new, hb]
  · intro t ht r j
    have hc : (t.w (⟨s.next_addr, s.next_addr, false⟩ : Mat).m).cols = idx.length := by
      rw [ht]; exact hcols
    have e1 : (((Closure.rows_pluck A ⟨s.next_addr, s.next_addr, false⟩ idx).run t).dw A.g).coeff r j
        = (t.dw A.g).coeff r j + ∑ k ∈ Finset.range idx.length,
            (if idx.getD k 0 = r then (t.dw s.next_addr).coeff j k else 0) := by
      have hw : (⟨s.next_addr, s.next_addr, false⟩ : Mat).g ∉
          (Closure.rows_pluck A ⟨s.next_addr, s.next_addr, false⟩ idx).targets t.w :=
        rowsPluck_writes (GRAD A) idx _ _ hge
      rw [(run_dw_coeff _ t A.g r j hw).1]
      congr 1
      simp only [Closure.stmts, Closure.out, hc]
      exact rowsPluck_contribs (GRAD A) (by simp [GRAD, hAc]) idx idx.length _ r j
    have e2 : (((Backward.ofIndices A ⟨s.next_addr, s.next_addr, false⟩ idx
          type).backward_rows_pluck t).dw A.g).coeff r j
        = (t.dw A.g).coeff r j + ∑ k ∈ Finset.range idx.length,
            (if idx.getD k 0 = r then (t.dw s.next_addr).coeff j k else 0) := by
      have hw : (⟨s.next_addr, s.next_addr, false⟩ : Mat).g ∉
          writes (Backward.ofIndices A ⟨s.next_addr, s.next_addr, false⟩ idx type).rowsPluckStmts :=
        rowsPluck_writes (DW A) idx _ _ hge
      have h := (foldl_dw_coeff ⟨s.next_addr, s.next_addr, false⟩
        (Backward.ofIndices A ⟨s.next_addr, s.next_addr, false⟩ idx type).rowsPluckStmts
        t A.g r j hw).1
      refine h.trans ?_
      congr 1
      exact rowsPluck_contribs (DW A) (by simp [DW]) idx idx.length _ r j
    refine ⟨e1, e2, ?_⟩
    intro hr
    rw [e1, e2, sum_indicator_not_mem idx r _ hr]
    simp

/-- Witness of C3: `idx = [0, 0, 2]` on a `3 × 4` matrix with `dOut` all ones:
in column `3` of `dA` the entry of row `0` is `2`, that of row `2` is `1` and
that of row `1` is `0`, for the closure and for `Backward::backward_rows_pluck`. -/
theorem rows_pluck_gather_scatter_witness :
      ((((Closure.rows_pluck ⟨0, 0, false⟩ ⟨1, 1, false⟩ [0, 0, 2]).run
          ((MatOps.rows_pluck ⟨0, 0, false⟩ [0, 0, 2]
            (Mat.new 3 4 true (State.init true)).2).2.setDw ⟨1, 1, false⟩
              (EigenMat.ones 4 3))).dw 0).coeff 0 3 = 2 ∧
       (((Closure.rows_pluck ⟨0, 0, false⟩ ⟨1, 1, false⟩ [0, 0, 2]).run
          ((MatOps.rows_pluck ⟨0, 0, false⟩ [0, 0, 2]
            (Mat.new 3 4 true (State.init true)).2).2.setDw ⟨1, 1, false⟩
              (EigenMat.ones 4 3))).dw 0).coeff 2 3 = 1 ∧
       (((Closure.rows_pluck ⟨0, 0, false⟩ ⟨1, 1, false⟩ [0, 0, 2]).run
          ((MatOps.rows_pluck ⟨0, 0, false⟩ [0, 0, 2]
            (Mat.new 3 4 true (State.init true)).2).2.setDw ⟨1, 1, false⟩
              (EigenMat.ones 4 3))).dw 0).coeff 1 3 = 0) ∧
      ((((Backward.ofIndices ⟨0, 0, false⟩ ⟨1, 1, false⟩ [0, 0, 2] 0).backward_rows_pluck
          ((MatOps.rows_pluck ⟨0, 0, false⟩ [0, 0, 2]
            (Mat.new 3 4 true (State.init true)).2).2.setDw ⟨1, 1, false⟩
              (EigenMat.ones 4 3))).dw 0).coeff 0 3 = 2 ∧
       (((Backward.ofIndices ⟨0, 0, false⟩ ⟨1, 1, false⟩ [0, 0, 2] 0).backward_rows_pluck
          ((MatOps.rows_pluck ⟨0, 0, false⟩ [0, 0, 2]
            (Mat.new 3 4 true (State.init true)).2).2.setDw ⟨1, 1, false⟩
              (EigenMat.ones 4 3))).dw 0).coeff 2 3 = 1 ∧
       (((Backward.ofIndices ⟨0, 0, false⟩ ⟨1, 1, false⟩ [0, 0, 2] 0).backward_rows_pluck
          ((MatOps.rows_pluck ⟨0, 0, false⟩ [0, 0, 2]
            (Mat.new 3 4 true (State.init true)).2).2.setDw ⟨1, 1, false⟩
              (EigenMat.ones 4 3))).dw 0).coeff 1 3 = 0) := by
  obtain ⟨out, s1, h1, -, -, -, -, h6⟩ :=
    rows_pluck_gather_scatter (Mat.new 3 4 true (State.init true)).2 ⟨0, 0, false⟩ [0, 0, 2] 3 4 0
      (by decide) (by decide) rfl rfl rfl (by decide)
  obtain rfl : out = ⟨1, 1, false⟩ :=
    (Except.ok.inj (show Except.ok (⟨1, 1, false⟩ : Mat) = Except.ok out from
      congrArg Prod.fst h1)).symm
  obtain rfl : s1 = (MatOps.rows_pluck ⟨0, 0, false⟩ [0, 0, 2]
      (Mat.new 3 4 true (State.init true)).2).2 := (congrArg Prod.snd h1).symm
  have z : ∀ r, (((MatOps.rows_pluck ⟨0, 0, false⟩ [0, 0, 2]
      (Mat.new 3 4 true (State.init true)).2).2.setDw ⟨1, 1, false⟩
        (EigenMat.ones 4 3)).dw 0).coeff r 3 = 0 := by
    intro r
    simp [State.setDw, MatOps.rows_pluck, MatOps.rowsPluckFill, State.record, State.assign,
      graph.emplace_back, Mat.new, State.init, EigenMat.Zero]
  have o : ∀ k, (((MatOps.rows_pluck ⟨0, 0, false⟩ [0, 0, 2]
      (Mat.new 3 4 true (State.init true)).2).2.setDw ⟨1, 1, false⟩
        (EigenMat.ones 4 3)).dw 1).coeff 3 k = 1 := by
    intro k
    simp [State.setDw, EigenMat.ones]
  have key := h6 ((MatOps.rows_pluck ⟨0, 0, false⟩ [0, 0, 2]
      (Mat.new 3 4 true (State.init true)).2).2.setDw ⟨1, 1, false⟩ (EigenMat.ones 4 3)) rfl
  have h0 := (key 0 3).1
  have h2 := (key 2 3).1
  have h1' := (key 1 3).1
  have k0 := (key 0 3).2.1
  have k2 := (key 2 3).2.1
  have k1 := (key 1 3).2.1
  norm_num [z, o, Finset.sum_range_succ] at h0 h2 h1' k0 k2 k1
  exact ⟨⟨h0, h2, h1'⟩, k0, k2, k1⟩

end RowsPluck

section AdjointFacts

theorem adjointIn_of_spec (op : State → Except String Mat × State) (X : Mat) (s : State)
    (c : Closure) (F : EigenMat → EigenMat)
    (hspec : ∀ V : EigenMat, V.rows = (s.w X.m).rows → V.cols = (s.w X.m).cols →
      ∃ s1, op (s.setW X V) = (.ok ⟨s.next_addr, s.next_addr, false⟩, s1) ∧
        s1.w = Function.update (Function.update s.w X.m V) s.next_addr (F V) ∧
        s1.tape = s.tape ++ [c])
    (hshape : ∀ V V' : EigenMat, V.rows = V'.rows → V.cols = V'.cols →
      (F V).rows = (F V').rows ∧ (F V).cols = (F V').cols)
    (hout : c.out = ⟨s.next_addr, s.next_addr, false⟩)
    (htargets : ∀ w, s.next_addr ∉ c.targets w)
    (halg : ∀ X' G : Nat → Nat → R,
      inner (F ⟨(s.w X.m).rows, (s.w X.m).cols, X'⟩).rows
          (F ⟨(s.w X.m).rows, (s.w X.m).cols, X'⟩).cols
          (fun i j => (F ⟨(s.w X.m).rows, (s.w X.m).cols, X'⟩).coeff i j
            - (F ⟨(s.w X.m).rows, (s.w X.m).cols, fun _ _ => 0⟩).coeff i j) G
        = inner (s.w X.m).rows (s.w X.m).cols X'
            (fun i j => contribs
              (c.stmts (Function.update
                (Function.update s.w X.m ⟨(s.w X.m).rows, (s.w X.m).cols, X'⟩) s.next_addr
                (F ⟨(s.w X.m).rows, (s.w X.m).cols, X'⟩)))
              X.g ⟨(F ⟨(s.w X.m).rows, (s.w X.m).cols, X'⟩).rows,
                (F ⟨(s.w X.m).rows, (s.w X.m).cols, X'⟩).cols, G⟩ i j)) :
    AdjointIn op X s := by
  intro X' G
  obtain ⟨s0, e0, w0, -⟩ := hspec ⟨(s.w X.m).rows, (s.w X.m).cols, fun _ _ => 0⟩ rfl rfl
  obtain ⟨s1, e1, w1, t1⟩ := hspec ⟨(s.w X.m).rows, (s.w X.m).cols, X'⟩ rfl rfl
  have hs := hshape ⟨(s.w X.m).rows, (s.w X.m).cols, fun _ _ => 0⟩
    ⟨(s.w X.m).rows, (s.w X.m).cols, X'⟩ rfl rfl
  have v0 : s0.w s.next_addr = F ⟨(s.w X.m).rows, (s.w X.m).cols, fun _ _ => 0⟩ := by
    rw [w0]; simp
  have v1 : s1.w s.next_addr = F ⟨(s.w X.m).rows, (s.w X.m).cols, X'⟩ := by
    rw [w1]; simp
  refine ⟨_, s0, _, s1, c, e0, e1, t1, ?_, ?_, ?_⟩
  · show (s0.w s.next_addr).rows = (s1.w s.next_addr).rows
    rw [v0, v1]; exact hs.1
  · show (s0.w s.next_addr).cols = (s1.w s.next_addr).cols
    rw [v0, v1]; exact hs.2
  · show inner (s1.w s.next_addr).rows (s1.w s.next_addr).cols
        (fun i j => (s1.w s.next_addr).coeff i j - (s0.w s.next_addr).coeff i j) G = _
    rw [v0, v1, halg X' G]
    unfold inner
    apply Finset.sum_congr rfl
    intro i _
    apply Finset.sum_congr rfl
    intro j _
    beta_reduce
    congr 1
    have hT : c.out.g ∉ c.targets
        (s1.setDw ⟨s.next_addr, s.next_addr, false⟩
          ⟨(F ⟨(s.w X.m).rows, (s.w X.m).cols, X'⟩).rows,
            (F ⟨(s.w X.m).rows, (s.w X.m).cols, X'⟩).cols, G⟩).w := by
      rw [hout]; exact htargets _
    rw [(run_dw_coeff c (s1.setDw ⟨s.next_addr, s.next_addr, false⟩
          ⟨(F ⟨(s.w X.m).rows, (s.w X.m).cols, X'⟩).rows,
            (F ⟨(s.w X.m).rows, (s.w X.m).cols, X'⟩).cols, G⟩) X.g i j hT).1, hout]
    simp only [State.setDw, Function.update_same, add_sub_cancel_left, w1]

theorem adjoint_mul (s : State) (A B : Mat) (hrec : s.backprop_enabled = true)
    (hAm : A.m < s.next_addr) (hAg : A.g < s.next_addr) (hBm : B.m < s.next_addr)
    (hBg : B.g < s.next_addr) (hm : A.m ≠ B.m) (hg : A.g ≠ B.g)
    (hAc : A.constant = false) (hBc : B.constant = false)
    (hshape : (s.w A.m).cols = (s.w B.m).rows) :
    AdjointIn (MatOps.mul A B) A s ∧ AdjointIn (MatOps.mul A B) B s := by
  have hA1 : A.m ≠ s.next_addr := by omega
  have hB1 : B.m ≠ s.next_addr := by omega
  have hA2 : s.next_addr ≠ A.g := by omega
  have hB2 : s.next_addr ≠ B.g := by omega
  constructor
  · apply adjointIn_of_spec (MatOps.mul A B) A s
      (Closure.mul A B ⟨s.next_addr, s.next_addr, false⟩) (fun V => V.mul (s.w B.m))
    · intro V hr hc
      refine ⟨(MatOps.mul A B (s.setW A V)).2, ?_, ?_, ?_⟩
      · simp [MatOps.mul, State.setW, Mat.new, Function.update_noteq hm.symm, hc, hshape]
      · simp [MatOps.mul, State.setW, Mat.new, Function.update_noteq hm.symm, hc, hshape,
          State.assign, State.record, hrec, graph.emplace_back, Function.update_noteq hA1,
          Function.update_noteq hB1]
      · simp [MatOps.mul, State.setW, Mat.new, Function.update_noteq hm.symm, hc, hshape,
          State.assign, State.record, hrec, graph.emplace_back]
    · intro V V' hr hc
      simp [EigenMat.mul, hr]
    · rfl
    · intro w
      simp [Closure.targets, writes, Closure.stmts, Stmt.addAssign, GRAD, Stmt.active, hAc, hBc,
        hA2, hB2]
    · intro X' G
      simp only [Closure.stmts, contribs, Stmt.contrib, Stmt.addAssign, GRAD, Stmt.active, hAc,
        hBc, EigenMat.mul, EigenMat.transpose, inner, Function.update_noteq hB1,
        Function.update_noteq hm.symm, Function.update_same, Function.update_noteq hA1,
        List.map_cons, List.map_nil, List.sum_cons, List.sum_nil, hg.symm, Bool.and_false,
        Bool.not_false, and_true, and_false, if_true, if_false, true_and, add_zero, zero_mul,
        Finset.sum_const_zero, sub_zero]
      apply Finset.sum_congr rfl
      intro i _
      simp only [Finset.sum_mul, Finset.mul_sum]
      rw [Finset.sum_comm]
      apply Finset.sum_congr rfl
      intro c _
      apply Finset.sum_congr rfl
      intro j _
      ring
  · apply adjointIn_of_spec (MatOps.mul A B) B s
      (Closure.mul A B ⟨s.next_addr, s.next_addr, false⟩) (fun V => (s.w A.m).mul V)
    · intro V hr hc
      refine ⟨(MatOps.mul A B (s.setW B V)).2, ?_, ?_, ?_⟩
      · simp [MatOps.mul, State.setW, Mat.new, Function.update_noteq hm, hr, hshape]
      · simp [MatOps.mul, State.setW, Mat.new, Function.update_noteq hm, hr, hshape,
          State.assign, State.record, hrec, graph.emplace_back, Function.update_noteq hA1,
          Function.update_noteq hB1]
      · simp [MatOps.mul, State.setW, Mat.new, Function.update_noteq hm, hr, hshape,
          State.assign, State.record, hrec, graph.emplace_back]
    · intro V V' hr hc
      simp [EigenMat.mul, hc]
    · rfl
    · intro w
      simp [Closure.targets, writes, Closure.stmts, Stmt.addAssign, GRAD, Stmt.active, hAc, hBc,
        hA2, hB2]
    · intro X' G
      simp only [Closure.stmts, contribs, Stmt.contrib, Stmt.addAssign, GRAD, Stmt.active, hAc,
        hBc, EigenMat.mul, EigenMat.transpose, inner, Function.update_noteq hB1,
        Function.update_noteq hm, Function.update_same, Function.update_noteq hA1,
        List.map_cons, List.map_nil, List.sum_cons, List.sum_nil, hg, Bool.and_false,
        Bool.not_false, and_true, and_false, if_true, if_false, true_and, add_zero, zero_add,
        mul_zero, Finset.sum_const_zero, sub_zero]
      rw [hshape]
      simp only [Finset.sum_mul, Finset.mul_sum]
      rw [Finset.sum_comm]
      conv_rhs => rw [Finset.sum_comm]
      apply Finset.sum_congr rfl
      intro j _
      rw [Finset.sum_comm]
      apply Finset.sum_congr rfl
      intro c _
      apply Finset.sum_congr rfl
      intro i _
      ring

end AdjointFacts

section AdjointBinary

theorem adjoint_add (s : State) (A B : Mat) (hrec : s.backprop_enabled = true)
    (hAm : A.m < s.next_addr) (hAg : A.g < s.next_addr) (hBm : B.m < s.next_addr)
    (hBg : B.g < s.next_addr) (hm : A.m ≠ B.m) (hg : A.g ≠ B.g)
    (hAc : A.constant = false) (hBc : B.constant = false)
    (hrows : (s.w A.m).rows = (s.w B.m).rows) (hcols : (s.w A.m).cols = (s.w B.m).cols) :
    AdjointIn (MatOps.add A B) A s ∧ AdjointIn (MatOps.add A B) B s := by
  have hA1 : A.m ≠ s.next_addr := by omega
  have hB1 : B.m ≠ s.next_addr := by omega
  have hA2 : s.next_addr ≠ A.g := by omega
  have hB2 : s.next_addr ≠ B.g := by omega
  constructor
  · apply adjointIn_of_spec (MatOps.add A B) A s
      (Closure.add A B ⟨s.next_addr, s.next_addr, false⟩) (fun V => V.add (s.w B.m))
    · intro V hr hc
      refine ⟨(MatOps.add A B (s.setW A V)).2, ?_, ?_, ?_⟩
      · simp [MatOps.add, assert2, State.setW, Mat.new, Mat.empty_like,
          Function.update_noteq hm.symm, hr, hc, hrows, hcols]
      · simp [MatOps.add, assert2, State.setW, Mat.new, Mat.empty_like,
          Function.update_noteq hm.symm, hr, hc, hrows, hcols,
          State.assign, State.record, hrec, graph.emplace_back, Function.update_noteq hA1,
          Function.update_noteq hB1]
      · simp [MatOps.add, assert2, State.setW, Mat.new, Mat.empty_like,
          Function.update_noteq hm.symm, hr, hc, hrows, hcols,
          State.assign, State.record, hrec, graph.emplace_back]
    · intro V V' hr hc
      simp [EigenMat.add, hr, hc]
    · rfl
    · intro w
      simp [Closure.targets, writes, Closure.stmts, Stmt.addAssign, Stmt.subAssign, GRAD,
        Stmt.active, hAc, hBc, hA2, hB2]
    · intro X' G
      simp only [Closure.stmts, contribs, Stmt.contrib, Stmt.addAssign, Stmt.subAssign,
        Stmt.arrayAddAssign, Stmt.rowAddAssign, GRAD, Stmt.active, hAc, hBc, EigenMat.mul,
        EigenMat.transpose, EigenMat.add, EigenMat.sub, EigenMat.neg, EigenMat.cwiseMul,
        EigenMat.colwiseAdd, EigenMat.colwiseSub, EigenMat.colwiseMul, EigenMat.rowwiseSum,
        inner, Function.update_noteq hB1, Function.update_noteq hA1, Function.update_same,
        List.map_cons, List.map_nil, List.sum_cons, List.sum_nil, Bool.and_false,
        Bool.not_false, and_true, and_false, if_true, if_false, true_and, add_zero, zero_add,
        mul_zero, zero_mul, Finset.sum_const_zero, sub_zero, neg_zero, zero_sub, add_sub_cancel_right,
        add_sub_cancel_left, sub_sub_cancel_left, sub_self, neg_neg, sub_neg_eq_add, Function.update_noteq hm.symm, hg.symm]
  · apply adjointIn_of_spec (MatOps.add A B) B s
      (Closure.add A B ⟨s.next_addr, s.next_addr, false⟩) (fun V => (s.w A.m).add V)
    · intro V hr hc
      refine ⟨(MatOps.add A B (s.setW B V)).2, ?_, ?_, ?_⟩
      · simp [MatOps.add, assert2, State.setW, Mat.new, Mat.empty_like,
          Function.update_noteq hm, hr, hc, hrows, hcols]
      · simp [MatOps.add, assert2, State.setW, Mat.new, Mat.empty_like,
          Function.update_noteq hm, hr, hc, hrows, hcols,
          State.assign, State.record, hrec, graph.emplace_back, Function.update_noteq hA1,
          Function.update_noteq hB1]
      · simp [MatOps.add, assert2, State.setW, Mat.new, Mat.empty_like,
          Function.update_noteq hm, hr, hc, hrows, hcols,
          State.assign, State.record, hrec, graph.emplace_back]
    · intro V V' hr hc
      simp [EigenMat.add]
    · rfl
    · intro w
      simp [Closure.targets, writes, Closure.stmts, Stmt.addAssign, Stmt.subAssign, GRAD,
        Stmt.active, hAc, hBc, hA2, hB2]
    · intro X' G
      simp only [Closure.stmts, contribs, Stmt.contrib, Stmt.addAssign, Stmt.subAssign,
        Stmt.arrayAddAssign, Stmt.rowAddAssign, GRAD, Stmt.active, hAc, hBc, EigenMat.mul,
        EigenMat.transpose, EigenMat.add, EigenMat.sub, EigenMat.neg, EigenMat.cwiseMul,
        EigenMat.colwiseAdd, EigenMat.colwiseSub, EigenMat.colwiseMul, EigenMat.rowwiseSum,
        inner, Function.update_noteq hB1, Function.update_noteq hA1, Function.update_same,
        List.map_cons, List.map_nil, List.sum_cons, List.sum_nil, Bool.and_false,
        Bool.not_false, and_true, and_false, if_true, if_false, true_and, add_zero, zero_add,
        mul_zero, zero_mul, Finset.sum_const_zero, sub_zero, neg_zero, zero_sub, add_sub_cancel_right,
        add_sub_cancel_left, sub_sub_cancel_left, sub_self, neg_neg, sub_neg_eq_add, Function.update_noteq hm, hg]
      all_goals (rw [hrows, hcols])


theorem adjoint_sub (s : State) (A B : Mat) (hrec : s.backprop_enabled = true)
    (hAm : A.m < s.next_addr) (hAg : A.g < s.next_addr) (hBm : B.m < s.next_addr)
    (hBg : B.g < s.next_addr) (hm : A.m ≠ B.m) (hg : A.g ≠ B.g)
    (hAc : A.constant = false) (hBc : B.constant = false)
    (hrows : (s.w A.m).rows = (s.w B.m).rows) (hcols : (s.w A.m).cols = (s.w B.m).cols) :
    AdjointIn (MatOps.sub A B) A s ∧ AdjointIn (MatOps.sub A B) B s := by
  have hA1 : A.m ≠ s.next_addr := by omega
  have hB1 : B.m ≠ s.next_addr := by omega
  have hA2 : s.next_addr ≠ A.g := by omega
  have hB2 : s.next_addr ≠ B.g := by omega
  constructor
  · apply adjointIn_of_spec (MatOps.sub A B) A s
      (Closure.sub A B ⟨s.next_addr, s.next_addr, false⟩) (fun V => V.sub (s.w B.m))
    · intro V hr hc
      refine ⟨(MatOps.sub A B (s.setW A V)).2, ?_, ?_, ?_⟩
      · simp [MatOps.sub, assert2, State.setW, Mat.new, Mat.empty_like,
          Function.update_noteq hm.symm, hr, hc, hrows, hcols]
      · simp [MatOps.sub, assert2, State.setW, Mat.new, Mat.empty_like,
          Function.update_noteq hm.symm, hr, hc, hrows, hcols,
          State.assign, State.record, hrec, graph.emplace_back, Function.update_noteq hA1,
          Function.update_noteq hB1]
      · simp [MatOps.sub, assert2, State.setW, Mat.new, Mat.empty_like,
          Function.update_noteq hm.symm, hr, hc, hrows, hcols,
          State.assign, State.record, hrec, graph.emplace_back]
    · intro V V' hr hc
      simp [EigenMat.sub, hr, hc]
    · rfl
    · intro w
      simp [Closure.targets, writes, Closure.stmts, Stmt.addAssign, Stmt.subAssign, GRAD,
        Stmt.active, hAc, hBc, hA2, hB2]
    · intro X' G
      simp only [Closure.stmts, contribs, Stmt.contrib, Stmt.addAssign, Stmt.subAssign,
        Stmt.arrayAddAssign, Stmt.rowAddAssign, GRAD, Stmt.active, hAc, hBc, EigenMat.mul,
        EigenMat.transpose, EigenMat.add, EigenMat.sub, EigenMat.neg, EigenMat.cwiseMul,
        EigenMat.colwiseAdd, EigenMat.colwiseSub, EigenMat.colwiseMul, EigenMat.rowwiseSum,
        inner, Function.update_noteq hB1, Function.update_noteq hA1, Function.update_same,
        List.map_cons, List.map_nil, List.sum_cons, List.sum_nil, Bool.and_false,
        Bool.not_false, and_true, and_false, if_true, if_false, true_and, add_zero, zero_add,
        mul_zero, zero_mul, Finset.sum_const_zero, sub_zero, neg_zero, zero_sub, add_sub_cancel_right,
        add_sub_cancel_left, sub_sub_cancel_left, sub_self, neg_neg, sub_neg_eq_add, Function.update_noteq hm.symm, hg.symm]
      all_goals (apply Finset.sum_congr rfl)
      all_goals (intro i _)
      all_goals (apply Finset.sum_congr rfl)
      all_goals (intro j _)
      all_goals (ring)
  · apply adjointIn_of_spec (MatOps.sub A B) B s
      (Closure.sub A B ⟨s.next_addr, s.next_addr, false⟩) (fun V => (s.w A.m).sub V)
    · intro V hr hc
      refine ⟨(MatOps.sub A B (s.setW B V)).2, ?_, ?_, ?_⟩
      · simp [MatOps.sub, assert2, State.setW, Mat.new, Mat.empty_like,
          Function.update_noteq hm, hr, hc, hrows, hcols]
      · simp [MatOps.sub, assert2, State.setW, Mat.new, Mat.empty_like,
          Function.update_noteq hm, hr, hc, hrows, hcols,
          State.assign, State.record, hrec, graph.emplace_back, Function.update_noteq hA1,
          Function.update_noteq hB1]
      · simp [MatOps.sub, assert2, State.setW, Mat.new, Mat.empty_like,
          Function.update_noteq hm, hr, hc, hrows, hcols,
          State.assign, State.record, hrec, graph.emplace_back]
    · intro V V' hr hc
      simp [EigenMat.sub]
    · rfl
    · intro w
      simp [Closure.targets, writes, Closure.stmts, Stmt.addAssign, Stmt.subAssign, GRAD,
        Stmt.active, hAc, hBc, hA2, hB2]
    · intro X' G
      simp only [Closure.stmts, contribs, Stmt.contrib, Stmt.addAssign, Stmt.subAssign,
        Stmt.arrayAddAssign, Stmt.rowAddAssign, GRAD, Stmt.active, hAc, hBc, EigenMat.mul,
        EigenMat.transpose, EigenMat.add, EigenMat.sub, EigenMat.neg, EigenMat.cwiseMul,
        EigenMat.colwiseAdd, EigenMat.colwiseSub, EigenMat.colwiseMul, EigenMat.rowwiseSum,
        inner, Function.update_noteq hB1, Function.update_noteq hA1, Function.update_same,
        List.map_cons, List.map_nil, List.sum_cons, List.sum_nil, Bool.and_false,
        Bool.not_false, and_true, and_false, if_true, if_false, true_and, add_zero, zero_add,
        mul_zero, zero_mul, Finset.sum_const_zero, sub_zero, neg_zero, zero_sub, add_sub_cancel_right,
        add_sub_cancel_left, sub_sub_cancel_left, sub_self, neg_neg, sub_neg_eq_add, Function.update_noteq hm, hg]
      all_goals (rw [hrows, hcols])
      all_goals (apply Finset.sum_congr rfl)
      all_goals (intro i _)
      all_goals (apply Finset.sum_congr rfl)
      all_goals (intro j _)
      all_goals (ring)


theorem adjoint_eltmul (s : State) (A B : Mat) (hrec : s.backprop_enabled = true)
    (hAm : A.m < s.next_addr) (hAg : A.g < s.next_addr) (hBm : B.m < s.next_addr)
    (hBg : B.g < s.next_addr) (hm : A.m ≠ B.m) (hg : A.g ≠ B.g)
    (hAc : A.constant = false) (hBc : B.constant = false)
    (hrows : (s.w A.m).rows = (s.w B.m).rows) (hcols : (s.w A.m).cols = (s.w B.m).cols) :
    AdjointIn (MatOps.eltmul A B) A s ∧ AdjointIn (MatOps.eltmul A B) B s := by
  have hA1 : A.m ≠ s.next_addr := by omega
  have hB1 : B.m ≠ s.next_addr := by omega
  have hA2 : s.next_addr ≠ A.g := by omega
  have hB2 : s.next_addr ≠ B.g := by omega
  constructor
  · apply adjointIn_of_spec (MatOps.eltmul A B) A s
      (Closure.eltmul A B ⟨s.next_addr, s.next_addr, false⟩) (fun V => V.cwiseMul (s.w B.m))
    · intro V hr hc
      refine ⟨(MatOps.eltmul A B (s.setW A V)).2, ?_, ?_, ?_⟩
      · simp [MatOps.eltmul, assert2, State.setW, Mat.new, Mat.empty_like,
          Function.update_noteq hm.symm, hr, hc, hrows, hcols]
      · simp [MatOps.eltmul, assert2, State.setW, Mat.new, Mat.empty_like,
          Function.update_noteq hm.symm, hr, hc, hrows, hcols,
          State.assign, State.record, hrec, graph.emplace_back, Function.update_noteq hA1,
          Function.update_noteq hB1]
      · simp [MatOps.eltmul, assert2, State.setW, Mat.new, Mat.empty_like,
          Function.update_noteq hm.symm, hr, hc, hrows, hcols,
          State.assign, State.record, hrec, graph.emplace_back]
    · intro V V' hr hc
      simp [EigenMat.cwiseMul, hr, hc]
    · rfl
    · intro w
      simp [Closure.targets, writes, Closure.stmts, Stmt.addAssign, Stmt.subAssign, GRAD,
        Stmt.active, hAc, hBc, hA2, hB2]
    · intro X' G
      simp only [Closure.stmts, contribs, Stmt.contrib, Stmt.addAssign, Stmt.subAssign,
        Stmt.arrayAddAssign, Stmt.rowAddAssign, GRAD, Stmt.active, hAc, hBc, EigenMat.mul,
        EigenMat.transpose, EigenMat.add, EigenMat.sub, EigenMat.neg, EigenMat.cwiseMul,
        EigenMat.colwiseAdd, EigenMat.colwiseSub, EigenMat.colwiseMul, EigenMat.rowwiseSum,
        inner, Function.update_noteq hB1, Function.update_noteq hA1, Function.update_same,
        List.map_cons, List.map_nil, List.sum_cons, List.sum_nil, Bool.and_false,
        Bool.not_false, and_true, and_false, if_true, if_false, true_and, add_zero, zero_add,
        mul_zero, zero_mul, Finset.sum_const_zero, sub_zero, neg_zero, zero_sub, add_sub_cancel_right,
        add_sub_cancel_left, sub_sub_cancel_left, sub_self, neg_neg, sub_neg_eq_add, Function.update_noteq hm.symm, hg.symm]
      all_goals (apply Finset.sum_congr rfl)
      all_goals (intro i _)
      all_goals (apply Finset.sum_congr rfl)
      all_goals (intro j _)
      all_goals (ring)
  · apply adjointIn_of_spec (MatOps.eltmul A B) B s
      (Closure.eltmul A B ⟨s.next_addr, s.next_addr, false⟩) (fun V => (s.w A.m).cwiseMul V)
    · intro V hr hc
      refine ⟨(MatOps.eltmul A B (s.setW B V)).2, ?_, ?_, ?_⟩
      · simp [MatOps.eltmul, assert2, State.setW, Mat.new, Mat.empty_like,
          Function.update_noteq hm, hr, hc, hrows, hcols]
      · simp [MatOps.eltmul, assert2, State.setW, Mat.new, Mat.empty_like,
          Function.update_noteq hm, hr, hc, hrows, hcols,
          State.assign, State.record, hrec, graph.emplace_back, Function.update_noteq hA1,
          Function.update_noteq hB1]
      · simp [MatOps.eltmul, assert2, State.setW, Mat.new, Mat.empty_like,
          Function.update_noteq hm, hr, hc, hrows, hcols,
          State.assign, State.record, hrec, graph.emplace_back]
    · intro V V' hr hc
      simp [EigenMat.cwiseMul]
    · rfl
    · intro w
      simp [Closure.targets, writes, Closure.stmts, Stmt.addAssign, Stmt.subAssign, GRAD,
        Stmt.active, hAc, hBc, hA2, hB2]
    · intro X' G
      simp only [Closure.stmts, contribs, Stmt.contrib, Stmt.addAssign, Stmt.subAssign,
        Stmt.arrayAddAssign, Stmt.rowAddAssign, GRAD, Stmt.active, hAc, hBc, EigenMat.mul,
        EigenMat.transpose, EigenMat.add, EigenMat.sub, EigenMat.neg, EigenMat.cwiseMul,
        EigenMat.colwiseAdd, EigenMat.colwiseSub, EigenMat.colwiseMul, EigenMat.rowwiseSum,
        inner, Function.update_noteq hB1, Function.update_noteq hA1, Function.update_same,
        List.map_cons, List.map_nil, List.sum_cons, List.sum_nil, Bool.and_false,
        Bool.not_false, and_true, and_false, if_true, if_false, true_and, add_zero, zero_add,
        mul_zero, zero_mul, Finset.sum_const_zero, sub_zero, neg_zero, zero_sub, add_sub_cancel_right,
        add_sub_cancel_left, sub_sub_cancel_left, sub_self, neg_neg, sub_neg_eq_add, Function.update_noteq hm, hg]
      all_goals (rw [hrows, hcols])
      all_goals (apply Finset.sum_congr rfl)
      all_goals (intro i _)
      all_goals (apply Finset.sum_congr rfl)
      all_goals (intro j _)
      all_goals (ring)


theorem adjoint_add_broadcast (s : State) (A B : Mat) (hrec : s.backprop_enabled = true)
    (hAm : A.m < s.next_addr) (hAg : A.g < s.next_addr) (hBm : B.m < s.next_addr)
    (hBg : B.g < s.next_addr) (hm : A.m ≠ B.m) (hg : A.g ≠ B.g)
    (hAc : A.constant = false) (hBc : B.constant = false)
    (hrows : (s.w A.m).rows = (s.w B.m).rows) (hcols : (s.w B.m).cols = 1) :
    AdjointIn (MatOps.add_broadcast A B) A s ∧ AdjointIn (MatOps.add_broadcast A B) B s := by
  have hA1 : A.m ≠ s.next_addr := by omega
  have hB1 : B.m ≠ s.next_addr := by omega
  have hA2 : s.next_addr ≠ A.g := by omega
  have hB2 : s.next_addr ≠ B.g := by omega
  constructor
  · apply adjointIn_of_spec (MatOps.add_broadcast A B) A s
      (Closure.add_broadcast A B ⟨s.next_addr, s.next_addr, false⟩) (fun V => V.colwiseAdd (s.w B.m))
    · intro V hr hc
      refine ⟨(MatOps.add_broadcast A B (s.setW A V)).2, ?_, ?_, ?_⟩
      · simp [MatOps.add_broadcast, assert2, State.setW, Mat.new, Mat.empty_like,
          Function.update_noteq hm.symm, hr, hc, hrows, hcols]
      · simp [MatOps.add_broadcast, assert2, State.setW, Mat.new, Mat.empty_like,
          Function.update_noteq hm.symm, hr, hc, hrows, hcols,
          State.assign, State.record, hrec, graph.emplace_back, Function.update_noteq hA1,
          Function.update_noteq hB1]
      · simp [MatOps.add_broadcast, assert2, State.setW, Mat.new, Mat.empty_like,
          Function.update_noteq hm.symm, hr, hc, hrows, hcols,
          State.assign, State.record, hrec, graph.emplace_back]
    · intro V V' hr hc
      simp [EigenMat.colwiseAdd, hr, hc]
    · rfl
    · intro w
      simp [Closure.targets, writes, Closure.stmts, Stmt.addAssign, Stmt.subAssign, GRAD,
        Stmt.active, hAc, hBc, hA2, hB2]
    · intro X' G
      simp only [Closure.stmts, contribs, Stmt.contrib, Stmt.addAssign, Stmt.subAssign,
        Stmt.arrayAddAssign, Stmt.rowAddAssign, GRAD, Stmt.active, hAc, hBc, EigenMat.mul,
        EigenMat.transpose, EigenMat.add, EigenMat.sub, EigenMat.neg, EigenMat.cwiseMul,
        EigenMat.colwiseAdd, EigenMat.colwiseSub, EigenMat.colwiseMul, EigenMat.rowwiseSum,
        inner, Function.update_noteq hB1, Function.update_noteq hA1, Function.update_same,
        List.map_cons, List.map_nil, List.sum_cons, List.sum_nil, Bool.and_false,
        Bool.not_false, and_true, and_false, if_true, if_false, true_and, add_zero, zero_add,
        mul_zero, zero_mul, Finset.sum_const_zero, sub_zero, neg_zero, zero_sub, add_sub_cancel_right,
        add_sub_cancel_left, sub_sub_cancel_left, sub_self, neg_neg, sub_neg_eq_add, Function.update_noteq hm.symm, hg.symm]
  · apply adjointIn_of_spec (MatOps.add_broadcast A B) B s
      (Closure.add_broadcast A B ⟨s.next_addr, s.next_addr, false⟩) (fun V => (s.w A.m).colwiseAdd V)
    · intro V hr hc
      refine ⟨(MatOps.add_broadcast A B (s.setW B V)).2, ?_, ?_, ?_⟩
      · simp [MatOps.add_broadcast, assert2, State.setW, Mat.new, Mat.empty_like,
          Function.update_noteq hm, hr, hc, hrows, hcols]
      · simp [MatOps.add_broadcast, assert2, State.setW, Mat.new, Mat.empty_like,
          Function.update_noteq hm, hr, hc, hrows, hcols,
          State.assign, State.record, hrec, graph.emplace_back, Function.update_noteq hA1,
          Function.update_noteq hB1]
      · simp [MatOps.add_broadcast, assert2, State.setW, Mat.new, Mat.empty_like,
          Function.update_noteq hm, hr, hc, hrows, hcols,
          State.assign, State.record, hrec, graph.emplace_back]
    · intro V V' hr hc
      simp [EigenMat.colwiseAdd]
    · rfl
    · intro w
      simp [Closure.targets, writes, Closure.stmts, Stmt.addAssign, Stmt.subAssign, GRAD,
        Stmt.active, hAc, hBc, hA2, hB2]
    · intro X' G
      simp only [Closure.stmts, contribs, Stmt.contrib, Stmt.addAssign, Stmt.subAssign,
        Stmt.arrayAddAssign, Stmt.rowAddAssign, GRAD, Stmt.active, hAc, hBc, EigenMat.mul,
        EigenMat.transpose, EigenMat.add, EigenMat.sub, EigenMat.neg, EigenMat.cwiseMul,
        EigenMat.colwiseAdd, EigenMat.colwiseSub, EigenMat.colwiseMul, EigenMat.rowwiseSum,
        inner, Function.update_noteq hB1, Function.update_noteq hA1, Function.update_same,
        List.map_cons, List.map_nil, List.sum_cons, List.sum_nil, Bool.and_false,
        Bool.not_false, and_true, and_false, if_true, if_false, true_and, add_zero, zero_add,
        mul_zero, zero_mul, Finset.sum_const_zero, sub_zero, neg_zero, zero_sub, add_sub_cancel_right,
        add_sub_cancel_left, sub_sub_cancel_left, sub_self, neg_neg, sub_neg_eq_add, Function.update_noteq hm, hg]
      all_goals (rw [hrows, hcols])
      all_goals (apply Finset.sum_congr rfl)
      all_goals (intro i _)
      all_goals (simp only [Finset.sum_range_one, Finset.mul_sum, Finset.sum_neg_distrib, mul_neg])


theorem adjoint_sub_broadcast (s : State) (A B : Mat) (hrec : s.backprop_enabled = true)
    (hAm : A.m < s.next_addr) (hAg : A.g < s.next_addr) (hBm : B.m < s.next_addr)
    (hBg : B.g < s.next_addr) (hm : A.m ≠ B.m) (hg : A.g ≠ B.g)
    (hAc : A.constant = false) (hBc : B.constant = false)
    (hrows : (s.w A.m).rows = (s.w B.m).rows) (hcols : (s.w B.m).cols = 1) :
    AdjointIn (MatOps.sub_broadcast A B) A s ∧ AdjointIn (MatOps.sub_broadcast A B) B s := by
  have hA1 : A.m ≠ s.next_addr := by omega
  have hB1 : B.m ≠ s.next_addr := by omega
  have hA2 : s.next_addr ≠ A.g := by omega
  have hB2 : s.next_addr ≠ B.g := by omega
  constructor
  · apply adjointIn_of_spec (MatOps.sub_broadcast A B) A s
      (Closure.sub_broadcast A B ⟨s.next_addr, s.next_addr, false⟩) (fun V => V.colwiseSub (s.w B.m))
    · intro V hr hc
      refine ⟨(MatOps.sub_broadcast A B (s.setW A V)).2, ?_, ?_, ?_⟩
      · simp [MatOps.sub_broadcast, assert2, State.setW, Mat.new, Mat.empty_like,
          Function.update_noteq hm.symm, hr, hc, hrows, hcols]
      · simp [MatOps.sub_broadcast, assert2, State.setW, Mat.new, Mat.empty_like,
          Function.update_noteq hm.symm, hr, hc, hrows, hcols,
          State.assign, State.record, hrec, graph.emplace_back, Function.update_noteq hA1,
          Function.update_noteq hB1]
      · simp [MatOps.sub_broadcast, assert2, State.setW, Mat.new, Mat.empty_like,
          Function.update_noteq hm.symm, hr, hc, hrows, hcols,
          State.assign, State.record, hrec, graph.emplace_back]
    · intro V V' hr hc
      simp [EigenMat.colwiseSub, hr, hc]
    · rfl
    · intro w
      simp [Closure.targets, writes, Closure.stmts, Stmt.addAssign, Stmt.subAssign, GRAD,
        Stmt.active, hAc, hBc, hA2, hB2]
    · intro X' G
      simp only [Closure.stmts, contribs, Stmt.contrib, Stmt.addAssign, Stmt.subAssign,
        Stmt.arrayAddAssign, Stmt.rowAddAssign, GRAD, Stmt.active, hAc, hBc, EigenMat.mul,
        EigenMat.transpose, EigenMat.add, EigenMat.sub, EigenMat.neg, EigenMat.cwiseMul,
        EigenMat.colwiseAdd, EigenMat.colwiseSub, EigenMat.colwiseMul, EigenMat.rowwiseSum,
        inner, Function.update_noteq hB1, Function.update_noteq hA1, Function.update_same,
        List.map_cons, List.map_nil, List.sum_cons, List.sum_nil, Bool.and_false,
        Bool.not_false, and_true, and_false, if_true, if_false, true_and, add_zero, zero_add,
        mul_zero, zero_mul, Finset.sum_const_zero, sub_zero, neg_zero, zero_sub, add_sub_cancel_right,
        add_sub_cancel_left, sub_sub_cancel_left, sub_self, neg_neg, sub_neg_eq_add, Function.update_noteq hm.symm, hg.symm]
      all_goals (apply Finset.sum_congr rfl)
      all_goals (intro i _)
      all_goals (apply Finset.sum_congr rfl)
      all_goals (intro j _)
      all_goals (ring)
  · apply adjointIn_of_spec (MatOps.sub_broadcast A B) B s
      (Closure.sub_broadcast A B ⟨s.next_addr, s.next_addr, false⟩) (fun V => (s.w A.m).colwiseSub V)
    · intro V hr hc
      refine ⟨(MatOps.sub_broadcast A B (s.setW B V)).2, ?_, ?_, ?_⟩
      · simp [MatOps.sub_broadcast, assert2, State.setW, Mat.new, Mat.empty_like,
          Function.update_noteq hm, hr, hc, hrows, hcols]
      · simp [MatOps.sub_broadcast, assert2, State.setW, Mat.new, Mat.empty_like,
          Function.update_noteq hm, hr, hc, hrows, hcols,
          State.assign, State.record, hrec, graph.emplace_back, Function.update_noteq hA1,
          Function.update_noteq hB1]
      · simp [MatOps.sub_broadcast, assert2, State.setW, Mat.new, Mat.empty_like,
          Function.update_noteq hm, hr, hc, hrows, hcols,
          State.assign, State.record, hrec, graph.emplace_back]
    · intro V V' hr hc
      simp [EigenMat.colwiseSub]
    · rfl
    · intro w
      simp [Closure.targets, writes, Closure.stmts, Stmt.addAssign, Stmt.subAssign, GRAD,
        Stmt.active, hAc, hBc, hA2, hB2]
    · intro X' G
      simp only [Closure.stmts, contribs, Stmt.contrib, Stmt.addAssign, Stmt.subAssign,
        Stmt.arrayAddAssign, Stmt.rowAddAssign, GRAD, Stmt.active, hAc, hBc, EigenMat.mul,
        EigenMat.transpose, EigenMat.add, EigenMat.sub, EigenMat.neg, EigenMat.cwiseMul,
        EigenMat.colwiseAdd, EigenMat.colwiseSub, EigenMat.colwiseMul, EigenMat.rowwiseSum,
        inner, Function.update_noteq hB1, Function.update_noteq hA1, Function.update_same,
        List.map_cons, List.map_nil, List.sum_cons, List.sum_nil, Bool.and_false,
        Bool.not_false, and_true, and_false, if_true, if_false, true_and, add_zero, zero_add,
        mul_zero, zero_mul, Finset.sum_const_zero, sub_zero, neg_zero, zero_sub, add_sub_cancel_right,
        add_sub_cancel_left, sub_sub_cancel_left, sub_self, neg_neg, sub_neg_eq_add, Function.update_noteq hm, hg]
      all_goals (rw [hrows, hcols])
      all_goals (apply Finset.sum_congr rfl)
      all_goals (intro i _)
      all_goals (simp only [Finset.sum_range_one, Finset.mul_sum, Finset.sum_neg_distrib, mul_neg])
      all_goals (try rw [← Finset.sum_neg_distrib])
      all_goals (apply Finset.sum_congr rfl)
      all_goals (intro j _)
      all_goals (ring)


theorem adjoint_sub_broadcast_reversed (s : State) (A B : Mat) (hrec : s.backprop_enabled = true)
    (hAm : A.m < s.next_addr) (hAg : A.g < s.next_addr) (hBm : B.m < s.next_addr)
    (hBg : B.g < s.next_addr) (hm : A.m ≠ B.m) (hg : A.g ≠ B.g)
    (hAc : A.constant = false) (hBc : B.constant = false)
    (hrows : (s.w A.m).rows = (s.w B.m).rows) (hcols : (s.w B.m).cols = 1) :
    AdjointIn (MatOps.sub_broadcast_reversed A B) A s ∧ AdjointIn (MatOps.sub_broadcast_reversed A B) B s := by
  have hA1 : A.m ≠ s.next_addr := by omega
  have hB1 : B.m ≠ s.next_addr := by omega
  have hA2 : s.next_addr ≠ A.g := by omega
  have hB2 : s.next_addr ≠ B.g := by omega
  constructor
  · apply adjointIn_of_spec (MatOps.sub_broadcast_reversed A B) A s
      (Closure.sub_broadcast_reversed A B ⟨s.next_addr, s.next_addr, false⟩) (fun V => V.neg.colwiseAdd (s.w B.m))
    · intro V hr hc
      refine ⟨(MatOps.sub_broadcast_reversed A B (s.setW A V)).2, ?_, ?_, ?_⟩
      · simp [MatOps.sub_broadcast_reversed, assert2, State.setW, Mat.new, Mat.empty_like,
          Function.update_noteq hm.symm, hr, hc, hrows, hcols]
      · simp [MatOps.sub_broadcast_reversed, assert2, State.setW, Mat.new, Mat.empty_like,
          Function.update_noteq hm.symm, hr, hc, hrows, hcols,
          State.assign, State.record, hrec, graph.emplace_back, Function.update_noteq hA1,
          Function.update_noteq hB1]
      · simp [MatOps.sub_broadcast_reversed, assert2, State.setW, Mat.new, Mat.empty_like,
          Function.update_noteq hm.symm, hr, hc, hrows, hcols,
          State.assign, State.record, hrec, graph.emplace_back]
    · intro V V' hr hc
      simp [EigenMat.colwiseAdd, EigenMat.neg, hr, hc]
    · rfl
    · intro w
      simp [Closure.targets, writes, Closure.stmts, Stmt.addAssign, Stmt.subAssign, GRAD,
        Stmt.active, hAc, hBc, hA2, hB2]
    · intro X' G
      simp only [Closure.stmts, contribs, Stmt.contrib, Stmt.addAssign, Stmt.subAssign,
        Stmt.arrayAddAssign, Stmt.rowAddAssign, GRAD, Stmt.active, hAc, hBc, EigenMat.mul,
        EigenMat.transpose, EigenMat.add, EigenMat.sub, EigenMat.neg, EigenMat.cwiseMul,
        EigenMat.colwiseAdd, EigenMat.colwiseSub, EigenMat.colwiseMul, EigenMat.rowwiseSum,
        inner, Function.update_noteq hB1, Function.update_noteq hA1, Function.update_same,
        List.map_cons, List.map_nil, List.sum_cons, List.sum_nil, Bool.and_false,
        Bool.not_false, and_true, and_false, if_true, if_false, true_and, add_zero, zero_add,
        mul_zero, zero_mul, Finset.sum_const_zero, sub_zero, neg_zero, zero_sub, add_sub_cancel_right,
        add_sub_cancel_left, sub_sub_cancel_left, sub_self, neg_neg, sub_neg_eq_add, Function.update_noteq hm.symm, hg.symm]
      all_goals (apply Finset.sum_congr rfl)
      all_goals (intro i _)
      all_goals (apply Finset.sum_congr rfl)
      all_goals (intro j _)
      all_goals (ring)
  · apply adjointIn_of_spec (MatOps.sub_broadcast_reversed A B) B s
      (Closure.sub_broadcast_reversed A B ⟨s.next_addr, s.next_addr, false⟩) (fun V => (s.w A.m).neg.colwiseAdd V)
    · intro V hr hc
      refine ⟨(MatOps.sub_broadcast_reversed A B (s.setW B V)).2, ?_, ?_, ?_⟩
      · simp [MatOps.sub_broadcast_reversed, assert2, State.setW, Mat.new, Mat.empty_like,
          Function.update_noteq hm, hr, hc, hrows, hcols]
      · simp [MatOps.sub_broadcast_reversed, assert2, State.setW, Mat.new, Mat.empty_like,
          Function.update_noteq hm, hr, hc, hrows, hcols,
          State.assign, State.record, hrec, graph.emplace_back, Function.update_noteq hA1,
          Function.update_noteq hB1]
      · simp [MatOps.sub_broadcast_reversed, assert2, State.setW, Mat.new, Mat.empty_like,
          Function.update_noteq hm, hr, hc, hrows, hcols,
          State.assign, State.record, hrec, graph.emplace_back]
    · intro V V' hr hc
      simp [EigenMat.colwiseAdd, EigenMat.neg]
    · rfl
    · intro w
      simp [Closure.targets, writes, Closure.stmts, Stmt.addAssign, Stmt.subAssign, GRAD,
        Stmt.active, hAc, hBc, hA2, hB2]
    · intro X' G
      simp only [Closure.stmts, contribs, Stmt.contrib, Stmt.addAssign, Stmt.subAssign,
        Stmt.arrayAddAssign, Stmt.rowAddAssign, GRAD, Stmt.active, hAc, hBc, EigenMat.mul,
        EigenMat.transpose, EigenMat.add, EigenMat.sub, EigenMat.neg, EigenMat.cwiseMul,
        EigenMat.colwiseAdd, EigenMat.colwiseSub, EigenMat.colwiseMul, EigenMat.rowwiseSum,
        inner, Function.update_noteq hB1, Function.update_noteq hA1, Function.update_same,
        List.map_cons, List.map_nil, List.sum_cons, List.sum_nil, Bool.and_false,
        Bool.not_false, and_true, and_false, if_true, if_false, true_and, add_zero, zero_add,
        mul_zero, zero_mul, Finset.sum_const_zero, sub_zero, neg_zero, zero_sub, add_sub_cancel_right,
        add_sub_cancel_left, sub_sub_cancel_left, sub_self, neg_neg, sub_neg_eq_add, Function.update_noteq hm, hg]
      all_goals (rw [hrows, hcols])
      all_goals (apply Finset.sum_congr rfl)
      all_goals (intro i _)
      all_goals (simp only [Finset.sum_range_one, Finset.mul_sum, Finset.sum_neg_distrib, mul_neg])
      all_goals (apply Finset.sum_congr rfl)
      all_goals (intro j _)
      all_goals (ring)


theorem adjoint_eltmul_broadcast (s : State) (A B : Mat) (hrec : s.backprop_enabled = true)
    (hAm : A.m < s.next_addr) (hAg : A.g < s.next_addr) (hBm : B.m < s.next_addr)
    (hBg : B.g < s.next_addr) (hm : A.m ≠ B.m) (hg : A.g ≠ B.g)
    (hAc : A.constant = false) (hBc : B.constant = false)
    (hrows : (s.w A.m).rows = (s.w B.m).rows) (hcols : (s.w B.m).cols = 1) :
    AdjointIn (MatOps.eltmul_broadcast A B) A s ∧ AdjointIn (MatOps.eltmul_broadcast A B) B s := by
  have hA1 : A.m ≠ s.next_addr := by omega
  have hB1 : B.m ≠ s.next_addr := by omega
  have hA2 : s.next_addr ≠ A.g := by omega
  have hB2 : s.next_addr ≠ B.g := by omega
  constructor
  · apply adjointIn_of_spec (MatOps.eltmul_broadcast A B) A s
      (Closure.eltmul_broadcast A B ⟨s.next_addr, s.next_addr, false⟩) (fun V => V.colwiseMul (s.w B.m))
    · intro V hr hc
      refine ⟨(MatOps.eltmul_broadcast A B (s.setW A V)).2, ?_, ?_, ?_⟩
      · simp [MatOps.eltmul_broadcast, assert2, State.setW, Mat.new, Mat.empty_like,
          Function.update_noteq hm.symm, hr, hc, hrows, hcols]
      · simp [MatOps.eltmul_broadcast, assert2, State.setW, Mat.new, Mat.empty_like,
          Function.update_noteq hm.symm, hr, hc, hrows, hcols,
          State.assign, State.record, hrec, graph.emplace_back, Function.update_noteq hA1,
          Function.update_noteq hB1]
      · simp [MatOps.eltmul_broadcast, assert2, State.setW, Mat.new, Mat.empty_like,
          Function.update_noteq hm.symm, hr, hc, hrows, hcols,
          State.assign, State.record, hrec, graph.emplace_back]
    · intro V V' hr hc
      simp [EigenMat.colwiseMul, hr, hc]
    · rfl
    · intro w
      simp [Closure.targets, writes, Closure.stmts, Stmt.addAssign, Stmt.subAssign, GRAD,
        Stmt.active, hAc, hBc, hA2, hB2]
    · intro X' G
      simp only [Closure.stmts, contribs, Stmt.contrib, Stmt.addAssign, Stmt.subAssign,
        Stmt.arrayAddAssign, Stmt.rowAddAssign, GRAD, Stmt.active, hAc, hBc, EigenMat.mul,
        EigenMat.transpose, EigenMat.add, EigenMat.sub, EigenMat.neg, EigenMat.cwiseMul,
        EigenMat.colwiseAdd, EigenMat.colwiseSub, EigenMat.colwiseMul, EigenMat.rowwiseSum,
        inner, Function.update_noteq hB1, Function.update_noteq hA1, Function.update_same,
        List.map_cons, List.map_nil, List.sum_cons, List.sum_nil, Bool.and_false,
        Bool.not_false, and_true, and_false, if_true, if_false, true_and, add_zero, zero_add,
        mul_zero, zero_mul, Finset.sum_const_zero, sub_zero, neg_zero, zero_sub, add_sub_cancel_right,
        add_sub_cancel_left, sub_sub_cancel_left, sub_self, neg_neg, sub_neg_eq_add, Function.update_noteq hm.symm, hg.symm]
      all_goals (apply Finset.sum_congr rfl)
      all_goals (intro i _)
      all_goals (apply Finset.sum_congr rfl)
      all_goals (intro j _)
      all_goals (ring)
  · apply adjointIn_of_spec (MatOps.eltmul_broadcast A B) B s
      (Closure.eltmul_broadcast A B ⟨s.next_addr, s.next_addr, false⟩) (fun V => (s.w A.m).colwiseMul V)
    · intro V hr hc
      refine ⟨(MatOps.eltmul_broadcast A B (s.setW B V)).2, ?_, ?_, ?_⟩
      · simp [MatOps.eltmul_broadcast, assert2, State.setW, Mat.new, Mat.empty_like,
          Function.update_noteq hm, hr, hc, hrows, hcols]
      · simp [MatOps.eltmul_broadcast, assert2, State.setW, Mat.new, Mat.empty_like,
          Function.update_noteq hm, hr, hc, hrows, hcols,
          State.assign, State.record, hrec, graph.emplace_back, Function.update_noteq hA1,
          Function.update_noteq hB1]
      · simp [MatOps.eltmul_broadcast, assert2, State.setW, Mat.new, Mat.empty_like,
          Function.update_noteq hm, hr, hc, hrows, hcols,
          State.assign, State.record, hrec, graph.emplace_back]
    · intro V V' hr hc
      simp [EigenMat.colwiseMul]
    · rfl
    · intro w
      simp [Closure.targets, writes, Closure.stmts, Stmt.addAssign, Stmt.subAssign, GRAD,
        Stmt.active, hAc, hBc, hA2, hB2]
    · intro X' G
      simp only [Closure.stmts, contribs, Stmt.contrib, Stmt.addAssign, Stmt.subAssign,
        Stmt.arrayAddAssign, Stmt.rowAddAssign, GRAD, Stmt.active, hAc, hBc, EigenMat.mul,
        EigenMat.transpose, EigenMat.add, EigenMat.sub, EigenMat.neg, EigenMat.cwiseMul,
        EigenMat.colwiseAdd, EigenMat.colwiseSub, EigenMat.colwiseMul, EigenMat.rowwiseSum,
        inner, Function.update_noteq hB1, Function.update_noteq hA1, Function.update_same,
        List.map_cons, List.map_nil, List.sum_cons, List.sum_nil, Bool.and_false,
        Bool.not_false, and_true, and_false, if_true, if_false, true_and, add_zero, zero_add,
        mul_zero, zero_mul, Finset.sum_const_zero, sub_zero, neg_zero, zero_sub, add_sub_cancel_right,
        add_sub_cancel_left, sub_sub_cancel_left, sub_self, neg_neg, sub_neg_eq_add, Function.update_noteq hm, hg]
      all_goals (rw [hrows, hcols])
      all_goals (apply Finset.sum_congr rfl)
      all_goals (intro i _)
      all_goals (simp only [Finset.sum_range_one, Finset.mul_sum, Finset.sum_neg_distrib, mul_neg])
      all_goals (apply Finset.sum_congr rfl)
      all_goals (intro j _)
      all_goals (ring)


end AdjointBinary

section AdjointUnary

theorem number_of_elements_eq (a : EigenMat) :
    number_of_elements a = (a.rows * a.cols) % 2 ^ 32 := by
  simp [number_of_elements, Nat.mod_mul_mod]

theorem adjoint_transpose (s : State) (A : Mat) (hrec : s.backprop_enabled = true)
    (hAm : A.m < s.next_addr) (hAg : A.g < s.next_addr) (hAc : A.constant = false) :
    AdjointIn (MatOps.transpose A) A s := by
  have hA1 : A.m ≠ s.next_addr := by omega
  have hA2 : s.next_addr ≠ A.g := by omega
  apply adjointIn_of_spec (MatOps.transpose A) A s
    (Closure.transpose A ⟨s.next_addr, s.next_addr, false⟩) (fun V => V.transpose)
  · intro V hr hc
    refine ⟨(MatOps.transpose A (s.setW A V)).2, ?_, ?_, ?_⟩
    · simp [MatOps.transpose, State.setW, Mat.new]
    · simp [MatOps.transpose, State.setW, Mat.new, State.assign, State.record, hrec,
        graph.emplace_back, Function.update_noteq hA1]
    · simp [MatOps.transpose, State.setW, Mat.new, State.assign, State.record, hrec,
        graph.emplace_back]
  · intro V V' hr hc
    simp [EigenMat.transpose, hr, hc]
  · rfl
  · intro w
    simp [Closure.targets, writes, Closure.stmts, Stmt.addAssign, GRAD, Stmt.active, hAc, hA2]
  · intro X' G
    simp only [Closure.stmts, contribs, Stmt.contrib, Stmt.addAssign, GRAD, Stmt.active, hAc,
      EigenMat.transpose, inner, List.map_cons, List.map_nil, List.sum_cons, List.sum_nil,
      Bool.and_false, Bool.not_false, and_true, if_true, add_zero, sub_zero]
    rw [Finset.sum_comm]

theorem adjoint_sum (s : State) (A : Mat) (hrec : s.backprop_enabled = true)
    (hAm : A.m < s.next_addr) (hAg : A.g < s.next_addr) (hAc : A.constant = false) :
    AdjointIn (MatOps.sum A) A s := by
  have hA1 : A.m ≠ s.next_addr := by omega
  have hA2 : s.next_addr ≠ A.g := by omega
  apply adjointIn_of_spec (MatOps.sum A) A s
    (Closure.sum A ⟨s.next_addr, s.next_addr, false⟩)
    (fun V => EigenMat.setFirst ⟨1, 1, (s.w s.next_addr).coeff⟩ V.sum)
  · intro V hr hc
    refine ⟨(MatOps.sum A (s.setW A V)).2, ?_, ?_, ?_⟩
    · simp [MatOps.sum, State.setW, Mat.new]
    · simp [MatOps.sum, State.setW, Mat.new, State.assign, State.record, hrec,
        graph.emplace_back, Function.update_noteq hA1, Function.update_noteq hA1.symm]
    · simp [MatOps.sum, State.setW, Mat.new, State.assign, State.record, hrec,
        graph.emplace_back]
  · intro V V' hr hc
    simp [EigenMat.setFirst]
  · rfl
  · intro w
    simp [Closure.targets, writes, Closure.stmts, Stmt.arrayAddAssign, GRAD, Stmt.active, hAc,
      hA2]
  · intro X' G
    simp only [Closure.stmts, contribs, Stmt.contrib, Stmt.arrayAddAssign, GRAD, Stmt.active,
      hAc, EigenMat.setFirst, EigenMat.sum, inner, List.map_cons, List.map_nil, List.sum_cons,
      List.sum_nil, Bool.and_false, Bool.not_false, and_true, and_self, if_true, add_zero,
      Finset.sum_range_one, Finset.sum_const_zero, sub_zero, Finset.sum_mul]

theorem adjoint_mean (s : State) (A : Mat) (hrec : s.backprop_enabled = true)
    (hAm : A.m < s.next_addr) (hAg : A.g < s.next_addr) (hAc : A.constant = false)
    (hsize : (s.w A.m).rows * (s.w A.m).cols < 2 ^ 32) :
    AdjointIn (MatOps.mean A) A s := by
  have hA1 : A.m ≠ s.next_addr := by omega
  have hA2 : s.next_addr ≠ A.g := by omega
  apply adjointIn_of_spec (MatOps.mean A) A s
    (Closure.mean A ⟨s.next_addr, s.next_addr, false⟩)
    (fun V => EigenMat.setFirst ⟨1, 1, (s.w s.next_addr).coeff⟩ V.mean)
  · intro V hr hc
    refine ⟨(MatOps.mean A (s.setW A V)).2, ?_, ?_, ?_⟩
    · simp [MatOps.mean, State.setW, Mat.new]
    · simp [MatOps.mean, State.setW, Mat.new, State.assign, State.record, hrec,
        graph.emplace_back, Function.update_noteq hA1, Function.update_noteq hA1.symm]
    · simp [MatOps.mean, State.setW, Mat.new, State.assign, State.record, hrec,
        graph.emplace_back]
  · intro V V' hr hc
    simp [EigenMat.setFirst]
  · rfl
  · intro w
    simp [Closure.targets, writes, Closure.stmts, Stmt.arrayAddAssign, GRAD, Stmt.active, hAc,
      hA2]
  · intro X' G
    simp only [Closure.stmts, contribs, Stmt.contrib, Stmt.arrayAddAssign, GRAD, Stmt.active,
      hAc, EigenMat.setFirst, EigenMat.sum, EigenMat.mean, inner, List.map_cons, List.map_nil,
      List.sum_cons, List.sum_nil, Bool.and_false, Bool.not_false, and_true, and_self, if_true,
      add_zero, Finset.sum_range_one, Finset.sum_const_zero, sub_zero, Finset.sum_mul,
      Function.update_noteq hA1, Function.update_same, number_of_elements_eq,
      Nat.mod_eq_of_lt hsize, zero_div, Finset.sum_div]
    apply Finset.sum_congr rfl
    intro i _
    apply Finset.sum_congr rfl
    intro j _
    ring

theorem adjoint_row_pluck (s : State) (A : Mat) (row : Nat) (hrec : s.backprop_enabled = true)
    (hAm : A.m < s.next_addr) (hAg : A.g < s.next_addr) (hAc : A.constant = false)
    (hrow : row < (s.w A.m).rows) :
    AdjointIn (MatOps.row_pluck A row) A s := by
  have hA1 : A.m ≠ s.next_addr := by omega
  have hA2 : s.next_addr ≠ A.g := by omega
  apply adjointIn_of_spec (MatOps.row_pluck A row) A s
    (Closure.row_pluck A ⟨s.next_addr, s.next_addr, false⟩ row)
    (fun V => (V.row row).transpose)
  · intro V hr hc
    refine ⟨(MatOps.row_pluck A row (s.setW A V)).2, ?_, ?_, ?_⟩
    · simp [MatOps.row_pluck, State.setW, Mat.new]
    · simp [MatOps.row_pluck, State.setW, Mat.new, State.assign, State.record, hrec,
        graph.emplace_back, Function.update_noteq hA1]
    · simp [MatOps.row_pluck, State.setW, Mat.new, State.assign, State.record, hrec,
        graph.emplace_back]
  · intro V V' hr hc
    simp [EigenMat.transpose, EigenMat.row, hc]
  · rfl
  · intro w
    simp [Closure.targets, writes, Closure.stmts, Stmt.rowAddAssign, GRAD, Stmt.active, hAc,
      hA2]
  · intro X' G
    simp only [Closure.stmts, contribs, Stmt.contrib, Stmt.rowAddAssign, GRAD, Stmt.active,
      hAc, EigenMat.transpose, EigenMat.row, EigenMat.col, inner, List.map_cons, List.map_nil,
      List.sum_cons, List.sum_nil, Bool.and_false, Bool.not_false, and_true, and_self, if_true,
      add_zero, Finset.sum_range_one, sub_zero]
    symm
    rw [Finset.sum_eq_single_of_mem row (Finset.mem_range.mpr hrow)
      (fun i _ hi => by simp [hi])]
    simp

end AdjointUnary

section AdjointStack

theorem adjoint_hstack (s : State) (A B : Mat) (hrec : s.backprop_enabled = true)
    (hAm : A.m < s.next_addr) (hAg : A.g < s.next_addr) (hBm : B.m < s.next_addr)
    (hBg : B.g < s.next_addr) (hm : A.m ≠ B.m) (hg : A.g ≠ B.g)
    (hAc : A.constant = false) (hBc : B.constant = false)
    (hrows : (s.w A.m).rows = (s.w B.m).rows) :
    AdjointIn (MatOps.hstack A B) A s ∧ AdjointIn (MatOps.hstack A B) B s := by
  have hA1 : A.m ≠ s.next_addr := by omega
  have hB1 : B.m ≠ s.next_addr := by omega
  have hA2 : s.next_addr ≠ A.g := by omega
  have hB2 : s.next_addr ≠ B.g := by omega
  constructor
  · apply adjointIn_of_spec (MatOps.hstack A B) A s
      (Closure.hstack A B ⟨s.next_addr, s.next_addr, false⟩)
      (fun V => (EigenMat.setBlock ⟨V.rows, V.cols + (s.w B.m).cols, (s.w s.next_addr).coeff⟩
          0 0 V.rows V.cols V).setBlock 0 V.cols (s.w B.m).rows (s.w B.m).cols (s.w B.m))
    · intro V hr hc
      refine ⟨(MatOps.hstack A B (s.setW A V)).2, ?_, ?_, ?_⟩
      · simp [MatOps.hstack, State.setW, Mat.new, Function.update_noteq hm.symm, hr, hrows]
      · simp [MatOps.hstack, State.setW, Mat.new, Function.update_noteq hm.symm, hr, hrows,
          State.assign, State.record, hrec, graph.emplace_back, Function.update_noteq hA1,
          Function.update_noteq hB1, Function.update_noteq hA1.symm]
      · simp [MatOps.hstack, State.setW, Mat.new, Function.update_noteq hm.symm, hr, hrows,
          State.assign, State.record, hrec, graph.emplace_back]
    · intro V V' hr hc
      simp [EigenMat.setBlock, hr, hc]
    · rfl
    · intro w
      simp [Closure.targets, writes, Closure.stmts, Stmt.addAssign, GRAD, Stmt.active, hAc, hBc,
        hA2, hB2]
    · intro X' G
      simp only [Closure.stmts, contribs, Stmt.contrib, Stmt.addAssign, GRAD, Stmt.active, hAc,
        hBc, EigenMat.setBlock, EigenMat.block, inner, Function.update_noteq hB1,
        Function.update_noteq hm.symm, Function.update_same, Function.update_noteq hA1,
        List.map_cons, List.map_nil, List.sum_cons, List.sum_nil, hg.symm, Bool.and_false,
        Bool.not_false, and_true, and_false, if_true, if_false, true_and, add_zero, zero_add,
        Nat.zero_le, Nat.sub_zero]
      apply Finset.sum_congr rfl
      intro i hi
      rw [Finset.sum_range_add]
      have h1 : ∀ j ∈ Finset.range (s.w A.m).cols,
          ((if i < (s.w B.m).rows ∧ (s.w A.m).cols ≤ j ∧ j < (s.w A.m).cols + (s.w B.m).cols
              then (s.w B.m).coeff i (j - (s.w A.m).cols)
              else if i < (s.w A.m).rows ∧ j < (s.w A.m).cols then X' i j
                else (s.w s.next_addr).coeff i j)
            - (if i < (s.w B.m).rows ∧ (s.w A.m).cols ≤ j ∧ j < (s.w A.m).cols + (s.w B.m).cols
              then (s.w B.m).coeff i (j - (s.w A.m).cols)
              else if i < (s.w A.m).rows ∧ j < (s.w A.m).cols then 0
                else (s.w s.next_addr).coeff i j)) * G i j = X' i j * G i j := by
        intro j hj
        rw [Finset.mem_range] at hi hj
        have : ¬ ((s.w A.m).cols ≤ j) := by omega
        simp [this, hi, hj]
      have h2 : ∀ j ∈ Finset.range (s.w B.m).cols,
          ((if i < (s.w B.m).rows ∧ (s.w A.m).cols ≤ (s.w A.m).cols + j
                ∧ (s.w A.m).cols + j < (s.w A.m).cols + (s.w B.m).cols
              then (s.w B.m).coeff i ((s.w A.m).cols + j - (s.w A.m).cols)
              else if i < (s.w A.m).rows ∧ (s.w A.m).cols + j < (s.w A.m).cols then X' i ((s.w A.m).cols + j)
                else (s.w s.next_addr).coeff i ((s.w A.m).cols + j))
            - (if i < (s.w B.m).rows ∧ (s.w A.m).cols ≤ (s.w A.m).cols + j
                ∧ (s.w A.m).cols + j < (s.w A.m).cols + (s.w B.m).cols
              then (s.w B.m).coeff i ((s.w A.m).cols + j - (s.w A.m).cols)
              else if i < (s.w A.m).rows ∧ (s.w A.m).cols + j < (s.w A.m).cols then 0
                else (s.w s.next_addr).coeff i ((s.w A.m).cols + j)))
              * G i ((s.w A.m).cols + j) = 0 := by
        intro j hj
        rw [Finset.mem_range] at hi hj
        have : i < (s.w B.m).rows := by omega
        simp [this, hj]
      rw [Finset.sum_congr rfl h1, Finset.sum_congr rfl h2]
      simp
  · apply adjointIn_of_spec (MatOps.hstack A B) B s
      (Closure.hstack A B ⟨s.next_addr, s.next_addr, false⟩)
      (fun V => (EigenMat.setBlock
          ⟨(s.w A.m).rows, (s.w A.m).cols + V.cols, (s.w s.next_addr).coeff⟩
          0 0 (s.w A.m).rows (s.w A.m).cols (s.w A.m)).setBlock 0 (s.w A.m).cols V.rows V.cols V)
    · intro V hr hc
      refine ⟨(MatOps.hstack A B (s.setW B V)).2, ?_, ?_, ?_⟩
      · simp [MatOps.hstack, State.setW, Mat.new, Function.update_noteq hm, hr, hrows]
      · simp [MatOps.hstack, State.setW, Mat.new, Function.update_noteq hm, hr, hrows,
          State.assign, State.record, hrec, graph.emplace_back, Function.update_noteq hA1,
          Function.update_noteq hB1, Function.update_noteq hB1.symm]
      · simp [MatOps.hstack, State.setW, Mat.new, Function.update_noteq hm, hr, hrows,
          State.assign, State.record, hrec, graph.emplace_back]
    · intro V V' hr hc
      simp [EigenMat.setBlock, hr, hc]
    · rfl
    · intro w
      simp [Closure.targets, writes, Closure.stmts, Stmt.addAssign, GRAD, Stmt.active, hAc, hBc,
        hA2, hB2]
    · intro X' G
      simp only [Closure.stmts, contribs, Stmt.contrib, Stmt.addAssign, GRAD, Stmt.active, hAc,
        hBc, EigenMat.setBlock, EigenMat.block, inner, Function.update_noteq hB1,
        Function.update_noteq hm, Function.update_same, Function.update_noteq hA1,
        List.map_cons, List.map_nil, List.sum_cons, List.sum_nil, hg, Bool.and_false,
        Bool.not_false, and_true, and_false, if_true, if_false, true_and, add_zero, zero_add,
        Nat.zero_le, Nat.sub_zero]
      rw [hrows]
      apply Finset.sum_congr rfl
      intro i hi
      rw [Finset.sum_range_add]
      rw [Finset.mem_range] at hi
      rw [Finset.sum_eq_zero, zero_add]
      · apply Finset.sum_congr rfl
        intro j hj
        rw [Finset.mem_range] at hj
        simp only [hi, hj, Nat.le_add_right, Nat.add_lt_add_iff_left, and_self, if_true,
          Nat.add_sub_cancel_left, sub_zero]
      · intro j hj
        rw [Finset.mem_range] at hj
        have : ¬ ((s.w A.m).cols ≤ j) := by omega
        simp only [this, false_and, and_false, if_false, sub_self, zero_mul]

theorem adjoint_vstack (s : State) (A B : Mat) (hrec : s.backprop_enabled = true)
    (hAm : A.m < s.next_addr) (hAg : A.g < s.next_addr) (hBm : B.m < s.next_addr)
    (hBg : B.g < s.next_addr) (hm : A.m ≠ B.m) (hg : A.g ≠ B.g)
    (hAc : A.constant = false) (hBc : B.constant = false)
    (hcols : (s.w A.m).cols = (s.w B.m).cols) :
    AdjointIn (MatOps.vstack A B) A s ∧ AdjointIn (MatOps.vstack A B) B s := by
  have hA1 : A.m ≠ s.next_addr := by omega
  have hB1 : B.m ≠ s.next_addr := by omega
  have hA2 : s.next_addr ≠ A.g := by omega
  have hB2 : s.next_addr ≠ B.g := by omega
  constructor
  · apply adjointIn_of_spec (MatOps.vstack A B) A s
      (Closure.vstack A B ⟨s.next_addr, s.next_addr, false⟩)
      (fun V => (EigenMat.setBlock ⟨V.rows + (s.w B.m).rows, V.cols, (s.w s.next_addr).coeff⟩
          0 0 V.rows V.cols V).setBlock V.rows 0 (s.w B.m).rows (s.w B.m).cols (s.w B.m))
    · intro V hr hc
      refine ⟨(MatOps.vstack A B (s.setW A V)).2, ?_, ?_, ?_⟩
      · simp [MatOps.vstack, State.setW, Mat.new, Function.update_noteq hm.symm, hc, hcols]
      · simp [MatOps.vstack, State.setW, Mat.new, Function.update_noteq hm.symm, hc, hcols,
          State.assign, State.record, hrec, graph.emplace_back, Function.update_noteq hA1,
          Function.update_noteq hB1, Function.update_noteq hA1.symm]
      · simp [MatOps.vstack, State.setW, Mat.new, Function.update_noteq hm.symm, hc, hcols,
          State.assign, State.record, hrec, graph.emplace_back]
    · intro V V' hr hc
      simp [EigenMat.setBlock, hr, hc]
    · rfl
    · intro w
      simp [Closure.targets, writes, Closure.stmts, Stmt.addAssign, GRAD, Stmt.active, hAc, hBc,
        hA2, hB2]
    · intro X' G
      simp only [Closure.stmts, contribs, Stmt.contrib, Stmt.addAssign, GRAD, Stmt.active, hAc,
        hBc, EigenMat.setBlock, EigenMat.block, inner, Function.update_noteq hB1,
        Function.update_noteq hm.symm, Function.update_same, Function.update_noteq hA1,
        List.map_cons, List.map_nil, List.sum_cons, List.sum_nil, hg.symm, Bool.and_false,
        Bool.not_false, and_true, and_false, if_true, if_false, true_and, add_zero, zero_add,
        Nat.zero_le, Nat.sub_zero]
      rw [Finset.sum_range_add]
      conv_lhs => rw [add_comm]
      rw [Finset.sum_eq_zero, zero_add]
      · apply Finset.sum_congr rfl
        intro i hi
        apply Finset.sum_congr rfl
        intro j hj
        rw [Finset.mem_range] at hi hj
        have : ¬ ((s.w A.m).rows ≤ i) := by omega
        simp only [this, false_and, if_false, hi, hj, and_self, if_true, sub_zero]
      · intro i hi
        apply Finset.sum_eq_zero
        intro j hj
        rw [Finset.mem_range] at hi hj
        have : j < (s.w B.m).cols := by omega
        simp only [Nat.le_add_right, Nat.add_lt_add_iff_left, hi, this, and_self, if_true,
          sub_self, zero_mul]
  · apply adjointIn_of_spec (MatOps.vstack A B) B s
      (Closure.vstack A B ⟨s.next_addr, s.next_addr, false⟩)
      (fun V => (EigenMat.setBlock
          ⟨(s.w A.m).rows + V.rows, (s.w A.m).cols, (s.w s.next_addr).coeff⟩
          0 0 (s.w A.m).rows (s.w A.m).cols (s.w A.m)).setBlock (s.w A.m).rows 0 V.rows V.cols V)
    · intro V hr hc
      refine ⟨(MatOps.vstack A B (s.setW B V)).2, ?_, ?_, ?_⟩
      · simp [MatOps.vstack, State.setW, Mat.new, Function.update_noteq hm, hc, hcols]
      · simp [MatOps.vstack, State.setW, Mat.new, Function.update_noteq hm, hc, hcols,
          State.assign, State.record, hrec, graph.emplace_back, Function.update_noteq hA1,
          Function.update_noteq hB1, Function.update_noteq hB1.symm]
      · simp [MatOps.vstack, State.setW, Mat.new, Function.update_noteq hm, hc, hcols,
          State.assign, State.record, hrec, graph.emplace_back]
    · intro V V' hr hc
      simp [EigenMat.setBlock, hr, hc]
    · rfl
    · intro w
      simp [Closure.targets, writes, Closure.stmts, Stmt.addAssign, GRAD, Stmt.active, hAc, hBc,
        hA2, hB2]
    · intro X' G
      simp only [Closure.stmts, contribs, Stmt.contrib, Stmt.addAssign, GRAD, Stmt.active, hAc,
        hBc, EigenMat.setBlock, EigenMat.block, inner, Function.update_noteq hB1,
        Function.update_noteq hm, Function.update_same, Function.update_noteq hA1,
        List.map_cons, List.map_nil, List.sum_cons, List.sum_nil, hg, Bool.and_false,
        Bool.not_false, and_true, and_false, if_true, if_false, true_and, add_zero, zero_add,
        Nat.zero_le, Nat.sub_zero]
      rw [Finset.sum_range_add, hcols]
      rw [Finset.sum_eq_zero, zero_add]
      · apply Finset.sum_congr rfl
        intro i hi
        apply Finset.sum_congr rfl
        intro j hj
        rw [Finset.mem_range] at hi hj
        simp only [hi, hj, Nat.le_add_right, Nat.add_lt_add_iff_left, and_self, if_true,
          Nat.add_sub_cancel_left, sub_zero]
      · intro i hi
        apply Finset.sum_eq_zero
        intro j hj
        rw [Finset.mem_range] at hi hj
        have : ¬ ((s.w A.m).rows ≤ i) := by omega
        simp only [this, false_and, if_false, sub_self, zero_mul]

end AdjointStack

section AdjointBias

theorem adjoint_mul_with_bias (s : State) (A B C : Mat) (hrec : s.backprop_enabled = true)
    (hAm : A.m < s.next_addr) (hAg : A.g < s.next_addr) (hBm : B.m < s.next_addr)
    (hBg : B.g < s.next_addr) (hCm : C.m < s.next_addr) (hCg : C.g < s.next_addr)
    (hm : A.m ≠ B.m) (hmAC : A.m ≠ C.m) (hmBC : B.m ≠ C.m)
    (hg : A.g ≠ B.g) (hgAC : A.g ≠ C.g) (hgBC : B.g ≠ C.g)
    (hAc : A.constant = false) (hBc : B.constant = false) (hCc : C.constant = false)
    (hshape : (s.w A.m).cols = (s.w B.m).rows)
    (hrows : (s.w A.m).rows = (s.w C.m).rows) (hcols : (s.w C.m).cols = 1) :
    AdjointIn (MatOps.mul_with_bias A B C) A s ∧ AdjointIn (MatOps.mul_with_bias A B C) B s ∧
      AdjointIn (MatOps.mul_with_bias A B C) C s := by
  have hA1 : A.m ≠ s.next_addr := by omega
  have hB1 : B.m ≠ s.next_addr := by omega
  have hC1 : C.m ≠ s.next_addr := by omega
  have hA2 : s.next_addr ≠ A.g := by omega
  have hB2 : s.next_addr ≠ B.g := by omega
  have hC2 : s.next_addr ≠ C.g := by omega
  refine ⟨?_, ?_, ?_⟩
  · apply adjointIn_of_spec (MatOps.mul_with_bias A B C) A s
      (Closure.mul_with_bias A B C ⟨s.next_addr, s.next_addr, false⟩)
      (fun V => (V.mul (s.w B.m)).colwiseAdd (s.w C.m))
    · intro V hr hc
      refine ⟨(MatOps.mul_with_bias A B C (s.setW A V)).2, ?_, ?_, ?_⟩
      · simp [MatOps.mul_with_bias, State.setW, Mat.new, Function.update_noteq hm.symm,
          Function.update_noteq hmAC.symm, hr, hc, hshape, hrows, hcols]
      · simp [MatOps.mul_with_bias, State.setW, Mat.new, Function.update_noteq hm.symm,
          Function.update_noteq hmAC.symm, hr, hc, hshape, hrows, hcols,
          State.assign, State.record, hrec, graph.emplace_back, Function.update_noteq hA1,
          Function.update_noteq hB1, Function.update_noteq hC1]
      · simp [MatOps.mul_with_bias, State.setW, Mat.new, Function.update_noteq hm.symm,
          Function.update_noteq hmAC.symm, hr, hc, hshape, hrows, hcols,
          State.assign, State.record, hrec, graph.emplace_back]
    · intro V V' hr hc
      simp [EigenMat.mul, EigenMat.colwiseAdd, hr]
    · rfl
    · intro w
      simp [Closure.targets, writes, Closure.stmts, Stmt.addAssign, GRAD, Stmt.active, hAc, hBc,
        hCc, hA2, hB2, hC2]
    · intro X' G
      simp only [Closure.stmts, contribs, Stmt.contrib, Stmt.addAssign, GRAD, Stmt.active, hAc,
        hBc, hCc, EigenMat.mul, EigenMat.transpose, EigenMat.colwiseAdd, EigenMat.rowwiseSum,
        inner, Function.update_noteq hB1, Function.update_noteq hC1,
        Function.update_noteq hm.symm, Function.update_noteq hmAC.symm, Function.update_same,
        Function.update_noteq hA1, List.map_cons, List.map_nil, List.sum_cons, List.sum_nil,
        hg.symm, hgAC.symm, Bool.and_false, Bool.not_false, and_true, and_false, if_true,
        if_false, true_and, add_zero, zero_mul, Finset.sum_const_zero, zero_add,
        add_sub_add_right_eq_sub, add_sub_cancel_right, sub_zero]
      apply Finset.sum_congr rfl
      intro i _
      simp only [Finset.sum_mul, Finset.mul_sum]
      rw [Finset.sum_comm]
      apply Finset.sum_congr rfl
      intro c _
      apply Finset.sum_congr rfl
      intro j _
      ring
  · apply adjointIn_of_spec (MatOps.mul_with_bias A B C) B s
      (Closure.mul_with_bias A B C ⟨s.next_addr, s.next_addr, false⟩)
      (fun V => ((s.w A.m).mul V).colwiseAdd (s.w C.m))
    · intro V hr hc
      refine ⟨(MatOps.mul_with_bias A B C (s.setW B V)).2, ?_, ?_, ?_⟩
      · simp [MatOps.mul_with_bias, State.setW, Mat.new, Function.update_noteq hm,
          Function.update_noteq hmBC.symm, hr, hc, hshape, hrows, hcols]
      · simp [MatOps.mul_with_bias, State.setW, Mat.new, Function.update_noteq hm,
          Function.update_noteq hmBC.symm, hr, hc, hshape, hrows, hcols,
          State.assign, State.record, hrec, graph.emplace_back, Function.update_noteq hA1,
          Function.update_noteq hB1, Function.update_noteq hC1]
      · simp [MatOps.mul_with_bias, State.setW, Mat.new, Function.update_noteq hm,
          Function.update_noteq hmBC.symm, hr, hc, hshape, hrows, hcols,
          State.assign, State.record, hrec, graph.emplace_back]
    · intro V V' hr hc
      simp [EigenMat.mul, EigenMat.colwiseAdd, hc]
    · rfl
    · intro w
      simp [Closure.targets, writes, Closure.stmts, Stmt.addAssign, GRAD, Stmt.active, hAc, hBc,
        hCc, hA2, hB2, hC2]
    · intro X' G
      simp only [Closure.stmts, contribs, Stmt.contrib, Stmt.addAssign, GRAD, Stmt.active, hAc,
        hBc, hCc, EigenMat.mul, EigenMat.transpose, EigenMat.colwiseAdd, EigenMat.rowwiseSum,
        inner, Function.update_noteq hB1, Function.update_noteq hC1,
        Function.update_noteq hm, Function.update_noteq hmBC.symm, Function.update_same,
        Function.update_noteq hA1, List.map_cons, List.map_nil, List.sum_cons, List.sum_nil,
        hg, hgBC.symm, Bool.and_false, Bool.not_false, and_true, and_false, if_true,
        if_false, true_and, add_zero, mul_zero, Finset.sum_const_zero, zero_add,
        add_sub_add_right_eq_sub, add_sub_cancel_right, sub_zero]
      rw [hshape]
      simp only [Finset.sum_mul, Finset.mul_sum]
      rw [Finset.sum_comm]
      conv_rhs => rw [Finset.sum_comm]
      apply Finset.sum_congr rfl
      intro j _
      rw [Finset.sum_comm]
      apply Finset.sum_congr rfl
      intro c _
      apply Finset.sum_congr rfl
      intro i _
      ring
  · apply adjointIn_of_spec (MatOps.mul_with_bias A B C) C s
      (Closure.mul_with_bias A B C ⟨s.next_addr, s.next_addr, false⟩)
      (fun V => ((s.w A.m).mul (s.w B.m)).colwiseAdd V)
    · intro V hr hc
      refine ⟨(MatOps.mul_with_bias A B C (s.setW C V)).2, ?_, ?_, ?_⟩
      · simp [MatOps.mul_with_bias, State.setW, Mat.new, Function.update_noteq hmAC,
          Function.update_noteq hmBC, hr, hc, hshape, hrows, hcols]
      · simp [MatOps.mul_with_bias, State.setW, Mat.new, Function.update_noteq hmAC,
          Function.update_noteq hmBC, hr, hc, hshape, hrows, hcols,
          State.assign, State.record, hrec, graph.emplace_back, Function.update_noteq hA1,
          Function.update_noteq hB1, Function.update_noteq hC1]
      · simp [MatOps.mul_with_bias, State.setW, Mat.new, Function.update_noteq hmAC,
          Function.update_noteq hmBC, hr, hc, hshape, hrows, hcols,
          State.assign, State.record, hrec, graph.emplace_back]
    · intro V V' hr hc
      simp [EigenMat.mul, EigenMat.colwiseAdd]
    · rfl
    · intro w
      simp [Closure.targets, writes, Closure.stmts, Stmt.addAssign, GRAD, Stmt.active, hAc, hBc,
        hCc, hA2, hB2, hC2]
    · intro X' G
      simp only [Closure.stmts, contribs, Stmt.contrib, Stmt.addAssign, GRAD, Stmt.active, hAc,
        hBc, hCc, EigenMat.mul, EigenMat.transpose, EigenMat.colwiseAdd, EigenMat.rowwiseSum,
        inner, Function.update_noteq hB1, Function.update_noteq hC1,
        Function.update_noteq hmAC, Function.update_noteq hmBC, Function.update_same,
        Function.update_noteq hA1, List.map_cons, List.map_nil, List.sum_cons, List.sum_nil,
        hgAC, hgBC, Bool.and_false, Bool.not_false, and_true, and_false, if_true,
        if_false, true_and, add_zero, Finset.sum_const_zero, zero_add,
        add_sub_add_left_eq_sub, add_sub_cancel_left, sub_zero]
      rw [hrows, hcols]
      apply Finset.sum_congr rfl
      intro i _
      simp only [Finset.sum_range_one, Finset.mul_sum]

end AdjointBias

section AdjointPluck

theorem EigenMat.ext_of (a b : EigenMat) (hr : a.rows = b.rows) (hc : a.cols = b.cols)
    (h : ∀ i j, a.coeff i j = b.coeff i j) : a = b := by
  cases a
  cases b
  simp only [EigenMat.mk.injEq]
  exact ⟨hr, hc, funext fun i => funext fun j => h i j⟩

theorem rowsPluckFill_frame (A out : Mat) (idx : List Nat) (off : Nat) (t : State) (a : Nat)
    (ha : a ≠ out.m) : (MatOps.rowsPluckFill A out idx off t).w a = t.w a := by
  induction idx generalizing off t with
  | nil => rfl
  | cons x rest ih =>
    simp only [MatOps.rowsPluckFill]
    rw [ih]
    simp [State.assign, Function.update_noteq ha]

theorem adjoint_rows_pluck (s : State) (A : Mat) (idx : List Nat)
    (hrec : s.backprop_enabled = true)
    (hAm : A.m < s.next_addr) (hAg : A.g < s.next_addr) (hAc : A.constant = false)
    (hidx : ∀ x ∈ idx, x < (s.w A.m).rows) :
    AdjointIn (MatOps.rows_pluck A idx) A s := by
  have hA1 : A.m ≠ s.next_addr := by omega
  have hA2 : s.next_addr ≠ A.g := by omega
  apply adjointIn_of_spec (MatOps.rows_pluck A idx) A s
    (Closure.rows_pluck A ⟨s.next_addr, s.next_addr, false⟩ idx)
    (fun V => ⟨V.cols, idx.length, fun j k =>
      if k < idx.length then V.coeff (idx.getD k 0) j else (s.w s.next_addr).coeff j k⟩)
  · intro V hr hc
    refine ⟨(MatOps.rows_pluck A idx (s.setW A V)).2, ?_, ?_, ?_⟩
    · simp [MatOps.rows_pluck, State.setW, Mat.new]
    · have hw : (MatOps.rows_pluck A idx (s.setW A V)).2.w
          = (MatOps.rowsPluckFill A ⟨s.next_addr, s.next_addr, false⟩ idx 0
              (Mat.new ((s.setW A V).w A.m).cols idx.length false (s.setW A V)).2).w :=
        (record_fields _ _).1
      rw [hw]
      obtain ⟨f1, -, -, -, f5, f6, f7⟩ := rowsPluckFill_spec A ⟨s.next_addr, s.next_addr, false⟩
        hA1 idx 0 (Mat.new ((s.setW A V).w A.m).cols idx.length false (s.setW A V)).2
      funext a
      by_cases ha : a = s.next_addr
      · subst ha
        rw [Function.update_same]
        apply EigenMat.ext_of
        · rw [f5]; simp [Mat.new, State.setW]
        · rw [f6]; simp [Mat.new, State.setW]
        · intro i j
          rw [f7]
          simp [Mat.new, State.setW, Function.update_noteq hA1, Function.update_noteq hA1.symm]
      · rw [rowsPluckFill_frame _ _ _ _ _ _ ha, Function.update_noteq ha]
        simp [Mat.new, State.setW, Function.update_noteq ha]
    · obtain ⟨-, -, f3, f4, -⟩ := rowsPluckFill_spec A ⟨s.next_addr, s.next_addr, false⟩
        hA1 idx 0 (Mat.new ((s.setW A V).w A.m).cols idx.length false (s.setW A V)).2
      show ((MatOps.rowsPluckFill A ⟨s.next_addr, s.next_addr, false⟩ idx 0
          (Mat.new ((s.setW A V).w A.m).cols idx.length false (s.setW A V)).2).record
          (Closure.rows_pluck A ⟨s.next_addr, s.next_addr, false⟩ idx)).tape = _
      rw [(record_fields _ _).2.2, f4, f3]
      simp [Mat.new, State.setW, hrec]
  · intro V V' hr hc
    simp [hc]
  · rfl
  · intro w
    exact rowsPluck_writes (GRAD A) idx _ _ hA2
  · intro X' G
    have hc : ∀ i j, contribs
        ((Closure.rows_pluck A ⟨s.next_addr, s.next_addr, false⟩ idx).stmts
          (Function.update (Function.update s.w A.m ⟨(s.w A.m).rows, (s.w A.m).cols, X'⟩)
            s.next_addr ⟨(s.w A.m).cols, idx.length, fun j k =>
              if k < idx.length then X' (idx.getD k 0) j else (s.w s.next_addr).coeff j k⟩))
        A.g ⟨(s.w A.m).cols, idx.length, G⟩ i j
        = ∑ k ∈ Finset.range idx.length, (if idx.getD k 0 = i then G j k else 0) := by
      intro i j
      simp only [Closure.stmts, Function.update_same]
      exact rowsPluck_contribs (GRAD A) (by simp [GRAD, hAc]) idx idx.length _ i j
    simp only [hc, inner]
    have hL : ∀ j ∈ Finset.range (s.w A.m).cols, ∀ k ∈ Finset.range idx.length,
        ((if k < idx.length then X' (idx.getD k 0) j else (s.w s.next_addr).coeff j k)
          - (if k < idx.length then (0 : R) else (s.w s.next_addr).coeff j k)) * G j k
        = ∑ i ∈ Finset.range (s.w A.m).rows,
            X' i j * (if idx.getD k 0 = i then G j k else 0) := by
      intro j _ k hk
      rw [Finset.mem_range] at hk
      have hmem : idx.getD k 0 ∈ Finset.range (s.w A.m).rows := by
        rw [Finset.mem_range, List.getD_eq_getElem _ _ hk]
        exact hidx _ (List.getElem_mem hk)
      rw [Finset.sum_eq_single_of_mem _ hmem (fun i _ hi => by rw [if_neg (fun e => hi e.symm), mul_zero])]
      simp [hk]
    rw [Finset.sum_congr rfl (fun j hj => Finset.sum_congr rfl (hL j hj))]
    simp only [Finset.mul_sum]
    conv_rhs => rw [Finset.sum_comm]
    apply Finset.sum_congr rfl
    intro j _
    rw [Finset.sum_comm]

end AdjointPluck

section AdjointStackVector

theorem hstackCoeff_congr (w w' : Nat → EigenMat) (L : List Mat) (off : Nat)
    (base : Nat → Nat → R) (h : ∀ Y ∈ L, w Y.m = w' Y.m) :
    hstackCoeff w L off base = hstackCoeff w' L off base := by
  induction L generalizing off base with
  | nil => rfl
  | cons Y rest ih =>
    simp only [hstackCoeff]
    rw [h Y (List.mem_cons_self _ _)]
    exact ih _ _ (fun Z hZ => h Z (List.mem_cons_of_mem _ hZ))

theorem hstackFill_eq (out : Mat) (L : List Mat) (off : Nat) (t : State)
    (h : ∀ Y ∈ L, Y.m ≠ out.m) :
    (MatOps.hstackFill out L off t).w
        = (if L = [] then t.w else Function.update t.w out.m
            ⟨(t.w out.m).rows, (t.w out.m).cols, hstackCoeff t.w L off (t.w out.m).coeff⟩) ∧
      (MatOps.hstackFill out L off t).dw = t.dw ∧
      (MatOps.hstackFill out L off t).tape = t.tape ∧
      (MatOps.hstackFill out L off t).backprop_enabled = t.backprop_enabled := by
  induction L generalizing off t with
  | nil => simp [MatOps.hstackFill]
  | cons Y rest ih =>
    have hY : Y.m ≠ out.m := h Y (List.mem_cons_self _ _)
    have hrest : ∀ Z ∈ rest, Z.m ≠ out.m := fun Z hZ => h Z (List.mem_cons_of_mem _ hZ)
    obtain ⟨i1, i2, i3, i4⟩ := ih (off + (t.w Y.m).cols)
      (t.assign out ((t.w out.m).setBlock 0 off (t.w Y.m).rows (t.w Y.m).cols (t.w Y.m))) hrest
    simp only [MatOps.hstackFill]
    refine ⟨?_, i2, i3, i4⟩
    rw [i1]
    simp only [List.cons_ne_nil, if_false]
    have hc : hstackCoeff (t.assign out ((t.w out.m).setBlock 0 off (t.w Y.m).rows
          (t.w Y.m).cols (t.w Y.m))).w rest
        = hstackCoeff t.w rest := by
      funext o b
      apply hstackCoeff_congr
      intro Z hZ
      simp [State.assign, Function.update_noteq (hrest Z hZ)]
    by_cases hr : rest = []
    · subst hr
      simp [State.assign, hstackCoeff, EigenMat.setBlock]
    · simp only [hr, if_false, hc]
      simp [State.assign, hstackCoeff, EigenMat.setBlock]

theorem totalCols_congr (w w' : Nat → EigenMat) (L : List Mat)
    (h : ∀ Y ∈ L, w Y.m = w' Y.m) : totalCols w L = totalCols w' L := by
  induction L with
  | nil => rfl
  | cons Y rest ih =>
    simp only [totalCols, List.map_cons, List.sum_cons] at ih ⊢
    rw [h Y (List.mem_cons_self _ _), ih (fun Z hZ => h Z (List.mem_cons_of_mem _ hZ))]

theorem hstackCoeff_base (w : Nat → EigenMat) (L : List Mat) (off : Nat)
    (b b' : Nat → Nat → R) (h : ∀ i j, off ≤ j → b i j = b' i j) (i j : Nat) :
    hstackCoeff w L off b i j - hstackCoeff w L off b' i j = b i j - b' i j := by
  induction L generalizing off b b' with
  | nil => rfl
  | cons Y rest ih =>
    simp only [hstackCoeff]
    rw [ih]
    · by_cases hb : 0 ≤ i ∧ i < 0 + (w Y.m).rows ∧ off ≤ j ∧ j < off + (w Y.m).cols
      · rw [if_pos hb, if_pos hb, h i j hb.2.2.1, sub_self, sub_self]
      · rw [if_neg hb, if_neg hb]
    · intro i' j' hj
      by_cases hb : 0 ≤ i' ∧ i' < 0 + (w Y.m).rows ∧ off ≤ j' ∧ j' < off + (w Y.m).cols
      · rw [if_pos hb, if_pos hb]
      · rw [if_neg hb, if_neg hb]
        exact h i' j' (by omega)

theorem hstackCoeff_diff (w0 : Nat → EigenMat) (X : Mat) (V V' : EigenMat)
    (hr : V.rows = V'.rows) (hc : V.cols = V'.cols) (pre post : List Mat)
    (hpre : ∀ Y ∈ pre, Y.m ≠ X.m) (hpost : ∀ Y ∈ post, Y.m ≠ X.m)
    (off : Nat) (base : Nat → Nat → R) (i j : Nat) :
    hstackCoeff (Function.update w0 X.m V) (pre ++ X :: post) off base i j
        - hstackCoeff (Function.update w0 X.m V') (pre ++ X :: post) off base i j
      = if i < V.rows ∧ off + totalCols w0 pre ≤ j ∧ j < off + totalCols w0 pre + V.cols
        then V.coeff i (j - (off + totalCols w0 pre)) - V'.coeff i (j - (off + totalCols w0 pre))
        else 0 := by
  induction pre generalizing off base with
  | nil =>
    simp only [List.nil_append, hstackCoeff, Function.update_same, totalCols, List.map_nil,
      List.sum_nil, add_zero]
    rw [hstackCoeff_congr (Function.update w0 X.m V) (Function.update w0 X.m V') post _ _
      (fun Y hY => by rw [Function.update_noteq (hpost Y hY), Function.update_noteq (hpost Y hY)])]
    rw [← hr, ← hc, hstackCoeff_base]
    · by_cases hb : i < V.rows ∧ off ≤ j ∧ j < off + V.cols
      · rw [if_pos hb, if_pos (by omega), if_pos (by omega)]
        simp only [Nat.sub_zero]
      · rw [if_neg hb, if_neg (by omega), if_neg (by omega), sub_self]
    · intro i' j' hj
      rw [if_neg (by omega), if_neg (by omega)]
  | cons Y pre ih =>
    have hY : Y.m ≠ X.m := hpre Y (List.mem_cons_self _ _)
    rw [List.cons_append]
    simp only [hstackCoeff, Function.update_noteq hY]
    rw [ih (fun Z hZ => hpre Z (List.mem_cons_of_mem _ hZ))]
    simp only [totalCols, List.map_cons, List.sum_cons, add_assoc]

theorem hstackStmts_writes (w : Nat → EigenMat) (L : List Mat) (off a : Nat)
    (h : ∀ Y ∈ L, Y.g ≠ a) : a ∉ writes (hstackStmts w L off) := by
  induction L generalizing off with
  | nil => simp [hstackStmts, writes]
  | cons Y rest ih =>
    have hr := ih (off + (w Y.m).cols) (fun Z hZ => h Z (List.mem_cons_of_mem _ hZ))
    have hY : Y.g ≠ a := h Y (List.mem_cons_self _ _)
    simp only [writes, hstackStmts, List.filter_cons] at hr ⊢
    split
    · simp only [List.map_cons, List.mem_cons, not_or]
      exact ⟨fun e => hY (by simpa [Stmt.addAssign, GRAD] using e.symm), hr⟩
    · exact hr

theorem hstackStmts_none (w : Nat → EigenMat) (L : List Mat) (off a : Nat)
    (h : ∀ Y ∈ L, Y.g ≠ a) (dout : EigenMat) (i j : Nat) :
    contribs (hstackStmts w L off) a dout i j = 0 := by
  induction L generalizing off with
  | nil => simp [hstackStmts, contribs]
  | cons Y rest ih =>
    have hr := ih (off + (w Y.m).cols) (fun Z hZ => h Z (List.mem_cons_of_mem _ hZ))
    have hY : Y.g ≠ a := h Y (List.mem_cons_self _ _)
    simp only [contribs, hstackStmts, List.map_cons, List.sum_cons] at hr ⊢
    rw [hr]
    simp [Stmt.contrib, Stmt.addAssign, GRAD, hY]

theorem hstackStmts_contribs (w : Nat → EigenMat) (X : Mat) (pre post : List Mat)
    (hpre : ∀ Y ∈ pre, Y.g ≠ X.g) (hpost : ∀ Y ∈ post, Y.g ≠ X.g)
    (hXc : X.constant = false) (off : Nat) (dout : EigenMat) (i j : Nat) :
    contribs (hstackStmts w (pre ++ X :: post) off) X.g dout i j
      = dout.coeff (0 + i) (off + totalCols w pre + j) := by
  induction pre generalizing off with
  | nil =>
    have hn := hstackStmts_none w post (off + (w X.m).cols) X.g hpost dout i j
    simp only [contribs, hstackStmts, List.nil_append, List.map_cons, List.sum_cons] at hn ⊢
    rw [hn]
    simp [Stmt.contrib, Stmt.addAssign, GRAD, Stmt.active, hXc, EigenMat.block, totalCols]
  | cons Y pre ih =>
    have hY : Y.g ≠ X.g := hpre Y (List.mem_cons_self _ _)
    have hr := ih (fun Z hZ => hpre Z (List.mem_cons_of_mem _ hZ)) (off + (w Y.m).cols)
    rw [List.cons_append]
    simp only [contribs, hstackStmts, List.map_cons, List.sum_cons] at hr ⊢
    rw [hr]
    simp [Stmt.contrib, Stmt.addAssign, GRAD, hY, totalCols, add_assoc]

theorem sum_window (a d r : Nat) (f g : Nat → R) :
    (∑ j in Finset.range (a + (d + r)),
        (if a ≤ j ∧ j < a + d then f (j - a) else 0) * g j)
      = ∑ j in Finset.range d, f j * g (a + j) := by
  rw [← add_assoc, Finset.sum_range_add, Finset.sum_range_add]
  rw [Finset.sum_eq_zero, zero_add]
  · rw [add_comm]
    rw [Finset.sum_eq_zero, zero_add]
    · apply Finset.sum_congr rfl
      intro j hj
      rw [Finset.mem_range] at hj
      rw [if_pos (by omega), Nat.add_sub_cancel_left]
    · intro j _
      rw [if_neg (by omega), zero_mul]
  · intro j hj
    rw [Finset.mem_range] at hj
    rw [if_neg (by omega), zero_mul]

theorem totalCols_update (w : Nat → EigenMat) (a : Nat) (V : EigenMat)
    (hc : V.cols = (w a).cols) (L : List Mat) :
    totalCols (Function.update w a V) L = totalCols w L := by
  induction L with
  | nil => rfl
  | cons Y rest ih =>
    simp only [totalCols, List.map_cons, List.sum_cons] at ih ⊢
    rw [ih]
    by_cases h : Y.m = a
    · rw [h, Function.update_same, hc]
    · rw [Function.update_noteq h]

theorem totalCols_append (w : Nat → EigenMat) (L M : List Mat) :
    totalCols w (L ++ M) = totalCols w L + totalCols w M := by
  simp [totalCols]

theorem hstack_vector_ok (L : List Mat) (s : State) (n : Nat) (hne : L ≠ [])
    (hrows : ∀ Y ∈ L, (s.w Y.m).rows = n) (hm : ∀ Y ∈ L, Y.m ≠ s.next_addr)
    (hrec : s.backprop_enabled = true) :
    ∃ s1, MatOps.hstack_vector L s = (.ok ⟨s.next_addr, s.next_addr, false⟩, s1) ∧
      s1.w = Function.update s.w s.next_addr
        ⟨n, totalCols s.w L, hstackCoeff s.w L 0 (s.w s.next_addr).coeff⟩ ∧
      s1.tape = s.tape ++ [Closure.hstack_vector L ⟨s.next_addr, s.next_addr, false⟩] := by
  cases L with
  | nil => exact absurd rfl hne
  | cons first rest =>
    have hany : (first :: rest).any (fun mat => decide ((s.w mat.m).rows ≠ (s.w first.m).rows))
        = false := by
      rw [List.any_eq_false]
      intro Y hY
      simp [hrows Y hY, hrows first (List.mem_cons_self _ _)]
    obtain ⟨f1, f2, f3, f4⟩ := hstackFill_eq ⟨s.next_addr, s.next_addr, false⟩ (first :: rest) 0
      (Mat.new (s.w first.m).rows
        (((first :: rest).map (fun mat => (s.w mat.m).cols)).sum) false s).2 hm
    refine ⟨(MatOps.hstack_vector (first :: rest) s).2, ?_, ?_, ?_⟩
    · unfold MatOps.hstack_vector
      simp only [hany]
      rfl
    · unfold MatOps.hstack_vector
      simp only [hany, Bool.false_eq_true, if_false]
      rw [(record_fields _ _).1]
      show (MatOps.hstackFill ⟨s.next_addr, s.next_addr, false⟩ (first :: rest) 0
        (Mat.new (s.w first.m).rows
          (((first :: rest).map (fun mat => (s.w mat.m).cols)).sum) false s).2).w = _
      rw [f1, if_neg (List.cons_ne_nil _ _)]
      rw [hstackCoeff_congr _ s.w (first :: rest) 0 _
        (fun Y hY => by simp [Mat.new, Function.update_noteq (hm Y hY)])]
      simp [Mat.new, totalCols, hrows first (List.mem_cons_self _ _)]
    · unfold MatOps.hstack_vector
      simp only [hany, Bool.false_eq_true, if_false]
      rw [(record_fields _ _).2.2]
      show (if (MatOps.hstackFill ⟨s.next_addr, s.next_addr, false⟩ (first :: rest) 0
        (Mat.new (s.w first.m).rows
          (((first :: rest).map (fun mat => (s.w mat.m).cols)).sum) false s).2).backprop_enabled
            = true then
          (MatOps.hstackFill ⟨s.next_addr, s.next_addr, false⟩ (first :: rest) 0
            (Mat.new (s.w first.m).rows
              (((first :: rest).map (fun mat => (s.w mat.m).cols)).sum) false s).2).tape ++ _
          else _) = _
      rw [f4, f3]
      simp [Mat.new, hrec]

theorem adjoint_hstack_vector (s : State) (pre post : List Mat) (X : Mat)
    (hrec : s.backprop_enabled = true)
    (haddr : ∀ Y ∈ pre ++ X :: post, Y.m < s.next_addr ∧ Y.g < s.next_addr)
    (hpre : ∀ Y ∈ pre, Y.m ≠ X.m ∧ Y.g ≠ X.g) (hpost : ∀ Y ∈ post, Y.m ≠ X.m ∧ Y.g ≠ X.g)
    (hXc : X.constant = false)
    (hrows : ∀ Y ∈ pre ++ X :: post, (s.w Y.m).rows = (s.w X.m).rows) :
    AdjointIn (MatOps.hstack_vector (pre ++ X :: post)) X s := by
  have hX : X ∈ pre ++ X :: post := by simp
  have hX1 : X.m ≠ s.next_addr := by have := haddr X hX; omega
  have hne : pre ++ X :: post ≠ [] := by simp
  have hL1 : ∀ Y ∈ pre ++ X :: post, Y.m ≠ s.next_addr := fun Y hY => by
    have := haddr Y hY; omega
  have hL2 : ∀ Y ∈ pre ++ X :: post, Y.g ≠ s.next_addr := fun Y hY => by
    have := haddr Y hY; omega
  apply adjointIn_of_spec (MatOps.hstack_vector (pre ++ X :: post)) X s
    (Closure.hstack_vector (pre ++ X :: post) ⟨s.next_addr, s.next_addr, false⟩)
    (fun V => ⟨(s.w X.m).rows, totalCols s.w (pre ++ X :: post),
      hstackCoeff (Function.update s.w X.m V) (pre ++ X :: post) 0 (s.w s.next_addr).coeff⟩)
  · intro V hr hc
    obtain ⟨s1, e1, e2, e3⟩ := hstack_vector_ok (pre ++ X :: post) (s.setW X V) (s.w X.m).rows
      hne (fun Y hY => by
        by_cases h : Y.m = X.m
        · simp [State.setW, h, hr]
        · simp [State.setW, Function.update_noteq h, hrows Y hY]) hL1 hrec
    refine ⟨s1, e1, ?_, e3⟩
    rw [e2]
    simp only [State.setW, Function.update_noteq hX1.symm]
    rw [totalCols_update s.w X.m V hc]
  · intro V V' _ _
    exact ⟨rfl, rfl⟩
  · rfl
  · intro w
    exact hstackStmts_writes w _ 0 _ hL2
  · intro X' G
    simp only [Closure.stmts, hstackStmts_contribs _ X pre post (fun Y hY => (hpre Y hY).2)
      (fun Y hY => (hpost Y hY).2) hXc]
    rw [totalCols_congr _ s.w pre (fun Y hY => by
      have h1 : Y.m ≠ s.next_addr := hL1 Y (by simp [hY])
      rw [Function.update_noteq h1, Function.update_noteq (hpre Y hY).1])]
    unfold inner
    apply Finset.sum_congr rfl
    intro i hi
    rw [Finset.mem_range] at hi
    rw [totalCols_append]
    simp only [totalCols, List.map_cons, List.sum_cons, zero_add]
    rw [← sum_window ((pre.map (fun mat => (s.w mat.m).cols)).sum) (s.w X.m).cols
      ((post.map (fun mat => (s.w mat.m).cols)).sum) (X' i) (G i)]
    apply Finset.sum_congr rfl
    intro j _
    rw [hstackCoeff_diff s.w X ⟨(s.w X.m).rows, (s.w X.m).cols, X'⟩
      ⟨(s.w X.m).rows, (s.w X.m).cols, fun _ _ => 0⟩ rfl rfl pre post (fun Y hY => (hpre Y hY).1)
      (fun Y hY => (hpost Y hY).1)]
    simp only [totalCols, zero_add, sub_zero, hi, true_and]

end AdjointStackVector

section AdjointStackVectorV

theorem vstackCoeff_congr (w w' : Nat → EigenMat) (L : List Mat) (off : Nat)
    (base : Nat → Nat → R) (h : ∀ Y ∈ L, w Y.m = w' Y.m) :
    vstackCoeff w L off base = vstackCoeff w' L off base := by
  induction L generalizing off base with
  | nil => rfl
  | cons Y rest ih =>
    simp only [vstackCoeff]
    rw [h Y (List.mem_cons_self _ _)]
    exact ih _ _ (fun Z hZ => h Z (List.mem_cons_of_mem _ hZ))

theorem vstackFill_eq (out : Mat) (L : List Mat) (off : Nat) (t : State)
    (h : ∀ Y ∈ L, Y.m ≠ out.m) :
    (MatOps.vstackFill out L off t).w
        = (if L = [] then t.w else Function.update t.w out.m
            ⟨(t.w out.m).rows, (t.w out.m).cols, vstackCoeff t.w L off (t.w out.m).coeff⟩) ∧
      (MatOps.vstackFill out L off t).dw = t.dw ∧
      (MatOps.vstackFill out L off t).tape = t.tape ∧
      (MatOps.vstackFill out L off t).backprop_enabled = t.backprop_enabled := by
  induction L generalizing off t with
  | nil => simp [MatOps.vstackFill]
  | cons Y rest ih =>
    have hY : Y.m ≠ out.m := h Y (List.mem_cons_self _ _)
    have hrest : ∀ Z ∈ rest, Z.m ≠ out.m := fun Z hZ => h Z (List.mem_cons_of_mem _ hZ)
    obtain ⟨i1, i2, i3, i4⟩ := ih (off + (t.w Y.m).rows)
      (t.assign out ((t.w out.m).setBlock off 0 (t.w Y.m).rows (t.w Y.m).cols (t.w Y.m))) hrest
    simp only [MatOps.vstackFill]
    refine ⟨?_, i2, i3, i4⟩
    rw [i1]
    simp only [List.cons_ne_nil, if_false]
    have hc : vstackCoeff (t.assign out ((t.w out.m).setBlock off 0 (t.w Y.m).rows
          (t.w Y.m).cols (t.w Y.m))).w rest
        = vstackCoeff t.w rest := by
      funext o b
      apply vstackCoeff_congr
      intro Z hZ
      simp [State.assign, Function.update_noteq (hrest Z hZ)]
    by_cases hr : rest = []
    · subst hr
      simp [State.assign, vstackCoeff, EigenMat.setBlock]
    · simp only [hr, if_false, hc]
      simp [State.assign, vstackCoeff, EigenMat.setBlock]

theorem totalRows_congr (w w' : Nat → EigenMat) (L : List Mat)
    (h : ∀ Y ∈ L, w Y.m = w' Y.m) : totalRows w L = totalRows w' L := by
  induction L with
  | nil => rfl
  | cons Y rest ih =>
    simp only [totalRows, List.map_cons, List.sum_cons] at ih ⊢
    rw [h Y (List.mem_cons_self _ _), ih (fun Z hZ => h Z (List.mem_cons_of_mem _ hZ))]

theorem vstackCoeff_base (w : Nat → EigenMat) (L : List Mat) (off : Nat)
    (b b' : Nat → Nat → R) (h : ∀ i j, off ≤ i → b i j = b' i j) (i j : Nat) :
    vstackCoeff w L off b i j - vstackCoeff w L off b' i j = b i j - b' i j := by
  induction L generalizing off b b' with
  | nil => rfl
  | cons Y rest ih =>
    simp only [vstackCoeff]
    rw [ih]
    · by_cases hb : off ≤ i ∧ i < off + (w Y.m).rows ∧ 0 ≤ j ∧ j < 0 + (w Y.m).cols
      · rw [if_pos hb, if_pos hb, h i j hb.1, sub_self, sub_self]
      · rw [if_neg hb, if_neg hb]
    · intro i' j' hi
      by_cases hb : off ≤ i' ∧ i' < off + (w Y.m).rows ∧ 0 ≤ j' ∧ j' < 0 + (w Y.m).cols
      · rw [if_pos hb, if_pos hb]
      · rw [if_neg hb, if_neg hb]
        exact h i' j' (by omega)

theorem vstackCoeff_diff (w0 : Nat → EigenMat) (X : Mat) (V V' : EigenMat)
    (hr : V.rows = V'.rows) (hc : V.cols = V'.cols) (pre post : List Mat)
    (hpre : ∀ Y ∈ pre, Y.m ≠ X.m) (hpost : ∀ Y ∈ post, Y.m ≠ X.m)
    (off : Nat) (base : Nat → Nat → R) (i j : Nat) :
    vstackCoeff (Function.update w0 X.m V) (pre ++ X :: post) off base i j
        - vstackCoeff (Function.update w0 X.m V') (pre ++ X :: post) off base i j
      = if (off + totalRows w0 pre ≤ i ∧ i < off + totalRows w0 pre + V.rows) ∧ j < V.cols
        then V.coeff (i - (off + totalRows w0 pre)) j - V'.coeff (i - (off + totalRows w0 pre)) j
        else 0 := by
  induction pre generalizing off base with
  | nil =>
    simp only [List.nil_append, vstackCoeff, Function.update_same, totalRows, List.map_nil,
      List.sum_nil, add_zero]
    rw [vstackCoeff_congr (Function.update w0 X.m V) (Function.update w0 X.m V') post _ _
      (fun Y hY => by rw [Function.update_noteq (hpost Y hY), Function.update_noteq (hpost Y hY)])]
    rw [← hr, ← hc, vstackCoeff_base]
    · by_cases hb : (off ≤ i ∧ i < off + V.rows) ∧ j < V.cols
      · rw [if_pos hb, if_pos (by omega), if_pos (by omega)]
        simp only [Nat.sub_zero]
      · rw [if_neg hb, if_neg (by omega), if_neg (by omega), sub_self]
    · intro i' j' hi
      rw [if_neg (by omega), if_neg (by omega)]
  | cons Y pre ih =>
    have hY : Y.m ≠ X.m := hpre Y (List.mem_cons_self _ _)
    rw [List.cons_append]
    simp only [vstackCoeff, Function.update_noteq hY]
    rw [ih (fun Z hZ => hpre Z (List.mem_cons_of_mem _ hZ))]
    simp only [totalRows, List.map_cons, List.sum_cons, add_assoc]

theorem vstackStmts_writes (w : Nat → EigenMat) (L : List Mat) (off a : Nat)
    (h : ∀ Y ∈ L, Y.g ≠ a) : a ∉ writes (vstackStmts w L off) := by
  induction L generalizing off with
  | nil => simp [vstackStmts, writes]
  | cons Y rest ih =>
    have hr := ih (off + (w Y.m).rows) (fun Z hZ => h Z (List.mem_cons_of_mem _ hZ))
    have hY : Y.g ≠ a := h Y (List.mem_cons_self _ _)
    simp only [writes, vstackStmts, List.filter_cons] at hr ⊢
    split
    · simp only [List.map_cons, List.mem_cons, not_or]
      exact ⟨fun e => hY (by simpa [Stmt.addAssign, GRAD] using e.symm), hr⟩
    · exact hr

theorem vstackStmts_none (w : Nat → EigenMat) (L : List Mat) (off a : Nat)
    (h : ∀ Y ∈ L, Y.g ≠ a) (dout : EigenMat) (i j : Nat) :
    contribs (vstackStmts w L off) a dout i j = 0 := by
  induction L generalizing off with
  | nil => simp [vstackStmts, contribs]
  | cons Y rest ih =>
    have hr := ih (off + (w Y.m).rows) (fun Z hZ => h Z (List.mem_cons_of_mem _ hZ))
    have hY : Y.g ≠ a := h Y (List.mem_cons_self _ _)
    simp only [contribs, vstackStmts, List.map_cons, List.sum_cons] at hr ⊢
    rw [hr]
    simp [Stmt.contrib, Stmt.addAssign, GRAD, hY]

theorem vstackStmts_contribs (w : Nat → EigenMat) (X : Mat) (pre post : List Mat)
    (hpre : ∀ Y ∈ pre, Y.g ≠ X.g) (hpost : ∀ Y ∈ post, Y.g ≠ X.g)
    (hXc : X.constant = false) (off : Nat) (dout : EigenMat) (i j : Nat) :
    contribs (vstackStmts w (pre ++ X :: post) off) X.g dout i j
      = dout.coeff (off + totalRows w pre + i) (0 + j) := by
  induction pre generalizing off with
  | nil =>
    have hn := vstackStmts_none w post (off + (w X.m).rows) X.g hpost dout i j
    simp only [contribs, vstackStmts, List.nil_append, List.map_cons, List.sum_cons] at hn ⊢
    rw [hn]
    simp [Stmt.contrib, Stmt.addAssign, GRAD, Stmt.active, hXc, EigenMat.block, totalRows]
  | cons Y pre ih =>
    have hY : Y.g ≠ X.g := hpre Y (List.mem_cons_self _ _)
    have hr := ih (fun Z hZ => hpre Z (List.mem_cons_of_mem _ hZ)) (off + (w Y.m).rows)
    rw [List.cons_append]
    simp only [contribs, vstackStmts, List.map_cons, List.sum_cons] at hr ⊢
    rw [hr]
    simp [Stmt.contrib, Stmt.addAssign, GRAD, hY, totalRows, add_assoc]

theorem sum_window_rows (a d r : Nat) (F : Nat → Nat → R) :
    (∑ i in Finset.range (a + (d + r)), (if a ≤ i ∧ i < a + d then F (i - a) i else 0))
      = ∑ i in Finset.range d, F i (a + i) := by
  rw [← add_assoc, Finset.sum_range_add, Finset.sum_range_add]
  rw [Finset.sum_eq_zero, zero_add]
  · rw [add_comm]
    rw [Finset.sum_eq_zero, zero_add]
    · apply Finset.sum_congr rfl
      intro j hj
      rw [Finset.mem_range] at hj
      rw [if_pos (by omega), Nat.add_sub_cancel_left]
    · intro j _
      rw [if_neg (by omega)]
  · intro j hj
    rw [Finset.mem_range] at hj
    rw [if_neg (by omega)]

theorem totalRows_update (w : Nat → EigenMat) (a : Nat) (V : EigenMat)
    (hr : V.rows = (w a).rows) (L : List Mat) :
    totalRows (Function.update w a V) L = totalRows w L := by
  induction L with
  | nil => rfl
  | cons Y rest ih =>
    simp only [totalRows, List.map_cons, List.sum_cons] at ih ⊢
    rw [ih]
    by_cases h : Y.m = a
    · rw [h, Function.update_same, hr]
    · rw [Function.update_noteq h]

theorem totalRows_append (w : Nat → EigenMat) (L M : List Mat) :
    totalRows w (L ++ M) = totalRows w L + totalRows w M := by
  simp [totalRows]

theorem vstack_vector_ok (L : List Mat) (s : State) (d : Nat) (hne : L ≠ [])
    (hcols : ∀ Y ∈ L, (s.w Y.m).cols = d) (hm : ∀ Y ∈ L, Y.m ≠ s.next_addr)
    (hrec : s.backprop_enabled = true) :
    ∃ s1, MatOps.vstack_vector L s = (.ok ⟨s.next_addr, s.next_addr, false⟩, s1) ∧
      s1.w = Function.update s.w s.next_addr
        ⟨totalRows s.w L, d, vstackCoeff s.w L 0 (s.w s.next_addr).coeff⟩ ∧
      s1.tape = s.tape ++ [Closure.vstack_vector L ⟨s.next_addr, s.next_addr, false⟩] := by
  cases L with
  | nil => exact absurd rfl hne
  | cons first rest =>
    have hany : (first :: rest).any (fun mat => decide ((s.w mat.m).cols ≠ (s.w first.m).cols))
        = false := by
      rw [List.any_eq_false]
      intro Y hY
      simp [hcols Y hY, hcols first (List.mem_cons_self _ _)]
    obtain ⟨f1, f2, f3, f4⟩ := vstackFill_eq ⟨s.next_addr, s.next_addr, false⟩ (first :: rest) 0
      (Mat.new (((first :: rest).map (fun mat => (s.w mat.m).rows)).sum)
        (s.w first.m).cols false s).2 hm
    refine ⟨(MatOps.vstack_vector (first :: rest) s).2, ?_, ?_, ?_⟩
    · unfold MatOps.vstack_vector
      simp only [hany]
      rfl
    · unfold MatOps.vstack_vector
      simp only [hany, Bool.false_eq_true, if_false]
      rw [(record_fields _ _).1]
      show (MatOps.vstackFill ⟨s.next_addr, s.next_addr, false⟩ (first :: rest) 0
        (Mat.new (((first :: rest).map (fun mat => (s.w mat.m).rows)).sum)
          (s.w first.m).cols false s).2).w = _
      rw [f1, if_neg (List.cons_ne_nil _ _)]
      rw [vstackCoeff_congr _ s.w (first :: rest) 0 _
        (fun Y hY => by simp [Mat.new, Function.update_noteq (hm Y hY)])]
      simp [Mat.new, totalRows, hcols first (List.mem_cons_self _ _)]
    · unfold MatOps.vstack_vector
      simp only [hany, Bool.false_eq_true, if_false]
      rw [(record_fields _ _).2.2]
      show (if (MatOps.vstackFill ⟨s.next_addr, s.next_addr, false⟩ (first :: rest) 0
        (Mat.new (((first :: rest).map (fun mat => (s.w mat.m).rows)).sum)
          (s.w first.m).cols false s).2).backprop_enabled
            = true then
          (MatOps.vstackFill ⟨s.next_addr, s.next_addr, false⟩ (first :: rest) 0
            (Mat.new (((first :: rest).map (fun mat => (s.w mat.m).rows)).sum)
              (s.w first.m).cols false s).2).tape ++ _
          else _) = _
      rw [f4, f3]
      simp [Mat.new, hrec]

theorem adjoint_vstack_vector (s : State) (pre post : List Mat) (X : Mat)
    (hrec : s.backprop_enabled = true)
    (haddr : ∀ Y ∈ pre ++ X :: post, Y.m < s.next_addr ∧ Y.g < s.next_addr)
    (hpre : ∀ Y ∈ pre, Y.m ≠ X.m ∧ Y.g ≠ X.g) (hpost : ∀ Y ∈ post, Y.m ≠ X.m ∧ Y.g ≠ X.g)
    (hXc : X.constant = false)
    (hcols : ∀ Y ∈ pre ++ X :: post, (s.w Y.m).cols = (s.w X.m).cols) :
    AdjointIn (MatOps.vstack_vector (pre ++ X :: post)) X s := by
  have hX : X ∈ pre ++ X :: post := by simp
  have hX1 : X.m ≠ s.next_addr := by have := haddr X hX; omega
  have hne : pre ++ X :: post ≠ [] := by simp
  have hL1 : ∀ Y ∈ pre ++ X :: post, Y.m ≠ s.next_addr := fun Y hY => by
    have := haddr Y hY; omega
  have hL2 : ∀ Y ∈ pre ++ X :: post, Y.g ≠ s.next_addr := fun Y hY => by
    have := haddr Y hY; omega
  apply adjointIn_of_spec (MatOps.vstack_vector (pre ++ X :: post)) X s
    (Closure.vstack_vector (pre ++ X :: post) ⟨s.next_addr, s.next_addr, false⟩)
    (fun V => ⟨totalRows s.w (pre ++ X :: post), (s.w X.m).cols,
      vstackCoeff (Function.update s.w X.m V) (pre ++ X :: post) 0 (s.w s.next_addr).coeff⟩)
  · intro V hr hc
    obtain ⟨s1, e1, e2, e3⟩ := vstack_vector_ok (pre ++ X :: post) (s.setW X V) (s.w X.m).cols
      hne (fun Y hY => by
        by_cases h : Y.m = X.m
        · simp [State.setW, h, hc]
        · simp [State.setW, Function.update_noteq h, hcols Y hY]) hL1 hrec
    refine ⟨s1, e1, ?_, e3⟩
    rw [e2]
    simp only [State.setW, Function.update_noteq hX1.symm]
    rw [totalRows_update s.w X.m V hr]
  · intro V V' _ _
    exact ⟨rfl, rfl⟩
  · rfl
  · intro w
    exact vstackStmts_writes w _ 0 _ hL2
  · intro X' G
    simp only [Closure.stmts, vstackStmts_contribs _ X pre post (fun Y hY => (hpre Y hY).2)
      (fun Y hY => (hpost Y hY).2) hXc]
    rw [totalRows_congr _ s.w pre (fun Y hY => by
      have h1 : Y.m ≠ s.next_addr := hL1 Y (by simp [hY])
      rw [Function.update_noteq h1, Function.update_noteq (hpre Y hY).1])]
    unfold inner
    rw [totalRows_append]
    simp only [totalRows, List.map_cons, List.sum_cons, zero_add]
    rw [← sum_window_rows ((pre.map (fun mat => (s.w mat.m).rows)).sum) (s.w X.m).rows
      ((post.map (fun mat => (s.w mat.m).rows)).sum)
      (fun i i' => ∑ j in Finset.range (s.w X.m).cols, X' i j * G i' j)]
    apply Finset.sum_congr rfl
    intro i _
    by_cases hb : (pre.map (fun mat => (s.w mat.m).rows)).sum ≤ i ∧
        i < (pre.map (fun mat => (s.w mat.m).rows)).sum + (s.w X.m).rows
    · rw [if_pos hb]
      apply Finset.sum_congr rfl
      intro j hj
      rw [Finset.mem_range] at hj
      rw [vstackCoeff_diff s.w X ⟨(s.w X.m).rows, (s.w X.m).cols, X'⟩
        ⟨(s.w X.m).rows, (s.w X.m).cols, fun _ _ => 0⟩ rfl rfl pre post (fun Y hY => (hpre Y hY).1)
        (fun Y hY => (hpost Y hY).1)]
      simp only [totalRows, zero_add, sub_zero]
      rw [if_pos ⟨hb, hj⟩]
    · rw [if_neg hb]
      apply Finset.sum_eq_zero
      intro j _
      rw [vstackCoeff_diff s.w X ⟨(s.w X.m).rows, (s.w X.m).cols, X'⟩
        ⟨(s.w X.m).rows, (s.w X.m).cols, fun _ _ => 0⟩ rfl rfl pre post (fun Y hY => (hpre Y hY).1)
        (fun Y hY => (hpost Y hY).1)]
      simp only [totalRows, zero_add, sub_zero]
      rw [if_neg (fun h => hb h.1), zero_mul]

end AdjointStackVectorV

section MeanOverflow

theorem adjointIn_spec_elim (op : State → Except String Mat × State) (X : Mat) (s : State)
    (c : Closure) (F : EigenMat → EigenMat)
    (hspec : ∀ V : EigenMat, V.rows = (s.w X.m).rows → V.cols = (s.w X.m).cols →
      ∃ s1, op (s.setW X V) = (.ok ⟨s.next_addr, s.next_addr, false⟩, s1) ∧
        s1.w = Function.update (Function.update s.w X.m V) s.next_addr (F V) ∧
        s1.tape = s.tape ++ [c])
    (hout : c.out = ⟨s.next_addr, s.next_addr, false⟩)
    (htargets : ∀ w, s.next_addr ∉ c.targets w)
    (h : AdjointIn op X s) (X' G : Nat → Nat → R) :
    inner (F ⟨(s.w X.m).rows, (s.w X.m).cols, X'⟩).rows
        (F ⟨(s.w X.m).rows, (s.w X.m).cols, X'⟩).cols
        (fun i j => (F ⟨(s.w X.m).rows, (s.w X.m).cols, X'⟩).coeff i j
          - (F ⟨(s.w X.m).rows, (s.w X.m).cols, fun _ _ => 0⟩).coeff i j) G
      = inner (s.w X.m).rows (s.w X.m).cols X'
          (fun i j => contribs
            (c.stmts (Function.update
              (Function.update s.w X.m ⟨(s.w X.m).rows, (s.w X.m).cols, X'⟩) s.next_addr
              (F ⟨(s.w X.m).rows, (s.w X.m).cols, X'⟩)))
            X.g ⟨(F ⟨(s.w X.m).rows, (s.w X.m).cols, X'⟩).rows,
              (F ⟨(s.w X.m).rows, (s.w X.m).cols, X'⟩).cols, G⟩ i j) := by
  obtain ⟨out0, t0, out1, t1, c', e0, e1, ht, -, -, hin⟩ := h X' G
  obtain ⟨s0, e0', w0, -⟩ := hspec ⟨(s.w X.m).rows, (s.w X.m).cols, fun _ _ => 0⟩ rfl rfl
  obtain ⟨s1, e1', w1, t1'⟩ := hspec ⟨(s.w X.m).rows, (s.w X.m).cols, X'⟩ rfl rfl
  rw [e0'] at e0
  rw [e1'] at e1
  simp only [Prod.mk.injEq, Except.ok.injEq] at e0 e1
  obtain ⟨rfl, rfl⟩ := e0
  obtain ⟨rfl, rfl⟩ := e1
  rw [t1'] at ht
  have hc : c' = c := by
    have := List.append_cancel_left ht
    simpa using this.symm
  subst hc
  have v0 : s0.w s.next_addr = F ⟨(s.w X.m).rows, (s.w X.m).cols, fun _ _ => 0⟩ := by
    rw [w0]; simp
  have v1 : s1.w s.next_addr = F ⟨(s.w X.m).rows, (s.w X.m).cols, X'⟩ := by
    rw [w1]; simp
  have hin' : inner (s1.w s.next_addr).rows (s1.w s.next_addr).cols
      (fun i j => (s1.w s.next_addr).coeff i j - (s0.w s.next_addr).coeff i j) G = _ := hin
  rw [v0, v1] at hin'
  rw [hin']
  unfold inner
  apply Finset.sum_congr rfl
  intro i _
  apply Finset.sum_congr rfl
  intro j _
  beta_reduce
  congr 1
  have hT : c'.out.g ∉ c'.targets
      (s1.setDw ⟨s.next_addr, s.next_addr, false⟩
        ⟨(F ⟨(s.w X.m).rows, (s.w X.m).cols, X'⟩).rows,
          (F ⟨(s.w X.m).rows, (s.w X.m).cols, X'⟩).cols, G⟩).w := by
    rw [hout]; exact htargets _
  rw [(run_dw_coeff c' (s1.setDw ⟨s.next_addr, s.next_addr, false⟩
        ⟨(F ⟨(s.w X.m).rows, (s.w X.m).cols, X'⟩).rows,
          (F ⟨(s.w X.m).rows, (s.w X.m).cols, X'⟩).cols, G⟩) X.g i j hT).1, hout]
  simp only [State.setDw, Function.update_same, add_sub_cancel_left, w1]

theorem sum_unitAt00 (n d : Nat) (hn : 0 < n) (hd : 0 < d) (f : Nat → Nat → R) :
    ∑ i ∈ Finset.range n, ∑ j ∈ Finset.range d, unitAt00 i j * f i j = f 0 0 := by
  rw [Finset.sum_eq_single 0]
  · rw [Finset.sum_eq_single 0]
    · simp [unitAt00]
    · intro j _ hj
      simp [unitAt00, hj]
    · intro h
      exact absurd (Finset.mem_range.mpr hd) h
  · intro i _ hi
    apply Finset.sum_eq_zero
    intro j _
    simp [unitAt00, hi]
  · intro h
    exact absurd (Finset.mem_range.mpr hn) h

theorem mean_not_adjoint_of_wrap (s : State) (A : Mat) (hrec : s.backprop_enabled = true)
    (hAm : A.m < s.next_addr) (hAg : A.g < s.next_addr) (hAc : A.constant = false)
    (hr : (s.w A.m).rows = 65536) (hc : (s.w A.m).cols = 65537) :
    ¬ AdjointIn (MatOps.mean A) A s := by
  have hA1 : A.m ≠ s.next_addr := by omega
  have hA2 : s.next_addr ≠ A.g := by omega
  intro h
  have key := adjointIn_spec_elim (MatOps.mean A) A s
    (Closure.mean A ⟨s.next_addr, s.next_addr, false⟩)
    (fun V => EigenMat.setFirst ⟨1, 1, (s.w s.next_addr).coeff⟩ V.mean)
    (by
      intro V hr hc
      refine ⟨(MatOps.mean A (s.setW A V)).2, ?_, ?_, ?_⟩
      · simp [MatOps.mean, State.setW, Mat.new]
      · simp [MatOps.mean, State.setW, Mat.new, State.assign, State.record, hrec,
          graph.emplace_back, Function.update_noteq hA1, Function.update_noteq hA1.symm]
      · simp [MatOps.mean, State.setW, Mat.new, State.assign, State.record, hrec,
          graph.emplace_back])
    rfl
    (by
      intro w
      simp [Closure.targets, writes, Closure.stmts, Stmt.arrayAddAssign, GRAD, Stmt.active, hAc,
        hA2])
    h unitAt00 (fun _ _ => 1)
  have hwrap : (65536 * 65537) % 2 ^ 32 = 65536 := by norm_num
  have e1 := sum_unitAt00 65536 65537 (by norm_num) (by norm_num) (fun _ _ => 1)
  have e2 := sum_unitAt00 65536 65537 (by norm_num) (by norm_num)
    (fun _ _ => (1 : R) / ((65536 : Nat) : R))
  simp only [mul_one] at e1
  simp only [Closure.stmts, contribs, Stmt.contrib, Stmt.arrayAddAssign, GRAD, Stmt.active,
    hAc, EigenMat.setFirst, EigenMat.sum, EigenMat.mean, inner, List.map_cons, List.map_nil,
    List.sum_cons, List.sum_nil, Bool.and_false, Bool.not_false, and_true, and_self, if_true,
    add_zero, Finset.sum_range_one, Finset.sum_const_zero, sub_zero,
    Function.update_noteq hA1, Function.update_same, number_of_elements_eq, hr, hc, hwrap,
    zero_div, e1, e2, mul_one] at key
  norm_num at key

end MeanOverflow

/-- C4, at the failing input.  On a tensor of shape `65536 × 65537` the closure
recorded by `MatOps::mean` is not the adjoint of the forward map: the forward
value divides the sum of the coefficients by the `2 ^ 32 + 65536` entries of the
matrix, while the closure divides the gradient of the output by
`number_of_elements()`, an `unsigned int` product that has wrapped to `65536`.
With the unit matrix at `(0, 0)` as the operand and the output gradient `1`, the
two sides of the inner-product identity are `1 / (65536 * 65537)` and
`1 / 65536`. -/
theorem mean_not_adjoint_on_overflow :
    ¬ AdjointIn (MatOps.mean ⟨0, 0, false⟩) ⟨0, 0, false⟩ bigState :=
  mean_not_adjoint_of_wrap bigState ⟨0, 0, false⟩ rfl (by decide) (by decide) rfl rfl rfl

section DeviceChoice

open SynchronizedMemory

theorem foldl_everybody (sts : List SynchronizedMemory) (c g : Bool) :
    sts.foldl (fun (e : Bool × Bool) st => (e.1 && st.prefers_cpu, e.2 && st.prefers_gpu)) (c, g)
      = (c && sts.all (fun st => st.prefers_cpu), g && sts.all (fun st => st.prefers_gpu)) := by
  induction sts generalizing c g with
  | nil => simp
  | cons st rest ih =>
    simp only [List.foldl_cons, List.all_cons]
    rw [ih, Bool.and_assoc, Bool.and_assoc]

theorem should_compute_on_gpu_eq (tie : PreferredDevice) (sts : List SynchronizedMemory)
    (h : 2 ≤ sts.length) :
    should_compute_on_gpu tie sts
      = (if sts.all (fun st => st.prefers_cpu) then false
         else if sts.all (fun st => st.prefers_gpu) then true
         else decide (tie = .DEVICE_GPU)) := by
  have h1 : sts.length ≠ 1 := by omega
  simp only [should_compute_on_gpu, h1, if_false, foldl_everybody, Bool.true_and]

theorem should_compute_on_gpu_vector_eq (tie : PreferredDevice) (sts : List SynchronizedMemory) :
    should_compute_on_gpu_vector tie sts = should_compute_on_gpu tie sts := rfl

theorem all_prefs_of_map (sts sts' : List SynchronizedMemory)
    (h : sts'.map (fun st => st.preferred_device) = sts.map (fun st => st.preferred_device)) :
    sts'.all (fun st => st.prefers_cpu) = sts.all (fun st => st.prefers_cpu) ∧
      sts'.all (fun st => st.prefers_gpu) = sts.all (fun st => st.prefers_gpu) := by
  have e1 : ∀ L : List SynchronizedMemory, L.all (fun st => st.prefers_cpu)
      = (L.map (fun st => st.preferred_device)).all (fun d => decide (d = .DEVICE_CPU)) := by
    intro L
    induction L with
    | nil => rfl
    | cons st rest ih => simp only [List.all_cons, List.map_cons, ih]; rfl
  have e2 : ∀ L : List SynchronizedMemory, L.all (fun st => st.prefers_gpu)
      = (L.map (fun st => st.preferred_device)).all (fun d => decide (d = .DEVICE_GPU)) := by
    intro L
    induction L with
    | nil => rfl
    | cons st rest ih => simp only [List.all_cons, List.map_cons, ih]; rfl
  rw [e1 sts', e1 sts, e2 sts', e2 sts, h]
  exact ⟨rfl, rfl⟩

end DeviceChoice

/-- C11. For a list of at least two memories, `should_compute_on_gpu` returns
`false` when every operand prefers the CPU, `true` when every operand prefers
the GPU, and otherwise `true` exactly when `tie_breaker_device` is `DEVICE_GPU`,
the value the member is defined with.  Two lists with the same preferred
devices, whatever their freshness flags (and contents), get the same result,
and the `std::vector` overload returns what the `initializer_list` overload
returns. -/
theorem device_choice_policy (tie : PreferredDevice) (sts : List SynchronizedMemory)
    (h : 2 ≤ sts.length) :
    ((∀ st ∈ sts, st.prefers_cpu = true) → should_compute_on_gpu tie sts = false) ∧
    ((∀ st ∈ sts, st.prefers_gpu = true) → should_compute_on_gpu tie sts = true) ∧
    (¬ (∀ st ∈ sts, st.prefers_cpu = true) → ¬ (∀ st ∈ sts, st.prefers_gpu = true) →
      (should_compute_on_gpu tie sts = true ↔ tie = .DEVICE_GPU)) ∧
    tie_breaker_device_init = .DEVICE_GPU ∧
    (∀ sts' : List SynchronizedMemory,
      sts'.map (fun st => st.preferred_device) = sts.map (fun st => st.preferred_device) →
      should_compute_on_gpu tie sts' = should_compute_on_gpu tie sts) ∧
    should_compute_on_gpu_vector tie sts = should_compute_on_gpu tie sts := by
  refine ⟨?_, ?_, ?_, rfl, ?_, rfl⟩
  · intro hc
    rw [should_compute_on_gpu_eq tie sts h, if_pos (List.all_eq_true.mpr hc)]
  · intro hg
    have hc : ¬ sts.all (fun st => SynchronizedMemory.prefers_cpu st) = true := by
      intro hc
      rw [List.all_eq_true] at hc
      cases sts with
      | nil => simp at h
      | cons st rest =>
        have a := hc st (List.mem_cons_self _ _)
        have b := hg st (List.mem_cons_self _ _)
        simp only [SynchronizedMemory.prefers_cpu, SynchronizedMemory.prefers_gpu,
          decide_eq_true_eq] at a b
        rw [a] at b
        cases b
    rw [should_compute_on_gpu_eq tie sts h, if_neg hc, if_pos (List.all_eq_true.mpr hg)]
  · intro hc hg
    rw [should_compute_on_gpu_eq tie sts h, if_neg (fun e => hc (List.all_eq_true.mp e)),
      if_neg (fun e => hg (List.all_eq_true.mp e)), decide_eq_true_eq]
  · intro sts' hmap
    have hlen : 2 ≤ sts'.length := by
      have := congrArg List.length hmap
      simp only [List.length_map] at this
      omega
    obtain ⟨a, b⟩ := all_prefs_of_map sts sts' hmap
    rw [should_compute_on_gpu_eq tie sts h, should_compute_on_gpu_eq tie sts' hlen, a, b]

/-- Witness of C11: a CPU-preferring and a GPU-preferring memory disagree, and
the tie-breaker decides: GPU under `DEVICE_GPU`, CPU under `DEVICE_CPU`. -/
theorem device_choice_policy_witness :
    should_compute_on_gpu .DEVICE_GPU [cpuPreferringGpuFresh, gpuPreferringCpuFresh] = true ∧
    ¬ should_compute_on_gpu .DEVICE_CPU [cpuPreferringGpuFresh, gpuPreferringCpuFresh] = true :=
  ⟨((device_choice_policy .DEVICE_GPU [cpuPreferringGpuFresh, gpuPreferringCpuFresh]
      (by decide)).2.2.1 (by decide) (by decide)).mpr rfl,
   fun e => absurd (((device_choice_policy .DEVICE_CPU
      [cpuPreferringGpuFresh, gpuPreferringCpuFresh]
      (by decide)).2.2.1 (by decide) (by decide)).mp e) (by decide)⟩

section Reductions

open SynchronizedMemory

theorem gpu_data_of_fresh (s : SynchronizedMemory) (h : s.gpu_fresh = true) :
    (gpu_data s).2 = s := by
  simp [gpu_data, to_gpu, h]

theorem cpu_data_of_fresh (s : SynchronizedMemory) (h : s.cpu_fresh = true) :
    (cpu_data s).2 = s := by
  simp [cpu_data, to_cpu, h]

theorem gpu_data_of_stale (s : SynchronizedMemory) (hg : s.gpu_fresh = false)
    (hc : s.cpu_fresh = true) :
    Call.Copy .gpu ∈ newCalls s (gpu_data s).2 ∧ (gpu_data s).2.gpu_fresh = true ∧
      (gpu_data s).2.cpu_fresh = true ∧ (gpu_data s).2.mem_gpu.dptr_ = s.mem_cpu.dptr_ := by
  rcases s with ⟨mg, ag, gf, ac, mc, cf, pd, calls⟩
  simp only at hg hc
  subst hg hc
  cases ag <;> simp [gpu_data, to_gpu, newCalls, Copy]

theorem cpu_data_of_stale (s : SynchronizedMemory) (hc : s.cpu_fresh = false)
    (hg : s.gpu_fresh = true) :
    Call.Copy .cpu ∈ newCalls s (cpu_data s).2 ∧ (cpu_data s).2.cpu_fresh = true ∧
      (cpu_data s).2.gpu_fresh = true ∧ (cpu_data s).2.mem_cpu.dptr_ = s.mem_gpu.dptr_ := by
  rcases s with ⟨mg, ag, gf, ac, mc, cf, pd, calls⟩
  simp only at hg hc
  subst hg hc
  cases ac <;> simp [cpu_data, to_cpu, newCalls, Copy]

theorem should_compute_single (tie : PreferredDevice) (s : SynchronizedMemory) :
    should_compute_on_gpu tie [s]
      = (s.prefers_gpu && (s.gpu_fresh || (!s.cpu_fresh && !s.gpu_fresh))) := by
  simp [should_compute_on_gpu]

end Reductions

/-- Counterexample to C12.  A memory that prefers the CPU and is fresh on the
GPU only has a fresh location, yet `sum()` reads it on the CPU: the call
allocates the CPU buffer, copies the GPU contents into it and sets `cpu_fresh`.
Two memories that prefer the GPU and are fresh on the CPU only are compared by
`operator==` and `allclose()` on the GPU: each is copied to the GPU and gets
`gpu_fresh` set. -/
theorem reductions_force_transfer :
    (cpuPreferringGpuFresh.gpu_fresh = true ∧
      newCalls cpuPreferringGpuFresh
          (SynchronizedMemory.sum .DEVICE_GPU cpuPreferringGpuFresh).2
        = [Call.AllocSpace .cpu, Call.Copy .cpu] ∧
      cpuPreferringGpuFresh.cpu_fresh = false ∧
      (SynchronizedMemory.sum .DEVICE_GPU cpuPreferringGpuFresh).2.cpu_fresh = true) ∧
    (gpuPreferringCpuFresh.cpu_fresh = true ∧
      newCalls gpuPreferringCpuFresh
          (SynchronizedMemory.operator_eq .DEVICE_GPU gpuPreferringCpuFresh
            gpuPreferringCpuFresh).2.1
        = [Call.AllocSpace .gpu, Call.Copy .gpu] ∧
      gpuPreferringCpuFresh.gpu_fresh = false ∧
      (SynchronizedMemory.operator_eq .DEVICE_GPU gpuPreferringCpuFresh
        gpuPreferringCpuFresh).2.1.gpu_fresh = true ∧
      (SynchronizedMemory.allclose .DEVICE_GPU gpuPreferringCpuFresh
        gpuPreferringCpuFresh 0).2.2.gpu_fresh = true) := by
  refine ⟨⟨rfl, ?_, rfl, rfl⟩, ⟨rfl, ?_, rfl, rfl, rfl⟩⟩
  · decide
  · decide

/-- C12, amended.  `sum()`, `operator==` and `allclose()` read every operand at
the location chosen by `should_compute_on_gpu`: for `sum()` the GPU exactly when
the operand prefers the GPU and its GPU location is fresh or no location is;
for the two comparisons the location given by the preferred devices and the
tie-breaker.  An operand that is fresh at the chosen location is left exactly
as it was (nothing is copied, no flag changes); an operand that is fresh at the
other location only is copied to the chosen location, whose flag is set while
the other flag stays.  Hence `sum()` on an operand with a fresh location changes
nothing unless the operand prefers the CPU and is fresh on the GPU only, and a
comparison changes nothing when both operands are fresh at the chosen
location. -/
theorem reductions_read_chosen_location (tie : PreferredDevice) (s other : SynchronizedMemory)
    (tol : R) :
    ((SynchronizedMemory.sum tie s).2
      = if should_compute_on_gpu tie [s] then (SynchronizedMemory.gpu_data s).2
        else (SynchronizedMemory.cpu_data s).2) ∧
    (should_compute_on_gpu tie [s] = true ↔
      s.prefers_gpu = true ∧ (s.gpu_fresh = true ∨ (s.cpu_fresh = false ∧ s.gpu_fresh = false))) ∧
    ((SynchronizedMemory.operator_eq tie s other).2
      = if should_compute_on_gpu tie [s, other]
        then ((SynchronizedMemory.gpu_data s).2, (SynchronizedMemory.gpu_data other).2)
        else ((SynchronizedMemory.cpu_data s).2, (SynchronizedMemory.cpu_data other).2)) ∧
    ((SynchronizedMemory.allclose tie s other tol).2
      = if should_compute_on_gpu tie [s, other]
        then ((SynchronizedMemory.gpu_data s).2, (SynchronizedMemory.gpu_data other).2)
        else ((SynchronizedMemory.cpu_data s).2, (SynchronizedMemory.cpu_data other).2)) ∧
    (s.gpu_fresh = true → (SynchronizedMemory.gpu_data s).2 = s) ∧
    (s.cpu_fresh = true → (SynchronizedMemory.cpu_data s).2 = s) ∧
    (s.gpu_fresh = false → s.cpu_fresh = true →
      Call.Copy .gpu ∈ newCalls s (SynchronizedMemory.gpu_data s).2 ∧
      (SynchronizedMemory.gpu_data s).2.gpu_fresh = true ∧
      (SynchronizedMemory.gpu_data s).2.cpu_fresh = true) ∧
    (s.cpu_fresh = false → s.gpu_fresh = true →
      Call.Copy .cpu ∈ newCalls s (SynchronizedMemory.cpu_data s).2 ∧
      (SynchronizedMemory.cpu_data s).2.cpu_fresh = true ∧
      (SynchronizedMemory.cpu_data s).2.gpu_fresh = true) ∧
    ((s.cpu_fresh = true ∨ s.gpu_fresh = true) →
      ¬ (s.prefers_cpu = true ∧ s.cpu_fresh = false) →
      (SynchronizedMemory.sum tie s).2 = s) ∧
    (should_compute_on_gpu tie [s, other] = true → s.gpu_fresh = true → other.gpu_fresh = true →
      (SynchronizedMemory.operator_eq tie s other).2 = (s, other) ∧
      (SynchronizedMemory.allclose tie s other tol).2 = (s, other)) ∧
    (should_compute_on_gpu tie [s, other] = false → s.cpu_fresh = true → other.cpu_fresh = true →
      (SynchronizedMemory.operator_eq tie s other).2 = (s, other) ∧
      (SynchronizedMemory.allclose tie s other tol).2 = (s, other)) := by
  refine ⟨?_, ?_, ?_, ?_, gpu_data_of_fresh s, cpu_data_of_fresh s, ?_, ?_, ?_, ?_, ?_⟩
  · unfold SynchronizedMemory.sum
    split <;> rfl
  · rw [should_compute_single]
    cases s.prefers_gpu <;> cases s.gpu_fresh <;> cases s.cpu_fresh <;> simp
  · unfold SynchronizedMemory.operator_eq
    split <;> rfl
  · unfold SynchronizedMemory.allclose
    split <;> rfl
  · intro hg hc
    exact ⟨(gpu_data_of_stale s hg hc).1, (gpu_data_of_stale s hg hc).2.1,
      (gpu_data_of_stale s hg hc).2.2.1⟩
  · intro hc hg
    exact ⟨(cpu_data_of_stale s hc hg).1, (cpu_data_of_stale s hc hg).2.1,
      (cpu_data_of_stale s hc hg).2.2.1⟩
  · intro hfresh hnot
    unfold SynchronizedMemory.sum
    rw [should_compute_single]
    have hp : s.prefers_cpu = !s.prefers_gpu := by
      simp only [SynchronizedMemory.prefers_cpu, SynchronizedMemory.prefers_gpu]
      cases s.preferred_device <;> rfl
    rw [hp] at hnot
    revert hfresh hnot
    cases hpg : s.prefers_gpu <;> cases hgf : s.gpu_fresh <;> cases hcf : s.cpu_fresh <;>
      simp [gpu_data_of_fresh, cpu_data_of_fresh, hgf, hcf]
  · intro hd hs ho
    unfold SynchronizedMemory.operator_eq SynchronizedMemory.allclose
    rw [if_pos hd, if_pos hd, gpu_data_of_fresh s hs, gpu_data_of_fresh other ho]
    exact ⟨rfl, rfl⟩
  · intro hd hs ho
    have hd' : ¬ should_compute_on_gpu tie [s, other] = true := by rw [hd]; decide
    unfold SynchronizedMemory.operator_eq SynchronizedMemory.allclose
    rw [if_neg hd', if_neg hd', cpu_data_of_fresh s hs, cpu_data_of_fresh other ho]
    exact ⟨rfl, rfl⟩

/-- Witness of C12, amended: `sum()` on a memory that prefers the GPU and is
fresh on the CPU only is computed on the CPU and leaves the memory as it was. -/
theorem reductions_read_chosen_location_witness :
    (SynchronizedMemory.sum .DEVICE_GPU gpuPreferringCpuFresh).2 = gpuPreferringCpuFresh :=
  (reductions_read_chosen_location .DEVICE_GPU gpuPreferringCpuFresh gpuPreferringCpuFresh
    0).2.2.2.2.2.2.2.2.1 (Or.inl rfl) (by decide)

/-- Counterexample to C13.  A new `1 × 1` tensor is seeded with `grad()`, so its
gradient is `1`; the gradient of its shallow copy is `1` as well, not zero. -/
theorem shallow_copy_gradient_not_zero :
    (((Mat.shallow_copy (Mat.new 1 1 true (State.init true)).1
          ((Mat.new 1 1 true (State.init true)).1.grad
            (Mat.new 1 1 true (State.init true)).2).2).2.dw
        (Mat.shallow_copy (Mat.new 1 1 true (State.init true)).1
          ((Mat.new 1 1 true (State.init true)).1.grad
            (Mat.new 1 1 true (State.init true)).2).2).1.g).coeff 0 0 = 1) ∧
    ¬ (((Mat.shallow_copy (Mat.new 1 1 true (State.init true)).1
          ((Mat.new 1 1 true (State.init true)).1.grad
            (Mat.new 1 1 true (State.init true)).2).2).2.dw
        (Mat.shallow_copy (Mat.new 1 1 true (State.init true)).1
          ((Mat.new 1 1 true (State.init true)).1.grad
            (Mat.new 1 1 true (State.init true)).2).2).1.g).coeff 0 0 = 0) := by
  have h : (((Mat.shallow_copy (Mat.new 1 1 true (State.init true)).1
          ((Mat.new 1 1 true (State.init true)).1.grad
            (Mat.new 1 1 true (State.init true)).2).2).2.dw
        (Mat.shallow_copy (Mat.new 1 1 true (State.init true)).1
          ((Mat.new 1 1 true (State.init true)).1.grad
            (Mat.new 1 1 true (State.init true)).2).2).1.g).coeff 0 0 = 1) := by
    simp [Mat.shallow_copy, Mat.copy, Mat.new, Mat.grad, assert2, State.init, EigenMat.Zero]
  refine ⟨h, ?_⟩
  rw [h]
  norm_num

/-- C13, amended.  For a handle `m` whose gradient storage exists,
`Mat::shallow_copy(m)` is a handle on the value storage of `m` (same id, same
dimensions, a write to the values through either handle is read through the
other) with gradient storage of its own (a write to either gradient leaves the
other as it was), and that gradient storage starts as a copy of the gradient of
`m` at the time of the call; the gradient of `m` is left as it was. -/
theorem shallow_copy_shares_values (m : Mat) (s : State) (hg : m.g < s.next_addr) :
    (Mat.shallow_copy m s).1.m = m.m ∧
    (Mat.shallow_copy m s).1.id (Mat.shallow_copy m s).2 = m.id s ∧
    (Mat.shallow_copy m s).1.dims (Mat.shallow_copy m s).2 = m.dims s ∧
    (∀ V, ((Mat.shallow_copy m s).2.assign (Mat.shallow_copy m s).1 V).w m.m = V ∧
      ((Mat.shallow_copy m s).2.assign m V).w (Mat.shallow_copy m s).1.m = V) ∧
    (Mat.shallow_copy m s).1.g ≠ m.g ∧
    (∀ G, ((Mat.shallow_copy m s).2.setDw (Mat.shallow_copy m s).1 G).dw m.g
        = (Mat.shallow_copy m s).2.dw m.g ∧
      ((Mat.shallow_copy m s).2.setDw m G).dw (Mat.shallow_copy m s).1.g
        = (Mat.shallow_copy m s).2.dw (Mat.shallow_copy m s).1.g) ∧
    (Mat.shallow_copy m s).2.dw (Mat.shallow_copy m s).1.g = s.dw m.g ∧
    (Mat.shallow_copy m s).2.dw m.g = s.dw m.g := by
  have hne : m.g ≠ s.next_addr := by omega
  refine ⟨rfl, rfl, rfl, ?_, ?_, ?_, ?_, ?_⟩
  · intro V
    simp [Mat.shallow_copy, Mat.copy, State.assign]
  · simpa [Mat.shallow_copy, Mat.copy] using hne.symm
  · intro G
    simp [Mat.shallow_copy, Mat.copy, State.setDw, Function.update_noteq hne,
      Function.update_noteq hne.symm]
  · simp [Mat.shallow_copy, Mat.copy]
  · simp [Mat.shallow_copy, Mat.copy, Function.update_noteq hne]

/-- Witness of C13, amended: the shallow copy of a new `2 × 3` tensor has the
value address of the tensor and another gradient address. -/
theorem shallow_copy_shares_values_witness :
    (Mat.shallow_copy (Mat.new 2 3 true (State.init true)).1
        (Mat.new 2 3 true (State.init true)).2).1.m
      = (Mat.new 2 3 true (State.init true)).1.m ∧
    (Mat.shallow_copy (Mat.new 2 3 true (State.init true)).1
        (Mat.new 2 3 true (State.init true)).2).1.g
      ≠ (Mat.new 2 3 true (State.init true)).1.g :=
  ⟨(shallow_copy_shares_values (Mat.new 2 3 true (State.init true)).1
      (Mat.new 2 3 true (State.init true)).2 (by decide)).1,
   (shallow_copy_shares_values (Mat.new 2 3 true (State.init true)).1
      (Mat.new 2 3 true (State.init true)).2 (by decide)).2.2.2.2.1⟩

section Identity

theorem npy_load_fields (x : Mat) (arr : NpyArray) (empty : Bool) (s : State) :
    (Mat.npy_load x arr empty s).2.1 = { x with m := s.next_addr } ∧
      (Mat.npy_load x arr empty s).2.2.id = Function.update s.id s.next_addr s.next_matrix ∧
      (Mat.npy_load x arr empty s).2.2.next_matrix = s.next_matrix + 1 ∧
      (Mat.npy_load x arr empty s).2.2.next_addr = s.next_addr + 1 ∧
      (Mat.npy_load x arr empty s).2.2.dw = s.dw ∧
      (Mat.npy_load x arr empty s).2.2.tape = s.tape := by
  unfold Mat.npy_load
  by_cases h : arr.word_size = 8 ∨ arr.word_size = 4 <;> simp [h, State.assign]

theorem matCall_run_frame (s : State) (c : MatCall) :
    s.next_matrix ≤ (c.run s).next_matrix ∧ s.next_addr < (c.run s).next_addr ∧
      ∀ a, a < s.next_addr → (c.run s).id a = s.id a := by
  cases c with
  | new n d empty =>
    refine ⟨by simp [MatCall.run, Mat.new], by simp [MatCall.run, Mat.new], ?_⟩
    intro a ha
    have : a ≠ s.next_addr := by omega
    simp [MatCall.run, Mat.new, Function.update_noteq this]
  | copy other copy_w copy_dw =>
    refine ⟨by simp [MatCall.run, Mat.copy], by simp [MatCall.run, Mat.copy], ?_⟩
    intro a ha
    have : a ≠ s.next_addr := by omega
    cases copy_w <;> simp [MatCall.run, Mat.copy, Function.update_noteq this]
  | npy_load x arr empty =>
    obtain ⟨-, g2, g3, g4, -, -⟩ := npy_load_fields x arr empty s
    refine ⟨?_, ?_, ?_⟩
    · show s.next_matrix ≤ (Mat.npy_load x arr empty s).2.2.next_matrix
      rw [g3]; omega
    · show s.next_addr < (Mat.npy_load x arr empty s).2.2.next_addr
      rw [g4]; omega
    · intro a ha
      have : a ≠ s.next_addr := by omega
      show (Mat.npy_load x arr empty s).2.2.id a = s.id a
      rw [g2, Function.update_noteq this]

theorem matCall_runAll_frame (calls : List MatCall) (s : State) :
    s.next_matrix ≤ (MatCall.runAll s calls).next_matrix ∧
      s.next_addr ≤ (MatCall.runAll s calls).next_addr ∧
      ∀ a, a < s.next_addr → (MatCall.runAll s calls).id a = s.id a := by
  induction calls generalizing s with
  | nil => exact ⟨le_refl _, le_refl _, fun _ _ => rfl⟩
  | cons c rest ih =>
    obtain ⟨h1, h2, h3⟩ := matCall_run_frame s c
    obtain ⟨i1, i2, i3⟩ := ih (c.run s)
    refine ⟨le_trans h1 i1, le_trans (le_of_lt h2) i2, ?_⟩
    intro a ha
    show (MatCall.runAll (c.run s) rest).id a = s.id a
    rw [i3 a (lt_trans ha h2), h3 a ha]

end Identity

/-- Counterexample to C14.  The copy, with `copy_w = true`, of a new `1 × 1`
tensor has value storage of its own and the id of the tensor. -/
theorem copy_keeps_id :
    (Mat.copy (Mat.new 1 1 true (State.init true)).1 true true
        (Mat.new 1 1 true (State.init true)).2).1.m
      ≠ (Mat.new 1 1 true (State.init true)).1.m ∧
    (Mat.copy (Mat.new 1 1 true (State.init true)).1 true true
        (Mat.new 1 1 true (State.init true)).2).1.id
        (Mat.copy (Mat.new 1 1 true (State.init true)).1 true true
          (Mat.new 1 1 true (State.init true)).2).2
      = (Mat.new 1 1 true (State.init true)).1.id
        (Mat.copy (Mat.new 1 1 true (State.init true)).1 true true
          (Mat.new 1 1 true (State.init true)).2).2 := by
  constructor
  · decide
  · simp [Mat.copy, Mat.new, Mat.id, State.init]

/-- C14, amended.  The ids handed out by the counter are strictly increasing
(the counter is a natural number here, overflow is left out): a shape
constructor gives its tensor the current value of the counter, and a tensor
built by a shape constructor after any sequence of constructor, copy and
`npy_load` calls has value storage of its own and an id larger than that of the
earlier tensor, whose id those calls do not change.  `npy_load` gives the handle
a new id from the counter as well.  The copy constructor with `copy_w = true`
gives the copy value storage of its own, the id of its source, and leaves the
counter as it was: two handles with different value storage have different ids
unless one storage was copied from the other. -/
theorem ids_from_counter_increase (s : State) (n d : Nat) (empty : Bool)
    (calls : List MatCall) (n' d' : Nat) (empty' : Bool) (X : Mat) (copy_dw : Bool)
    (arr : NpyArray) (hX : X.m < s.next_addr) :
    (Mat.new n d empty s).1.id (Mat.new n d empty s).2 = s.next_matrix ∧
    (Mat.new n d empty s).1.m
      ≠ (Mat.new n' d' empty' (MatCall.runAll (Mat.new n d empty s).2 calls)).1.m ∧
    (Mat.new n d empty s).1.id
        (Mat.new n' d' empty' (MatCall.runAll (Mat.new n d empty s).2 calls)).2
      = (Mat.new n d empty s).1.id (Mat.new n d empty s).2 ∧
    (Mat.new n d empty s).1.id
        (Mat.new n' d' empty' (MatCall.runAll (Mat.new n d empty s).2 calls)).2
      < (Mat.new n' d' empty' (MatCall.runAll (Mat.new n d empty s).2 calls)).1.id
        (Mat.new n' d' empty' (MatCall.runAll (Mat.new n d empty s).2 calls)).2 ∧
    (Mat.npy_load X arr empty s).2.1.id (Mat.npy_load X arr empty s).2.2 = s.next_matrix ∧
    (Mat.copy X true copy_dw s).1.m ≠ X.m ∧
    (Mat.copy X true copy_dw s).1.id (Mat.copy X true copy_dw s).2 = X.id s ∧
    X.id (Mat.copy X true copy_dw s).2 = X.id s ∧
    (Mat.copy X true copy_dw s).2.next_matrix = s.next_matrix := by
  obtain ⟨f1, f2, f3⟩ := matCall_runAll_frame calls (Mat.new n d empty s).2
  have hA : (Mat.new n d empty s).1.m = s.next_addr := rfl
  have hA2 : (Mat.new n d empty s).2.next_addr = s.next_addr + 1 := rfl
  have hA3 : (Mat.new n d empty s).2.next_matrix = s.next_matrix + 1 := rfl
  have hB : (Mat.new n' d' empty' (MatCall.runAll (Mat.new n d empty s).2 calls)).1.m
      = (MatCall.runAll (Mat.new n d empty s).2 calls).next_addr := rfl
  have hidA : (Mat.new n d empty s).2.id s.next_addr = s.next_matrix := by
    simp [Mat.new]
  have hlt : s.next_addr < (MatCall.runAll (Mat.new n d empty s).2 calls).next_addr := by
    rw [hA2] at f2; omega
  have hkeep : (Mat.new n' d' empty' (MatCall.runAll (Mat.new n d empty s).2 calls)).2.id
      s.next_addr = s.next_matrix := by
    have hne : s.next_addr ≠ (MatCall.runAll (Mat.new n d empty s).2 calls).next_addr := by omega
    show (Function.update _ _ _ : Nat → Nat) s.next_addr = _
    rw [Function.update_noteq hne, f3 s.next_addr (by rw [hA2]; omega), hidA]
  have hX' : X.m ≠ s.next_addr := by omega
  refine ⟨hidA, ?_, ?_, ?_, ?_, ?_, ?_, ?_, rfl⟩
  · rw [hA, hB]; omega
  · show (Mat.new n' d' empty' _).2.id s.next_addr = (Mat.new n d empty s).2.id s.next_addr
    rw [hkeep, hidA]
  · show (Mat.new n' d' empty' _).2.id s.next_addr
      < (Mat.new n' d' empty' _).2.id (MatCall.runAll (Mat.new n d empty s).2 calls).next_addr
    rw [hkeep]
    have : (Mat.new n' d' empty' (MatCall.runAll (Mat.new n d empty s).2 calls)).2.id
        (MatCall.runAll (Mat.new n d empty s).2 calls).next_addr
        = (MatCall.runAll (Mat.new n d empty s).2 calls).next_matrix := by
      simp [Mat.new]
    rw [this]
    rw [hA3] at f1
    omega
  · obtain ⟨g1, g2, -⟩ := npy_load_fields X arr empty s
    show (Mat.npy_load X arr empty s).2.2.id (Mat.npy_load X arr empty s).2.1.m = _
    rw [g1, g2]
    simp
  · simpa [Mat.copy] using hX'.symm
  · simp [Mat.copy, Mat.id]
  · simp [Mat.copy, Mat.id, Function.update_noteq hX']

/-- Witness of C14, amended: after a first tensor, two tensors built one after
the other get increasing ids, and the copy of the first tensor has another value
address. -/
theorem ids_from_counter_increase_witness :
    (Mat.new 1 1 true (Mat.new 3 3 true (State.init true)).2).1.id
        (Mat.new 2 2 true (MatCall.runAll
          (Mat.new 1 1 true (Mat.new 3 3 true (State.init true)).2).2 [])).2
      < (Mat.new 2 2 true (MatCall.runAll
          (Mat.new 1 1 true (Mat.new 3 3 true (State.init true)).2).2 [])).1.id
        (Mat.new 2 2 true (MatCall.runAll
          (Mat.new 1 1 true (Mat.new 3 3 true (State.init true)).2).2 [])).2 ∧
    (Mat.copy (Mat.new 3 3 true (State.init true)).1 true true
        (Mat.new 3 3 true (State.init true)).2).1.m
      ≠ (Mat.new 3 3 true (State.init true)).1.m :=
  ⟨(ids_from_counter_increase (Mat.new 3 3 true (State.init true)).2 1 1 true [] 2 2 true
      (Mat.new 3 3 true (State.init true)).1 true npy45 (by decide)).2.2.2.1,
   (ids_from_counter_increase (Mat.new 3 3 true (State.init true)).2 1 1 true [] 2 2 true
      (Mat.new 3 3 true (State.init true)).1 true npy45 (by decide)).2.2.2.2.2.1⟩

/-- C15.  `A == B` holds exactly when the ids are equal, `A != B` is its
negation, and the hash of a tensor is its id.  So `==` is reflexive, symmetric
and transitive, equal tensors have equal hashes, tensors with different ids are
unequal and have different hashes, and the three results are the same in any
two states that give the same ids, whatever values and gradients they hold. -/
theorem equality_and_hash_by_id (s : State) (A B C : Mat) :
    (A.operator_eq B s = true ↔ A.id s = B.id s) ∧
    A.operator_ne B s = !(A.operator_eq B s) ∧
    A.hash s = A.id s ∧
    A.operator_eq A s = true ∧
    (A.operator_eq B s = true → B.operator_eq A s = true) ∧
    (A.operator_eq B s = true → B.operator_eq C s = true → A.operator_eq C s = true) ∧
    (A.operator_eq B s = true → A.hash s = B.hash s) ∧
    (A.id s ≠ B.id s →
      A.operator_eq B s = false ∧ A.operator_ne B s = true ∧ A.hash s ≠ B.hash s) ∧
    (∀ t : State, t.id = s.id →
      A.operator_eq B t = A.operator_eq B s ∧ A.operator_ne B t = A.operator_ne B s ∧
        A.hash t = A.hash s) := by
  refine ⟨?_, ?_, rfl, ?_, ?_, ?_, ?_, ?_, ?_⟩
  · simp [Mat.operator_eq]
  · simp [Mat.operator_eq, Mat.operator_ne]
  · simp [Mat.operator_eq]
  · intro h
    simp only [Mat.operator_eq, decide_eq_true_eq] at h ⊢
    exact h.symm
  · intro h1 h2
    simp only [Mat.operator_eq, decide_eq_true_eq] at h1 h2 ⊢
    exact h1.trans h2
  · intro h
    simpa [Mat.operator_eq, Mat.hash] using h
  · intro h
    refine ⟨?_, ?_, ?_⟩
    · simpa [Mat.operator_eq] using h
    · simpa [Mat.operator_ne] using h
    · simpa [Mat.hash] using h
  · intro t ht
    simp [Mat.operator_eq, Mat.operator_ne, Mat.hash, Mat.id, ht]

/-- Witness of C15: two new tensors with the same (zero) contents are unequal
and have different hashes. -/
theorem equality_and_hash_by_id_witness :
    Mat.operator_eq (Mat.new 1 1 true (State.init true)).1
        (Mat.new 1 1 true (Mat.new 1 1 true (State.init true)).2).1
        (Mat.new 1 1 true (Mat.new 1 1 true (State.init true)).2).2 = false ∧
    Mat.hash (Mat.new 1 1 true (State.init true)).1
        (Mat.new 1 1 true (Mat.new 1 1 true (State.init true)).2).2
      ≠ Mat.hash (Mat.new 1 1 true (Mat.new 1 1 true (State.init true)).2).1
        (Mat.new 1 1 true (Mat.new 1 1 true (State.init true)).2).2 :=
  ⟨((equality_and_hash_by_id (Mat.new 1 1 true (Mat.new 1 1 true (State.init true)).2).2
      (Mat.new 1 1 true (State.init true)).1
      (Mat.new 1 1 true (Mat.new 1 1 true (State.init true)).2).1
      (Mat.new 1 1 true (State.init true)).1).2.2.2.2.2.2.2.1 (by decide)).1,
   ((equality_and_hash_by_id (Mat.new 1 1 true (Mat.new 1 1 true (State.init true)).2).2
      (Mat.new 1 1 true (State.init true)).1
      (Mat.new 1 1 true (Mat.new 1 1 true (State.init true)).2).1
      (Mat.new 1 1 true (State.init true)).1).2.2.2.2.2.2.2.1 (by decide)).2.2⟩

section Shapes

theorem new_shapesAgree (n d : Nat) (empty : Bool) (s : State) :
    (Mat.new n d empty s).1.ShapesAgree (Mat.new n d empty s).2 := by
  cases empty <;> simp [Mat.ShapesAgree, Mat.new, EigenMat.Zero]

theorem random_shapesAgree (n d : Nat) (randn : Nat → Nat → R) (s : State) :
    (Mat.random n d randn s).1.ShapesAgree (Mat.random n d randn s).2 := by
  simp [Mat.ShapesAgree, Mat.random, Mat.new, State.assign, EigenMat.Zero]

theorem ofNpy_shapesAgree (arr : NpyArray) (s : State) (x : Mat)
    (hx : (Mat.ofNpy arr s).1 = .ok x) : x.ShapesAgree (Mat.ofNpy arr s).2 := by
  unfold Mat.ofNpy at hx ⊢
  by_cases h : arr.word_size = 8 ∨ arr.word_size = 4
  · simp only [h, if_true, Except.ok.injEq] at hx ⊢
    subst hx
    simp [Mat.ShapesAgree, Mat.new, State.assign, EigenMat.Zero, NpyArray.wrapped]
  · simp [h] at hx

theorem copy_shapesAgree (other : Mat) (copy_w copy_dw : Bool) (s : State)
    (hm : other.m < s.next_addr) (hg : other.g < s.next_addr) (h : other.ShapesAgree s) :
    (Mat.copy other copy_w copy_dw s).1.ShapesAgree (Mat.copy other copy_w copy_dw s).2 ∧
      other.ShapesAgree (Mat.copy other copy_w copy_dw s).2 := by
  have h1 : other.m ≠ s.next_addr := by omega
  have h2 : other.g ≠ s.next_addr := by omega
  unfold Mat.ShapesAgree at h ⊢
  cases copy_w <;> cases copy_dw <;>
    simp [Mat.copy, Function.update_noteq h1, Function.update_noteq h2, h]

end Shapes

/-- C16, at the failing input.  A tensor is built by `Mat(2, 3, true)`, so its
gradient storage is `2 × 3`; `npy_load` of a `4 × 5` array returns normally and
points the handle to new `4 × 5` value storage, while the gradient storage of
the handle is still the `2 × 3` one: the two shapes no longer agree. -/
theorem npy_load_gradient_shape_mismatch :
    (Mat.npy_load (Mat.new 2 3 true (State.init true)).1 npy45 false
        (Mat.new 2 3 true (State.init true)).2).1 = .ok () ∧
    Mat.dims (Mat.npy_load (Mat.new 2 3 true (State.init true)).1 npy45 false
        (Mat.new 2 3 true (State.init true)).2).2.1
      (Mat.npy_load (Mat.new 2 3 true (State.init true)).1 npy45 false
        (Mat.new 2 3 true (State.init true)).2).2.2 = (4, 5) ∧
    (((Mat.npy_load (Mat.new 2 3 true (State.init true)).1 npy45 false
        (Mat.new 2 3 true (State.init true)).2).2.2.dw
      (Mat.npy_load (Mat.new 2 3 true (State.init true)).1 npy45 false
        (Mat.new 2 3 true (State.init true)).2).2.1.g).rows = 2 ∧
     ((Mat.npy_load (Mat.new 2 3 true (State.init true)).1 npy45 false
        (Mat.new 2 3 true (State.init true)).2).2.2.dw
      (Mat.npy_load (Mat.new 2 3 true (State.init true)).1 npy45 false
        (Mat.new 2 3 true (State.init true)).2).2.1.g).cols = 3) ∧
    ¬ Mat.ShapesAgree (Mat.npy_load (Mat.new 2 3 true (State.init true)).1 npy45 false
        (Mat.new 2 3 true (State.init true)).2).2.1
      (Mat.npy_load (Mat.new 2 3 true (State.init true)).1 npy45 false
        (Mat.new 2 3 true (State.init true)).2).2.2 := by
  refine ⟨?_, ?_, ⟨?_, ?_⟩, ?_⟩
  · simp [Mat.npy_load, npy45]
  · simp [Mat.npy_load, npy45, Mat.dims, State.assign, Mat.new, State.init, NpyArray.wrapped]
  · simp [Mat.npy_load, npy45, State.assign, Mat.new, State.init, EigenMat.Zero]
  · simp [Mat.npy_load, npy45, State.assign, Mat.new, State.init, EigenMat.Zero]
  · simp [Mat.ShapesAgree, Mat.npy_load, npy45, State.assign, Mat.new, State.init,
      EigenMat.Zero, NpyArray.wrapped]

/-- C19.  With recording enabled, an empty tape and a non-constant tensor `A`
whose gradient is zero, build `B = transpose(A)`, `C = transpose(B)`,
`loss = sum(C)` and seed with `loss.grad()`.  The tape holds the three closures
in that order.  Replayed in reverse insertion order they give `dA = 1` in every
entry; replayed in insertion order they give `dA = 0` in every entry, since the
closure of `A → B` then reads the gradient of `B` before anything was added to
it. -/
theorem replay_order_matters (s : State) (A : Mat) (hrec : s.backprop_enabled = true)
    (htape : s.tape = []) (hAm : A.m < s.next_addr) (hAg : A.g < s.next_addr)
    (hAc : A.constant = false) (hdA : ∀ i j, (s.dw A.g).coeff i j = 0) :
    ∃ B s1 C s2 loss s3 s4,
      MatOps.transpose A s = (.ok B, s1) ∧
      MatOps.transpose B s1 = (.ok C, s2) ∧
      MatOps.sum C s2 = (.ok loss, s3) ∧
      loss.grad s3 = (.ok (), s4) ∧
      s4.tape = [Closure.transpose A B, Closure.transpose B C, Closure.sum C loss] ∧
      (∀ i j, i < (s.w A.m).rows → j < (s.w A.m).cols →
        ((graph.backward s4).dw A.g).coeff i j = 1) ∧
      (∀ i j, i < (s.w A.m).rows → j < (s.w A.m).cols →
        ((replayInInsertionOrder s4).dw A.g).coeff i j = 0) := by
  have hA1 : A.g ≠ s.next_addr := by omega
  have hA2 : A.g ≠ s.next_addr + 1 := by omega
  have hA3 : A.g ≠ s.next_addr + 2 := by omega
  have hA4 : A.m ≠ s.next_addr := by omega
  have hA5 : A.m ≠ s.next_addr + 1 := by omega
  have hA6 : A.m ≠ s.next_addr + 2 := by omega
  have hn1 : s.next_addr ≠ s.next_addr + 1 := by omega
  have hn2 : s.next_addr ≠ s.next_addr + 1 + 1 := by omega
  refine ⟨⟨s.next_addr, s.next_addr, false⟩, (MatOps.transpose A s).2,
    ⟨s.next_addr + 1, s.next_addr + 1, false⟩,
    (MatOps.transpose ⟨s.next_addr, s.next_addr, false⟩ (MatOps.transpose A s).2).2,
    ⟨s.next_addr + 2, s.next_addr + 2, false⟩,
    (MatOps.sum ⟨s.next_addr + 1, s.next_addr + 1, false⟩
      (MatOps.transpose ⟨s.next_addr, s.next_addr, false⟩ (MatOps.transpose A s).2).2).2,
    (Mat.grad ⟨s.next_addr + 2, s.next_addr + 2, false⟩
      (MatOps.sum ⟨s.next_addr + 1, s.next_addr + 1, false⟩
        (MatOps.transpose ⟨s.next_addr, s.next_addr, false⟩ (MatOps.transpose A s).2).2).2).2,
    ?_, ?_, ?_, ?_, ?_, ?_, ?_⟩
  · simp [MatOps.transpose, Mat.new]
  · simp [MatOps.transpose, Mat.new, State.assign, State.record, hrec, graph.emplace_back]
  · simp [MatOps.transpose, MatOps.sum, Mat.new, State.assign, State.record, hrec,
      graph.emplace_back]
  · simp [MatOps.transpose, MatOps.sum, Mat.grad, assert2, Mat.new, State.assign, State.record,
      hrec, graph.emplace_back, EigenMat.setFirst]
  · simp [MatOps.transpose, MatOps.sum, Mat.grad, assert2, Mat.new, State.assign, State.record,
      hrec, graph.emplace_back, EigenMat.setFirst, htape]
  · intro i j hi hj
    simp [graph.backward, MatOps.transpose, MatOps.sum, Mat.grad, assert2, Mat.new, State.assign,
      State.record, hrec, graph.emplace_back, EigenMat.setFirst, htape, Closure.run,
      Closure.stmts, Closure.out, Stmt.exec, Stmt.addAssign, Stmt.arrayAddAssign, Stmt.active,
      GRAD, hAc, EigenMat.Zero, EigenMat.transpose, Function.update_noteq hA1,
      Function.update_noteq hA2, Function.update_noteq hA3, hdA, Function.update_noteq hn1,
      Function.update_noteq hn2]
  · intro i j hi hj
    simp [replayInInsertionOrder, MatOps.transpose, MatOps.sum, Mat.grad, assert2, Mat.new,
      State.assign,
      State.record, hrec, graph.emplace_back, EigenMat.setFirst, htape, Closure.run,
      Closure.stmts, Closure.out, Stmt.exec, Stmt.addAssign, Stmt.arrayAddAssign, Stmt.active,
      GRAD, hAc, EigenMat.Zero, EigenMat.transpose, Function.update_noteq hA1,
      Function.update_noteq hA2, Function.update_noteq hA3, hdA, Function.update_noteq hn1,
      Function.update_noteq hn2]

/-- Witness of C19: on a new `2 × 3` tensor, the entry `(1, 2)` of `dA` is `1`
after the replay in reverse insertion order and `0` after the replay in
insertion order. -/
theorem replay_order_matters_witness :
    ∃ B s1 C s2 loss s3 s4,
      MatOps.transpose ⟨0, 0, false⟩ (Mat.new 2 3 true (State.init true)).2 = (.ok B, s1) ∧
      MatOps.transpose B s1 = (.ok C, s2) ∧
      MatOps.sum C s2 = (.ok loss, s3) ∧
      loss.grad s3 = (.ok (), s4) ∧
      ((graph.backward s4).dw 0).coeff 1 2 = 1 ∧
      ((replayInInsertionOrder s4).dw 0).coeff 1 2 = 0 := by
  obtain ⟨B, s1, C, s2, loss, s3, s4, h1, h2, h3, h4, -, h6, h7⟩ :=
    replay_order_matters (Mat.new 2 3 true (State.init true)).2 ⟨0, 0, false⟩ rfl rfl
      (by decide) (by decide) rfl (fun _ _ => rfl)
  exact ⟨B, s1, C, s2, loss, s3, s4, h1, h2, h3, h4, h6 1 2 (by decide) (by decide),
    h7 1 2 (by decide) (by decide)⟩

section Broadcast

theorem record_w (s : State) (c : Closure) : (s.record c).w = s.w := (record_fields s c).1

theorem add_forward (s : State) (X Y : Mat) (hX : X.m < s.next_addr)
    (hY : Y.m < s.next_addr) :
    ((s.w X.m).rows = (s.w Y.m).rows → (s.w X.m).cols = (s.w Y.m).cols →
      (MatOps.add X Y s).1 = .ok ⟨s.next_addr, s.next_addr, false⟩ ∧
      (MatOps.add X Y s).2.w s.next_addr
        = ⟨(s.w X.m).rows, (s.w X.m).cols,
            fun i j => (s.w X.m).coeff i j + (s.w Y.m).coeff i j⟩) ∧
    ((s.w X.m).rows = (s.w Y.m).rows → (s.w X.m).cols ≠ (s.w Y.m).cols → (s.w Y.m).cols = 1 →
      (MatOps.add X Y s).1 = .ok ⟨s.next_addr, s.next_addr, false⟩ ∧
      (MatOps.add X Y s).2.w s.next_addr
        = ⟨(s.w X.m).rows, (s.w X.m).cols,
            fun i j => (s.w X.m).coeff i j + (s.w Y.m).coeff i 0⟩) ∧
    ((s.w X.m).rows = (s.w Y.m).rows → (s.w X.m).cols ≠ (s.w Y.m).cols → (s.w X.m).cols = 1 →
      (MatOps.add X Y s).1 = .ok ⟨s.next_addr, s.next_addr, false⟩ ∧
      (MatOps.add X Y s).2.w s.next_addr
        = ⟨(s.w Y.m).rows, (s.w Y.m).cols,
            fun i j => (s.w Y.m).coeff i j + (s.w X.m).coeff i 0⟩) ∧
    (¬ ((s.w X.m).rows = (s.w Y.m).rows ∧
        ((s.w X.m).cols = (s.w Y.m).cols ∨ (s.w X.m).cols = 1 ∨ (s.w Y.m).cols = 1)) →
      ∃ e, MatOps.add X Y s = (.error e, s)) := by
  have hX' : X.m ≠ s.next_addr := by omega
  have hY' : Y.m ≠ s.next_addr := by omega
  refine ⟨?_, ?_, ?_, ?_⟩
  · intro hr hc
    simp [MatOps.add, hr, hc, Mat.empty_like, Mat.new, State.assign, record_w, EigenMat.add,
      Function.update_noteq hX', Function.update_noteq hY']
  · intro hr hc h1
    have h2 : ¬ (s.w X.m).cols = 1 := fun e => hc (e.trans h1.symm)
    simp [MatOps.add, MatOps.add_broadcast, hr, hc, h1, h2, Mat.empty_like, Mat.new,
      State.assign, record_w, EigenMat.colwiseAdd, Function.update_noteq hX',
      Function.update_noteq hY']
  · intro hr hc h1
    have h3 : ¬ 1 = (s.w Y.m).cols := fun e => hc (h1.trans e)
    simp [MatOps.add, MatOps.add_broadcast, hr, h1, h3, Mat.empty_like, Mat.new,
      State.assign, record_w, EigenMat.colwiseAdd, Function.update_noteq hX',
      Function.update_noteq hY']
  · intro h
    unfold MatOps.add MatOps.add_broadcast
    by_cases hr : (s.w X.m).rows = (s.w Y.m).rows
    · have hc : ¬ (s.w X.m).cols = (s.w Y.m).cols := fun e => h ⟨hr, Or.inl e⟩
      have h1 : ¬ (s.w X.m).cols = 1 := fun e => h ⟨hr, Or.inr (Or.inl e)⟩
      have h2 : ¬ (s.w Y.m).cols = 1 := fun e => h ⟨hr, Or.inr (Or.inr e)⟩
      simp [hr, hc, h1, h2]
    · have hr' : ¬ (s.w Y.m).rows = (s.w X.m).rows := fun e => hr e.symm
      by_cases hc : (s.w X.m).cols = (s.w Y.m).cols
      · simp [hr, hc]
      · by_cases h1 : (s.w X.m).cols = 1
        · have h3 : ¬ 1 = (s.w Y.m).cols := fun e => hc (h1.trans e)
          simp [hr, hr', h1, h3]
        · by_cases h2 : (s.w Y.m).cols = 1
          · simp [hr, hr', hc, h1, h2]
          · simp [hr, hr', hc, h1, h2]

theorem sub_forward (s : State) (X Y : Mat) (hX : X.m < s.next_addr)
    (hY : Y.m < s.next_addr) :
    ((s.w X.m).rows = (s.w Y.m).rows → (s.w X.m).cols = (s.w Y.m).cols →
      (MatOps.sub X Y s).1 = .ok ⟨s.next_addr, s.next_addr, false⟩ ∧
      (MatOps.sub X Y s).2.w s.next_addr
        = ⟨(s.w X.m).rows, (s.w X.m).cols,
            fun i j => (s.w X.m).coeff i j - (s.w Y.m).coeff i j⟩) ∧
    ((s.w X.m).rows = (s.w Y.m).rows → (s.w X.m).cols ≠ (s.w Y.m).cols → (s.w Y.m).cols = 1 →
      (MatOps.sub X Y s).1 = .ok ⟨s.next_addr, s.next_addr, false⟩ ∧
      (MatOps.sub X Y s).2.w s.next_addr
        = ⟨(s.w X.m).rows, (s.w X.m).cols,
            fun i j => (s.w X.m).coeff i j - (s.w Y.m).coeff i 0⟩) ∧
    ((s.w X.m).rows = (s.w Y.m).rows → (s.w X.m).cols ≠ (s.w Y.m).cols → (s.w X.m).cols = 1 →
      (MatOps.sub X Y s).1 = .ok ⟨s.next_addr, s.next_addr, false⟩ ∧
      (MatOps.sub X Y s).2.w s.next_addr
        = ⟨(s.w Y.m).rows, (s.w Y.m).cols,
            fun i j => - (s.w Y.m).coeff i j + (s.w X.m).coeff i 0⟩) ∧
    (¬ ((s.w X.m).rows = (s.w Y.m).rows ∧
        ((s.w X.m).cols = (s.w Y.m).cols ∨ (s.w X.m).cols = 1 ∨ (s.w Y.m).cols = 1)) →
      ∃ e, MatOps.sub X Y s = (.error e, s)) := by
  have hX' : X.m ≠ s.next_addr := by omega
  have hY' : Y.m ≠ s.next_addr := by omega
  refine ⟨?_, ?_, ?_, ?_⟩
  · intro hr hc
    simp [MatOps.sub, hr, hc, Mat.empty_like, Mat.new, State.assign, record_w, EigenMat.sub,
      Function.update_noteq hX', Function.update_noteq hY']
  · intro hr hc h1
    have h2 : ¬ (s.w X.m).cols = 1 := fun e => hc (e.trans h1.symm)
    simp [MatOps.sub, MatOps.sub_broadcast, hr, hc, h1, h2, Mat.empty_like, Mat.new,
      State.assign, record_w, EigenMat.colwiseSub, Function.update_noteq hX',
      Function.update_noteq hY']
  · intro hr hc h1
    have h3 : ¬ 1 = (s.w Y.m).cols := fun e => hc (h1.trans e)
    simp [MatOps.sub, MatOps.sub_broadcast_reversed, hr, h1, h3, Mat.empty_like, Mat.new,
      State.assign, record_w, EigenMat.colwiseAdd, EigenMat.neg, Function.update_noteq hX',
      Function.update_noteq hY']
  · intro h
    unfold MatOps.sub MatOps.sub_broadcast MatOps.sub_broadcast_reversed
    by_cases hr : (s.w X.m).rows = (s.w Y.m).rows
    · have hc : ¬ (s.w X.m).cols = (s.w Y.m).cols := fun e => h ⟨hr, Or.inl e⟩
      have h1 : ¬ (s.w X.m).cols = 1 := fun e => h ⟨hr, Or.inr (Or.inl e)⟩
      have h2 : ¬ (s.w Y.m).cols = 1 := fun e => h ⟨hr, Or.inr (Or.inr e)⟩
      simp [hr, hc, h1, h2]
    · have hr' : ¬ (s.w Y.m).rows = (s.w X.m).rows := fun e => hr e.symm
      by_cases hc : (s.w X.m).cols = (s.w Y.m).cols
      · simp [hr, hc]
      · by_cases h1 : (s.w X.m).cols = 1
        · have h3 : ¬ 1 = (s.w Y.m).cols := fun e => hc (h1.trans e)
          simp [hr, hr', h1, h3]
        · by_cases h2 : (s.w Y.m).cols = 1
          · simp [hr, hr', hc, h1, h2]
          · simp [hr, hr', hc, h1, h2]

theorem eltmul_forward (s : State) (X Y : Mat) (hX : X.m < s.next_addr)
    (hY : Y.m < s.next_addr) :
    ((s.w X.m).rows = (s.w Y.m).rows → (s.w X.m).cols = (s.w Y.m).cols →
      (MatOps.eltmul X Y s).1 = .ok ⟨s.next_addr, s.next_addr, false⟩ ∧
      (MatOps.eltmul X Y s).2.w s.next_addr
        = ⟨(s.w X.m).rows, (s.w X.m).cols,
            fun i j => (s.w X.m).coeff i j * (s.w Y.m).coeff i j⟩) ∧
    ((s.w X.m).rows = (s.w Y.m).rows → (s.w X.m).cols ≠ (s.w Y.m).cols → (s.w Y.m).cols = 1 →
      (MatOps.eltmul X Y s).1 = .ok ⟨s.next_addr, s.next_addr, false⟩ ∧
      (MatOps.eltmul X Y s).2.w s.next_addr
        = ⟨(s.w X.m).rows, (s.w X.m).cols,
            fun i j => (s.w X.m).coeff i j * (s.w Y.m).coeff i 0⟩) ∧
    ((s.w X.m).rows = (s.w Y.m).rows → (s.w X.m).cols ≠ (s.w Y.m).cols → (s.w X.m).cols = 1 →
      (MatOps.eltmul X Y s).1 = .ok ⟨s.next_addr, s.next_addr, false⟩ ∧
      (MatOps.eltmul X Y s).2.w s.next_addr
        = ⟨(s.w Y.m).rows, (s.w Y.m).cols,
            fun i j => (s.w Y.m).coeff i j * (s.w X.m).coeff i 0⟩) ∧
    (¬ ((s.w X.m).rows = (s.w Y.m).rows ∧
        ((s.w X.m).cols = (s.w Y.m).cols ∨ (s.w X.m).cols = 1 ∨ (s.w Y.m).cols = 1)) →
      ∃ e, MatOps.eltmul X Y s = (.error e, s)) := by
  have hX' : X.m ≠ s.next_addr := by omega
  have hY' : Y.m ≠ s.next_addr := by omega
  refine ⟨?_, ?_, ?_, ?_⟩
  · intro hr hc
    simp [MatOps.eltmul, hr, hc, Mat.empty_like, Mat.new, State.assign, record_w, EigenMat.cwiseMul,
      Function.update_noteq hX', Function.update_noteq hY', assert2]
  · intro hr hc h1
    have h2 : ¬ (s.w X.m).cols = 1 := fun e => hc (e.trans h1.symm)
    simp [MatOps.eltmul, MatOps.eltmul_broadcast, hr, hc, h1, h2, Mat.empty_like, Mat.new,
      State.assign, record_w, EigenMat.colwiseMul, Function.update_noteq hX',
      Function.update_noteq hY', assert2]
  · intro hr hc h1
    have h3 : ¬ 1 = (s.w Y.m).cols := fun e => hc (h1.trans e)
    simp [MatOps.eltmul, MatOps.eltmul_broadcast, hr, h1, h3, Mat.empty_like, Mat.new,
      State.assign, record_w, EigenMat.colwiseMul, Function.update_noteq hX',
      Function.update_noteq hY', assert2]
  · intro h
    unfold MatOps.eltmul MatOps.eltmul_broadcast
    by_cases hr : (s.w X.m).rows = (s.w Y.m).rows
    · have hc : ¬ (s.w X.m).cols = (s.w Y.m).cols := fun e => h ⟨hr, Or.inl e⟩
      have h1 : ¬ (s.w X.m).cols = 1 := fun e => h ⟨hr, Or.inr (Or.inl e)⟩
      have h2 : ¬ (s.w Y.m).cols = 1 := fun e => h ⟨hr, Or.inr (Or.inr e)⟩
      simp [hr, hc, h1, h2, assert2]
    · have hr' : ¬ (s.w Y.m).rows = (s.w X.m).rows := fun e => hr e.symm
      by_cases hc : (s.w X.m).cols = (s.w Y.m).cols
      · simp [hr, hc, assert2]
      · by_cases h1 : (s.w X.m).cols = 1
        · have h3 : ¬ 1 = (s.w Y.m).cols := fun e => hc (h1.trans e)
          simp [hr, hr', h1, h3, assert2]
        · by_cases h2 : (s.w Y.m).cols = 1
          · simp [hr, hr', hc, h1, h2, assert2]
          · simp [hr, hr', hc, h1, h2, assert2]

theorem add_eltmul_forward_commute (s : State) (X Y : Mat) (hX : X.m < s.next_addr)
    (hY : Y.m < s.next_addr) :
    (∀ o, (MatOps.add X Y s).1 = .ok o →
      (MatOps.add Y X s).1 = .ok o ∧
        ((MatOps.add Y X s).2.w o.m).rows = ((MatOps.add X Y s).2.w o.m).rows ∧
        ((MatOps.add Y X s).2.w o.m).cols = ((MatOps.add X Y s).2.w o.m).cols ∧
        ∀ i j, ((MatOps.add Y X s).2.w o.m).coeff i j
          = ((MatOps.add X Y s).2.w o.m).coeff i j) ∧
    (∀ o, (MatOps.eltmul X Y s).1 = .ok o →
      (MatOps.eltmul Y X s).1 = .ok o ∧
        ((MatOps.eltmul Y X s).2.w o.m).rows = ((MatOps.eltmul X Y s).2.w o.m).rows ∧
        ((MatOps.eltmul Y X s).2.w o.m).cols = ((MatOps.eltmul X Y s).2.w o.m).cols ∧
        ∀ i j, ((MatOps.eltmul Y X s).2.w o.m).coeff i j
          = ((MatOps.eltmul X Y s).2.w o.m).coeff i j) := by
  obtain ⟨a1, a2, a3, a4⟩ := add_forward s X Y hX hY
  obtain ⟨b1, b2, b3, -⟩ := add_forward s Y X hY hX
  obtain ⟨e1, e2, e3, e4⟩ := eltmul_forward s X Y hX hY
  obtain ⟨f1, f2, f3, -⟩ := eltmul_forward s Y X hY hX
  constructor
  · intro o ho
    by_cases h : (s.w X.m).rows = (s.w Y.m).rows ∧
        ((s.w X.m).cols = (s.w Y.m).cols ∨ (s.w X.m).cols = 1 ∨ (s.w Y.m).cols = 1)
    · obtain ⟨hr, hcases⟩ := h
      by_cases hc : (s.w X.m).cols = (s.w Y.m).cols
      · obtain ⟨u1, u2⟩ := a1 hr hc
        obtain ⟨v1, v2⟩ := b1 hr.symm hc.symm
        rw [u1] at ho
        cases ho
        refine ⟨v1, ?_, ?_, ?_⟩
        · rw [u2, v2]; exact hr.symm
        · rw [u2, v2]; exact hc.symm
        · intro i j; rw [u2, v2]; exact add_comm _ _
      · rcases hcases with hc' | h1 | h1
        · exact absurd hc' hc
        · obtain ⟨u1, u2⟩ := a3 hr hc h1
          obtain ⟨v1, v2⟩ := b2 hr.symm (fun e => hc e.symm) h1
          rw [u1] at ho
          cases ho
          refine ⟨v1, ?_, ?_, ?_⟩
          · rw [u2, v2]
          · rw [u2, v2]
          · intro i j; rw [u2, v2]
        · obtain ⟨u1, u2⟩ := a2 hr hc h1
          obtain ⟨v1, v2⟩ := b3 hr.symm (fun e => hc e.symm) h1
          rw [u1] at ho
          cases ho
          refine ⟨v1, ?_, ?_, ?_⟩
          · rw [u2, v2]
          · rw [u2, v2]
          · intro i j; rw [u2, v2]
    · obtain ⟨e, he⟩ := a4 h
      rw [he] at ho
      cases ho
  · intro o ho
    by_cases h : (s.w X.m).rows = (s.w Y.m).rows ∧
        ((s.w X.m).cols = (s.w Y.m).cols ∨ (s.w X.m).cols = 1 ∨ (s.w Y.m).cols = 1)
    · obtain ⟨hr, hcases⟩ := h
      by_cases hc : (s.w X.m).cols = (s.w Y.m).cols
      · obtain ⟨u1, u2⟩ := e1 hr hc
        obtain ⟨v1, v2⟩ := f1 hr.symm hc.symm
        rw [u1] at ho
        cases ho
        refine ⟨v1, ?_, ?_, ?_⟩
        · rw [u2, v2]; exact hr.symm
        · rw [u2, v2]; exact hc.symm
        · intro i j; rw [u2, v2]; exact mul_comm _ _
      · rcases hcases with hc' | h1 | h1
        · exact absurd hc' hc
        · obtain ⟨u1, u2⟩ := e3 hr hc h1
          obtain ⟨v1, v2⟩ := f2 hr.symm (fun e => hc e.symm) h1
          rw [u1] at ho
          cases ho
          refine ⟨v1, ?_, ?_, ?_⟩
          · rw [u2, v2]
          · rw [u2, v2]
          · intro i j; rw [u2, v2]
        · obtain ⟨u1, u2⟩ := e2 hr hc h1
          obtain ⟨v1, v2⟩ := f3 hr.symm (fun e => hc e.symm) h1
          rw [u1] at ho
          cases ho
          refine ⟨v1, ?_, ?_, ?_⟩
          · rw [u2, v2]
          · rw [u2, v2]
          · intro i j; rw [u2, v2]
    · obtain ⟨e, he⟩ := e4 h
      rw [he] at ho
      cases ho

end Broadcast

/-- C20.  For two tensors `X`, `Y` of a state `s`, `a` being the address of the
tensor that a successful call returns.  (1) With equal shapes `MatOps::add`,
`MatOps::sub` and `MatOps::eltmul` return the elementwise `X + Y`, `X − Y`,
`X ∘ Y`.  (2) With equal row counts, different column counts and `Y` a single
column, in either argument position the result has the shape of `X` and holds
the elementwise operation with the column repeated: `add` gives
`X[i][j] + Y[i][0]` and `eltmul` gives `X[i][j] * Y[i][0]` for both orders,
`sub(X, Y)` gives `X[i][j] − Y[i][0]` and `sub(Y, X)` gives
`Y[i][0] − X[i][j]`.  (3) In every remaining case each of the three calls fails
with an error and leaves the state, the tape included, as it was.  (4) Whenever
`add(X, Y)` returns, `add(Y, X)` returns a tensor of the same shape and entries,
and likewise for `eltmul`: the forward values commute. -/
theorem implicit_broadcast_policy (s : State) (X Y : Mat) (hX : X.m < s.next_addr)
    (hY : Y.m < s.next_addr) :
    ((s.w X.m).rows = (s.w Y.m).rows → (s.w X.m).cols = (s.w Y.m).cols →
      ((MatOps.add X Y s).1 = .ok ⟨s.next_addr, s.next_addr, false⟩ ∧
        (MatOps.add X Y s).2.w s.next_addr
          = ⟨(s.w X.m).rows, (s.w X.m).cols,
              fun i j => (s.w X.m).coeff i j + (s.w Y.m).coeff i j⟩) ∧
      ((MatOps.sub X Y s).1 = .ok ⟨s.next_addr, s.next_addr, false⟩ ∧
        (MatOps.sub X Y s).2.w s.next_addr
          = ⟨(s.w X.m).rows, (s.w X.m).cols,
              fun i j => (s.w X.m).coeff i j - (s.w Y.m).coeff i j⟩) ∧
      ((MatOps.eltmul X Y s).1 = .ok ⟨s.next_addr, s.next_addr, false⟩ ∧
        (MatOps.eltmul X Y s).2.w s.next_addr
          = ⟨(s.w X.m).rows, (s.w X.m).cols,
              fun i j => (s.w X.m).coeff i j * (s.w Y.m).coeff i j⟩)) ∧
    ((s.w X.m).rows = (s.w Y.m).rows → (s.w X.m).cols ≠ (s.w Y.m).cols → (s.w Y.m).cols = 1 →
      ((MatOps.add X Y s).1 = .ok ⟨s.next_addr, s.next_addr, false⟩ ∧
        (MatOps.add X Y s).2.w s.next_addr
          = ⟨(s.w X.m).rows, (s.w X.m).cols,
              fun i j => (s.w X.m).coeff i j + (s.w Y.m).coeff i 0⟩) ∧
      ((MatOps.add Y X s).1 = .ok ⟨s.next_addr, s.next_addr, false⟩ ∧
        (MatOps.add Y X s).2.w s.next_addr
          = ⟨(s.w X.m).rows, (s.w X.m).cols,
              fun i j => (s.w X.m).coeff i j + (s.w Y.m).coeff i 0⟩) ∧
      ((MatOps.sub X Y s).1 = .ok ⟨s.next_addr, s.next_addr, false⟩ ∧
        (MatOps.sub X Y s).2.w s.next_addr
          = ⟨(s.w X.m).rows, (s.w X.m).cols,
              fun i j => (s.w X.m).coeff i j - (s.w Y.m).coeff i 0⟩) ∧
      ((MatOps.sub Y X s).1 = .ok ⟨s.next_addr, s.next_addr, false⟩ ∧
        (MatOps.sub Y X s).2.w s.next_addr
          = ⟨(s.w X.m).rows, (s.w X.m).cols,
              fun i j => (s.w Y.m).coeff i 0 - (s.w X.m).coeff i j⟩) ∧
      ((MatOps.eltmul X Y s).1 = .ok ⟨s.next_addr, s.next_addr, false⟩ ∧
        (MatOps.eltmul X Y s).2.w s.next_addr
          = ⟨(s.w X.m).rows, (s.w X.m).cols,
              fun i j => (s.w X.m).coeff i j * (s.w Y.m).coeff i 0⟩) ∧
      ((MatOps.eltmul Y X s).1 = .ok ⟨s.next_addr, s.next_addr, false⟩ ∧
        (MatOps.eltmul Y X s).2.w s.next_addr
          = ⟨(s.w X.m).rows, (s.w X.m).cols,
              fun i j => (s.w X.m).coeff i j * (s.w Y.m).coeff i 0⟩)) ∧
    (¬ ((s.w X.m).rows = (s.w Y.m).rows ∧
        ((s.w X.m).cols = (s.w Y.m).cols ∨ (s.w X.m).cols = 1 ∨ (s.w Y.m).cols = 1)) →
      (∃ e, MatOps.add X Y s = (.error e, s)) ∧ (∃ e, MatOps.sub X Y s = (.error e, s)) ∧
        (∃ e, MatOps.eltmul X Y s = (.error e, s))) ∧
    (∀ o, (MatOps.add X Y s).1 = .ok o →
      (MatOps.add Y X s).1 = .ok o ∧
        ((MatOps.add Y X s).2.w o.m).rows = ((MatOps.add X Y s).2.w o.m).rows ∧
        ((MatOps.add Y X s).2.w o.m).cols = ((MatOps.add X Y s).2.w o.m).cols ∧
        ∀ i j, ((MatOps.add Y X s).2.w o.m).coeff i j
          = ((MatOps.add X Y s).2.w o.m).coeff i j) ∧
    (∀ o, (MatOps.eltmul X Y s).1 = .ok o →
      (MatOps.eltmul Y X s).1 = .ok o ∧
        ((MatOps.eltmul Y X s).2.w o.m).rows = ((MatOps.eltmul X Y s).2.w o.m).rows ∧
        ((MatOps.eltmul Y X s).2.w o.m).cols = ((MatOps.eltmul X Y s).2.w o.m).cols ∧
        ∀ i j, ((MatOps.eltmul Y X s).2.w o.m).coeff i j
          = ((MatOps.eltmul X Y s).2.w o.m).coeff i j) := by
  obtain ⟨a1, a2, -, a4⟩ := add_forward s X Y hX hY
  obtain ⟨-, -, a3', -⟩ := add_forward s Y X hY hX
  obtain ⟨s1, s2, -, s4⟩ := sub_forward s X Y hX hY
  obtain ⟨-, -, s3', -⟩ := sub_forward s Y X hY hX
  obtain ⟨e1, e2, -, e4⟩ := eltmul_forward s X Y hX hY
  obtain ⟨-, -, e3', -⟩ := eltmul_forward s Y X hY hX
  refine ⟨fun hr hc => ⟨a1 hr hc, s1 hr hc, e1 hr hc⟩, ?_, fun h => ⟨a4 h, s4 h, e4 h⟩,
    (add_eltmul_forward_commute s X Y hX hY).1, (add_eltmul_forward_commute s X Y hX hY).2⟩
  intro hr hc h1
  refine ⟨a2 hr hc h1, a3' hr.symm (fun e => hc e.symm) h1, s2 hr hc h1, ?_, e2 hr hc h1,
    e3' hr.symm (fun e => hc e.symm) h1⟩
  obtain ⟨u1, u2⟩ := s3' hr.symm (fun e => hc e.symm) h1
  refine ⟨u1, ?_⟩
  rw [u2]
  congr 1
  funext i j
  ring

/-- Witness of C20: in `onesState`, `A` is a `2 × 3` matrix and `B` a `3 × 1`
column, so the row counts differ: the three calls fail and record nothing. -/
theorem implicit_broadcast_policy_witness :
    (∃ e, MatOps.add ⟨0, 0, false⟩ ⟨1, 1, false⟩ onesState = (.error e, onesState)) ∧
    (∃ e, MatOps.sub ⟨0, 0, false⟩ ⟨1, 1, false⟩ onesState = (.error e, onesState)) ∧
    (∃ e, MatOps.eltmul ⟨0, 0, false⟩ ⟨1, 1, false⟩ onesState = (.error e, onesState)) :=
  (implicit_broadcast_policy onesState ⟨0, 0, false⟩ ⟨1, 1, false⟩ (by decide) (by decide)).2.2.1
    (by decide)

section TapeSteps

theorem frame_refl (s : State) : Frame s s := ⟨rfl, rfl⟩

theorem frame_assign (s t : State) (x : Mat) (v : EigenMat) (h : Frame s t) :
    Frame s (t.assign x v) := h

theorem frame_new (s t : State) (n d : Nat) (empty : Bool) (h : Frame s t) :
    Frame s (Mat.new n d empty t).2 := h

theorem frame_empty_like (s t : State) (x : Mat) (h : Frame s t) :
    Frame s (Mat.empty_like x t).2 := h

theorem frame_foldl {α : Type} (L : List α) (step : State → α → State) (s t : State)
    (hstep : ∀ u a, Frame s u → Frame s (step u a)) (h : Frame s t) :
    Frame s (L.foldl step t) := by
  induction L generalizing t with
  | nil => exact h
  | cons a rest ih => exact ih _ (hstep t a h)

theorem frame_hstackFill (s : State) (out : Mat) (L : List Mat) (off : Nat) (t : State)
    (h : Frame s t) : Frame s (MatOps.hstackFill out L off t) := by
  induction L generalizing off t with
  | nil => exact h
  | cons Y rest ih => exact ih _ _ h

theorem frame_vstackFill (s : State) (out : Mat) (L : List Mat) (off : Nat) (t : State)
    (h : Frame s t) : Frame s (MatOps.vstackFill out L off t) := by
  induction L generalizing off t with
  | nil => exact h
  | cons Y rest ih => exact ih _ _ h

theorem frame_rowsPluckFill (s : State) (A out : Mat) (L : List Nat) (off : Nat) (t : State)
    (h : Frame s t) : Frame s (MatOps.rowsPluckFill A out L off t) := by
  induction L generalizing off t with
  | nil => exact h
  | cons Y rest ih => exact ih _ _ h

theorem frame_mulAddMulFill (s : State) (out : Mat) (n : Nat) :
    ∀ (L : List Mat), L.length ≤ n → ∀ (t u : State), Frame s t →
      MatOps.mulAddMulFill out L t = .ok u → Frame s u := by
  induction n with
  | zero =>
    intro L hL t u _ hu
    cases L with
    | nil => simp [MatOps.mulAddMulFill] at hu
    | cons a rest => simp at hL
  | succ n ih =>
    intro L hL t u h hu
    match L, hL, hu with
    | [], _, hu => simp [MatOps.mulAddMulFill] at hu
    | [bias], _, hu =>
      simp only [MatOps.mulAddMulFill, Except.ok.injEq] at hu
      rw [← hu]
      exact h
    | a :: b :: rest, hL, hu =>
      simp only [MatOps.mulAddMulFill] at hu
      exact ih rest (by simp at hL; omega) _ u (frame_assign s t out _ h) hu

theorem step_error (n : Nat) (s : State) (e : String) : TapeStep n s (.error e, s) :=
  ⟨rfl, fun _ => rfl, fun _ h => by obtain ⟨o, ho⟩ := h; cases ho⟩

theorem step_plain (s t : State) (o : Mat) (h : Frame s t) : TapeStep 0 s (.ok o, t) :=
  ⟨h.2, fun _ => h.1, fun _ _ => ⟨[], by simp [h.1], rfl⟩⟩

theorem step_record (s t : State) (o : Mat) (c : Closure) (h : Frame s t) :
    TapeStep 1 s (.ok o, t.record c) := by
  obtain ⟨h1, h2⟩ := h
  refine ⟨?_, ?_, ?_⟩
  · unfold State.record
    split <;> simp [graph.emplace_back, h2]
  · intro hb
    simp [State.record, h2, hb, h1]
  · intro hb _
    exact ⟨[c], by simp [State.record, h2, hb, h1, graph.emplace_back], rfl⟩

end TapeSteps

section PrimitiveSteps

theorem step_eltmul_broadcast (s : State) (a b : Mat) : TapeStep 1 s (MatOps.eltmul_broadcast a b s) := by
  unfold MatOps.eltmul_broadcast
  repeat (first
    | exact step_error _ _ _
    | exact step_record s _ _ _ ⟨rfl, rfl⟩
    | split)

theorem step_eltmul_scalar (s : State) (a : Mat) (alpha : R) : TapeStep 1 s (MatOps.eltmul_scalar a alpha s) := by
  unfold MatOps.eltmul_scalar
  repeat (first
    | exact step_error _ _ _
    | exact step_record s _ _ _ ⟨rfl, rfl⟩
    | split)

theorem step_eltmul_broadcast_rowwise (s : State) (a b : Mat) : TapeStep 1 s (MatOps.eltmul_broadcast_rowwise a b s) := by
  unfold MatOps.eltmul_broadcast_rowwise
  repeat (first
    | exact step_error _ _ _
    | exact step_record s _ _ _ ⟨rfl, rfl⟩
    | split)

theorem step_eltmul_rowwise (s : State) (a b : Mat) : TapeStep 1 s (MatOps.eltmul_rowwise a b s) := by
  unfold MatOps.eltmul_rowwise
  repeat (first
    | exact step_error _ _ _
    | exact step_record s _ _ _ ⟨rfl, rfl⟩
    | split)

theorem step_add_scalar (s : State) (a : Mat) (alpha : R) : TapeStep 1 s (MatOps.add_scalar a alpha s) := by
  unfold MatOps.add_scalar
  repeat (first
    | exact step_error _ _ _
    | exact step_record s _ _ _ ⟨rfl, rfl⟩
    | split)

theorem step_add_broadcast (s : State) (a b : Mat) : TapeStep 1 s (MatOps.add_broadcast a b s) := by
  unfold MatOps.add_broadcast
  repeat (first
    | exact step_error _ _ _
    | exact step_record s _ _ _ ⟨rfl, rfl⟩
    | split)

theorem step_sub_broadcast (s : State) (a b : Mat) : TapeStep 1 s (MatOps.sub_broadcast a b s) := by
  unfold MatOps.sub_broadcast
  repeat (first
    | exact step_error _ _ _
    | exact step_record s _ _ _ ⟨rfl, rfl⟩
    | split)

theorem step_sub_broadcast_reversed (s : State) (a b : Mat) : TapeStep 1 s (MatOps.sub_broadcast_reversed a b s) := by
  unfold MatOps.sub_broadcast_reversed
  repeat (first
    | exact step_error _ _ _
    | exact step_record s _ _ _ ⟨rfl, rfl⟩
    | split)

theorem step_square (s : State) (a : Mat) : TapeStep 1 s (MatOps.square a s) := by
  unfold MatOps.square
  repeat (first
    | exact step_error _ _ _
    | exact step_record s _ _ _ ⟨rfl, rfl⟩
    | split)

theorem step_sqrt (s : State) (f : Scalars) (a : Mat) : TapeStep 1 s (MatOps.sqrt f a s) := by
  unfold MatOps.sqrt
  repeat (first
    | exact step_error _ _ _
    | exact step_record s _ _ _ ⟨rfl, rfl⟩
    | split)

theorem step_elt_inv (s : State) (a : Mat) : TapeStep 1 s (MatOps.elt_inv a s) := by
  unfold MatOps.elt_inv
  repeat (first
    | exact step_error _ _ _
    | exact step_record s _ _ _ ⟨rfl, rfl⟩
    | split)

theorem step_sigmoid (s : State) (f : Scalars) (a : Mat) : TapeStep 1 s (MatOps.sigmoid f a s) := by
  unfold MatOps.sigmoid
  repeat (first
    | exact step_error _ _ _
    | exact step_record s _ _ _ ⟨rfl, rfl⟩
    | split)

theorem step_steep_sigmoid (s : State) (f : Scalars) (a : Mat) (g : R) : TapeStep 1 s (MatOps.steep_sigmoid f a g s) := by
  unfold MatOps.steep_sigmoid
  repeat (first
    | exact step_error _ _ _
    | exact step_record s _ _ _ ⟨rfl, rfl⟩
    | split)

theorem step_sum (s : State) (a : Mat) : TapeStep 1 s (MatOps.sum a s) := by
  unfold MatOps.sum
  repeat (first
    | exact step_error _ _ _
    | exact step_record s _ _ _ ⟨rfl, rfl⟩
    | split)

theorem step_mean (s : State) (a : Mat) : TapeStep 1 s (MatOps.mean a s) := by
  unfold MatOps.mean
  repeat (first
    | exact step_error _ _ _
    | exact step_record s _ _ _ ⟨rfl, rfl⟩
    | split)

theorem step_sigmoid_binary_cross_entropy (s : State) (f : Scalars) (a : Mat) (t : R) : TapeStep 1 s (MatOps.sigmoid_binary_cross_entropy f a t s) := by
  unfold MatOps.sigmoid_binary_cross_entropy
  repeat (first
    | exact step_error _ _ _
    | exact step_record s _ _ _ ⟨rfl, rfl⟩
    | split)

theorem step_binary_cross_entropy (s : State) (f : Scalars) (a : Mat) (t : R) : TapeStep 1 s (MatOps.binary_cross_entropy f a t s) := by
  unfold MatOps.binary_cross_entropy
  repeat (first
    | exact step_error _ _ _
    | exact step_record s _ _ _ ⟨rfl, rfl⟩
    | split)

theorem step_cross_entropy (s : State) (f : Scalars) (a : Mat) (k : Nat) : TapeStep 1 s (MatOps.cross_entropy f a k s) := by
  unfold MatOps.cross_entropy
  repeat (first
    | exact step_error _ _ _
    | exact step_record s _ _ _ ⟨rfl, rfl⟩
    | split)

theorem step_log (s : State) (f : Scalars) (a : Mat) : TapeStep 1 s (MatOps.log f a s) := by
  unfold MatOps.log
  repeat (first
    | exact step_error _ _ _
    | exact step_record s _ _ _ ⟨rfl, rfl⟩
    | split)

theorem step_exp (s : State) (f : Scalars) (a : Mat) : TapeStep 1 s (MatOps.exp f a s) := by
  unfold MatOps.exp
  repeat (first
    | exact step_error _ _ _
    | exact step_record s _ _ _ ⟨rfl, rfl⟩
    | split)

theorem step_hstack (s : State) (a b : Mat) : TapeStep 1 s (MatOps.hstack a b s) := by
  unfold MatOps.hstack
  repeat (first
    | exact step_error _ _ _
    | exact step_record s _ _ _ ⟨rfl, rfl⟩
    | split)

theorem step_vstack (s : State) (a b : Mat) : TapeStep 1 s (MatOps.vstack a b s) := by
  unfold MatOps.vstack
  repeat (first
    | exact step_error _ _ _
    | exact step_record s _ _ _ ⟨rfl, rfl⟩
    | split)

theorem step_transpose (s : State) (a : Mat) : TapeStep 1 s (MatOps.transpose a s) := by
  unfold MatOps.transpose
  repeat (first
    | exact step_error _ _ _
    | exact step_record s _ _ _ ⟨rfl, rfl⟩
    | split)

theorem step_tanh (s : State) (f : Scalars) (a : Mat) : TapeStep 1 s (MatOps.tanh f a s) := by
  unfold MatOps.tanh
  repeat (first
    | exact step_error _ _ _
    | exact step_record s _ _ _ ⟨rfl, rfl⟩
    | split)

theorem step_relu (s : State) (f : Scalars) (a : Mat) : TapeStep 1 s (MatOps.relu f a s) := by
  unfold MatOps.relu
  repeat (first
    | exact step_error _ _ _
    | exact step_record s _ _ _ ⟨rfl, rfl⟩
    | split)

theorem step_mul (s : State) (a b : Mat) : TapeStep 1 s (MatOps.mul a b s) := by
  unfold MatOps.mul
  repeat (first
    | exact step_error _ _ _
    | exact step_record s _ _ _ ⟨rfl, rfl⟩
    | split)

theorem step_mul_with_bias (s : State) (a b c : Mat) : TapeStep 1 s (MatOps.mul_with_bias a b c s) := by
  unfold MatOps.mul_with_bias
  repeat (first
    | exact step_error _ _ _
    | exact step_record s _ _ _ ⟨rfl, rfl⟩
    | split)

theorem step_mul_add_broadcast_mul_with_bias (s : State) (a x b y c : Mat) : TapeStep 1 s (MatOps.mul_add_broadcast_mul_with_bias a x b y c s) := by
  unfold MatOps.mul_add_broadcast_mul_with_bias
  repeat (first
    | exact step_error _ _ _
    | exact step_record s _ _ _ ⟨rfl, rfl⟩
    | split)

theorem step_row_pluck (s : State) (a : Mat) (k : Nat) : TapeStep 1 s (MatOps.row_pluck a k s) := by
  unfold MatOps.row_pluck
  repeat (first
    | exact step_error _ _ _
    | exact step_record s _ _ _ ⟨rfl, rfl⟩
    | split)

theorem step_fast_dropout (s : State) (a : Mat) (draw : Nat → R) (u : Nat → Nat → R) : TapeStep 1 s (MatOps.fast_dropout a draw u s) := by
  unfold MatOps.fast_dropout
  repeat (first
    | exact step_error _ _ _
    | exact step_record s _ _ _ ⟨rfl, rfl⟩
    | split)

theorem step_eltmul (s : State) (a b : Mat) : TapeStep 1 s (MatOps.eltmul a b s) := by
  unfold MatOps.eltmul
  repeat (first
    | exact step_error _ _ _
    | exact step_eltmul_broadcast _ _ _
    | exact step_record s _ _ _ ⟨rfl, rfl⟩
    | split)

theorem step_add (s : State) (a b : Mat) : TapeStep 1 s (MatOps.add a b s) := by
  unfold MatOps.add
  repeat (first
    | exact step_error _ _ _
    | exact step_add_broadcast _ _ _
    | exact step_record s _ _ _ ⟨rfl, rfl⟩
    | split)

theorem step_sub (s : State) (a b : Mat) : TapeStep 1 s (MatOps.sub a b s) := by
  unfold MatOps.sub
  repeat (first
    | exact step_error _ _ _
    | exact step_sub_broadcast _ _ _
    | exact step_sub_broadcast_reversed _ _ _
    | exact step_record s _ _ _ ⟨rfl, rfl⟩
    | split)

theorem step_mul_add_mul_with_bias (s : State) (a x b y c : Mat) :
    TapeStep 1 s (MatOps.mul_add_mul_with_bias a x b y c s) := by
  unfold MatOps.mul_add_mul_with_bias
  repeat (first
    | exact step_error _ _ _
    | exact step_mul_add_broadcast_mul_with_bias _ _ _ _ _ _
    | exact step_record s _ _ _ ⟨rfl, rfl⟩
    | split)

theorem step_add_vector (s : State) (ms : List Mat) : TapeStep 1 s (MatOps.add_vector ms s) := by
  unfold MatOps.add_vector
  split
  · exact step_error _ _ _
  · exact step_record s _ _ _
      (frame_foldl _ _ s _ (fun u a h => frame_assign s u _ _ h) ⟨rfl, rfl⟩)

theorem step_hstack_vector (s : State) (ms : List Mat) :
    TapeStep 1 s (MatOps.hstack_vector ms s) := by
  unfold MatOps.hstack_vector
  split
  · exact step_error _ _ _
  · split
    · exact step_error _ _ _
    · exact step_record s _ _ _ (frame_hstackFill s _ _ _ _ ⟨rfl, rfl⟩)

theorem step_vstack_vector (s : State) (ms : List Mat) :
    TapeStep 1 s (MatOps.vstack_vector ms s) := by
  unfold MatOps.vstack_vector
  split
  · exact step_error _ _ _
  · split
    · exact step_error _ _ _
    · exact step_record s _ _ _ (frame_vstackFill s _ _ _ _ ⟨rfl, rfl⟩)

theorem step_rows_pluck (s : State) (a : Mat) (idx : List Nat) :
    TapeStep 1 s (MatOps.rows_pluck a idx s) := by
  unfold MatOps.rows_pluck
  exact step_record s _ _ _ (frame_rowsPluckFill s _ _ _ _ _ ⟨rfl, rfl⟩)

theorem step_mul_add_mul_with_bias_vector (s : State) (ms : List Mat) :
    TapeStep 1 s (MatOps.mul_add_mul_with_bias_vector ms s) := by
  match ms with
  | [] => exact step_error _ _ _
  | [_] => exact step_error _ _ _
  | m0 :: m1 :: rest =>
    unfold MatOps.mul_add_mul_with_bias_vector
    simp only []
    cases h : MatOps.mulAddMulFill (Mat.new (s.w m0.m).rows (s.w m1.m).cols true s).1
        (m0 :: m1 :: rest) (Mat.new (s.w m0.m).rows (s.w m1.m).cols true s).2 with
    | error e => exact step_error _ _ _
    | ok t =>
      exact step_record s _ _ _ (frame_mulAddMulFill s _ _ _ (le_refl _)
        (Mat.new (s.w m0.m).rows (s.w m1.m).cols true s).2 t ⟨rfl, rfl⟩ h)

theorem step_fill (s : State) (a : Mat) (v : R) : TapeStep 0 s (MatOps.fill a v s) :=
  step_plain s _ _ ⟨rfl, rfl⟩

theorem step_softmax_no_grad (s : State) (f : Scalars) (a : Mat) (temperature : R) :
    TapeStep 0 s (MatOps.softmax_no_grad f a temperature s) :=
  step_plain s _ _ ⟨rfl, rfl⟩

theorem step_consider_constant (s : State) (a : Mat) :
    TapeStep 0 s (MatOps.consider_constant a s) :=
  step_plain s _ _ ⟨rfl, rfl⟩

theorem step_softmax (s : State) (f : Scalars) (a : Mat) (temperature : R) :
    TapeStep 1 s (MatOps.softmax f a temperature s) :=
  step_record s _ _ _ ⟨rfl, rfl⟩

theorem step_pow (s : State) (f : Scalars) (a : Mat) (other : R) :
    TapeStep (if other = 0 ∨ other = 1 then 0 else 1) s (MatOps.pow f a other s) := by
  unfold MatOps.pow
  by_cases h1 : other = -1
  · rw [if_pos h1, if_neg (by rw [h1]; norm_num)]
    exact step_elt_inv _ _
  · rw [if_neg h1]
    by_cases h2 : other = 0
    · rw [if_pos h2, if_pos (Or.inl h2)]
      exact step_fill _ _ _
    · rw [if_neg h2]
      by_cases h3 : other = 1 / 2
      · rw [if_pos h3, if_neg (by rw [h3]; norm_num)]
        exact step_sqrt _ _ _
      · rw [if_neg h3]
        by_cases h4 : other = 1
        · rw [if_pos h4, if_pos (Or.inr h4)]
          exact step_plain s s a (frame_refl s)
        · rw [if_neg h4, if_neg (not_or.mpr ⟨h2, h4⟩)]
          by_cases h5 : other = 2
          · rw [if_pos h5]
            exact step_square _ _
          · rw [if_neg h5]
            exact step_record s _ _ _ ⟨rfl, rfl⟩

theorem step_dropout (s : State) (a : Mat) (p : R) (draw : Nat → Bool) (u : Nat → Nat → R) :
    TapeStep (if p < 1 / 1000000 then 0 else 1) s (MatOps.dropout a p draw u s) := by
  unfold MatOps.dropout
  by_cases h0 : ¬ (0 ≤ p ∧ p ≤ 1)
  · rw [if_pos h0]
    exact step_error _ _ _
  · rw [if_neg h0]
    by_cases h : p < 1 / 1000000
    · rw [if_pos h, if_pos h]
      exact step_plain s s a (frame_refl s)
    · rw [if_neg h, if_neg h]
      exact step_record s _ _ _ ⟨rfl, rfl⟩

theorem step_dropout_normalized (s : State) (a : Mat) (p : R) (draw : Nat → Bool)
    (u : Nat → Nat → R) :
    TapeStep (if p < 1 / 1000000 then 0 else 1) s
      (MatOps.dropout_normalized a p draw u s) := by
  unfold MatOps.dropout_normalized
  by_cases h0 : ¬ (0 ≤ p ∧ p ≤ 1)
  · rw [if_pos h0]
    exact step_error _ _ _
  · rw [if_neg h0]
    by_cases h : p < 1 / 1000000
    · rw [if_pos h, if_pos h]
      exact step_plain s s a (frame_refl s)
    · rw [if_neg h, if_neg h]
      exact step_record s _ _ _ ⟨rfl, rfl⟩

theorem step_record_unless_constant (s T : State) (o : Mat) (c : Closure) (const : Bool)
    (hf : Frame s T) :
    TapeStep (if const then 0 else 1) s
      (.ok o, if T.backprop_enabled && !const then graph.emplace_back c T else T) := by
  obtain ⟨h1, h2⟩ := hf
  cases const <;> cases hb : s.backprop_enabled <;>
    simp [TapeStep, h1, h2, hb, graph.emplace_back]

theorem step_rows_cols_pluck (s : State) (a : Mat) (rows cols : List Nat) :
    TapeStep (if a.constant then 0 else 1) s (MatOps.rows_cols_pluck a rows cols s) := by
  unfold MatOps.rows_cols_pluck
  by_cases h0 : rows.length ≠ cols.length
  · rw [if_pos h0]
    exact step_error _ _ _
  · rw [if_neg h0]
    exact step_record_unless_constant s _ _ _ _
      (frame_foldl _ _ s _ (fun u _ h => frame_assign s u _ _ h) ⟨rfl, rfl⟩)

theorem step_softmax_cross_entropy (s : State) (f : Scalars) (a : Mat) (k : Nat) :
    TapeStep 2 s (MatOps.softmax_cross_entropy f a k s) := by
  cases hb : s.backprop_enabled <;>
    simp [TapeStep, MatOps.softmax_cross_entropy, MatOps.softmax, MatOps.softmax_no_grad,
      Mat.new, Mat.empty_like, State.assign, State.record, graph.emplace_back, hb]

theorem prim_step (f : Scalars) (p : PrimCall) (s : State) :
    TapeStep p.recorded s (p.run f s) := by
  cases p with
  | eltmul_broadcast a b => exact step_eltmul_broadcast s a b
  | eltmul a b => exact step_eltmul s a b
  | eltmul_scalar a alpha => exact step_eltmul_scalar s a alpha
  | eltmul_broadcast_rowwise a b => exact step_eltmul_broadcast_rowwise s a b
  | eltmul_rowwise a b => exact step_eltmul_rowwise s a b
  | add a b => exact step_add s a b
  | sub a b => exact step_sub s a b
  | add_scalar a alpha => exact step_add_scalar s a alpha
  | add_broadcast a b => exact step_add_broadcast s a b
  | sub_broadcast a b => exact step_sub_broadcast s a b
  | sub_broadcast_reversed a b => exact step_sub_broadcast_reversed s a b
  | add_vector ms => exact step_add_vector s ms
  | square a => exact step_square s a
  | sqrt a => exact step_sqrt s f a
  | elt_inv a => exact step_elt_inv s a
  | fill a v => exact step_fill s a v
  | pow a other => exact step_pow s f a other
  | sigmoid a => exact step_sigmoid s f a
  | softmax_no_grad a t => exact step_softmax_no_grad s f a t
  | softmax a t => exact step_softmax s f a t
  | steep_sigmoid a g => exact step_steep_sigmoid s f a g
  | sum a => exact step_sum s a
  | mean a => exact step_mean s a
  | sigmoid_binary_cross_entropy a t => exact step_sigmoid_binary_cross_entropy s f a t
  | binary_cross_entropy a t => exact step_binary_cross_entropy s f a t
  | cross_entropy a k => exact step_cross_entropy s f a k
  | softmax_cross_entropy a k => exact step_softmax_cross_entropy s f a k
  | log a => exact step_log s f a
  | exp a => exact step_exp s f a
  | hstack a b => exact step_hstack s a b
  | hstack_vector ms => exact step_hstack_vector s ms
  | vstack a b => exact step_vstack s a b
  | vstack_vector ms => exact step_vstack_vector s ms
  | transpose a => exact step_transpose s a
  | tanh a => exact step_tanh s f a
  | relu a => exact step_relu s f a
  | mul a b => exact step_mul s a b
  | mul_with_bias a b c => exact step_mul_with_bias s a b c
  | mul_add_broadcast_mul_with_bias a x b y c =>
    exact step_mul_add_broadcast_mul_with_bias s a x b y c
  | mul_add_mul_with_bias a x b y c => exact step_mul_add_mul_with_bias s a x b y c
  | mul_add_mul_with_bias_vector ms => exact step_mul_add_mul_with_bias_vector s ms
  | rows_pluck a idx => exact step_rows_pluck s a idx
  | dropout a p draw u => exact step_dropout s a p draw u
  | dropout_normalized a p draw u => exact step_dropout_normalized s a p draw u
  | fast_dropout a draw u => exact step_fast_dropout s a draw u
  | rows_cols_pluck a rows cols => exact step_rows_cols_pluck s a rows cols
  | row_pluck a k => exact step_row_pluck s a k
  | consider_constant a => exact step_consider_constant s a

end PrimitiveSteps

/-- C17.  When `graph::backprop_enabled` is false, a call of any primitive of
`MatOps.cpp`, on any arguments, leaves the tape as it was, whether the call
returns a tensor or fails. -/
theorem no_recording_when_disabled (f : Scalars) (p : PrimCall) (s : State)
    (h : s.backprop_enabled = false) : (p.run f s).2.tape = s.tape :=
  (prim_step f p s).2.1 h

/-- Witness of C17: with recording disabled, `softmax_cross_entropy` on a new
`2 × 1` tensor leaves the tape empty. -/
theorem no_recording_when_disabled_witness :
    ((PrimCall.softmax_cross_entropy ⟨0, 0, false⟩ 0).run exampleScalars
        (Mat.new 2 1 true (State.init false)).2).2.tape = [] :=
  no_recording_when_disabled exampleScalars (.softmax_cross_entropy ⟨0, 0, false⟩ 0)
    (Mat.new 2 1 true (State.init false)).2 rfl

/-- Counterexample to C18.  With recording enabled, `MatOps::fill` on a new
`1 × 1` tensor returns a tensor and the tape is as long as before, and
`MatOps::softmax_cross_entropy` returns a tensor and the tape is two closures
longer: neither call appends exactly one closure. -/
theorem fill_records_nothing :
    ((MatOps.fill ⟨0, 0, false⟩ 0 (Mat.new 1 1 true (State.init true)).2).1
        = .ok ⟨1, 1, false⟩ ∧
      (MatOps.fill ⟨0, 0, false⟩ 0 (Mat.new 1 1 true (State.init true)).2).2.tape.length
        = (Mat.new 1 1 true (State.init true)).2.tape.length) ∧
    ((MatOps.softmax_cross_entropy exampleScalars ⟨0, 0, false⟩ 0
          (Mat.new 1 1 true (State.init true)).2).1 = .ok ⟨1, 1, false⟩ ∧
      (MatOps.softmax_cross_entropy exampleScalars ⟨0, 0, false⟩ 0
          (Mat.new 1 1 true (State.init true)).2).2.tape.length
        = (Mat.new 1 1 true (State.init true)).2.tape.length + 2) := by
  refine ⟨⟨rfl, rfl⟩, ⟨rfl, ?_⟩⟩
  simp [MatOps.softmax_cross_entropy, MatOps.softmax, MatOps.softmax_no_grad, Mat.new,
    Mat.empty_like, State.assign, State.record, graph.emplace_back, State.init]

/-- C18, amended.  With recording enabled, a call of a primitive of `MatOps.cpp`
that returns normally appends to the tape the number of closures given by
`PrimCall.recorded`: exactly one, except that `fill`, `softmax_no_grad` and
`consider_constant` append none, `pow` appends none for the exponents `0` and
`1`, `dropout` and `dropout_normalized` append none when `drop_prob < 1e-6`,
`rows_cols_pluck` appends none on a constant matrix, and
`softmax_cross_entropy` appends two (that of the `softmax` it calls, then its
own). -/
theorem recording_per_primitive (f : Scalars) (p : PrimCall) (s : State)
    (h : s.backprop_enabled = true) (out : Mat) (hok : (p.run f s).1 = .ok out) :
    ∃ cs : List Closure, (p.run f s).2.tape = s.tape ++ cs ∧ cs.length = p.recorded :=
  (prim_step f p s).2.2 h ⟨out, hok⟩

/-- Witness of C18, amended: with recording enabled, `mul` of a new `2 × 2`
tensor with itself appends one closure. -/
theorem recording_per_primitive_witness :
    ∃ cs : List Closure,
      ((PrimCall.mul ⟨0, 0, false⟩ ⟨0, 0, false⟩).run exampleScalars
          (Mat.new 2 2 true (State.init true)).2).2.tape
        = (Mat.new 2 2 true (State.init true)).2.tape ++ cs ∧ cs.length = 1 :=
  recording_per_primitive exampleScalars (.mul ⟨0, 0, false⟩ ⟨0, 0, false⟩)
    (Mat.new 2 2 true (State.init true)).2 rfl ⟨1, 1, false⟩ (by
      simp [PrimCall.run, MatOps.mul, Mat.new, State.init, EigenMat.Zero])

section BackwardDispatch

theorem ops_mem_all (t : ops) : t ∈ ops.all := by
  cases t <;> simp [ops.all]

theorem ofType_eq_none_iff (code : ops → Nat) (type : Nat) :
    ops.ofType code type = none ↔ ∀ t : ops, code t ≠ type := by
  unfold ops.ofType
  rw [List.find?_eq_none]
  constructor
  · intro h t
    simpa using h t (ops_mem_all t)
  · intro h t _
    simpa using h t

theorem op_type_unnamed_iff (hdr : Header) (b : Backward) :
    b.op_type hdr = "?" ↔ ops.ofType hdr.code b.type = none := by
  unfold Backward.op_type
  cases h : ops.ofType hdr.code b.type with
  | none => simp
  | some t => cases t <;> simp

theorem rule_eq_none_iff (hdr : Header) (f : Scalars) (w : Nat → EigenMat) (b : Backward) :
    b.rule hdr f w = none ↔ ops.ofType hdr.code b.type = none := by
  unfold Backward.rule
  cases h : ops.ofType hdr.code b.type with
  | none => simp
  | some t => cases t <;> simp

theorem ruleClip_eq_none_iff (hdr : Header) (f : Scalars) (w : Nat → EigenMat) (b : Backward)
    (clip_val : R) :
    b.ruleClip hdr f w clip_val = none ↔ ops.ofType hdr.code b.type = none := by
  unfold Backward.ruleClip
  cases h : ops.ofType hdr.code b.type with
  | none => simp
  | some t => cases t <;> simp

end BackwardDispatch

section ClipFacts

theorem abs_clip_le (x V : R) (hV : 0 ≤ V) : |max (min x V) (-V)| ≤ V := by
  rw [abs_le]
  exact ⟨le_max_right _ _, max_le (min_le_right _ _) (by linarith)⟩

theorem CLIP_coeff (X : EigenMat) (V : R) (i j : Nat) :
    (CLIP X V).coeff i j = max (min (X.coeff i j) V) (-V) := rfl

theorem bounded_addAssign_clip (lhs : Target) (e : EigenMat → EigenMat) (V : R) (hV : 0 ≤ V) :
    (Stmt.addAssign lhs (fun dout => CLIP (e dout) V)).BoundedBy V := by
  intro dout i j
  simp only [Stmt.addAssign, CLIP_coeff]
  exact abs_clip_le _ _ hV

theorem bounded_subAssign_clip (lhs : Target) (e : EigenMat → EigenMat) (V : R) (hV : 0 ≤ V) :
    (Stmt.subAssign lhs (fun dout => CLIP (e dout) V)).BoundedBy V := by
  intro dout i j
  simp only [Stmt.subAssign, CLIP_coeff, abs_neg]
  exact abs_clip_le _ _ hV

theorem bounded_rowAddAssign_clip (lhs : Target) (r : Nat) (e : EigenMat → EigenMat) (V : R)
    (hV : 0 ≤ V) : (Stmt.rowAddAssign lhs r (fun dout => CLIP (e dout) V)).BoundedBy V := by
  intro dout i j
  simp only [Stmt.rowAddAssign, CLIP_coeff]
  split
  · exact abs_clip_le _ _ hV
  · simpa using hV

theorem bounded_mulPairStmtsClip (w : Nat → EigenMat) (V : R) (hV : 0 ≤ V) :
    ∀ ms : List Mat, ∀ st ∈ Backward.mulPairStmtsClip w V ms, st.BoundedBy V
  | [] => by simp [Backward.mulPairStmtsClip]
  | [_] => by simp [Backward.mulPairStmtsClip]
  | a :: b :: rest => by
    intro st hst
    simp only [Backward.mulPairStmtsClip, List.mem_cons] at hst
    rcases hst with h | h | h
    · subst h; exact bounded_addAssign_clip _ _ _ hV
    · subst h; exact bounded_addAssign_clip _ _ _ hV
    · exact bounded_mulPairStmtsClip w V hV rest st h

theorem forall_with1 (P : Stmt → Prop) (ms : List Mat) (k : Mat → List Stmt)
    (h : ∀ m0, ∀ st ∈ k m0, P st) : ∀ st ∈ Backward.with1 ms k, P st := by
  unfold Backward.with1
  split
  · exact h _
  · simp

theorem forall_with2 (P : Stmt → Prop) (ms : List Mat) (k : Mat → Mat → List Stmt)
    (h : ∀ m0 m1, ∀ st ∈ k m0 m1, P st) : ∀ st ∈ Backward.with2 ms k, P st := by
  unfold Backward.with2
  split
  · exact h _ _
  · simp

theorem forall_with3 (P : Stmt → Prop) (ms : List Mat) (k : Mat → Mat → Mat → List Stmt)
    (h : ∀ m0 m1 m2, ∀ st ∈ k m0 m1 m2, P st) : ∀ st ∈ Backward.with3 ms k, P st := by
  unfold Backward.with3
  split
  · exact h _ _ _
  · simp

theorem forall_with5 (P : Stmt → Prop) (ms : List Mat)
    (k : Mat → Mat → Mat → Mat → Mat → List Stmt)
    (h : ∀ m0 m1 m2 m3 m4, ∀ st ∈ k m0 m1 m2 m3 m4, P st) :
    ∀ st ∈ Backward.with5 ms k, P st := by
  unfold Backward.with5
  split
  · exact h _ _ _ _ _
  · simp

theorem forall_mem_pair (P : Stmt → Prop) (a b : Stmt) (ha : P a) (hb : P b) :
    ∀ st ∈ [a, b], P st := by
  intro st hst
  simp only [List.mem_cons, List.mem_singleton, List.not_mem_nil, or_false] at hst
  rcases hst with h | h <;> subst h <;> assumption

theorem forall_mem_one (P : Stmt → Prop) (a : Stmt) (ha : P a) : ∀ st ∈ [a], P st := by
  intro st hst
  simp only [List.mem_singleton] at hst
  subst hst
  exact ha

/-- For every tag other than `sum` and `mean`, every statement of the clipped
rule adds at most `clip_val` in absolute value to every entry. -/
theorem ruleClip_bounded (hdr : Header) (f : Scalars) (w : Nat → EigenMat) (b : Backward)
    (clip_val : R) (hV : 0 ≤ clip_val) (L : List Stmt)
    (hL : b.ruleClip hdr f w clip_val = some L)
    (hsum : ops.ofType hdr.code b.type ≠ some .sum)
    (hmean : ops.ofType hdr.code b.type ≠ some .mean) :
    ∀ st ∈ L, st.BoundedBy clip_val := by
  have A := fun lhs e => bounded_addAssign_clip lhs e clip_val hV
  have S := fun lhs e => bounded_subAssign_clip lhs e clip_val hV
  have Rw := fun lhs r e => bounded_rowAddAssign_clip lhs r e clip_val hV
  unfold Backward.ruleClip at hL
  cases h : ops.ofType hdr.code b.type with
  | none => rw [h] at hL; simp at hL
  | some t =>
    rw [h] at hL hsum hmean
    cases t <;> simp only [Option.some.injEq] at hL <;> subst hL
    case sum => exact absurd rfl hsum
    case mean => exact absurd rfl hmean
    case add =>
      intro st hst
      obtain ⟨x, _, rfl⟩ := List.mem_map.1 hst
      exact A _ _
    case rows_pluck =>
      intro st hst
      unfold Backward.rowsPluckStmtsClip at hst
      cases hm : b.matrices with
      | nil => rw [hm] at hst; simp at hst
      | cons x rest =>
        rw [hm] at hst
        obtain ⟨k, _, rfl⟩ := List.mem_map.1 hst
        exact Rw _ _ _
    case mul_add_mul_with_bias =>
      intro st hst
      unfold Backward.mulAddMulWithBiasStmtsClip at hst
      rcases List.mem_append.1 hst with h1 | h1
      · cases hg : b.matrices.getLast? with
        | none => rw [hg] at h1; simp at h1
        | some bias =>
          rw [hg] at h1
          simp only [List.mem_singleton] at h1
          subst h1
          exact A _ _
      · exact bounded_mulPairStmtsClip w clip_val hV _ st h1
    case sub => exact forall_with2 _ _ _ (fun _ _ => forall_mem_pair _ _ _ (A _ _) (S _ _))
    case sub_broadcast =>
      exact forall_with2 _ _ _ (fun _ _ => forall_mem_pair _ _ _ (A _ _) (S _ _))
    case sub_broadcast_reversed =>
      exact forall_with2 _ _ _ (fun _ _ => forall_mem_pair _ _ _ (S _ _) (A _ _))
    case add_broadcast =>
      exact forall_with2 _ _ _ (fun _ _ => forall_mem_pair _ _ _ (A _ _) (A _ _))
    case eltmul => exact forall_with2 _ _ _ (fun _ _ => forall_mem_pair _ _ _ (A _ _) (A _ _))
    case eltmul_rowwise =>
      exact forall_with2 _ _ _ (fun _ _ => forall_mem_pair _ _ _ (A _ _) (A _ _))
    case eltmul_broadcast =>
      exact forall_with2 _ _ _ (fun _ _ => forall_mem_pair _ _ _ (A _ _) (A _ _))
    case eltmul_broadcast_rowwise =>
      exact forall_with2 _ _ _ (fun _ _ => forall_mem_pair _ _ _ (A _ _) (A _ _))
    case mul => exact forall_with2 _ _ _ (fun _ _ => forall_mem_pair _ _ _ (A _ _) (A _ _))
    case square => exact forall_with1 _ _ _ (fun _ => forall_mem_one _ _ (A _ _))
    case sigmoid => exact forall_with1 _ _ _ (fun _ => forall_mem_one _ _ (A _ _))
    case relu => exact forall_with1 _ _ _ (fun _ => forall_mem_one _ _ (A _ _))
    case tanh => exact forall_with1 _ _ _ (fun _ => forall_mem_one _ _ (A _ _))
    case transpose => exact forall_with1 _ _ _ (fun _ => forall_mem_one _ _ (A _ _))
    case row_pluck => exact forall_with1 _ _ _ (fun _ => forall_mem_one _ _ (Rw _ _ _))
    case mul_with_bias =>
      refine forall_with3 _ _ _ (fun _ _ _ st hst => ?_)
      simp only [List.mem_cons, List.mem_singleton, List.not_mem_nil, or_false] at hst
      rcases hst with h | h | h <;> subst h <;> exact A _ _
    case mul_add_broadcast_mul_with_bias =>
      refine forall_with5 _ _ _ (fun _ _ _ _ _ st hst => ?_)
      simp only [List.mem_cons, List.mem_singleton, List.not_mem_nil, or_false] at hst
      rcases hst with h | h | h | h | h <;> subst h <;> exact A _ _

end ClipFacts

section ClipEvaluation

theorem exampleHeader_ofType (t : ops) : ops.ofType exampleHeader.code (exampleHeader.code t) = some t := by
  cases t <;> rfl

end ClipEvaluation

section DispatchEvaluation

theorem dispatch_add :
    ((((dispatchRecord .add).operator_call exampleHeader exampleScalars dispatchState).2).dw
        0).coeff 0 0 ≠ (dispatchState.dw 0).coeff 0 0 ∧
    ((((dispatchRecord .add).operator_call_clip exampleHeader exampleScalars 2
        dispatchState).2).dw 0).coeff 0 0 ≠ (dispatchState.dw 0).coeff 0 0 := by
  simp only [Backward.operator_call, Backward.operator_call_clip, Backward.rule,
    Backward.ruleClip, dispatchRecord, exampleHeader_ofType]
  simp [dispatchState, Backward.with1, Backward.with2, Backward.with3, Backward.with5,
    Stmt.exec, Stmt.active, DW, Stmt.addAssign, Stmt.subAssign, Stmt.arrayAddAssign,
    Stmt.rowAddAssign, CLIP, EigenMat.unaryExpr, EigenMat.cwiseMul, EigenMat.cwiseMax,
    EigenMat.sub, EigenMat.cwiseSquare, EigenMat.mul, EigenMat.transpose,
    EigenMat.rowwiseSum, exampleScalars, exampleHeader, EigenMat.scale, EigenMat.col,
    EigenMat.colwiseMul, EigenMat.rowwiseMul, Backward.rowsPluckStmts,
    Backward.rowsPluckStmtsClip, Backward.mulAddMulWithBiasStmts,
    Backward.mulAddMulWithBiasStmtsClip, Backward.mulPairStmts, Backward.mulPairStmtsClip,
    List.range_succ]
  try norm_num

theorem dispatch_sub :
    ((((dispatchRecord .sub).operator_call exampleHeader exampleScalars dispatchState).2).dw
        0).coeff 0 0 ≠ (dispatchState.dw 0).coeff 0 0 ∧
    ((((dispatchRecord .sub).operator_call_clip exampleHeader exampleScalars 2
        dispatchState).2).dw 0).coeff 0 0 ≠ (dispatchState.dw 0).coeff 0 0 := by
  simp only [Backward.operator_call, Backward.operator_call_clip, Backward.rule,
    Backward.ruleClip, dispatchRecord, exampleHeader_ofType]
  simp [dispatchState, Backward.with1, Backward.with2, Backward.with3, Backward.with5,
    Stmt.exec, Stmt.active, DW, Stmt.addAssign, Stmt.subAssign, Stmt.arrayAddAssign,
    Stmt.rowAddAssign, CLIP, EigenMat.unaryExpr, EigenMat.cwiseMul, EigenMat.cwiseMax,
    EigenMat.sub, EigenMat.cwiseSquare, EigenMat.mul, EigenMat.transpose,
    EigenMat.rowwiseSum, exampleScalars, exampleHeader, EigenMat.scale, EigenMat.col,
    EigenMat.colwiseMul, EigenMat.rowwiseMul, Backward.rowsPluckStmts,
    Backward.rowsPluckStmtsClip, Backward.mulAddMulWithBiasStmts,
    Backward.mulAddMulWithBiasStmtsClip, Backward.mulPairStmts, Backward.mulPairStmtsClip,
    List.range_succ]
  try norm_num

theorem dispatch_eltmul :
    ((((dispatchRecord .eltmul).operator_call exampleHeader exampleScalars dispatchState).2).dw
        0).coeff 0 0 ≠ (dispatchState.dw 0).coeff 0 0 ∧
    ((((dispatchRecord .eltmul).operator_call_clip exampleHeader exampleScalars 2
        dispatchState).2).dw 0).coeff 0 0 ≠ (dispatchState.dw 0).coeff 0 0 := by
  simp only [Backward.operator_call, Backward.operator_call_clip, Backward.rule,
    Backward.ruleClip, dispatchRecord, exampleHeader_ofType]
  simp [dispatchState, Backward.with1, Backward.with2, Backward.with3, Backward.with5,
    Stmt.exec, Stmt.active, DW, Stmt.addAssign, Stmt.subAssign, Stmt.arrayAddAssign,
    Stmt.rowAddAssign, CLIP, EigenMat.unaryExpr, EigenMat.cwiseMul, EigenMat.cwiseMax,
    EigenMat.sub, EigenMat.cwiseSquare, EigenMat.mul, EigenMat.transpose,
    EigenMat.rowwiseSum, exampleScalars, exampleHeader, EigenMat.scale, EigenMat.col,
    EigenMat.colwiseMul, EigenMat.rowwiseMul, Backward.rowsPluckStmts,
    Backward.rowsPluckStmtsClip, Backward.mulAddMulWithBiasStmts,
    Backward.mulAddMulWithBiasStmtsClip, Backward.mulPairStmts, Backward.mulPairStmtsClip,
    List.range_succ]
  try norm_num

theorem dispatch_eltmul_rowwise :
    ((((dispatchRecord .eltmul_rowwise).operator_call exampleHeader exampleScalars dispatchState).2).dw
        0).coeff 0 0 ≠ (dispatchState.dw 0).coeff 0 0 ∧
    ((((dispatchRecord .eltmul_rowwise).operator_call_clip exampleHeader exampleScalars 2
        dispatchState).2).dw 0).coeff 0 0 ≠ (dispatchState.dw 0).coeff 0 0 := by
  simp only [Backward.operator_call, Backward.operator_call_clip, Backward.rule,
    Backward.ruleClip, dispatchRecord, exampleHeader_ofType]
  simp [dispatchState, Backward.with1, Backward.with2, Backward.with3, Backward.with5,
    Stmt.exec, Stmt.active, DW, Stmt.addAssign, Stmt.subAssign, Stmt.arrayAddAssign,
    Stmt.rowAddAssign, CLIP, EigenMat.unaryExpr, EigenMat.cwiseMul, EigenMat.cwiseMax,
    EigenMat.sub, EigenMat.cwiseSquare, EigenMat.mul, EigenMat.transpose,
    EigenMat.rowwiseSum, exampleScalars, exampleHeader, EigenMat.scale, EigenMat.col,
    EigenMat.colwiseMul, EigenMat.rowwiseMul, Backward.rowsPluckStmts,
    Backward.rowsPluckStmtsClip, Backward.mulAddMulWithBiasStmts,
    Backward.mulAddMulWithBiasStmtsClip, Backward.mulPairStmts, Backward.mulPairStmtsClip,
    List.range_succ]
  try norm_num

theorem dispatch_square :
    ((((dispatchRecord .square).operator_call exampleHeader exampleScalars dispatchState).2).dw
        0).coeff 0 0 ≠ (dispatchState.dw 0).coeff 0 0 ∧
    ((((dispatchRecord .square).operator_call_clip exampleHeader exampleScalars 2
        dispatchState).2).dw 0).coeff 0 0 ≠ (dispatchState.dw 0).coeff 0 0 := by
  simp only [Backward.operator_call, Backward.operator_call_clip, Backward.rule,
    Backward.ruleClip, dispatchRecord, exampleHeader_ofType]
  simp [dispatchState, Backward.with1, Backward.with2, Backward.with3, Backward.with5,
    Stmt.exec, Stmt.active, DW, Stmt.addAssign, Stmt.subAssign, Stmt.arrayAddAssign,
    Stmt.rowAddAssign, CLIP, EigenMat.unaryExpr, EigenMat.cwiseMul, EigenMat.cwiseMax,
    EigenMat.sub, EigenMat.cwiseSquare, EigenMat.mul, EigenMat.transpose,
    EigenMat.rowwiseSum, exampleScalars, exampleHeader, EigenMat.scale, EigenMat.col,
    EigenMat.colwiseMul, EigenMat.rowwiseMul, Backward.rowsPluckStmts,
    Backward.rowsPluckStmtsClip, Backward.mulAddMulWithBiasStmts,
    Backward.mulAddMulWithBiasStmtsClip, Backward.mulPairStmts, Backward.mulPairStmtsClip,
    List.range_succ]
  try norm_num

theorem dispatch_tanh :
    ((((dispatchRecord .tanh).operator_call exampleHeader exampleScalars dispatchState).2).dw
        0).coeff 0 0 ≠ (dispatchState.dw 0).coeff 0 0 ∧
    ((((dispatchRecord .tanh).operator_call_clip exampleHeader exampleScalars 2
        dispatchState).2).dw 0).coeff 0 0 ≠ (dispatchState.dw 0).coeff 0 0 := by
  simp only [Backward.operator_call, Backward.operator_call_clip, Backward.rule,
    Backward.ruleClip, dispatchRecord, exampleHeader_ofType]
  simp [dispatchState, Backward.with1, Backward.with2, Backward.with3, Backward.with5,
    Stmt.exec, Stmt.active, DW, Stmt.addAssign, Stmt.subAssign, Stmt.arrayAddAssign,
    Stmt.rowAddAssign, CLIP, EigenMat.unaryExpr, EigenMat.cwiseMul, EigenMat.cwiseMax,
    EigenMat.sub, EigenMat.cwiseSquare, EigenMat.mul, EigenMat.transpose,
    EigenMat.rowwiseSum, exampleScalars, exampleHeader, EigenMat.scale, EigenMat.col,
    EigenMat.colwiseMul, EigenMat.rowwiseMul, Backward.rowsPluckStmts,
    Backward.rowsPluckStmtsClip, Backward.mulAddMulWithBiasStmts,
    Backward.mulAddMulWithBiasStmtsClip, Backward.mulPairStmts, Backward.mulPairStmtsClip,
    List.range_succ]
  try norm_num

theorem dispatch_sigmoid :
    ((((dispatchRecord .sigmoid).operator_call exampleHeader exampleScalars dispatchState).2).dw
        0).coeff 0 0 ≠ (dispatchState.dw 0).coeff 0 0 ∧
    ((((dispatchRecord .sigmoid).operator_call_clip exampleHeader exampleScalars 2
        dispatchState).2).dw 0).coeff 0 0 ≠ (dispatchState.dw 0).coeff 0 0 := by
  simp only [Backward.operator_call, Backward.operator_call_clip, Backward.rule,
    Backward.ruleClip, dispatchRecord, exampleHeader_ofType]
  simp [dispatchState, Backward.with1, Backward.with2, Backward.with3, Backward.with5,
    Stmt.exec, Stmt.active, DW, Stmt.addAssign, Stmt.subAssign, Stmt.arrayAddAssign,
    Stmt.rowAddAssign, CLIP, EigenMat.unaryExpr, EigenMat.cwiseMul, EigenMat.cwiseMax,
    EigenMat.sub, EigenMat.cwiseSquare, EigenMat.mul, EigenMat.transpose,
    EigenMat.rowwiseSum, exampleScalars, exampleHeader, EigenMat.scale, EigenMat.col,
    EigenMat.colwiseMul, EigenMat.rowwiseMul, Backward.rowsPluckStmts,
    Backward.rowsPluckStmtsClip, Backward.mulAddMulWithBiasStmts,
    Backward.mulAddMulWithBiasStmtsClip, Backward.mulPairStmts, Backward.mulPairStmtsClip,
    List.range_succ]
  try norm_num

theorem dispatch_relu :
    ((((dispatchRecord .relu).operator_call exampleHeader exampleScalars dispatchState).2).dw
        0).coeff 0 0 ≠ (dispatchState.dw 0).coeff 0 0 ∧
    ((((dispatchRecord .relu).operator_call_clip exampleHeader exampleScalars 2
        dispatchState).2).dw 0).coeff 0 0 ≠ (dispatchState.dw 0).coeff 0 0 := by
  simp only [Backward.operator_call, Backward.operator_call_clip, Backward.rule,
    Backward.ruleClip, dispatchRecord, exampleHeader_ofType]
  simp [dispatchState, Backward.with1, Backward.with2, Backward.with3, Backward.with5,
    Stmt.exec, Stmt.active, DW, Stmt.addAssign, Stmt.subAssign, Stmt.arrayAddAssign,
    Stmt.rowAddAssign, CLIP, EigenMat.unaryExpr, EigenMat.cwiseMul, EigenMat.cwiseMax,
    EigenMat.sub, EigenMat.cwiseSquare, EigenMat.mul, EigenMat.transpose,
    EigenMat.rowwiseSum, exampleScalars, exampleHeader, EigenMat.scale, EigenMat.col,
    EigenMat.colwiseMul, EigenMat.rowwiseMul, Backward.rowsPluckStmts,
    Backward.rowsPluckStmtsClip, Backward.mulAddMulWithBiasStmts,
    Backward.mulAddMulWithBiasStmtsClip, Backward.mulPairStmts, Backward.mulPairStmtsClip,
    List.range_succ]
  try norm_num

theorem dispatch_mul :
    ((((dispatchRecord .mul).operator_call exampleHeader exampleScalars dispatchState).2).dw
        0).coeff 0 0 ≠ (dispatchState.dw 0).coeff 0 0 ∧
    ((((dispatchRecord .mul).operator_call_clip exampleHeader exampleScalars 2
        dispatchState).2).dw 0).coeff 0 0 ≠ (dispatchState.dw 0).coeff 0 0 := by
  simp only [Backward.operator_call, Backward.operator_call_clip, Backward.rule,
    Backward.ruleClip, dispatchRecord, exampleHeader_ofType]
  simp [dispatchState, Backward.with1, Backward.with2, Backward.with3, Backward.with5,
    Stmt.exec, Stmt.active, DW, Stmt.addAssign, Stmt.subAssign, Stmt.arrayAddAssign,
    Stmt.rowAddAssign, CLIP, EigenMat.unaryExpr, EigenMat.cwiseMul, EigenMat.cwiseMax,
    EigenMat.sub, EigenMat.cwiseSquare, EigenMat.mul, EigenMat.transpose,
    EigenMat.rowwiseSum, exampleScalars, exampleHeader, EigenMat.scale, EigenMat.col,
    EigenMat.colwiseMul, EigenMat.rowwiseMul, Backward.rowsPluckStmts,
    Backward.rowsPluckStmtsClip, Backward.mulAddMulWithBiasStmts,
    Backward.mulAddMulWithBiasStmtsClip, Backward.mulPairStmts, Backward.mulPairStmtsClip,
    List.range_succ]
  try norm_num

theorem dispatch_row_pluck :
    ((((dispatchRecord .row_pluck).operator_call exampleHeader exampleScalars dispatchState).2).dw
        0).coeff 0 0 ≠ (dispatchState.dw 0).coeff 0 0 ∧
    ((((dispatchRecord .row_pluck).operator_call_clip exampleHeader exampleScalars 2
        dispatchState).2).dw 0).coeff 0 0 ≠ (dispatchState.dw 0).coeff 0 0 := by
  simp only [Backward.operator_call, Backward.operator_call_clip, Backward.rule,
    Backward.ruleClip, dispatchRecord, exampleHeader_ofType]
  simp [dispatchState, Backward.with1, Backward.with2, Backward.with3, Backward.with5,
    Stmt.exec, Stmt.active, DW, Stmt.addAssign, Stmt.subAssign, Stmt.arrayAddAssign,
    Stmt.rowAddAssign, CLIP, EigenMat.unaryExpr, EigenMat.cwiseMul, EigenMat.cwiseMax,
    EigenMat.sub, EigenMat.cwiseSquare, EigenMat.mul, EigenMat.transpose,
    EigenMat.rowwiseSum, exampleScalars, exampleHeader, EigenMat.scale, EigenMat.col,
    EigenMat.colwiseMul, EigenMat.rowwiseMul, Backward.rowsPluckStmts,
    Backward.rowsPluckStmtsClip, Backward.mulAddMulWithBiasStmts,
    Backward.mulAddMulWithBiasStmtsClip, Backward.mulPairStmts, Backward.mulPairStmtsClip,
    List.range_succ]
  try norm_num

theorem dispatch_rows_pluck :
    ((((dispatchRecord .rows_pluck).operator_call exampleHeader exampleScalars dispatchState).2).dw
        0).coeff 0 0 ≠ (dispatchState.dw 0).coeff 0 0 ∧
    ((((dispatchRecord .rows_pluck).operator_call_clip exampleHeader exampleScalars 2
        dispatchState).2).dw 0).coeff 0 0 ≠ (dispatchState.dw 0).coeff 0 0 := by
  simp only [Backward.operator_call, Backward.operator_call_clip, Backward.rule,
    Backward.ruleClip, dispatchRecord, exampleHeader_ofType]
  simp [dispatchState, Backward.with1, Backward.with2, Backward.with3, Backward.with5,
    Stmt.exec, Stmt.active, DW, Stmt.addAssign, Stmt.subAssign, Stmt.arrayAddAssign,
    Stmt.rowAddAssign, CLIP, EigenMat.unaryExpr, EigenMat.cwiseMul, EigenMat.cwiseMax,
    EigenMat.sub, EigenMat.cwiseSquare, EigenMat.mul, EigenMat.transpose,
    EigenMat.rowwiseSum, exampleScalars, exampleHeader, EigenMat.scale, EigenMat.col,
    EigenMat.colwiseMul, EigenMat.rowwiseMul, Backward.rowsPluckStmts,
    Backward.rowsPluckStmtsClip, Backward.mulAddMulWithBiasStmts,
    Backward.mulAddMulWithBiasStmtsClip, Backward.mulPairStmts, Backward.mulPairStmtsClip,
    List.range_succ]
  try norm_num

theorem dispatch_add_broadcast :
    ((((dispatchRecord .add_broadcast).operator_call exampleHeader exampleScalars dispatchState).2).dw
        0).coeff 0 0 ≠ (dispatchState.dw 0).coeff 0 0 ∧
    ((((dispatchRecord .add_broadcast).operator_call_clip exampleHeader exampleScalars 2
        dispatchState).2).dw 0).coeff 0 0 ≠ (dispatchState.dw 0).coeff 0 0 := by
  simp only [Backward.operator_call, Backward.operator_call_clip, Backward.rule,
    Backward.ruleClip, dispatchRecord, exampleHeader_ofType]
  simp [dispatchState, Backward.with1, Backward.with2, Backward.with3, Backward.with5,
    Stmt.exec, Stmt.active, DW, Stmt.addAssign, Stmt.subAssign, Stmt.arrayAddAssign,
    Stmt.rowAddAssign, CLIP, EigenMat.unaryExpr, EigenMat.cwiseMul, EigenMat.cwiseMax,
    EigenMat.sub, EigenMat.cwiseSquare, EigenMat.mul, EigenMat.transpose,
    EigenMat.rowwiseSum, exampleScalars, exampleHeader, EigenMat.scale, EigenMat.col,
    EigenMat.colwiseMul, EigenMat.rowwiseMul, Backward.rowsPluckStmts,
    Backward.rowsPluckStmtsClip, Backward.mulAddMulWithBiasStmts,
    Backward.mulAddMulWithBiasStmtsClip, Backward.mulPairStmts, Backward.mulPairStmtsClip,
    List.range_succ]
  try norm_num

theorem dispatch_sub_broadcast :
    ((((dispatchRecord .sub_broadcast).operator_call exampleHeader exampleScalars dispatchState).2).dw
        0).coeff 0 0 ≠ (dispatchState.dw 0).coeff 0 0 ∧
    ((((dispatchRecord .sub_broadcast).operator_call_clip exampleHeader exampleScalars 2
        dispatchState).2).dw 0).coeff 0 0 ≠ (dispatchState.dw 0).coeff 0 0 := by
  simp only [Backward.operator_call, Backward.operator_call_clip, Backward.rule,
    Backward.ruleClip, dispatchRecord, exampleHeader_ofType]
  simp [dispatchState, Backward.with1, Backward.with2, Backward.with3, Backward.with5,
    Stmt.exec, Stmt.active, DW, Stmt.addAssign, Stmt.subAssign, Stmt.arrayAddAssign,
    Stmt.rowAddAssign, CLIP, EigenMat.unaryExpr, EigenMat.cwiseMul, EigenMat.cwiseMax,
    EigenMat.sub, EigenMat.cwiseSquare, EigenMat.mul, EigenMat.transpose,
    EigenMat.rowwiseSum, exampleScalars, exampleHeader, EigenMat.scale, EigenMat.col,
    EigenMat.colwiseMul, EigenMat.rowwiseMul, Backward.rowsPluckStmts,
    Backward.rowsPluckStmtsClip, Backward.mulAddMulWithBiasStmts,
    Backward.mulAddMulWithBiasStmtsClip, Backward.mulPairStmts, Backward.mulPairStmtsClip,
    List.range_succ]
  try norm_num

theorem dispatch_sub_broadcast_reversed :
    ((((dispatchRecord .sub_broadcast_reversed).operator_call exampleHeader exampleScalars dispatchState).2).dw
        0).coeff 0 0 ≠ (dispatchState.dw 0).coeff 0 0 ∧
    ((((dispatchRecord .sub_broadcast_reversed).operator_call_clip exampleHeader exampleScalars 2
        dispatchState).2).dw 0).coeff 0 0 ≠ (dispatchState.dw 0).coeff 0 0 := by
  simp only [Backward.operator_call, Backward.operator_call_clip, Backward.rule,
    Backward.ruleClip, dispatchRecord, exampleHeader_ofType]
  simp [dispatchState, Backward.with1, Backward.with2, Backward.with3, Backward.with5,
    Stmt.exec, Stmt.active, DW, Stmt.addAssign, Stmt.subAssign, Stmt.arrayAddAssign,
    Stmt.rowAddAssign, CLIP, EigenMat.unaryExpr, EigenMat.cwiseMul, EigenMat.cwiseMax,
    EigenMat.sub, EigenMat.cwiseSquare, EigenMat.mul, EigenMat.transpose,
    EigenMat.rowwiseSum, exampleScalars, exampleHeader, EigenMat.scale, EigenMat.col,
    EigenMat.colwiseMul, EigenMat.rowwiseMul, Backward.rowsPluckStmts,
    Backward.rowsPluckStmtsClip, Backward.mulAddMulWithBiasStmts,
    Backward.mulAddMulWithBiasStmtsClip, Backward.mulPairStmts, Backward.mulPairStmtsClip,
    List.range_succ]
  try norm_num

theorem dispatch_eltmul_broadcast :
    ((((dispatchRecord .eltmul_broadcast).operator_call exampleHeader exampleScalars dispatchState).2).dw
        0).coeff 0 0 ≠ (dispatchState.dw 0).coeff 0 0 ∧
    ((((dispatchRecord .eltmul_broadcast).operator_call_clip exampleHeader exampleScalars 2
        dispatchState).2).dw 0).coeff 0 0 ≠ (dispatchState.dw 0).coeff 0 0 := by
  simp only [Backward.operator_call, Backward.operator_call_clip, Backward.rule,
    Backward.ruleClip, dispatchRecord, exampleHeader_ofType]
  simp [dispatchState, Backward.with1, Backward.with2, Backward.with3, Backward.with5,
    Stmt.exec, Stmt.active, DW, Stmt.addAssign, Stmt.subAssign, Stmt.arrayAddAssign,
    Stmt.rowAddAssign, CLIP, EigenMat.unaryExpr, EigenMat.cwiseMul, EigenMat.cwiseMax,
    EigenMat.sub, EigenMat.cwiseSquare, EigenMat.mul, EigenMat.transpose,
    EigenMat.rowwiseSum, exampleScalars, exampleHeader, EigenMat.scale, EigenMat.col,
    EigenMat.colwiseMul, EigenMat.rowwiseMul, Backward.rowsPluckStmts,
    Backward.rowsPluckStmtsClip, Backward.mulAddMulWithBiasStmts,
    Backward.mulAddMulWithBiasStmtsClip, Backward.mulPairStmts, Backward.mulPairStmtsClip,
    List.range_succ]
  try norm_num

theorem dispatch_eltmul_broadcast_rowwise :
    ((((dispatchRecord .eltmul_broadcast_rowwise).operator_call exampleHeader exampleScalars dispatchState).2).dw
        0).coeff 0 0 ≠ (dispatchState.dw 0).coeff 0 0 ∧
    ((((dispatchRecord .eltmul_broadcast_rowwise).operator_call_clip exampleHeader exampleScalars 2
        dispatchState).2).dw 0).coeff 0 0 ≠ (dispatchState.dw 0).coeff 0 0 := by
  simp only [Backward.operator_call, Backward.operator_call_clip, Backward.rule,
    Backward.ruleClip, dispatchRecord, exampleHeader_ofType]
  simp [dispatchState, Backward.with1, Backward.with2, Backward.with3, Backward.with5,
    Stmt.exec, Stmt.active, DW, Stmt.addAssign, Stmt.subAssign, Stmt.arrayAddAssign,
    Stmt.rowAddAssign, CLIP, EigenMat.unaryExpr, EigenMat.cwiseMul, EigenMat.cwiseMax,
    EigenMat.sub, EigenMat.cwiseSquare, EigenMat.mul, EigenMat.transpose,
    EigenMat.rowwiseSum, exampleScalars, exampleHeader, EigenMat.scale, EigenMat.col,
    EigenMat.colwiseMul, EigenMat.rowwiseMul, Backward.rowsPluckStmts,
    Backward.rowsPluckStmtsClip, Backward.mulAddMulWithBiasStmts,
    Backward.mulAddMulWithBiasStmtsClip, Backward.mulPairStmts, Backward.mulPairStmtsClip,
    List.range_succ]
  try norm_num

theorem dispatch_mul_with_bias :
    ((((dispatchRecord .mul_with_bias).operator_call exampleHeader exampleScalars dispatchState).2).dw
        0).coeff 0 0 ≠ (dispatchState.dw 0).coeff 0 0 ∧
    ((((dispatchRecord .mul_with_bias).operator_call_clip exampleHeader exampleScalars 2
        dispatchState).2).dw 0).coeff 0 0 ≠ (dispatchState.dw 0).coeff 0 0 := by
  simp only [Backward.operator_call, Backward.operator_call_clip, Backward.rule,
    Backward.ruleClip, dispatchRecord, exampleHeader_ofType]
  simp [dispatchState, Backward.with1, Backward.with2, Backward.with3, Backward.with5,
    Stmt.exec, Stmt.active, DW, Stmt.addAssign, Stmt.subAssign, Stmt.arrayAddAssign,
    Stmt.rowAddAssign, CLIP, EigenMat.unaryExpr, EigenMat.cwiseMul, EigenMat.cwiseMax,
    EigenMat.sub, EigenMat.cwiseSquare, EigenMat.mul, EigenMat.transpose,
    EigenMat.rowwiseSum, exampleScalars, exampleHeader, EigenMat.scale, EigenMat.col,
    EigenMat.colwiseMul, EigenMat.rowwiseMul, Backward.rowsPluckStmts,
    Backward.rowsPluckStmtsClip, Backward.mulAddMulWithBiasStmts,
    Backward.mulAddMulWithBiasStmtsClip, Backward.mulPairStmts, Backward.mulPairStmtsClip,
    List.range_succ]
  try norm_num

theorem dispatch_mul_add_mul_with_bias :
    ((((dispatchRecord .mul_add_mul_with_bias).operator_call exampleHeader exampleScalars dispatchState).2).dw
        0).coeff 0 0 ≠ (dispatchState.dw 0).coeff 0 0 ∧
    ((((dispatchRecord .mul_add_mul_with_bias).operator_call_clip exampleHeader exampleScalars 2
        dispatchState).2).dw 0).coeff 0 0 ≠ (dispatchState.dw 0).coeff 0 0 := by
  simp only [Backward.operator_call, Backward.operator_call_clip, Backward.rule,
    Backward.ruleClip, dispatchRecord, exampleHeader_ofType]
  simp [dispatchState, Backward.with1, Backward.with2, Backward.with3, Backward.with5,
    Stmt.exec, Stmt.active, DW, Stmt.addAssign, Stmt.subAssign, Stmt.arrayAddAssign,
    Stmt.rowAddAssign, CLIP, EigenMat.unaryExpr, EigenMat.cwiseMul, EigenMat.cwiseMax,
    EigenMat.sub, EigenMat.cwiseSquare, EigenMat.mul, EigenMat.transpose,
    EigenMat.rowwiseSum, exampleScalars, exampleHeader, EigenMat.scale, EigenMat.col,
    EigenMat.colwiseMul, EigenMat.rowwiseMul, Backward.rowsPluckStmts,
    Backward.rowsPluckStmtsClip, Backward.mulAddMulWithBiasStmts,
    Backward.mulAddMulWithBiasStmtsClip, Backward.mulPairStmts, Backward.mulPairStmtsClip,
    List.range_succ]
  try norm_num

theorem dispatch_mul_add_broadcast_mul_with_bias :
    ((((dispatchRecord .mul_add_broadcast_mul_with_bias).operator_call exampleHeader exampleScalars dispatchState).2).dw
        0).coeff 0 0 ≠ (dispatchState.dw 0).coeff 0 0 ∧
    ((((dispatchRecord .mul_add_broadcast_mul_with_bias).operator_call_clip exampleHeader exampleScalars 2
        dispatchState).2).dw 0).coeff 0 0 ≠ (dispatchState.dw 0).coeff 0 0 := by
  simp only [Backward.operator_call, Backward.operator_call_clip, Backward.rule,
    Backward.ruleClip, dispatchRecord, exampleHeader_ofType]
  simp [dispatchState, Backward.with1, Backward.with2, Backward.with3, Backward.with5,
    Stmt.exec, Stmt.active, DW, Stmt.addAssign, Stmt.subAssign, Stmt.arrayAddAssign,
    Stmt.rowAddAssign, CLIP, EigenMat.unaryExpr, EigenMat.cwiseMul, EigenMat.cwiseMax,
    EigenMat.sub, EigenMat.cwiseSquare, EigenMat.mul, EigenMat.transpose,
    EigenMat.rowwiseSum, exampleScalars, exampleHeader, EigenMat.scale, EigenMat.col,
    EigenMat.colwiseMul, EigenMat.rowwiseMul, Backward.rowsPluckStmts,
    Backward.rowsPluckStmtsClip, Backward.mulAddMulWithBiasStmts,
    Backward.mulAddMulWithBiasStmtsClip, Backward.mulPairStmts, Backward.mulPairStmtsClip,
    List.range_succ]
  try norm_num

theorem dispatch_transpose :
    ((((dispatchRecord .transpose).operator_call exampleHeader exampleScalars dispatchState).2).dw
        0).coeff 0 0 ≠ (dispatchState.dw 0).coeff 0 0 ∧
    ((((dispatchRecord .transpose).operator_call_clip exampleHeader exampleScalars 2
        dispatchState).2).dw 0).coeff 0 0 ≠ (dispatchState.dw 0).coeff 0 0 := by
  simp only [Backward.operator_call, Backward.operator_call_clip, Backward.rule,
    Backward.ruleClip, dispatchRecord, exampleHeader_ofType]
  simp [dispatchState, Backward.with1, Backward.with2, Backward.with3, Backward.with5,
    Stmt.exec, Stmt.active, DW, Stmt.addAssign, Stmt.subAssign, Stmt.arrayAddAssign,
    Stmt.rowAddAssign, CLIP, EigenMat.unaryExpr, EigenMat.cwiseMul, EigenMat.cwiseMax,
    EigenMat.sub, EigenMat.cwiseSquare, EigenMat.mul, EigenMat.transpose,
    EigenMat.rowwiseSum, exampleScalars, exampleHeader, EigenMat.scale, EigenMat.col,
    EigenMat.colwiseMul, EigenMat.rowwiseMul, Backward.rowsPluckStmts,
    Backward.rowsPluckStmtsClip, Backward.mulAddMulWithBiasStmts,
    Backward.mulAddMulWithBiasStmtsClip, Backward.mulPairStmts, Backward.mulPairStmtsClip,
    List.range_succ]
  try norm_num

theorem dispatch_sum :
    ((((dispatchRecord .sum).operator_call exampleHeader exampleScalars dispatchState).2).dw
        0).coeff 0 0 ≠ (dispatchState.dw 0).coeff 0 0 ∧
    ((((dispatchRecord .sum).operator_call_clip exampleHeader exampleScalars 2
        dispatchState).2).dw 0).coeff 0 0 ≠ (dispatchState.dw 0).coeff 0 0 := by
  simp only [Backward.operator_call, Backward.operator_call_clip, Backward.rule,
    Backward.ruleClip, dispatchRecord, exampleHeader_ofType]
  simp [dispatchState, Backward.with1, Backward.with2, Backward.with3, Backward.with5,
    Stmt.exec, Stmt.active, DW, Stmt.addAssign, Stmt.subAssign, Stmt.arrayAddAssign,
    Stmt.rowAddAssign, CLIP, EigenMat.unaryExpr, EigenMat.cwiseMul, EigenMat.cwiseMax,
    EigenMat.sub, EigenMat.cwiseSquare, EigenMat.mul, EigenMat.transpose,
    EigenMat.rowwiseSum, exampleScalars, exampleHeader, EigenMat.scale, EigenMat.col,
    EigenMat.colwiseMul, EigenMat.rowwiseMul, Backward.rowsPluckStmts,
    Backward.rowsPluckStmtsClip, Backward.mulAddMulWithBiasStmts,
    Backward.mulAddMulWithBiasStmtsClip, Backward.mulPairStmts, Backward.mulPairStmtsClip,
    List.range_succ]
  try norm_num

theorem dispatch_mean :
    ((((dispatchRecord .mean).operator_call exampleHeader exampleScalars dispatchState).2).dw
        0).coeff 0 0 ≠ (dispatchState.dw 0).coeff 0 0 ∧
    ((((dispatchRecord .mean).operator_call_clip exampleHeader exampleScalars 2
        dispatchState).2).dw 0).coeff 0 0 ≠ (dispatchState.dw 0).coeff 0 0 := by
  simp only [Backward.operator_call, Backward.operator_call_clip, Backward.rule,
    Backward.ruleClip, dispatchRecord, exampleHeader_ofType]
  simp [dispatchState, Backward.with1, Backward.with2, Backward.with3, Backward.with5,
    Stmt.exec, Stmt.active, DW, Stmt.addAssign, Stmt.subAssign, Stmt.arrayAddAssign,
    Stmt.rowAddAssign, CLIP, EigenMat.unaryExpr, EigenMat.cwiseMul, EigenMat.cwiseMax,
    EigenMat.sub, EigenMat.cwiseSquare, EigenMat.mul, EigenMat.transpose,
    EigenMat.rowwiseSum, exampleScalars, exampleHeader, EigenMat.scale, EigenMat.col,
    EigenMat.colwiseMul, EigenMat.rowwiseMul, Backward.rowsPluckStmts,
    Backward.rowsPluckStmtsClip, Backward.mulAddMulWithBiasStmts,
    Backward.mulAddMulWithBiasStmtsClip, Backward.mulPairStmts, Backward.mulPairStmtsClip,
    List.range_succ]
  try norm_num

theorem dispatch_changes_gradient (t : ops) :
    ((((dispatchRecord t).operator_call exampleHeader exampleScalars dispatchState).2).dw
        0).coeff 0 0 ≠ (dispatchState.dw 0).coeff 0 0 ∧
    ((((dispatchRecord t).operator_call_clip exampleHeader exampleScalars 2
        dispatchState).2).dw 0).coeff 0 0 ≠ (dispatchState.dw 0).coeff 0 0 := by
  cases t
  case add => exact dispatch_add
  case sub => exact dispatch_sub
  case eltmul => exact dispatch_eltmul
  case eltmul_rowwise => exact dispatch_eltmul_rowwise
  case square => exact dispatch_square
  case tanh => exact dispatch_tanh
  case sigmoid => exact dispatch_sigmoid
  case relu => exact dispatch_relu
  case mul => exact dispatch_mul
  case row_pluck => exact dispatch_row_pluck
  case rows_pluck => exact dispatch_rows_pluck
  case add_broadcast => exact dispatch_add_broadcast
  case sub_broadcast => exact dispatch_sub_broadcast
  case sub_broadcast_reversed => exact dispatch_sub_broadcast_reversed
  case eltmul_broadcast => exact dispatch_eltmul_broadcast
  case eltmul_broadcast_rowwise => exact dispatch_eltmul_broadcast_rowwise
  case mul_with_bias => exact dispatch_mul_with_bias
  case mul_add_mul_with_bias => exact dispatch_mul_add_mul_with_bias
  case mul_add_broadcast_mul_with_bias => exact dispatch_mul_add_broadcast_mul_with_bias
  case transpose => exact dispatch_transpose
  case sum => exact dispatch_sum
  case mean => exact dispatch_mean

end DispatchEvaluation

/-- C26. `Backward::operator()()` and `Backward::operator()(clip_val)` raise
the not-implemented error exactly when `op_type()` returns `"?"`, that is when
the tag of the record is the value of none of the enumerators that `op_type()`
names; then the state, and with it every gradient, is unchanged; for every
other tag both operators run a rule and return normally: the switch selects the
list of statements of the tag, and the state that is left is the one after these
statements, executed in order.  On a record with five `1 × 1` operands of value
`1` and an output with gradient `1`, for every one of the twenty-two tags, both
operators change the gradient of the first operand. -/
theorem not_implemented_iff_unnamed_tag (hdr : Header) (f : Scalars) (b : Backward)
    (clip_val : R) (s : State) :
    (b.op_type hdr = "?" ↔ ∀ t : ops, hdr.code t ≠ b.type) ∧
    ((b.operator_call hdr f s).1 = .error (b.notImplemented hdr) ↔ b.op_type hdr = "?") ∧
    ((b.operator_call_clip hdr f clip_val s).1 = .error (b.notImplemented hdr)
      ↔ b.op_type hdr = "?") ∧
    (b.op_type hdr = "?" →
      (b.operator_call hdr f s).2 = s ∧ (b.operator_call_clip hdr f clip_val s).2 = s) ∧
    (b.op_type hdr ≠ "?" →
      (b.operator_call hdr f s).1 = .ok () ∧
        (b.operator_call_clip hdr f clip_val s).1 = .ok ()) ∧
    (b.op_type hdr ≠ "?" →
      (∃ L, b.rule hdr f s.w = some L ∧
        b.operator_call hdr f s = (.ok (), L.foldl (fun t st => st.exec b.out t) s)) ∧
      (∃ L, b.ruleClip hdr f s.w clip_val = some L ∧
        b.operator_call_clip hdr f clip_val s
          = (.ok (), L.foldl (fun t st => st.exec b.out t) s))) ∧
    (∀ t : ops,
      (dispatchRecord t).op_type exampleHeader ≠ "?" ∧
      ((((dispatchRecord t).operator_call exampleHeader exampleScalars dispatchState).2).dw
          0).coeff 0 0 ≠ (dispatchState.dw 0).coeff 0 0 ∧
      ((((dispatchRecord t).operator_call_clip exampleHeader exampleScalars 2
          dispatchState).2).dw 0).coeff 0 0 ≠ (dispatchState.dw 0).coeff 0 0) := by
  have h1 := op_type_unnamed_iff hdr b
  have h2 := rule_eq_none_iff hdr f s.w b
  have h3 := ruleClip_eq_none_iff hdr f s.w b clip_val
  refine ⟨h1.trans (ofType_eq_none_iff _ _), ?_, ?_, ?_, ?_, ?_, ?_⟩
  · rw [h1, ← h2]
    unfold Backward.operator_call
    cases b.rule hdr f s.w <;> simp
  · rw [h1, ← h3]
    unfold Backward.operator_call_clip
    cases b.ruleClip hdr f s.w clip_val <;> simp
  · intro h
    have k2 := h2.2 (h1.1 h)
    have k3 := h3.2 (h1.1 h)
    simp [Backward.operator_call, Backward.operator_call_clip, k2, k3]
  · intro h
    have k2 : b.rule hdr f s.w ≠ none := fun k => h (h1.2 (h2.1 k))
    have k3 : b.ruleClip hdr f s.w clip_val ≠ none := fun k => h (h1.2 (h3.1 k))
    unfold Backward.operator_call Backward.operator_call_clip
    constructor
    · cases hr : b.rule hdr f s.w with
      | none => exact absurd hr k2
      | some L => rfl
    · cases hr : b.ruleClip hdr f s.w clip_val with
      | none => exact absurd hr k3
      | some L => rfl
  · intro h
    have k2 : b.rule hdr f s.w ≠ none := fun k => h (h1.2 (h2.1 k))
    have k3 : b.ruleClip hdr f s.w clip_val ≠ none := fun k => h (h1.2 (h3.1 k))
    unfold Backward.operator_call Backward.operator_call_clip
    constructor
    · cases hr : b.rule hdr f s.w with
      | none => exact absurd hr k2
      | some L => exact ⟨L, rfl, rfl⟩
    · cases hr : b.ruleClip hdr f s.w clip_val with
      | none => exact absurd hr k3
      | some L => exact ⟨L, rfl, rfl⟩
  · intro t
    refine ⟨fun h => ?_, dispatch_changes_gradient t⟩
    have := (op_type_unnamed_iff exampleHeader (dispatchRecord t)).1 h
    rw [dispatchRecord, exampleHeader_ofType] at this
    exact Option.noConfusion this

/-- C25 (counterexample). In `Backward::operator()(clip_val)` the cases `sum`
and `mean` add the unclipped amount: with `clip_val = 1`, a `2 × 2` operand
with zero gradient and an output gradient of `5`, the rule of `sum` adds `5`
and the rule of `mean` adds `5 / 4` to an entry of the gradient of the operand,
both more than `clip_val`. -/
theorem clipped_sum_and_mean_not_clamped :
    (clipState.dw 0).coeff 0 0 = 0 ∧ (clipState.dw 1).coeff 0 0 = 5 ∧
    ((clipRecord .sum).operator_call_clip exampleHeader exampleScalars 1 clipState).1 = .ok () ∧
    ((((clipRecord .sum).operator_call_clip exampleHeader exampleScalars 1 clipState).2).dw
      0).coeff 0 0 = 5 ∧
    ((clipRecord .mean).operator_call_clip exampleHeader exampleScalars 1 clipState).1 = .ok () ∧
    ((((clipRecord .mean).operator_call_clip exampleHeader exampleScalars 1 clipState).2).dw
      0).coeff 0 0 = 5 / 4 ∧
    ¬ (|(5 : R) - 0| ≤ 1) ∧ ¬ (|(5 / 4 : R) - 0| ≤ 1) := by
  refine ⟨?_, ?_, ?_, ?_, ?_, ?_, ?_, ?_⟩
  · simp [clipState, State.setDw, Mat.new, State.init, EigenMat.Zero]
  · simp [clipState, State.setDw]
  · simp [Backward.operator_call_clip, Backward.ruleClip, clipRecord, exampleHeader_ofType]
  · simp [Backward.operator_call_clip, Backward.ruleClip, clipRecord, exampleHeader_ofType,
      Backward.with1, Stmt.exec, Stmt.active, DW, Stmt.arrayAddAssign, clipState, State.setDw,
      Mat.new, State.init, EigenMat.Zero]
  · simp [Backward.operator_call_clip, Backward.ruleClip, clipRecord, exampleHeader_ofType]
  · simp only [Backward.operator_call_clip, Backward.ruleClip, clipRecord, exampleHeader_ofType]
    simp [Backward.with1, Stmt.exec, Stmt.active, DW, Stmt.arrayAddAssign, clipState,
      State.setDw, Mat.new, State.init, EigenMat.Zero, exampleHeader]
    norm_num
  · norm_num
  · rw [abs_of_nonneg (by norm_num)]
    norm_num

/-- C25. In `Backward::operator()(clip_val)` with `clip_val ≥ 0`, for every tag
that has a rule other than `sum` and `mean`, every contribution is clamped to
`[−clip_val, clip_val]` before it is accumulated: every statement of the rule
has an increment of absolute value at most `clip_val` in every entry, and
executing it changes every entry of every gradient by at most `clip_val` in
absolute value.  For the tags `sum` and `mean` the clipped rule is the
unclipped rule. -/
theorem clipped_contributions_bounded :
    (∀ (hdr : Header) (f : Scalars) (w : Nat → EigenMat) (b : Backward) (clip_val : R)
        (L : List Stmt), 0 ≤ clip_val → b.ruleClip hdr f w clip_val = some L →
        ops.ofType hdr.code b.type ≠ some .sum → ops.ofType hdr.code b.type ≠ some .mean →
        ∀ st ∈ L, (∀ dout i j, |st.inc dout i j| ≤ clip_val) ∧
          ∀ (t : State) (a i j : Nat),
            |((st.exec b.out t).dw a).coeff i j - (t.dw a).coeff i j| ≤ clip_val) ∧
    (∀ (hdr : Header) (f : Scalars) (w : Nat → EigenMat) (b : Backward) (clip_val : R),
        ops.ofType hdr.code b.type = some .sum ∨ ops.ofType hdr.code b.type = some .mean →
        b.ruleClip hdr f w clip_val = b.rule hdr f w) := by
  refine ⟨fun hdr f w b clip_val L hV hL h1 h2 st hst => ?_, fun hdr f w b clip_val h => ?_⟩
  · have hb := ruleClip_bounded hdr f w b clip_val hV L hL h1 h2 st hst
    refine ⟨hb, fun t a i j => ?_⟩
    rw [(exec_dw_coeff b.out st t a i j).1, add_sub_cancel_left]
    unfold Stmt.contrib
    split
    · exact hb _ i j
    · rw [abs_zero]; exact hV
  · rcases h with h | h <;> simp only [Backward.ruleClip, Backward.rule, h]

theorem clipped_contributions_bounded_witness :
    (clipAddState.dw 2).coeff 0 0 = 5 ∧ (clipAddState.dw 0).coeff 0 0 = 0 ∧
    |(((Stmt.addAssign (DW ⟨0, 0, false⟩) (fun dout => CLIP dout 1)).exec ⟨2, 2, false⟩
        clipAddState).dw 0).coeff 0 0 - (clipAddState.dw 0).coeff 0 0| ≤ 1 ∧
    (((Stmt.addAssign (DW ⟨0, 0, false⟩) (fun dout => CLIP dout 1)).exec ⟨2, 2, false⟩
        clipAddState).dw 0).coeff 0 0 = 1 ∧
    (((clipAddRecord.operator_call_clip exampleHeader exampleScalars 1 clipAddState).2).dw
      0).coeff 0 0 = 1 ∧
    (((clipAddRecord.operator_call_clip exampleHeader exampleScalars 1 clipAddState).2).dw
      1).coeff 0 0 = 1 := by
  have h := (clipped_contributions_bounded.1 exampleHeader exampleScalars clipAddState.w
    clipAddRecord 1
    [Stmt.addAssign (DW ⟨0, 0, false⟩) (fun dout => CLIP dout 1),
      Stmt.addAssign (DW ⟨1, 1, false⟩) (fun dout => CLIP dout 1)]
    (by norm_num)
    (by simp [Backward.ruleClip, clipAddRecord, exampleHeader_ofType])
    (by simp [clipAddRecord, exampleHeader_ofType])
    (by simp [clipAddRecord, exampleHeader_ofType])
    (Stmt.addAssign (DW ⟨0, 0, false⟩) (fun dout => CLIP dout 1))
    (List.mem_cons_self _ _)).2 clipAddState 0 0 0
  refine ⟨?_, ?_, h, ?_, ?_, ?_⟩
  · simp [clipAddState, State.setDw]
  · simp [clipAddState, State.setDw, Mat.new, State.init, EigenMat.Zero]
  · simp [Stmt.exec, Stmt.active, DW, Stmt.addAssign, CLIP, EigenMat.unaryExpr,
      clipAddState, State.setDw, Mat.new, State.init, EigenMat.Zero]
  · simp only [Backward.operator_call_clip, Backward.ruleClip, clipAddRecord,
      exampleHeader_ofType]
    simp [Stmt.exec, Stmt.active, DW, Stmt.addAssign, CLIP, EigenMat.unaryExpr,
      clipAddState, State.setDw, Mat.new, State.init, EigenMat.Zero]
  · simp only [Backward.operator_call_clip, Backward.ruleClip, clipAddRecord,
      exampleHeader_ofType]
    simp [Stmt.exec, Stmt.active, DW, Stmt.addAssign, CLIP, EigenMat.unaryExpr,
      clipAddState, State.setDw, Mat.new, State.init, EigenMat.Zero]

/-- C23 (counterexample). On a `1 × 1` operand whose sigmoid output is `0`
(the scalar functions of the example are the identity), with output gradient
`1`, the closure recorded by `MatOps::sigmoid` adds `(Out − Out²)·dOut = 0` to
`dA`, not `max(Out − Out², 1e-9)·dOut = 1e-9`; and with output gradient
`10 ^ 10` and `clip_val = 1` the clipped form of `Backward::operator()` adds
`1`, not the product `10`. -/
theorem sigmoid_rules_not_all_clamped_products :
    (MatOps.sigmoid exampleScalars ⟨0, 0, false⟩ sigState).1 = .ok ⟨1, 1, false⟩ ∧
    (MatOps.sigmoid exampleScalars ⟨0, 0, false⟩ sigState).2.tape
      = [Closure.sigmoid ⟨0, 0, false⟩ ⟨1, 1, false⟩] ∧
    ((MatOps.sigmoid exampleScalars ⟨0, 0, false⟩ sigState).2.w 1).coeff 0 0 = 0 ∧
    (((Closure.sigmoid ⟨0, 0, false⟩ ⟨1, 1, false⟩).run
      ((MatOps.sigmoid exampleScalars ⟨0, 0, false⟩ sigState).2.setDw ⟨1, 1, false⟩
        ⟨1, 1, fun _ _ => 1⟩)).dw 0).coeff 0 0 = 0 ∧
    max ((0 : R) - 0 * 0) (1 / 1000000000) * 1 ≠ 0 ∧
    (((sigRecord.operator_call_clip exampleHeader exampleScalars 1
      ((MatOps.sigmoid exampleScalars ⟨0, 0, false⟩ sigState).2.setDw ⟨1, 1, false⟩
        ⟨1, 1, fun _ _ => 10000000000⟩)).2).dw 0).coeff 0 0 = 1 ∧
    max ((0 : R) - 0 * 0) (1 / 1000000000) * 10000000000 = 10 := by
  refine ⟨?_, ?_, ?_, ?_, ?_, ?_, ?_⟩
  · simp [MatOps.sigmoid, sigState, Mat.empty_like, Mat.new, State.init, State.record,
      State.assign, graph.emplace_back]
  · simp [MatOps.sigmoid, sigState, Mat.empty_like, Mat.new, State.init, State.record,
      State.assign, graph.emplace_back]
  · simp [MatOps.sigmoid, sigState, Mat.empty_like, Mat.new, State.init, State.record,
      State.assign, graph.emplace_back, exampleScalars, EigenMat.unaryExpr, EigenMat.Zero]
  · simp [MatOps.sigmoid, sigState, Mat.empty_like, Mat.new, State.init, State.record,
      State.assign, graph.emplace_back, exampleScalars, EigenMat.unaryExpr, EigenMat.Zero,
      Closure.run, Closure.stmts, Closure.out, Stmt.exec, Stmt.active, GRAD, Stmt.addAssign,
      State.setDw, EigenMat.cwiseMul, EigenMat.sub, EigenMat.cwiseSquare]
  · norm_num
  · simp only [Backward.operator_call_clip, Backward.ruleClip, sigRecord, exampleHeader_ofType]
    simp [MatOps.sigmoid, sigState, Mat.empty_like, Mat.new, State.init, State.record,
      State.assign, graph.emplace_back, exampleScalars, EigenMat.unaryExpr, EigenMat.Zero,
      Backward.with1, Stmt.exec, Stmt.active, DW, Stmt.addAssign, CLIP, EigenMat.cwiseMax,
      State.setDw, EigenMat.cwiseMul, EigenMat.sub, EigenMat.cwiseSquare]
    norm_num
  · norm_num

/-- C23. The sigmoid case of `Backward::operator()()` adds to every entry of
the gradient of `matrices[0]` the product `max(Out − Out², 1e-9)·dOut`, the
factor being clamped from below before the multiplication; the clipped form
adds that product clamped to `[−clip_val, clip_val]`. -/
theorem backward_sigmoid_clamps_factor (hdr : Header) (f : Scalars) (b : Backward) (x : Mat)
    (rest : List Mat) (clip_val : R) (s : State) (i j : Nat)
    (ht : ops.ofType hdr.code b.type = some .sigmoid) (hm : b.matrices = x :: rest) :
    (b.operator_call hdr f s).1 = .ok () ∧
    (((b.operator_call hdr f s).2).dw x.g).coeff i j
      = (s.dw x.g).coeff i j
        + max ((s.w b.out.m).coeff i j - (s.w b.out.m).coeff i j * (s.w b.out.m).coeff i j)
            (1 / 1000000000) * (s.dw b.out.g).coeff i j ∧
    (b.operator_call_clip hdr f clip_val s).1 = .ok () ∧
    (((b.operator_call_clip hdr f clip_val s).2).dw x.g).coeff i j
      = (s.dw x.g).coeff i j
        + max (min (max ((s.w b.out.m).coeff i j
              - (s.w b.out.m).coeff i j * (s.w b.out.m).coeff i j)
            (1 / 1000000000) * (s.dw b.out.g).coeff i j) clip_val) (-clip_val) := by
  simp only [Backward.operator_call, Backward.operator_call_clip, Backward.rule,
    Backward.ruleClip, ht, hm, Backward.with1]
  simp [Stmt.exec, Stmt.active, DW, Stmt.addAssign, CLIP, EigenMat.cwiseMax,
    EigenMat.cwiseMul, EigenMat.sub, EigenMat.cwiseSquare, EigenMat.unaryExpr]

theorem backward_sigmoid_clamps_factor_witness :
    ((sigOutState 1 3).w 1).coeff 0 0 = 1 ∧ ((sigOutState 1 3).dw 1).coeff 0 0 = 3 ∧
    ((sigOutState 1 3).dw 0).coeff 0 0 = 0 ∧
    (sigRecord.operator_call exampleHeader exampleScalars (sigOutState 1 3)).1 = .ok () ∧
    (((sigRecord.operator_call exampleHeader exampleScalars (sigOutState 1 3)).2).dw 0).coeff 0 0
      = 3 / 1000000000 ∧
    (sigRecord.operator_call_clip exampleHeader exampleScalars (1 / 1000000000)
      (sigOutState 1 3)).1 = .ok () ∧
    (((sigRecord.operator_call_clip exampleHeader exampleScalars (1 / 1000000000)
      (sigOutState 1 3)).2).dw 0).coeff 0 0 = 1 / 1000000000 ∧
    (((sigRecord.operator_call exampleHeader exampleScalars
      (sigOutState (1 / 2) 3)).2).dw 0).coeff 0 0 = 3 / 4 := by
  have h := backward_sigmoid_clamps_factor exampleHeader exampleScalars sigRecord ⟨0, 0, false⟩ []
    (1 / 1000000000) (sigOutState 1 3) 0 0 (exampleHeader_ofType .sigmoid) rfl
  have k := backward_sigmoid_clamps_factor exampleHeader exampleScalars sigRecord ⟨0, 0, false⟩ []
    1 (sigOutState (1 / 2) 3) 0 0 (exampleHeader_ofType .sigmoid) rfl
  have hw : ∀ a g : R, ((sigOutState a g).w 1).coeff 0 0 = a := fun a g => by
    simp [sigOutState, MatOps.sigmoid, Mat.empty_like, Mat.new, State.init, State.record,
      State.assign, graph.emplace_back, exampleScalars, EigenMat.unaryExpr, State.setDw]
  have hd : ∀ a g : R, ((sigOutState a g).dw 1).coeff 0 0 = g := fun a g => by
    simp [sigOutState, State.setDw]
  have h0 : ∀ a g : R, ((sigOutState a g).dw 0).coeff 0 0 = 0 := fun a g => by
    simp [sigOutState, MatOps.sigmoid, Mat.empty_like, Mat.new, State.init, State.record,
      State.assign, graph.emplace_back, State.setDw, EigenMat.Zero]
  have e1 : sigRecord.out.m = 1 := rfl
  have e2 : sigRecord.out.g = 1 := rfl
  have e3 : (⟨0, 0, false⟩ : Mat).g = 0 := rfl
  rw [e1, e2, e3, hw, hd, h0] at h k
  refine ⟨hw 1 3, hd 1 3, h0 1 3, h.1, ?_, h.2.2.1, ?_, ?_⟩
  · rw [h.2.1]; norm_num
  · rw [h.2.2.2]; norm_num
  · rw [k.2.1]; norm_num

section RuleAgreement

theorem eigenMat_ext (a b : EigenMat) (h1 : a.rows = b.rows) (h2 : a.cols = b.cols)
    (h3 : ∀ i j, a.coeff i j = b.coeff i j) : a = b := by
  cases a
  cases b
  simp only [EigenMat.mk.injEq]
  exact ⟨h1, h2, funext fun i => funext fun j => h3 i j⟩

end RuleAgreement

section WrapInt32

theorem wrapInt32_of_range (x : Int) (h1 : -2147483648 ≤ x) (h2 : x < 2147483648) :
    wrapInt32 x = x := by
  unfold wrapInt32
  omega

theorem wrapInt32_one : wrapInt32 1 = 1 := wrapInt32_of_range 1 (by decide) (by decide)

theorem wrapInt32_emod (x : Int) : wrapInt32 x % 4294967296 = x % 4294967296 := by
  unfold wrapInt32
  omega

theorem wrapInt32_congr (x y : Int) (h : x % 4294967296 = y % 4294967296) :
    wrapInt32 x = wrapInt32 y := by
  unfold wrapInt32
  omega

theorem wrapInt32_mul_left (a b : Int) : wrapInt32 (wrapInt32 a * b) = wrapInt32 (a * b) := by
  apply wrapInt32_congr
  rw [Int.mul_emod, wrapInt32_emod, ← Int.mul_emod]

theorem map_wrapInt32_of_range :
    ∀ l : List Int, (∀ x ∈ l, -2147483648 ≤ x ∧ x < 2147483648) → l.map wrapInt32 = l
  | [], _ => rfl
  | x :: l, h => by
    rw [List.map_cons, wrapInt32_of_range x (h x (List.mem_cons_self _ _)).1
      (h x (List.mem_cons_self _ _)).2,
      map_wrapInt32_of_range l (fun y hy => h y (List.mem_cons_of_mem _ hy))]

end WrapInt32

section RuleAgreementGeneral

end RuleAgreementGeneral

section ConstantFacts

theorem exec_inactive (out : Mat) (st : Stmt) (s : State) (hg : st.lhs.guarded = true)
    (hc : st.lhs.x.constant = true) : st.exec out s = s := by
  simp [Stmt.exec, Stmt.active, hg, hc]

theorem foldl_drop_constant (out : Mat) (L : List Stmt) (s : State)
    (h : ∀ st ∈ L, st.lhs.guarded = true) :
    L.foldl (fun t st => st.exec out t) s
      = (L.filter (fun st => !st.lhs.x.constant)).foldl (fun t st => st.exec out t) s := by
  induction L generalizing s with
  | nil => rfl
  | cons st L ih =>
    have hL : ∀ st ∈ L, st.lhs.guarded = true := fun x hx => h x (List.mem_cons_of_mem _ hx)
    cases hc : st.lhs.x.constant with
    | true =>
      simp only [List.foldl_cons, List.filter_cons, hc, Bool.not_true]
      rw [exec_inactive out st s (h st (List.mem_cons_self _ _)) hc]
      simpa using ih s hL
    | false =>
      simp only [List.foldl_cons, List.filter_cons, hc, Bool.not_false, if_true]
      exact ih _ hL

theorem hstackStmts_guarded (w : Nat → EigenMat) (L : List Mat) (off : Nat) :
    ∀ st ∈ hstackStmts w L off, st.lhs.guarded = true := by
  induction L generalizing off with
  | nil => simp [hstackStmts]
  | cons x L ih =>
    intro st hst
    simp only [hstackStmts, List.mem_cons] at hst
    rcases hst with h | h
    · subst h; rfl
    · exact ih _ st h

theorem vstackStmts_guarded (w : Nat → EigenMat) (L : List Mat) (off : Nat) :
    ∀ st ∈ vstackStmts w L off, st.lhs.guarded = true := by
  induction L generalizing off with
  | nil => simp [vstackStmts]
  | cons x L ih =>
    intro st hst
    simp only [vstackStmts, List.mem_cons] at hst
    rcases hst with h | h
    · subst h; rfl
    · exact ih _ st h

theorem mulAddMulStmts_guarded (w : Nat → EigenMat) :
    ∀ L : List Mat, ∀ st ∈ mulAddMulStmts w L, st.lhs.guarded = true
  | [] => by simp [mulAddMulStmts]
  | [_] => by
    intro st hst
    simp only [mulAddMulStmts, List.mem_singleton] at hst
    subst hst; rfl
  | a :: b :: rest => by
    intro st hst
    simp only [mulAddMulStmts, List.mem_cons] at hst
    rcases hst with h | h | h
    · subst h; rfl
    · subst h; rfl
    · exact mulAddMulStmts_guarded w rest st h

theorem stmts_guarded (c : Closure) (w : Nat → EigenMat) (h : c.isRowsColsPluck = false) :
    ∀ st ∈ c.stmts w, st.lhs.guarded = true := by
  cases c
  case rows_cols_pluck => simp [Closure.isRowsColsPluck] at h
  case hstack_vector => exact hstackStmts_guarded w _ 0
  case vstack_vector => exact vstackStmts_guarded w _ 0
  case mul_add_mul_with_bias_vector => exact mulAddMulStmts_guarded w _
  case add_vector =>
    intro st hst
    obtain ⟨x, _, rfl⟩ := List.mem_map.1 hst
    rfl
  case rows_pluck =>
    intro st hst
    obtain ⟨x, _, rfl⟩ := List.mem_map.1 hst
    rfl
  all_goals
    clear h
    intro st hst
    simp only [Closure.stmts, List.mem_cons, List.mem_singleton, List.not_mem_nil,
      or_false] at hst
    rcases hst with rfl | rfl | rfl | rfl | rfl <;> rfl

end ConstantFacts

section ConstantFlagIndependence

theorem hstackStmts_asVariable (w : Nat → EigenMat) (L : List Mat) (off : Nat) :
    hstackStmts w (L.map Mat.asVariable) off = (hstackStmts w L off).map Stmt.asVariable := by
  induction L generalizing off with
  | nil => rfl
  | cons x L ih =>
    simp only [List.map_cons, hstackStmts, ih]
    rfl

theorem vstackStmts_asVariable (w : Nat → EigenMat) (L : List Mat) (off : Nat) :
    vstackStmts w (L.map Mat.asVariable) off = (vstackStmts w L off).map Stmt.asVariable := by
  induction L generalizing off with
  | nil => rfl
  | cons x L ih =>
    simp only [List.map_cons, vstackStmts, ih]
    rfl

theorem mulAddMulStmts_asVariable (w : Nat → EigenMat) :
    ∀ L : List Mat,
      mulAddMulStmts w (L.map Mat.asVariable) = (mulAddMulStmts w L).map Stmt.asVariable
  | [] => rfl
  | [_] => rfl
  | a :: b :: rest => by
    simp only [List.map_cons, mulAddMulStmts, mulAddMulStmts_asVariable w rest]
    rfl

theorem stmts_asVariable (c : Closure) (w : Nat → EigenMat) :
    (c.mapMats Mat.asVariable).stmts w = (c.stmts w).map Stmt.asVariable := by
  cases c
  case hstack_vector => exact hstackStmts_asVariable w _ 0
  case vstack_vector => exact vstackStmts_asVariable w _ 0
  case mul_add_mul_with_bias_vector => exact mulAddMulStmts_asVariable w _
  case add_vector =>
    simp only [Closure.mapMats, Closure.stmts, List.map_map]
    rfl
  case rows_pluck =>
    simp only [Closure.mapMats, Closure.stmts, List.map_map]
    rfl
  case rows_cols_pluck =>
    simp only [Closure.mapMats, Closure.stmts, List.map_map]
    rfl
  all_goals rfl

theorem exec_asVariable (out : Mat) (st : Stmt) (s : State)
    (h : st.lhs.x.constant = false) : st.asVariable.exec out.asVariable s = st.exec out s := by
  simp [Stmt.exec, Stmt.active, Stmt.asVariable, Mat.asVariable, h]

end ConstantFlagIndependence

/-- C27. A constant tensor is excluded from gradient accumulation.  Every
closure of a primitive of `MatOps.cpp` other than `rows_cols_pluck` writes
gradients through `GRAD` only, a statement for a constant operand changes
nothing, and a call of the closure is the call of its statements for the
non-constant operands; the statements of a closure for constant operands are
those of the same closure with no operand constant (same target storage, same
increments), and a statement for a non-constant operand acts as it does there;
`rows_cols_pluck` records nothing for a constant operand; `consider_constant`
returns a constant handle on the values, id and shape of its argument. -/
theorem constant_operands_excluded (c : Closure) (s : State) (m : Mat)
    (row_indices col_indices : List Nat) :
    (c.isRowsColsPluck = false → ∀ st ∈ c.stmts s.w, st.lhs.guarded = true) ∧
    (∀ (out : Mat) (st : Stmt) (t : State), st.lhs.guarded = true →
      st.lhs.x.constant = true → st.exec out t = t) ∧
    (c.isRowsColsPluck = false →
      c.run s = ((c.stmts s.w).filter (fun st => !st.lhs.x.constant)).foldl
        (fun t st => st.exec c.out t) s) ∧
    ((c.mapMats Mat.asVariable).stmts s.w = (c.stmts s.w).map Stmt.asVariable) ∧
    (∀ (st : Stmt) (t : State), st.lhs.x.constant = false →
      st.asVariable.exec c.out.asVariable t = st.exec c.out t) ∧
    (m.constant = true →
      (MatOps.rows_cols_pluck m row_indices col_indices s).2.tape = s.tape) ∧
    (∃ out, (MatOps.consider_constant m s).1 = .ok out ∧ out.constant = true ∧
      out.m = m.m ∧ out.g = m.g ∧
      (MatOps.consider_constant m s).2.w out.m = s.w m.m ∧
      (MatOps.consider_constant m s).2.id out.m = s.id m.m ∧
      out.id (MatOps.consider_constant m s).2 = m.id s ∧
      out.dims (MatOps.consider_constant m s).2 = m.dims s) := by
  refine ⟨stmts_guarded c s.w, fun out st t hg hc => exec_inactive out st t hg hc,
    fun h => foldl_drop_constant c.out (c.stmts s.w) s (stmts_guarded c s.w h),
    stmts_asVariable c s.w, fun st t h => exec_asVariable c.out st t h, ?_, ?_⟩
  · intro hm
    unfold MatOps.rows_cols_pluck
    split
    · rfl
    · have hf : Frame s ((List.range row_indices.length).foldl (fun t offset =>
          t.assign (Mat.new 1 row_indices.length false s).1
            ((t.w (Mat.new 1 row_indices.length false s).1.m).setCoeff 0 offset
              ((t.w m.m).coeff (row_indices.getD offset 0) (col_indices.getD offset 0))))
          (Mat.new 1 row_indices.length false s).2) :=
        frame_foldl _ _ _ _ (fun u a hu => hu) ⟨rfl, rfl⟩
      simp only [hm, Bool.not_true, Bool.and_false, Bool.false_eq_true, if_false]
      exact hf.1
  · refine ⟨_, rfl, rfl, ?_⟩
    simp [MatOps.consider_constant, Mat.copy, Mat.id, Mat.dims]

section SoftmaxCrossEntropy

/-- The values that `softmax_no_grad` assigns for the operand values `V`. -/
theorem softmax_values_coeff (f : Scalars) (V : EigenMat) (i : Nat)
    (hexp : ∀ k < V.rows, f.exp (V.coeff k 0 - V.colwiseMaxCoeff.coeff 0 0)
      = f.exp (V.coeff k 0) / f.exp (V.colwiseMaxCoeff.coeff 0 0))
    (hM : f.exp (V.colwiseMaxCoeff.coeff 0 0) ≠ 0) (hi : i < V.rows) :
    (((V.rowwiseSub V.colwiseMaxCoeff).unaryExpr f.exp).rowwiseDiv
        ((V.rowwiseSub V.colwiseMaxCoeff).unaryExpr f.exp).colwiseSum).coeff i 0
      = f.exp (V.coeff i 0) / ∑ k ∈ Finset.range V.rows, f.exp (V.coeff k 0) := by
  simp only [EigenMat.rowwiseDiv, EigenMat.unaryExpr, EigenMat.rowwiseSub, EigenMat.colwiseSum]
  have hs : ∑ k ∈ Finset.range V.rows, f.exp (V.coeff k 0 - V.colwiseMaxCoeff.coeff 0 0)
      = (∑ k ∈ Finset.range V.rows, f.exp (V.coeff k 0)) / f.exp (V.colwiseMaxCoeff.coeff 0 0) := by
    rw [Finset.sum_div]
    exact Finset.sum_congr rfl (fun k hk => hexp k (Finset.mem_range.1 hk))
  rw [hs, hexp i hi, div_div_div_cancel_right₀ hM]

theorem softmax_cross_entropy_eq (f : Scalars) (Z : Mat) (y : Nat) (s : State)
    (hrec : s.backprop_enabled = true) (hZ : Z.m < s.next_addr) :
    MatOps.softmax_cross_entropy f Z y s = (.ok ⟨s.next_addr, s.next_addr, false⟩,
      { w := Function.update (Function.update s.w (s.next_addr + 1)
            ((((s.w Z.m).rowwiseSub (s.w Z.m).colwiseMaxCoeff).unaryExpr f.exp).rowwiseDiv
              (((s.w Z.m).rowwiseSub (s.w Z.m).colwiseMaxCoeff).unaryExpr f.exp).colwiseSum))
            s.next_addr
            (EigenMat.setCoeff ⟨1, 1, (s.w s.next_addr).coeff⟩ 0 0
              (- f.log (((((s.w Z.m).rowwiseSub (s.w Z.m).colwiseMaxCoeff).unaryExpr
                f.exp).rowwiseDiv (((s.w Z.m).rowwiseSub
                  (s.w Z.m).colwiseMaxCoeff).unaryExpr f.exp).colwiseSum).coeff y 0)))
        id := Function.update (Function.update s.id s.next_addr s.next_matrix)
          (s.next_addr + 1) (s.next_matrix + 1)
        dw := Function.update (Function.update s.dw s.next_addr (EigenMat.Zero 1 1))
          (s.next_addr + 1) (EigenMat.Zero (s.w Z.m).rows (s.w Z.m).cols)
        next_matrix := s.next_matrix + 1 + 1
        next_addr := s.next_addr + 1 + 1
        tape := s.tape ++ [Closure.softmax Z f.temperature ⟨s.next_addr + 1, s.next_addr + 1, false⟩,
          Closure.softmax_cross_entropy Z ⟨s.next_addr + 1, s.next_addr + 1, false⟩ y
            ⟨s.next_addr, s.next_addr, false⟩]
        backprop_enabled := true }) := by
  have hZ1 : Z.m ≠ s.next_addr := by omega
  have hZ2 : Z.m ≠ s.next_addr + 1 := by omega
  have h3 : s.next_addr ≠ s.next_addr + 1 := by omega
  have h4 : s.next_addr + 1 ≠ s.next_addr := by omega
  simp [MatOps.softmax_cross_entropy, MatOps.softmax, MatOps.softmax_no_grad, Mat.empty_like,
    Mat.new, State.assign, State.record, graph.emplace_back, hrec, Function.update_noteq hZ1,
    Function.update_noteq hZ2, Function.update_noteq h3, Function.update_noteq h4,
    Function.update_comm h3]

end SoftmaxCrossEntropy

/-- C24. For a non-constant `Z` of `n` rows, read in its column `0` (all of a
single-column `Z`), and `y < n`, with recording enabled, `softmax_cross_entropy(Z, y)` returns a `1 × 1` tensor with
the value `−log(softmax(Z)[y])`, where `softmax(Z)[i] = exp(Z_i) / Σ_j exp(Z_j)`
(for an `exp` that turns the subtraction of the column maximum into a
division), and appends the closure of the inner `softmax` call and its own
closure; replayed in reverse order with the output gradient `G`, they add
`(softmax(Z)[i] − [i = y])·G` to `dZ[i]`, and the closure of the inner
`softmax` call adds nothing. -/
theorem softmax_cross_entropy_value_and_gradient (f : Scalars) (Z : Mat) (y : Nat)
    (s : State) (G : R) (i : Nat)
    (hrec : s.backprop_enabled = true) (hZm : Z.m < s.next_addr) (hZg : Z.g < s.next_addr)
    (hZc : Z.constant = false) (hy : y < (s.w Z.m).rows)
    (hi : i < (s.w Z.m).rows)
    (hexp : ∀ k < (s.w Z.m).rows,
      f.exp ((s.w Z.m).coeff k 0 - (s.w Z.m).colwiseMaxCoeff.coeff 0 0)
        = f.exp ((s.w Z.m).coeff k 0) / f.exp ((s.w Z.m).colwiseMaxCoeff.coeff 0 0))
    (hM : f.exp ((s.w Z.m).colwiseMaxCoeff.coeff 0 0) ≠ 0) :
    let r := MatOps.softmax_cross_entropy f Z y s
    let out : Mat := ⟨s.next_addr, s.next_addr, false⟩
    let probs : Mat := ⟨s.next_addr + 1, s.next_addr + 1, false⟩
    let c1 := Closure.softmax Z f.temperature probs
    let c2 := Closure.softmax_cross_entropy Z probs y out
    let t0 := r.2.setDw out ⟨1, 1, fun _ _ => G⟩
    r.1 = .ok out ∧ r.2.tape = s.tape ++ [c1, c2] ∧
    (r.2.w out.m).rows = 1 ∧ (r.2.w out.m).cols = 1 ∧
    (r.2.w out.m).coeff 0 0
      = - f.log (f.exp ((s.w Z.m).coeff y 0)
          / ∑ k ∈ Finset.range (s.w Z.m).rows, f.exp ((s.w Z.m).coeff k 0)) ∧
    ((c1.run (c2.run t0)).dw Z.g).coeff i 0
      = (s.dw Z.g).coeff i 0
        + (f.exp ((s.w Z.m).coeff i 0)
            / ∑ k ∈ Finset.range (s.w Z.m).rows, f.exp ((s.w Z.m).coeff k 0)
          - (if i = y then 1 else 0)) * G ∧
    (∀ p q, ((c1.run (c2.run t0)).dw Z.g).coeff p q = ((c2.run t0).dw Z.g).coeff p q) := by
  intro r out probs c1 c2 t0
  have hr : r = _ := softmax_cross_entropy_eq f Z y s hrec hZm
  have hZ1 : Z.m ≠ s.next_addr := by omega
  have hZ2 : Z.m ≠ s.next_addr + 1 := by omega
  have hg1 : Z.g ≠ s.next_addr := by omega
  have hg2 : Z.g ≠ s.next_addr + 1 := by omega
  have h3 : s.next_addr ≠ s.next_addr + 1 := by omega
  have h4 : s.next_addr + 1 ≠ s.next_addr := by omega
  have hw : t0.w = r.2.w := rfl
  -- the closure of `softmax_cross_entropy`
  have hout2 : c2.out.g ∉ c2.targets t0.w := by
    simp [c2, Closure.targets, writes, Closure.stmts, Closure.out, Stmt.active, GRAD,
      Stmt.addAssign, Stmt.coeffSubAssign, hZc, Ne.symm hg1, out]
  have hprobs2 : probs.g ∉ c2.targets t0.w := by
    simp [c2, Closure.targets, writes, Closure.stmts, Stmt.active, GRAD,
      Stmt.addAssign, Stmt.coeffSubAssign, hZc, Ne.symm hg2, probs]
  have hu := fun p q => (run_dw_coeff c2 t0 Z.g p q hout2).1
  have hup : (c2.run t0).dw probs.g = t0.dw probs.g := run_dw_other c2 t0 probs.g hprobs2
  -- the closure of the inner `softmax`
  have hout1 : c1.out.g ∉ c1.targets (c2.run t0).w := by
    simp [c1, Closure.targets, writes, Closure.stmts, Closure.out, Stmt.active, GRAD,
      Stmt.addAssign, hZc, Ne.symm hg2, probs]
  have hv := fun p q => (run_dw_coeff c1 (c2.run t0) Z.g p q hout1).1
  have hzero : ∀ p q, contribs (c1.stmts (c2.run t0).w) Z.g ((c2.run t0).dw c1.out.g) p q = 0 := by
    intro p q
    have : (c2.run t0).dw c1.out.g = EigenMat.Zero (s.w Z.m).rows (s.w Z.m).cols := by
      show (c2.run t0).dw probs.g = _
      rw [hup]
      simp [t0, hr, State.setDw, probs, out, Function.update_noteq h4]
    rw [this]
    simp [c1, contribs, Stmt.contrib, Closure.stmts, Stmt.addAssign, EigenMat.cwiseMul,
      EigenMat.Zero]
  have hlast : ∀ p q, ((c1.run (c2.run t0)).dw Z.g).coeff p q
      = ((c2.run t0).dw Z.g).coeff p q := by
    intro p q
    rw [hv p q, hzero p q, add_zero]
  refine ⟨by rw [hr], by rw [hr], by simp [hr, out, EigenMat.setCoeff],
    by simp [hr, out, EigenMat.setCoeff], ?_, ?_, hlast⟩
  · rw [← softmax_values_coeff f (s.w Z.m) y hexp hM hy]
    simp [hr, out, EigenMat.setCoeff]
  · rw [hlast, hu, ← softmax_values_coeff f (s.w Z.m) i hexp hM hi]
    have hd : t0.dw Z.g = s.dw Z.g := by
      simp [t0, hr, State.setDw, out, Function.update_noteq hg1, Function.update_noteq hg2]
    have hdo : t0.dw c2.out.g = ⟨1, 1, fun _ _ => G⟩ := by
      simp [t0, c2, Closure.out, State.setDw, out]
    have hwp : t0.w probs.m
        = ((((s.w Z.m).rowwiseSub (s.w Z.m).colwiseMaxCoeff).unaryExpr f.exp).rowwiseDiv
            (((s.w Z.m).rowwiseSub (s.w Z.m).colwiseMaxCoeff).unaryExpr f.exp).colwiseSum) := by
      simp [hw, hr, probs, Function.update_noteq h4]
    rw [hd, hdo]
    simp only [c2, contribs, Stmt.contrib, Closure.stmts, Stmt.addAssign, Stmt.coeffSubAssign,
      Stmt.active, GRAD, hZc, hwp, EigenMat.scale, List.map_cons, List.map_nil, List.sum_cons,
      List.sum_nil, Bool.and_false, Bool.not_false, true_and, if_true, and_true]
    by_cases hiy : i = y
    · simp [hiy]; ring
    · simp [hiy]; ring

theorem softmax_cross_entropy_value_and_gradient_witness :
    ((MatOps.softmax_cross_entropy powerScalars ⟨0, 0, false⟩ 1 columnState).2.w 1).coeff 0 0
      = - powerScalars.log (powerScalars.exp ((columnState.w 0).coeff 1 0)
          / ∑ k ∈ Finset.range (columnState.w 0).rows,
              powerScalars.exp ((columnState.w 0).coeff k 0)) ∧
    (((Closure.softmax ⟨0, 0, false⟩ powerScalars.temperature ⟨2, 2, false⟩).run
        ((Closure.softmax_cross_entropy ⟨0, 0, false⟩ ⟨2, 2, false⟩ 1 ⟨1, 1, false⟩).run
          ((MatOps.softmax_cross_entropy powerScalars ⟨0, 0, false⟩ 1 columnState).2.setDw
            ⟨1, 1, false⟩ ⟨1, 1, fun _ _ => 5⟩))).dw 0).coeff 0 0
      = (columnState.dw 0).coeff 0 0
        + (powerScalars.exp ((columnState.w 0).coeff 0 0)
            / ∑ k ∈ Finset.range (columnState.w 0).rows,
                powerScalars.exp ((columnState.w 0).coeff k 0)
          - (if 0 = 1 then 1 else 0)) * 5 := by
  have hmax : (columnState.w 0).colwiseMaxCoeff.coeff 0 0 = 1 := by
    simp [columnState, State.assign, Mat.new, State.init, EigenMat.colwiseMaxCoeff,
      List.range_succ]
  have hrows : (columnState.w 0).rows = 2 := by
    simp [columnState, State.assign, Mat.new, State.init]
  have hcoeff : ∀ k, (columnState.w 0).coeff k 0 = (k : R) := by
    intro k
    simp [columnState, State.assign, Mat.new, State.init]
  have hf1 : Int.floor (-1 : R) = -1 := by
    rw [Int.floor_eq_iff]; norm_num
  have hf0 : Int.floor (0 : R) = 0 := Int.floor_zero
  have hf2 : Int.floor (1 : R) = 1 := Int.floor_one
  have h := softmax_cross_entropy_value_and_gradient powerScalars ⟨0, 0, false⟩ 1 columnState 5 0
    rfl (by decide) (by decide) rfl (by rw [hrows]; decide) (by rw [hrows]; decide)
    (by
      intro k hk
      rw [hrows] at hk
      rw [hmax, hcoeff]
      interval_cases k
      · simp [powerScalars, hf1, hf0, hf2]
      · simp [powerScalars, hf1, hf0, hf2])
    (by rw [hmax]; simp [powerScalars, hf2])
  exact ⟨h.2.2.2.2.1, h.2.2.2.2.2.1⟩

section Argmax

theorem argmax_fold (data : Nat → R) (min : Int) (m : Nat) :
    ∃ p, p < m + 1 ∧
      ((List.range (m + 1)).map (fun k : Nat => min + (k : Int))).foldl (argmaxBody data) (0, none, 0)
        = (min + (p : Int), some (data p), m + 1) ∧
      (∀ j, j < m + 1 → data j ≤ data p) ∧ (∀ j, j < p → data j < data p) := by
  induction m with
  | zero =>
    refine ⟨0, by omega, ?_, ?_, ?_⟩
    · simp [argmaxBody, List.range_succ]
    · intro j hj
      have : j = 0 := by omega
      subst this
      exact le_refl _
    · intro j hj
      omega
  | succ m ih =>
    obtain ⟨p, hp, hfold, hmax, hfirst⟩ := ih
    rw [List.range_succ, List.map_append, List.foldl_append, hfold]
    by_cases hlt : data p < data (m + 1)
    · refine ⟨m + 1, by omega, ?_, ?_, ?_⟩
      · simp [argmaxBody, hlt]
      · intro j hj
        by_cases hj2 : j < m + 1
        · exact le_of_lt (lt_of_le_of_lt (hmax j hj2) hlt)
        · have : j = m + 1 := by omega
          subst this
          exact le_refl _
      · intro j hj
        exact lt_of_le_of_lt (hmax j hj) hlt
    · refine ⟨p, by omega, ?_, ?_, hfirst⟩
      · simp [argmaxBody, hlt]
      · intro j hj
        by_cases hj2 : j < m + 1
        · exact hmax j hj2
        · have : j = m + 1 := by omega
          subst this
          exact not_lt.1 hlt

/-- What `argmax_slice` computes: `min` plus the first position of a maximum
among the first `max − min` entries of the data. -/
theorem argmax_slice_spec (A : EigenMat) (min max : Int) (h : min < max) :
    ∃ p : Nat, (p : Int) < max - min ∧ argmax_slice A min max = min + (p : Int) ∧
      (∀ j : Nat, (j : Int) < max - min → A.data j ≤ A.data p) ∧
      (∀ j, j < p → A.data j < A.data p) := by
  obtain ⟨m, hm⟩ : ∃ m : Nat, (max - min).toNat = m + 1 := ⟨(max - min).toNat - 1, by omega⟩
  obtain ⟨p, hp, hfold, hmax, hfirst⟩ := argmax_fold A.data min m
  refine ⟨p, by omega, ?_, ?_, hfirst⟩
  · unfold argmax_slice
    rw [hm, hfold]
  · intro j hj
    exact hmax j (by omega)

theorem argmax_slice_zero (A : EigenMat) :
    argmax_slice A 0 (number_of_elements A) = argmax A := by
  unfold argmax_slice argmax
  simp

end Argmax

/-- C29. `argmax_slice(A, min, max)` reads the entries at the positions
`0, …, max − min − 1`, not `min, …, max − 1`, and returns `min` plus the first
position of their maximum: on the column `(5, 1, 9)` with `min = 1`, `max = 3`
it returns `1`, although the entry at `2` is larger than the entry at `1`.
For `min = 0` it returns the first position of the maximum of the entries
`0, …, max − 1`, and `argmax_slice(A, 0, n) = argmax(A)` for `n` the number of
elements. -/
theorem argmax_slice_ignores_offset :
    argmax_slice sliceExample 1 3 = 1 ∧ sliceExample.data 1 < sliceExample.data 2 ∧
    (∀ (A : EigenMat) (min max : Int), min < max →
      ∃ p : Nat, (p : Int) < max - min ∧ argmax_slice A min max = min + (p : Int) ∧
        (∀ j : Nat, (j : Int) < max - min → A.data j ≤ A.data p) ∧
        (∀ j, j < p → A.data j < A.data p)) ∧
    (∀ A : EigenMat, argmax_slice A 0 (number_of_elements A) = argmax A) := by
  refine ⟨?_, ?_, argmax_slice_spec, argmax_slice_zero⟩
  · simp [argmax_slice, argmaxBody, sliceExample, EigenMat.data, List.range_succ]
  · simp [sliceExample, EigenMat.data]

section DataFormat

theorem string_find_ne_none (l : List Char) (c : Char) : string_find l c ≠ none ↔ c ∈ l := by
  unfold string_find
  split
  · rename_i h
    simpa using List.indexOf_lt_length.1 h
  · rename_i h
    simpa using fun hm => h (List.indexOf_lt_length.2 hm)

theorem string_find_of_mem (l : List Char) (c : Char) (h : c ∈ l) :
    string_find l c = some (l.indexOf c) ∧ l.indexOf c < l.length ∧
      l[l.indexOf c]? = some c := by
  have hlt := List.indexOf_lt_length.2 h
  refine ⟨by simp [string_find, hlt], hlt, List.getElem?_indexOf h⟩

theorem new_ok_iff (l : List Char) :
    (∃ m, DataFormatDimMapping.new l = .ok m) ↔
      ('N' ∈ l ∧ 'C' ∈ l ∧ 'H' ∈ l ∧ 'W' ∈ l ∧ l.length = 4) := by
  unfold DataFormatDimMapping.new assert2
  simp only [string_find_ne_none]
  by_cases h : 'N' ∈ l ∧ 'C' ∈ l ∧ 'H' ∈ l ∧ 'W' ∈ l ∧ l.length = 4
  · simp [h]
  · simp [h]

theorem perm_iff_letters (l : List Char) :
    l.Perm ['N', 'C', 'H', 'W'] ↔ ('N' ∈ l ∧ 'C' ∈ l ∧ 'H' ∈ l ∧ 'W' ∈ l ∧ l.length = 4) := by
  constructor
  · intro h
    refine ⟨h.symm.subset (by simp), h.symm.subset (by simp), h.symm.subset (by simp),
      h.symm.subset (by simp), by simpa using h.length_eq⟩
  · rintro ⟨h1, h2, h3, h4, h5⟩
    have hsub : ['N', 'C', 'H', 'W'] ⊆ l := by
      intro x hx
      simp only [List.mem_cons, List.mem_singleton, List.not_mem_nil, or_false] at hx
      rcases hx with rfl | rfl | rfl | rfl <;> assumption
    have hnd : ['N', 'C', 'H', 'W'].Nodup := by decide
    exact ((List.subperm_of_subset hnd hsub).perm_of_length_le (by simp [h5])).symm

end DataFormat

/-- C28. `DataFormatDimMapping(data_format)` succeeds exactly when
`data_format` is a permutation of the letters `N`, `C`, `H`, `W`; then the four
members are four distinct positions below `4` that hold `N`, `C`, `H` and `W`;
every other string is rejected by the assertion. -/
theorem data_format_mapping_permutation (data_format : List Char) :
    ((∃ m, DataFormatDimMapping.new data_format = .ok m)
      ↔ data_format.Perm ['N', 'C', 'H', 'W']) ∧
    (∀ m, DataFormatDimMapping.new data_format = .ok m →
      ∃ n c h w, m = ⟨some n, some c, some h, some w⟩ ∧
        n < 4 ∧ c < 4 ∧ h < 4 ∧ w < 4 ∧ [n, c, h, w].Nodup ∧
        data_format[n]? = some 'N' ∧ data_format[c]? = some 'C' ∧
        data_format[h]? = some 'H' ∧ data_format[w]? = some 'W') ∧
    (¬ data_format.Perm ['N', 'C', 'H', 'W'] →
      ∃ e, DataFormatDimMapping.new data_format = .error e) := by
  refine ⟨(new_ok_iff data_format).trans (perm_iff_letters data_format).symm, ?_, ?_⟩
  · intro m hm
    obtain ⟨h1, h2, h3, h4, h5⟩ := (new_ok_iff data_format).1 ⟨m, hm⟩
    obtain ⟨a1, a2, a3⟩ := string_find_of_mem data_format 'N' h1
    obtain ⟨b1, b2, b3⟩ := string_find_of_mem data_format 'C' h2
    obtain ⟨c1, c2, c3⟩ := string_find_of_mem data_format 'H' h3
    obtain ⟨d1, d2, d3⟩ := string_find_of_mem data_format 'W' h4
    refine ⟨_, _, _, _, ?_, by omega, by omega, by omega, by omega, ?_, a3, b3, c3, d3⟩
    · unfold DataFormatDimMapping.new assert2 at hm
      simp only [string_find_ne_none, h1, h2, h3, h4, h5, and_self, decide_True, if_true,
        a1, b1, c1, d1] at hm
      exact (Except.ok.inj hm).symm
    · have e1 : ∀ x y : Char, x ∈ data_format → y ∈ data_format → x ≠ y →
          data_format.indexOf x ≠ data_format.indexOf y :=
        fun x y hx hy hxy h => hxy ((List.indexOf_inj hx hy).1 h)
      simp only [List.nodup_cons, List.mem_cons, List.mem_singleton, List.not_mem_nil,
        or_false, not_or, List.nodup_nil, and_true, not_false_eq_true]
      exact ⟨⟨e1 _ _ h1 h2 (by decide), e1 _ _ h1 h3 (by decide), e1 _ _ h1 h4 (by decide)⟩,
        ⟨e1 _ _ h2 h3 (by decide), e1 _ _ h2 h4 (by decide)⟩, e1 _ _ h3 h4 (by decide)⟩
  · intro hp
    have hne : ¬ ('N' ∈ data_format ∧ 'C' ∈ data_format ∧ 'H' ∈ data_format ∧
        'W' ∈ data_format ∧ data_format.length = 4) :=
      fun h => hp ((perm_iff_letters data_format).2 h)
    unfold DataFormatDimMapping.new assert2
    simp only [string_find_ne_none]
    simp [hne]

section BinaryBroadcast

theorem binary_add_broadcast_eq (A B : Mat) (s : TensorState)
    (hrec : s.mem.backprop_enabled = true) (hA : A.m < s.mem.next_addr)
    (hB : B.m < s.mem.next_addr) (hn : (s.mem.w A.m).rows ≠ 1)
    (hB1 : (s.mem.w B.m).rows = 1) (hB2 : (s.mem.w B.m).cols = (s.mem.w A.m).rows) :
    Binary.add A B s = (.ok ⟨s.mem.next_addr, s.mem.next_addr, false⟩,
      ⟨{ w := Function.update s.mem.w s.mem.next_addr
            ((s.mem.w A.m).add ((s.mem.w B.m).broadcast0 (s.mem.w A.m).rows (s.mem.w A.m).cols))
         id := Function.update s.mem.id s.mem.next_addr s.mem.next_matrix
         dw := Function.update s.mem.dw s.mem.next_addr
            (EigenMat.Zero (s.mem.w A.m).rows (s.mem.w A.m).cols)
         next_matrix := s.mem.next_matrix + 1
         next_addr := s.mem.next_addr + 1
         tape := s.mem.tape
         backprop_enabled := true },
       s.tape ++ [BinaryClosure.add_broadcast A B ⟨s.mem.next_addr, s.mem.next_addr, false⟩]⟩) := by
  have hA' : A.m ≠ s.mem.next_addr := by omega
  have hB' : B.m ≠ s.mem.next_addr := by omega
  simp [Binary.add, Binary.add_broadcast, assert2, hn, hB1, hB2, Mat.empty_like, Mat.new,
    State.assign, TensorState.record, hrec, Function.update_noteq hA',
    Function.update_noteq hB']

theorem binary_sub_broadcast_eq (A B : Mat) (s : TensorState)
    (hrec : s.mem.backprop_enabled = true) (hA : A.m < s.mem.next_addr)
    (hB : B.m < s.mem.next_addr) (hn : (s.mem.w A.m).rows ≠ 1)
    (hB1 : (s.mem.w B.m).rows = 1) (hB2 : (s.mem.w B.m).cols = (s.mem.w A.m).rows) :
    Binary.sub A B s = (.ok ⟨s.mem.next_addr, s.mem.next_addr, false⟩,
      ⟨{ w := Function.update s.mem.w s.mem.next_addr
            ((s.mem.w A.m).sub ((s.mem.w B.m).broadcast0 (s.mem.w A.m).rows (s.mem.w A.m).cols))
         id := Function.update s.mem.id s.mem.next_addr s.mem.next_matrix
         dw := Function.update s.mem.dw s.mem.next_addr
            (EigenMat.Zero (s.mem.w A.m).rows (s.mem.w A.m).cols)
         next_matrix := s.mem.next_matrix + 1
         next_addr := s.mem.next_addr + 1
         tape := s.mem.tape
         backprop_enabled := true },
       s.tape ++ [BinaryClosure.sub_broadcast A B ⟨s.mem.next_addr, s.mem.next_addr, false⟩]⟩) := by
  have hA' : A.m ≠ s.mem.next_addr := by omega
  have hB' : B.m ≠ s.mem.next_addr := by omega
  simp [Binary.sub, Binary.sub_broadcast, assert2, hn, hB1, hB2, Mat.empty_like, Mat.new,
    State.assign, TensorState.record, hrec, Function.update_noteq hA',
    Function.update_noteq hB']

/-- What the closures of the broadcast forms add, for non-constant operands
with distinct gradient storage, both distinct from the one of the output. -/
theorem binary_broadcast_closure_run (A B out : Mat) (t : State) (i j : Nat)
    (hAc : A.constant = false) (hBc : B.constant = false) (hAB : A.g ≠ B.g)
    (hAo : A.g ≠ out.g) (hBo : B.g ≠ out.g) :
    (((BinaryClosure.add_broadcast A B out).run t).dw A.g).coeff i j
      = (t.dw A.g).coeff i j + (t.dw out.g).coeff i j ∧
    (((BinaryClosure.add_broadcast A B out).run t).dw B.g).coeff i j
      = (t.dw B.g).coeff i j
        + (if i = 0 then ∑ c ∈ Finset.range (t.dw out.g).cols, (t.dw out.g).coeff j c else 0) ∧
    (((BinaryClosure.sub_broadcast A B out).run t).dw A.g).coeff i j
      = (t.dw A.g).coeff i j + (t.dw out.g).coeff i j ∧
    (((BinaryClosure.sub_broadcast A B out).run t).dw B.g).coeff i j
      = (t.dw B.g).coeff i j
        + (if i = 0 then - ∑ c ∈ Finset.range (t.dw out.g).cols, (t.dw out.g).coeff j c
           else 0) := by
  have w1 : out.g ∉ writes ((BinaryClosure.add_broadcast A B out).stmts t.w) := by
    simp [writes, BinaryClosure.stmts, Stmt.active, GRAD, Stmt.addAssign, Stmt.rowAddAssign,
      hAc, hBc, Ne.symm hAo, Ne.symm hBo]
  have w2 : out.g ∉ writes ((BinaryClosure.sub_broadcast A B out).stmts t.w) := by
    simp [writes, BinaryClosure.stmts, Stmt.active, GRAD, Stmt.addAssign, Stmt.row0SubAssign,
      hAc, hBc, Ne.symm hAo, Ne.symm hBo]
  refine ⟨?_, ?_, ?_, ?_⟩
  · rw [BinaryClosure.run, (foldl_dw_coeff (BinaryClosure.add_broadcast A B out).out
      ((BinaryClosure.add_broadcast A B out).stmts t.w) t A.g i j w1).1]
    simp [contribs, Stmt.contrib, BinaryClosure.stmts, BinaryClosure.out, Stmt.active, GRAD,
      Stmt.addAssign, Stmt.rowAddAssign, hAc, hBc, Ne.symm hAB]
  · rw [BinaryClosure.run, (foldl_dw_coeff (BinaryClosure.add_broadcast A B out).out
      ((BinaryClosure.add_broadcast A B out).stmts t.w) t B.g i j w1).1]
    simp [contribs, Stmt.contrib, BinaryClosure.stmts, BinaryClosure.out, Stmt.active, GRAD,
      Stmt.addAssign, Stmt.rowAddAssign, hAc, hBc, hAB, EigenMat.sum_cols]
  · rw [BinaryClosure.run, (foldl_dw_coeff (BinaryClosure.sub_broadcast A B out).out
      ((BinaryClosure.sub_broadcast A B out).stmts t.w) t A.g i j w2).1]
    simp [contribs, Stmt.contrib, BinaryClosure.stmts, BinaryClosure.out, Stmt.active, GRAD,
      Stmt.addAssign, Stmt.row0SubAssign, hAc, hBc, Ne.symm hAB]
  · rw [BinaryClosure.run, (foldl_dw_coeff (BinaryClosure.sub_broadcast A B out).out
      ((BinaryClosure.sub_broadcast A B out).stmts t.w) t B.g i j w2).1]
    simp [contribs, Stmt.contrib, BinaryClosure.stmts, BinaryClosure.out, Stmt.active, GRAD,
      Stmt.addAssign, Stmt.row0SubAssign, hAc, hBc, hAB, EigenMat.sum_cols]

end BinaryBroadcast

section BinaryBroadcastRow

/-- The broadcast forms of `Binary::add(A, B)` and `Binary::sub(A, B)` for `A`
of shape `n × k` with `n ≠ 1` and `B` of shape `1 × n`: the value, the recorded
closure and what the closure adds to the gradients. -/
theorem binary_broadcast_row_spec (A B : Mat) (s : TensorState) (G : EigenMat) (i j : Nat)
    (hrec : s.mem.backprop_enabled = true)
    (hAm : A.m < s.mem.next_addr) (hBm : B.m < s.mem.next_addr)
    (hAg : A.g < s.mem.next_addr) (hBg : B.g < s.mem.next_addr) (hAB : A.g ≠ B.g)
    (hAc : A.constant = false) (hBc : B.constant = false)
    (hn : (s.mem.w A.m).rows ≠ 1) (hB1 : (s.mem.w B.m).rows = 1)
    (hB2 : (s.mem.w B.m).cols = (s.mem.w A.m).rows) :
    let out : Mat := ⟨s.mem.next_addr, s.mem.next_addr, false⟩
    let ra := Binary.add A B s
    let rs := Binary.sub A B s
    (ra.1 = .ok out ∧ ra.2.tape = s.tape ++ [BinaryClosure.add_broadcast A B out] ∧
      (ra.2.mem.w out.m).rows = (s.mem.w A.m).rows ∧
      (ra.2.mem.w out.m).cols = (s.mem.w A.m).cols ∧
      (ra.2.mem.w out.m).coeff i j = (s.mem.w A.m).coeff i j + (s.mem.w B.m).coeff 0 i) ∧
    (rs.1 = .ok out ∧ rs.2.tape = s.tape ++ [BinaryClosure.sub_broadcast A B out] ∧
      (rs.2.mem.w out.m).rows = (s.mem.w A.m).rows ∧
      (rs.2.mem.w out.m).cols = (s.mem.w A.m).cols ∧
      (rs.2.mem.w out.m).coeff i j = (s.mem.w A.m).coeff i j - (s.mem.w B.m).coeff 0 i) ∧
    ((((BinaryClosure.add_broadcast A B out).run (ra.2.mem.setDw out G)).dw A.g).coeff i j
        = (s.mem.dw A.g).coeff i j + G.coeff i j ∧
      (((BinaryClosure.add_broadcast A B out).run (ra.2.mem.setDw out G)).dw B.g).coeff 0 i
        = (s.mem.dw B.g).coeff 0 i + ∑ c ∈ Finset.range G.cols, G.coeff i c) ∧
    ((((BinaryClosure.sub_broadcast A B out).run (rs.2.mem.setDw out G)).dw A.g).coeff i j
        = (s.mem.dw A.g).coeff i j + G.coeff i j ∧
      (((BinaryClosure.sub_broadcast A B out).run (rs.2.mem.setDw out G)).dw B.g).coeff 0 i
        = (s.mem.dw B.g).coeff 0 i - ∑ c ∈ Finset.range G.cols, G.coeff i c) := by
  intro out ra rs
  have hra : ra = _ := binary_add_broadcast_eq A B s hrec hAm hBm hn hB1 hB2
  have hrs : rs = _ := binary_sub_broadcast_eq A B s hrec hAm hBm hn hB1 hB2
  have hA1 : A.m ≠ s.mem.next_addr := by omega
  have hB1' : B.m ≠ s.mem.next_addr := by omega
  have hAo : A.g ≠ out.g := by simp only [out]; omega
  have hBo : B.g ≠ out.g := by simp only [out]; omega
  have hAo' : A.g ≠ s.mem.next_addr := by omega
  have hBo' : B.g ≠ s.mem.next_addr := by omega
  have ka := fun (t : State) p q => binary_broadcast_closure_run A B out t p q hAc hBc hAB hAo hBo
  refine ⟨⟨by rw [hra], by rw [hra], by simp [hra, out, EigenMat.add],
      by simp [hra, out, EigenMat.add],
      by simp [hra, out, EigenMat.add, EigenMat.broadcast0]⟩,
    ⟨by rw [hrs], by rw [hrs], by simp [hrs, out, EigenMat.sub],
      by simp [hrs, out, EigenMat.sub],
      by simp [hrs, out, EigenMat.sub, EigenMat.broadcast0]⟩, ⟨?_, ?_⟩, ⟨?_, ?_⟩⟩
  · rw [(ka _ i j).1]
    simp [hra, State.setDw, out, Function.update_noteq hAo']
  · rw [(ka _ 0 i).2.1]
    simp [hra, State.setDw, out, Function.update_noteq hBo']
  · rw [(ka _ i j).2.2.1]
    simp [hrs, State.setDw, out, Function.update_noteq hAo']
  · rw [(ka _ 0 i).2.2.2]
    simp [hrs, State.setDw, out, Function.update_noteq hBo']
    ring

/-- With equal first dimensions, a single column as second operand and another
number of columns in the first, `Binary::add` and `Binary::sub` fail in the
assertion that the dimensions are equal and leave the state as it is. -/
theorem binary_column_operand_rejected (A C : Mat) (s : TensorState)
    (h1 : (s.mem.w C.m).rows = (s.mem.w A.m).rows) (h2 : (s.mem.w C.m).cols = 1)
    (h3 : (s.mem.w A.m).cols ≠ 1) :
    Binary.add A C s
      = (.error "Matrices cannot be added, they do not have the same dimensions.", s) ∧
    Binary.sub A C s
      = (.error "Matrices cannot be subtracted, they do not have the same dimensions.", s) := by
  constructor <;> simp [Binary.add, Binary.sub, assert2, h1, h2, h3]

end BinaryBroadcastRow

/-- C21 (counterexample). With `A` of shape `2 × 3` and the column `C` of shape
`2 × 1`, `Binary::add(A, C)` and `Binary::sub(A, C)` do not succeed: the first
dimensions are equal, so the broadcast branch is not taken, and the assertion
that the dimensions are equal fails. -/
theorem binary_add_column_operand_rejected :
    (binaryState.mem.w 0).rows = 2 ∧ (binaryState.mem.w 0).cols = 3 ∧
    (binaryState.mem.w 2).rows = 2 ∧ (binaryState.mem.w 2).cols = 1 ∧
    Binary.add ⟨0, 0, false⟩ ⟨2, 2, false⟩ binaryState
      = (.error "Matrices cannot be added, they do not have the same dimensions.",
          binaryState) ∧
    Binary.sub ⟨0, 0, false⟩ ⟨2, 2, false⟩ binaryState
      = (.error "Matrices cannot be subtracted, they do not have the same dimensions.",
          binaryState) := by
  refine ⟨?_, ?_, ?_, ?_, ?_, ?_⟩ <;>
    simp [Binary.add, Binary.sub, assert2, binaryState, State.assign, Mat.new, State.init,
      EigenMat.Zero]

/-- C21. `Binary::add(A, B)` and `Binary::sub(A, B)` treat an operand whose
first dimension is `1` as an implicit broadcast: for `A` of shape `n × k` with
`n ≠ 1` and `B` of shape `1 × n`, with recording enabled, the call succeeds and
returns the `n × k` tensor with the entries `A[i][j] ± B[0][i]`, and the
recorded closure adds `dOut` to `dA` and `± Σ_c dOut[i][c]` to `dB[0][i]`.
For every `A` of shape `n × k` with `k ≠ 1` and every `C` of shape `n × 1` the
first dimensions are equal, no broadcast is tried, and both calls fail with the
assertion that the dimensions are equal, leaving the state as it is. -/
theorem binary_add_sub_broadcast_row :
    (∀ (A B : Mat) (s : TensorState) (G : EigenMat) (i j : Nat),
      s.mem.backprop_enabled = true →
      A.m < s.mem.next_addr → B.m < s.mem.next_addr →
      A.g < s.mem.next_addr → B.g < s.mem.next_addr → A.g ≠ B.g →
      A.constant = false → B.constant = false →
      (s.mem.w A.m).rows ≠ 1 → (s.mem.w B.m).rows = 1 →
      (s.mem.w B.m).cols = (s.mem.w A.m).rows →
      let out : Mat := ⟨s.mem.next_addr, s.mem.next_addr, false⟩
      let ra := Binary.add A B s
      let rs := Binary.sub A B s
      (ra.1 = .ok out ∧ ra.2.tape = s.tape ++ [BinaryClosure.add_broadcast A B out] ∧
        (ra.2.mem.w out.m).rows = (s.mem.w A.m).rows ∧
        (ra.2.mem.w out.m).cols = (s.mem.w A.m).cols ∧
        (ra.2.mem.w out.m).coeff i j = (s.mem.w A.m).coeff i j + (s.mem.w B.m).coeff 0 i) ∧
      (rs.1 = .ok out ∧ rs.2.tape = s.tape ++ [BinaryClosure.sub_broadcast A B out] ∧
        (rs.2.mem.w out.m).rows = (s.mem.w A.m).rows ∧
        (rs.2.mem.w out.m).cols = (s.mem.w A.m).cols ∧
        (rs.2.mem.w out.m).coeff i j = (s.mem.w A.m).coeff i j - (s.mem.w B.m).coeff 0 i) ∧
      ((((BinaryClosure.add_broadcast A B out).run (ra.2.mem.setDw out G)).dw A.g).coeff i j
          = (s.mem.dw A.g).coeff i j + G.coeff i j ∧
        (((BinaryClosure.add_broadcast A B out).run (ra.2.mem.setDw out G)).dw B.g).coeff 0 i
          = (s.mem.dw B.g).coeff 0 i + ∑ c ∈ Finset.range G.cols, G.coeff i c) ∧
      ((((BinaryClosure.sub_broadcast A B out).run (rs.2.mem.setDw out G)).dw A.g).coeff i j
          = (s.mem.dw A.g).coeff i j + G.coeff i j ∧
        (((BinaryClosure.sub_broadcast A B out).run (rs.2.mem.setDw out G)).dw B.g).coeff 0 i
          = (s.mem.dw B.g).coeff 0 i - ∑ c ∈ Finset.range G.cols, G.coeff i c)) ∧
    (∀ (A C : Mat) (s : TensorState),
      (s.mem.w C.m).rows = (s.mem.w A.m).rows → (s.mem.w C.m).cols = 1 →
      (s.mem.w A.m).cols ≠ 1 →
      Binary.add A C s
        = (.error "Matrices cannot be added, they do not have the same dimensions.", s) ∧
      Binary.sub A C s
        = (.error "Matrices cannot be subtracted, they do not have the same dimensions.",
            s)) :=
  ⟨fun A B s G i j hrec hAm hBm hAg hBg hAB hAc hBc hn hB1 hB2 =>
      binary_broadcast_row_spec A B s G i j hrec hAm hBm hAg hBg hAB hAc hBc hn hB1 hB2,
    binary_column_operand_rejected⟩

theorem binary_add_sub_broadcast_row_witness :
    (Binary.add ⟨0, 0, false⟩ ⟨1, 1, false⟩ binaryState).1 = .ok ⟨3, 3, false⟩ ∧
    ((Binary.add ⟨0, 0, false⟩ ⟨1, 1, false⟩ binaryState).2.mem.w 3).coeff 1 2
      = (binaryState.mem.w 0).coeff 1 2 + (binaryState.mem.w 1).coeff 0 1 ∧
    (Binary.sub ⟨0, 0, false⟩ ⟨1, 1, false⟩ binaryState).1 = .ok ⟨3, 3, false⟩ ∧
    ((Binary.sub ⟨0, 0, false⟩ ⟨1, 1, false⟩ binaryState).2.mem.w 3).coeff 1 2
      = (binaryState.mem.w 0).coeff 1 2 - (binaryState.mem.w 1).coeff 0 1 ∧
    (Binary.sub ⟨0, 0, false⟩ ⟨2, 2, false⟩ binaryState).2 = binaryState := by
  have h := binary_add_sub_broadcast_row.1 ⟨0, 0, false⟩ ⟨1, 1, false⟩ binaryState
    (EigenMat.ones 2 3) 1 2 rfl (by decide) (by decide) (by decide) (by decide) (by decide)
    rfl rfl
    (by simp [binaryState, State.assign, Mat.new, State.init])
    (by simp [binaryState, State.assign, Mat.new, State.init])
    (by simp [binaryState, State.assign, Mat.new, State.init])
  have r := binary_add_sub_broadcast_row.2 ⟨0, 0, false⟩ ⟨2, 2, false⟩ binaryState
    (by simp [binaryState, State.assign, Mat.new, State.init, EigenMat.Zero])
    (by simp [binaryState, State.assign, Mat.new, State.init])
    (by simp [binaryState, State.assign, Mat.new, State.init])
  exact ⟨h.1.1, h.1.2.2.2.2, h.2.1.1, h.2.1.2.2.2.2, by rw [r.2]⟩

section AddVector

theorem addFill_spec (out : Mat) (L : List Mat) (t : State) (h : ∀ x ∈ L, x.m ≠ out.m) :
    ((L.foldl (fun t matrix => t.assign out ((t.w out.m).add (t.w matrix.m))) t).w out.m).rows
        = (t.w out.m).rows ∧
    ((L.foldl (fun t matrix => t.assign out ((t.w out.m).add (t.w matrix.m))) t).w out.m).cols
        = (t.w out.m).cols ∧
    (∀ i j,
      ((L.foldl (fun t matrix => t.assign out ((t.w out.m).add (t.w matrix.m))) t).w
          out.m).coeff i j
        = (t.w out.m).coeff i j + (L.map (fun x => (t.w x.m).coeff i j)).sum) := by
  induction L generalizing t with
  | nil => simp
  | cons x L ih =>
    have hx : x.m ≠ out.m := h x (List.mem_cons_self _ _)
    have hL : ∀ y ∈ L, y.m ≠ out.m := fun y hy => h y (List.mem_cons_of_mem _ hy)
    obtain ⟨i1, i2, i3⟩ := ih (t.assign out ((t.w out.m).add (t.w x.m))) hL
    simp only [List.foldl_cons]
    refine ⟨?_, ?_, ?_⟩
    · rw [i1]; simp [State.assign, EigenMat.add]
    · rw [i2]; simp [State.assign, EigenMat.add]
    · intro i j
      rw [i3]
      have hrest : (L.map (fun y => ((t.assign out ((t.w out.m).add (t.w x.m))).w y.m).coeff i j))
          = L.map (fun y => (t.w y.m).coeff i j) := by
        apply List.map_congr_left
        intro y hy
        simp [State.assign, Function.update_noteq (hL y hy)]
      rw [hrest]
      simp [State.assign, EigenMat.add, add_assoc]

/-- `Binary::add` on a non-empty vector of allocated tensors returns a new
tensor with the shape of the first one whose entries are the sums of the
entries of the tensors (whatever their shapes are). -/
theorem binary_add_vector_sum (front : Mat) (rest : List Mat) (s : TensorState)
    (h : ∀ x ∈ front :: rest, x.m < s.mem.next_addr) (i j : Nat) :
    (Binary.add_vector (front :: rest) s).1 = .ok ⟨s.mem.next_addr, s.mem.next_addr, false⟩ ∧
    ((Binary.add_vector (front :: rest) s).2.mem.w s.mem.next_addr).rows
      = (s.mem.w front.m).rows ∧
    ((Binary.add_vector (front :: rest) s).2.mem.w s.mem.next_addr).cols
      = (s.mem.w front.m).cols ∧
    ((Binary.add_vector (front :: rest) s).2.mem.w s.mem.next_addr).coeff i j
      = ((front :: rest).map (fun x => (s.mem.w x.m).coeff i j)).sum := by
  have hne : ∀ x ∈ front :: rest, x.m ≠ (⟨s.mem.next_addr, s.mem.next_addr, false⟩ : Mat).m :=
    fun x hx => by have := h x hx; simp only; omega
  obtain ⟨a1, a2, a3⟩ := addFill_spec ⟨s.mem.next_addr, s.mem.next_addr, false⟩ (front :: rest)
    (Mat.zeros_like front s.mem).2 hne
  have hmap : ((front :: rest).map
      (fun x => (((Mat.zeros_like front s.mem).2).w x.m).coeff i j))
      = (front :: rest).map (fun x => (s.mem.w x.m).coeff i j) := by
    apply List.map_congr_left
    intro y hy
    have := hne y hy
    simp only at this
    simp [Mat.zeros_like, Mat.new, Function.update_noteq this]
  simp only [Binary.add_vector, assert2, List.length_cons, gt_iff_lt, Nat.zero_lt_succ,
    decide_True, if_true, TensorState.record]
  refine ⟨rfl, ?_, ?_, ?_⟩
  · exact a1.trans (by simp [Mat.zeros_like, Mat.new, EigenMat.Zero])
  · exact a2.trans (by simp [Mat.zeros_like, Mat.new, EigenMat.Zero])
  · refine (a3 i j).trans ?_
    rw [hmap]
    simp [Mat.zeros_like, Mat.new, EigenMat.Zero]

end AddVector

/-- C22. The vector forms of `add` do not compare shapes: on the vector of a
`1 × 1` and a `2 × 2` tensor `MatOps::add` and `Binary::add` return a tensor
and no error.  `MatOps::add` also starts from an uninitialised output: on the
vector of one `1 × 1` tensor with the value `1`, where the fresh memory holds
`7`, the returned value is `8`.  `Binary::add` starts from zeros and returns
the entrywise sum. -/
theorem add_vector_does_not_check_shapes :
    (mixedState.w 0).rows = 1 ∧ (mixedState.w 1).rows = 2 ∧
    (MatOps.add_vector [⟨0, 0, false⟩, ⟨1, 1, false⟩] mixedState).1 = .ok ⟨2, 2, false⟩ ∧
    (Binary.add_vector [⟨0, 0, false⟩, ⟨1, 1, false⟩] ⟨mixedState, []⟩).1
      = .ok ⟨2, 2, false⟩ ∧
    (junkState.w 0).coeff 0 0 = 1 ∧
    (MatOps.add_vector [⟨0, 0, false⟩] junkState).1 = .ok ⟨1, 1, false⟩ ∧
    ((MatOps.add_vector [⟨0, 0, false⟩] junkState).2.w 1).coeff 0 0 = 8 ∧
    (∀ (front : Mat) (rest : List Mat) (s : TensorState) (i j : Nat),
      (∀ x ∈ front :: rest, x.m < s.mem.next_addr) →
      (Binary.add_vector (front :: rest) s).1
          = .ok ⟨s.mem.next_addr, s.mem.next_addr, false⟩ ∧
        ((Binary.add_vector (front :: rest) s).2.mem.w s.mem.next_addr).coeff i j
          = ((front :: rest).map (fun x => (s.mem.w x.m).coeff i j)).sum) := by
  refine ⟨?_, ?_, ?_, ?_, ?_, ?_, ?_, ?_⟩
  · simp [mixedState, State.assign, Mat.new, State.init]
  · simp [mixedState, State.assign, Mat.new, State.init]
  · simp [MatOps.add_vector, mixedState, State.assign, Mat.new, State.init, Mat.empty_like]
  · simp [Binary.add_vector, assert2, mixedState, State.assign, Mat.new, State.init,
      Mat.zeros_like]
  · simp [junkState, State.assign, Mat.new, State.init]
  · simp [MatOps.add_vector, junkState, State.assign, Mat.new, State.init, Mat.empty_like]
  · simp [MatOps.add_vector, junkState, State.assign, Mat.new, State.init, Mat.empty_like,
      State.record, graph.emplace_back, EigenMat.add]
    norm_num
  · intro front rest s i j h
    exact ⟨(binary_add_vector_sum front rest s h i j).1,
      (binary_add_vector_sum front rest s h i j).2.2.2⟩

section CanonicalReshape

theorem canonicalReshapeBody_neg (d : Nat) (s : List Int) (st : (Nat → Int) × Int) (i : Nat)
    (h : i + d < s.length) :
    canonicalReshapeBody d s st i = (st.1, wrapInt32 (st.2 * s.getD i 0)) := by
  have hneg : ¬ ((i : Int) - (s.length : Int) + (d : Int) ≥ 0) := by omega
  simp only [canonicalReshapeBody, hneg, if_false]

theorem canonicalReshapeBody_pos (d : Nat) (s : List Int) (st : (Nat → Int) × Int) (i idx : Nat)
    (h : idx + s.length = i + d) :
    canonicalReshapeBody d s st i
      = (Function.update st.1 idx (wrapInt32 (st.2 * s.getD i 0)), 1) := by
  have hpos : (i : Int) - (s.length : Int) + (d : Int) ≥ 0 := by omega
  have hidx : ((i : Int) - (s.length : Int) + (d : Int)).toNat = idx := by omega
  simp only [canonicalReshapeBody, hpos, if_true, hidx]

/-- The state of the loop of `canonical_reshape` after `k` passes. -/
theorem canonical_reshape_loop (d : Nat) (s : List Int) (k : Nat) (hk : k ≤ s.length) :
    ((List.range k).foldl (canonicalReshapeBody d s) (fun _ => 1, 1)).2
        = (if k + d ≤ s.length then wrapInt32 (s.take k).prod else 1) ∧
    ∀ p, ((List.range k).foldl (canonicalReshapeBody d s) (fun _ => 1, 1)).1 p
        = if d ≤ p + s.length ∧ p + s.length < d + k then
            (if p = 0 ∧ d < s.length then wrapInt32 (s.take (s.length - d + 1)).prod
             else wrapInt32 (s.getD (p + s.length - d) 0))
          else 1 := by
  induction k with
  | zero =>
    refine ⟨by simp [wrapInt32_one], fun p => ?_⟩
    have : ¬ (d ≤ p + s.length ∧ p + s.length < d + 0) := by omega
    simp only [List.range_zero, List.foldl_nil]
    rw [if_neg this]
  | succ k ih =>
    obtain ⟨ih2, ih1⟩ := ih (by omega)
    have hks : k < s.length := by omega
    have htake : (s.take (k + 1)).prod = (s.take k).prod * s.getD k 0 := by
      rw [List.take_succ, List.prod_append]
      simp [List.getD, List.getElem?_eq_getElem hks]
    rw [List.range_succ, List.foldl_append, List.foldl_cons, List.foldl_nil]
    by_cases hlt : k + d < s.length
    · rw [canonicalReshapeBody_neg d s _ k hlt]
      dsimp only
      refine ⟨?_, fun p => ?_⟩
      · rw [ih2, if_pos (by omega), if_pos (by omega), htake, wrapInt32_mul_left]
      · rw [ih1 p]
        have h1 : ¬ (d ≤ p + s.length ∧ p + s.length < d + k) := by omega
        have h2 : ¬ (d ≤ p + s.length ∧ p + s.length < d + (k + 1)) := by omega
        rw [if_neg h1, if_neg h2]
    · obtain ⟨idx, hidx⟩ : ∃ idx, idx + s.length = k + d := ⟨k + d - s.length, by omega⟩
      rw [canonicalReshapeBody_pos d s _ k idx hidx]
      dsimp only
      refine ⟨by rw [if_neg (by omega)], fun p => ?_⟩
      by_cases hp : p = idx
      · subst hp
        have hc : d ≤ p + s.length ∧ p + s.length < d + (k + 1) := by omega
        have hget : p + s.length - d = k := by omega
        rw [Function.update_same, ih2, if_pos hc, hget]
        by_cases heq : k + d ≤ s.length
        · rw [if_pos heq, wrapInt32_mul_left]
          by_cases hd : d < s.length
          · have hp0 : p = 0 := by omega
            have hlen : s.length - d + 1 = k + 1 := by omega
            rw [if_pos ⟨hp0, hd⟩, hlen, htake]
          · have hk0 : k = 0 := by omega
            have hnot : ¬ (p = 0 ∧ d < s.length) := fun h => hd h.2
            rw [if_neg hnot, hk0]
            simp
        · have hnot : ¬ (p = 0 ∧ d < s.length) := by omega
          rw [if_neg heq, if_neg hnot, one_mul]
      · rw [Function.update_noteq hp, ih1 p]
        by_cases hc : d ≤ p + s.length ∧ p + s.length < d + k
        · have hc2 : d ≤ p + s.length ∧ p + s.length < d + (k + 1) := by omega
          rw [if_pos hc, if_pos hc2]
        · have hc2 : ¬ (d ≤ p + s.length ∧ p + s.length < d + (k + 1)) := by omega
          rw [if_neg hc, if_neg hc2]

end CanonicalReshape

section CanonicalReshapeResult

theorem canonical_reshape_getElem (d : Nat) (s : List Int) (p : Nat)
    (hp : p < (canonical_reshape d s).length) :
    (canonical_reshape d s)[p]
      = if d ≤ p + s.length then
          (if p = 0 ∧ d < s.length then wrapInt32 (s.take (s.length - d + 1)).prod
           else wrapInt32 (s.getD (p + s.length - d) 0))
        else 1 := by
  have hpd : p < d := by simpa [canonical_reshape] using hp
  simp only [canonical_reshape, List.getElem_map, List.getElem_range]
  rw [(canonical_reshape_loop d s s.length (le_refl _)).2 p]
  by_cases h : d ≤ p + s.length
  · rw [if_pos ⟨h, by omega⟩, if_pos h]
  · rw [if_neg (fun hc => h hc.1), if_neg h]

theorem canonical_reshape_pad (d : Nat) (s : List Int) (h : s.length ≤ d) :
    canonical_reshape d s = List.replicate (d - s.length) 1 ++ s.map wrapInt32 := by
  apply List.ext_getElem
  · simp [canonical_reshape]; omega
  · intro p h1 h2
    have hpd : p < d := by simpa [canonical_reshape] using h1
    rw [canonical_reshape_getElem d s p h1]
    by_cases hc : d ≤ p + s.length
    · have hnot : ¬ (p = 0 ∧ d < s.length) := by omega
      rw [if_pos hc, if_neg hnot, List.getElem_append_right (by simp; omega)]
      have hidx : p + s.length - d < s.length := by omega
      simp only [List.length_replicate, List.getElem_map]
      rw [List.getD_eq_getElem s 0 hidx]
      congr 2
      omega
    · rw [if_neg hc, List.getElem_append_left (by simp; omega)]
      simp

theorem canonical_reshape_fold (d : Nat) (s : List Int) (hd : 1 ≤ d) (h : d < s.length) :
    canonical_reshape d s
      = wrapInt32 (s.take (s.length - d + 1)).prod
          :: (s.drop (s.length - d + 1)).map wrapInt32 := by
  apply List.ext_getElem
  · simp [canonical_reshape]; omega
  · intro p h1 h2
    have hpd : p < d := by simpa [canonical_reshape] using h1
    rw [canonical_reshape_getElem d s p h1, if_pos (by omega)]
    cases p with
    | zero => simp [h]
    | succ q =>
      have hnot : ¬ (q + 1 = 0 ∧ d < s.length) := by omega
      have hidx : q + 1 + s.length - d < s.length := by omega
      rw [if_neg hnot, List.getD_eq_getElem s 0 hidx]
      simp only [List.getElem_cons_succ, List.getElem_map, List.getElem_drop]
      congr 2
      omega

end CanonicalReshapeResult

/-- C39 (counterexample). On the shape `{65536, 65536, 2}` with target rank `2`
the product of the two leading entries, `2 ^ 32`, does not fit the `int` in
which it is formed: the result is `[0, 2]`, whose product `0` is not the
product `2 ^ 33` of the entries of the shape. -/
theorem canonical_reshape_product_wraps :
    canonical_reshape 2 [65536, 65536, 2] = [0, 2] ∧
    (canonical_reshape 2 [65536, 65536, 2]).prod = 0 ∧
    ([65536, 65536, 2] : List Int).prod = 8589934592 := by
  refine ⟨by decide, by decide, by decide⟩

/-- C39. `canonical_reshape<d>(s)` has `d` entries.  For `|s| ≤ d` it is `s`
padded on the left with ones; for `|s| > d` (and `d ≥ 1`) its first entry is
the product of the leading `|s| − d + 1` entries of `s`, reduced modulo `2 ^ 32`
into the range of `int`, and the others are the last `d − 1` entries of `s`.
Hence, for entries of `s` in the range of `int`: the result is the padded `s`
when `|s| ≤ d`; it starts with the leading product itself when that product is
in the range of `int` (for non-negative entries: below `2 ^ 31`); and in these
two cases, for `d ≥ 1`, the product of the result is the product of `s`. -/
theorem canonical_reshape_shape (d : Nat) (s : List Int) :
    (canonical_reshape d s).length = d ∧
    (s.length ≤ d →
      canonical_reshape d s = List.replicate (d - s.length) 1 ++ s.map wrapInt32) ∧
    (1 ≤ d → d < s.length →
      canonical_reshape d s
        = wrapInt32 (s.take (s.length - d + 1)).prod
            :: (s.drop (s.length - d + 1)).map wrapInt32 ∧
      (s.drop (s.length - d + 1)).length = d - 1) ∧
    ((∀ x ∈ s, -2147483648 ≤ x ∧ x < 2147483648) →
      (s.length ≤ d → canonical_reshape d s = List.replicate (d - s.length) 1 ++ s) ∧
      (s.length = d → canonical_reshape d s = s) ∧
      (1 ≤ d → d < s.length →
        -2147483648 ≤ (s.take (s.length - d + 1)).prod →
        (s.take (s.length - d + 1)).prod < 2147483648 →
        canonical_reshape d s
          = (s.take (s.length - d + 1)).prod :: s.drop (s.length - d + 1)) ∧
      (1 ≤ d →
        (s.length ≤ d ∨ (-2147483648 ≤ (s.take (s.length - d + 1)).prod ∧
          (s.take (s.length - d + 1)).prod < 2147483648)) →
        (canonical_reshape d s).prod = s.prod)) := by
  have hfold : (∀ x ∈ s, -2147483648 ≤ x ∧ x < 2147483648) → 1 ≤ d → d < s.length →
      -2147483648 ≤ (s.take (s.length - d + 1)).prod →
      (s.take (s.length - d + 1)).prod < 2147483648 →
      canonical_reshape d s
        = (s.take (s.length - d + 1)).prod :: s.drop (s.length - d + 1) := by
    intro hr hd h h1 h2
    rw [canonical_reshape_fold d s hd h, wrapInt32_of_range _ h1 h2,
      map_wrapInt32_of_range _ (fun x hx => hr x (List.mem_of_mem_drop hx))]
  refine ⟨by simp [canonical_reshape], canonical_reshape_pad d s, ?_, fun hr => ⟨?_, ?_, ?_, ?_⟩⟩
  · intro hd h
    exact ⟨canonical_reshape_fold d s hd h, by simp; omega⟩
  · intro h
    rw [canonical_reshape_pad d s h, map_wrapInt32_of_range s hr]
  · intro h
    rw [canonical_reshape_pad d s (le_of_eq h), map_wrapInt32_of_range s hr, h]
    simp
  · exact hfold hr
  · intro hd hcase
    by_cases h : s.length ≤ d
    · rw [canonical_reshape_pad d s h, map_wrapInt32_of_range s hr]
      simp
    · rcases hcase with hc | ⟨h1, h2⟩
      · exact absurd hc h
      · rw [hfold hr hd (by omega) h1 h2, List.prod_cons, ← List.prod_append,
          List.take_append_drop]

theorem canonical_reshape_shape_witness :
    canonical_reshape 2 [2, 3, 4] = [6, 4] ∧ (canonical_reshape 2 [2, 3, 4]).prod = 24 ∧
    canonical_reshape 3 [5, 7] = [1, 5, 7] := by
  have h := (canonical_reshape_shape 2 [2, 3, 4]).2.2.2 (by decide)
  have h3 := ((canonical_reshape_shape 3 [5, 7]).2.2.2 (by decide)).1 (by decide)
  refine ⟨?_, ?_, ?_⟩
  · rw [h.2.2.1 (by decide) (by decide) (by decide) (by decide)]
    rfl
  · rw [h.2.2.2 (by decide) (Or.inr ⟨by decide, by decide⟩)]
    rfl
  · rw [h3]
    rfl

/-- C38. `split_str` drops the character that follows a partial match of the
delimiter: `split_str("a-b", "->")` is `["a-"]`, so joining the tokens with the
delimiter gives `"a-"` and not `"a-b"`; and it drops the last character of a
string that ends in a partial match: `split_str("a-", "->")` is `["a"]`.
`split_str("a->b", "->")` is `["a", "b"]`. -/
theorem split_str_drops_character_after_partial_match :
    split_str "a-b".data "->".data = ["a-".data] ∧
    List.intercalate "->".data (split_str "a-b".data "->".data) ≠ "a-b".data ∧
    split_str "a-".data "->".data = ["a".data] ∧
    split_str "a-->b".data "->".data = ["a->b".data] ∧
    split_str "a->b".data "->".data = ["a".data, "b".data] ∧
    List.intercalate "->".data (split_str "a->b".data "->".data) = "a->b".data := by
  refine ⟨by decide, by decide, by decide, by decide, by decide, by decide⟩

section Minibatches

open paraphrase

theorem minibatchBody_snoc {α β : Type} (f : α → β) (m : Nat) (init : List (List β))
    (last : List β) (e : α) :
    minibatchBody f (m : Int) (init ++ [last]) e
      = if last.length = m then (init ++ [last]) ++ [[f e]] else init ++ [last ++ [f e]] := by
  unfold minibatchBody
  by_cases h : last.length = m
  · simp [h]
  · have h2 : ¬ ((last.length : Int) = (m : Int)) := by exact_mod_cast h
    simp [h, h2]

theorem minibatch_fold {α β : Type} (f : α → β) (m : Nat) (hm : 1 ≤ m) (examples : List α) :
    ∀ (init : List (List β)) (last : List β), (∀ b ∈ init, b.length = m) → last.length ≤ m →
      ∃ init1 last1,
        examples.foldl (minibatchBody f (m : Int)) (init ++ [last]) = init1 ++ [last1] ∧
        (∀ b ∈ init1, b.length = m) ∧ last1.length ≤ m ∧
        (examples ≠ [] → 1 ≤ last1.length) ∧ (examples = [] → last1 = last) ∧
        (init1 ++ [last1]).flatten = (init ++ [last]).flatten ++ examples.map f := by
  induction examples with
  | nil =>
    intro init last h1 h2
    exact ⟨init, last, rfl, h1, h2, fun h => absurd rfl h, fun _ => rfl, by simp⟩
  | cons e rest ih =>
    intro init last h1 h2
    rw [List.foldl_cons, minibatchBody_snoc]
    by_cases h : last.length = m
    · rw [if_pos h]
      obtain ⟨init1, last1, e1, e2, e3, e4, e5, e6⟩ := ih (init ++ [last]) [f e]
        (by
          intro b hb
          rcases List.mem_append.1 hb with hb | hb
          · exact h1 b hb
          · simp only [List.mem_singleton] at hb
            rw [hb]; exact h)
        (by simpa using hm)
      refine ⟨init1, last1, e1, e2, e3, ?_, fun hn => absurd hn (List.cons_ne_nil _ _), ?_⟩
      · intro _
        by_cases hr : rest = []
        · rw [e5 hr]; simp
        · exact e4 hr
      · rw [e6]; simp
    · rw [if_neg h]
      obtain ⟨init1, last1, e1, e2, e3, e4, e5, e6⟩ := ih init (last ++ [f e]) h1
        (by simp; omega)
      refine ⟨init1, last1, e1, e2, e3, ?_, fun hn => absurd hn (List.cons_ne_nil _ _), ?_⟩
      · intro _
        by_cases hr : rest = []
        · rw [e5 hr]; simp
        · exact e4 hr
      · rw [e6]; simp

theorem flatten_length_of_full {β : Type} (m : Nat) (init : List (List β)) (last : List β)
    (h : ∀ b ∈ init, b.length = m) :
    ((init ++ [last]).flatten).length = init.length * m + last.length := by
  induction init with
  | nil => simp
  | cons b init ih =>
    have hb : b.length = m := h b (List.mem_cons_self _ _)
    have := ih (fun c hc => h c (List.mem_cons_of_mem _ hc))
    simp only [List.cons_append, List.flatten_cons, List.length_append, List.length_cons] at this ⊢
    rw [this, hb]
    ring

theorem minibatches_spec {α β : Type} (f : α → β) (m : Nat) (hm : 1 ≤ m) (examples : List α) :
    examples.foldl (minibatchBody f (m : Int)) [[]] ≠ [] ∧
    (examples.foldl (minibatchBody f (m : Int)) [[]]).flatten = examples.map f ∧
    (∀ b ∈ examples.foldl (minibatchBody f (m : Int)) [[]], b.length ≤ m) ∧
    (∀ b ∈ (examples.foldl (minibatchBody f (m : Int)) [[]]).dropLast, b.length = m) ∧
    (examples.foldl (minibatchBody f (m : Int)) [[]]).length
      = max 1 ((examples.length + m - 1) / m) := by
  obtain ⟨init1, last1, e1, e2, e3, e4, e5, e6⟩ :=
    minibatch_fold f m hm examples [] [] (by simp) (by simp)
  simp only [List.nil_append] at e1 e6
  rw [e1]
  have hlen := flatten_length_of_full m init1 last1 e2
  rw [e6] at hlen
  simp only [List.flatten_cons, List.flatten_nil, List.append_nil, List.nil_append,
    List.length_map] at hlen
  refine ⟨by simp, by simpa using e6, ?_, ?_, ?_⟩
  · intro b hb
    rcases List.mem_append.1 hb with hb | hb
    · exact le_of_eq (e2 b hb)
    · simp only [List.mem_singleton] at hb
      rw [hb]; exact e3
  · rw [List.dropLast_concat]
    exact e2
  · rw [List.length_append, List.length_singleton]
    by_cases hn : examples = []
    · have h0 : examples.length = 0 := by simp [hn]
      have hi : init1.length * m = 0 := by omega
      have hi0 : init1.length = 0 := by
        rcases Nat.mul_eq_zero.1 hi with h | h
        · exact h
        · omega
      rw [hi0, h0]
      have : (0 + m - 1) / m = 0 := Nat.div_eq_of_lt (by omega)
      rw [this]
      rfl
    · have hl := e4 hn
      have hdiv : (examples.length + m - 1) / m = init1.length + 1 := by
        apply Nat.div_eq_of_lt_le
        · rw [hlen, Nat.add_mul]; omega
        · rw [hlen, Nat.add_mul, Nat.add_mul]; omega
      rw [hdiv]
      omega

end Minibatches

/-- C37. For every list of `n` examples and every `minibatch_size ≥ 1`, both
overloads of `convert_to_indexed_minibatches` return a non-empty list of
minibatches whose concatenation is the list of the encoded examples in their
order; every minibatch holds at most `minibatch_size` examples, every one but
the last exactly `minibatch_size`, and there are `max(1, ⌈n / minibatch_size⌉)`
minibatches. -/
theorem minibatches_partition_examples {σ : Type} (word_vocab_encode : σ → List Nat)
    (character_vocab_encode : σ → List Nat) (examples : List (σ × σ × R)) (m : Nat)
    (hm : 1 ≤ m) :
    (paraphrase.convert_to_indexed_minibatches word_vocab_encode examples (m : Int) ≠ [] ∧
      (paraphrase.convert_to_indexed_minibatches word_vocab_encode examples (m : Int)).flatten
        = examples.map (fun ex => (word_vocab_encode ex.1, word_vocab_encode ex.2.1, ex.2.2)) ∧
      (∀ b ∈ paraphrase.convert_to_indexed_minibatches word_vocab_encode examples (m : Int),
        b.length ≤ m) ∧
      (∀ b ∈ (paraphrase.convert_to_indexed_minibatches word_vocab_encode examples
          (m : Int)).dropLast, b.length = m) ∧
      (paraphrase.convert_to_indexed_minibatches word_vocab_encode examples (m : Int)).length
        = max 1 ((examples.length + m - 1) / m)) ∧
    (paraphrase.convert_to_indexed_minibatches_character character_vocab_encode examples
        (m : Int) ≠ [] ∧
      (paraphrase.convert_to_indexed_minibatches_character character_vocab_encode examples
          (m : Int)).flatten
        = examples.map
            (fun ex => (character_vocab_encode ex.1, character_vocab_encode ex.2.1, ex.2.2)) ∧
      (∀ b ∈ paraphrase.convert_to_indexed_minibatches_character character_vocab_encode
          examples (m : Int), b.length ≤ m) ∧
      (∀ b ∈ (paraphrase.convert_to_indexed_minibatches_character character_vocab_encode
          examples (m : Int)).dropLast, b.length = m) ∧
      (paraphrase.convert_to_indexed_minibatches_character character_vocab_encode examples
          (m : Int)).length
        = max 1 ((examples.length + m - 1) / m)) :=
  ⟨minibatches_spec (paraphrase.to_index_pair word_vocab_encode) m hm examples,
    minibatches_spec (paraphrase.to_index_pair character_vocab_encode) m hm examples⟩

theorem minibatches_partition_examples_witness :
    paraphrase.convert_to_indexed_minibatches (fun x : List Nat => x)
        [([1], [2], 0), ([3], [4], 1), ([5], [6], 2)] ((2 : Nat) : Int) ≠ [] ∧
    (paraphrase.convert_to_indexed_minibatches (fun x : List Nat => x)
        [([1], [2], 0), ([3], [4], 1), ([5], [6], 2)] ((2 : Nat) : Int)).length
      = max 1 (([([1], [2], (0 : R)), ([3], [4], 1), ([5], [6], 2)].length + 2 - 1) / 2) :=
  ⟨(minibatches_partition_examples (fun x : List Nat => x) (fun x : List Nat => x)
      [([1], [2], 0), ([3], [4], 1), ([5], [6], 2)] 2 (by decide)).1.1,
    (minibatches_partition_examples (fun x : List Nat => x) (fun x : List Nat => x)
      [([1], [2], 0), ([3], [4], 1), ([5], [6], 2)] 2 (by decide)).1.2.2.2.2⟩

section Padding

theorem split_padding (P : Int) (hP : 0 ≤ P) :
    (P.tmod 2 = 0 ∨ P.tmod 2 = 1) ∧ 2 * P.tdiv 2 + P.tmod 2 = P := by
  have h1 : 0 ≤ P.tmod 2 := Int.tmod_nonneg 2 hP
  have h2 : P.tmod 2 < 2 := Int.tmod_lt_of_pos P (by decide)
  exact ⟨by omega, Int.tdiv_add_tmod P 2⟩

end Padding

/-- C36. `function_info_helper` reads `batch_size`, `in_channels`, `in_h`,
`in_w` at the positions of `N`, `C`, `H`, `W` of the data format.  With
`PADDING_T_SAME`, `out_h = ⌈in_h / stride_h⌉` and, for
`P = max(0, (out_h − 1)·stride_h + window_h − in_h)`, `odd_padding_h` is `0` or
`1`, `2·padding_h + odd_padding_h = P` and
`in_h + P ≥ (out_h − 1)·stride_h + window_h`; with `PADDING_T_VALID`,
`out_h = ⌈(in_h − window_h + 1) / stride_h⌉` and both paddings are `0`; the
same holds for the `w` fields. -/
theorem function_info_padding (input_shape : List Int)
    (window_h window_w stride_h stride_w : Int) (mapping : DataFormatDimMapping) :
    (∃ info, function_info_helper input_shape window_h window_w stride_h stride_w
        .PADDING_T_SAME mapping = .ok info ∧
      info.batch_size = shapeAt input_shape mapping.n_dim ∧
      info.in_channels = shapeAt input_shape mapping.c_dim ∧
      info.in_h = shapeAt input_shape mapping.h_dim ∧
      info.in_w = shapeAt input_shape mapping.w_dim ∧
      info.out_h = Int.ceil ((info.in_h : ℚ) / (stride_h : ℚ)) ∧
      info.out_w = Int.ceil ((info.in_w : ℚ) / (stride_w : ℚ)) ∧
      (info.odd_padding_h = 0 ∨ info.odd_padding_h = 1) ∧
      (info.odd_padding_w = 0 ∨ info.odd_padding_w = 1) ∧
      2 * info.padding_h + info.odd_padding_h
        = max 0 ((info.out_h - 1) * stride_h + window_h - info.in_h) ∧
      2 * info.padding_w + info.odd_padding_w
        = max 0 ((info.out_w - 1) * stride_w + window_w - info.in_w) ∧
      info.in_h + (2 * info.padding_h + info.odd_padding_h)
        ≥ (info.out_h - 1) * stride_h + window_h ∧
      info.in_w + (2 * info.padding_w + info.odd_padding_w)
        ≥ (info.out_w - 1) * stride_w + window_w) ∧
    (∃ info, function_info_helper input_shape window_h window_w stride_h stride_w
        .PADDING_T_VALID mapping = .ok info ∧
      info.batch_size = shapeAt input_shape mapping.n_dim ∧
      info.in_channels = shapeAt input_shape mapping.c_dim ∧
      info.in_h = shapeAt input_shape mapping.h_dim ∧
      info.in_w = shapeAt input_shape mapping.w_dim ∧
      info.out_h = Int.ceil (((info.in_h - window_h + 1 : Int) : ℚ) / (stride_h : ℚ)) ∧
      info.out_w = Int.ceil (((info.in_w - window_w + 1 : Int) : ℚ) / (stride_w : ℚ)) ∧
      info.padding_h = 0 ∧ info.odd_padding_h = 0 ∧
      info.padding_w = 0 ∧ info.odd_padding_w = 0) ∧
    (∀ data_format : List Char, DataFormatDimMapping.new data_format = .ok mapping →
      shapeAt input_shape mapping.n_dim = input_shape.getD (data_format.indexOf 'N') 0 ∧
      shapeAt input_shape mapping.c_dim = input_shape.getD (data_format.indexOf 'C') 0 ∧
      shapeAt input_shape mapping.h_dim = input_shape.getD (data_format.indexOf 'H') 0 ∧
      shapeAt input_shape mapping.w_dim = input_shape.getD (data_format.indexOf 'W') 0 ∧
      data_format[data_format.indexOf 'N']? = some 'N' ∧
      data_format[data_format.indexOf 'C']? = some 'C' ∧
      data_format[data_format.indexOf 'H']? = some 'H' ∧
      data_format[data_format.indexOf 'W']? = some 'W') := by
  refine ⟨⟨_, rfl, rfl, rfl, rfl, rfl, rfl, rfl, ?_, ?_, ?_, ?_, ?_, ?_⟩,
    ⟨_, rfl, rfl, rfl, rfl, rfl, rfl, rfl, rfl, rfl, rfl, rfl⟩, ?_⟩
  · exact (split_padding _ (le_max_left _ _)).1
  · exact (split_padding _ (le_max_left _ _)).1
  · exact (split_padding _ (le_max_left _ _)).2
  · exact (split_padding _ (le_max_left _ _)).2
  · show _ + (2 * Int.tdiv _ 2 + Int.tmod _ 2) ≥ _
    rw [(split_padding _ (le_max_left _ _)).2]
    have := le_max_right (0 : Int)
      ((int_ceil (shapeAt input_shape mapping.h_dim) stride_h - 1) * stride_h + window_h
        - shapeAt input_shape mapping.h_dim)
    linarith
  · show _ + (2 * Int.tdiv _ 2 + Int.tmod _ 2) ≥ _
    rw [(split_padding _ (le_max_left _ _)).2]
    have := le_max_right (0 : Int)
      ((int_ceil (shapeAt input_shape mapping.w_dim) stride_w - 1) * stride_w + window_w
        - shapeAt input_shape mapping.w_dim)
    linarith
  · intro data_format hm
    obtain ⟨h1, h2, h3, h4, h5⟩ := (new_ok_iff data_format).1 ⟨mapping, hm⟩
    obtain ⟨a1, _, a3⟩ := string_find_of_mem data_format 'N' h1
    obtain ⟨b1, _, b3⟩ := string_find_of_mem data_format 'C' h2
    obtain ⟨c1, _, c3⟩ := string_find_of_mem data_format 'H' h3
    obtain ⟨d1, _, d3⟩ := string_find_of_mem data_format 'W' h4
    have hmap : mapping = ⟨some (data_format.indexOf 'N'), some (data_format.indexOf 'C'),
        some (data_format.indexOf 'H'), some (data_format.indexOf 'W')⟩ := by
      unfold DataFormatDimMapping.new assert2 at hm
      simp only [string_find_ne_none, h1, h2, h3, h4, h5, and_self, decide_True, if_true,
        a1, b1, c1, d1] at hm
      exact (Except.ok.inj hm).symm
    subst hmap
    exact ⟨rfl, rfl, rfl, rfl, a3, b3, c3, d3⟩

/-- C34. `Binary::eltmul_rowwise`, `Binary::eltmul_broadcast_rowwise` and
`Binary::eltdivide_broadcast_reversed` on two tensors are stubs: for all
operands they return, without an error and without a change of the tape, a new
`1 × 1` tensor, and the result and the state after the call are the same for
any other pair of operands; `Binary::eltdivide(A, B)` with `A` of exactly one
row and a number of columns other than that of `B` is the stub
`eltdivide_broadcast_reversed(B, A)`. -/
theorem binary_stubs_return_one_by_one (zeroed : Bool) (div_grad : R → R → R)
    (A B A1 B1 : Mat) (s : TensorState) :
    ((Binary.eltmul_rowwise zeroed A B s).1 = .ok ⟨s.mem.next_addr, s.mem.next_addr, false⟩ ∧
      (Binary.eltmul_rowwise zeroed A B s).2.tape = s.tape ∧
      ((Binary.eltmul_rowwise zeroed A B s).2.mem.w s.mem.next_addr).rows = 1 ∧
      ((Binary.eltmul_rowwise zeroed A B s).2.mem.w s.mem.next_addr).cols = 1 ∧
      Binary.eltmul_rowwise zeroed A B s = Binary.eltmul_rowwise zeroed A1 B1 s) ∧
    ((Binary.eltmul_broadcast_rowwise zeroed A B s).1
        = .ok ⟨s.mem.next_addr, s.mem.next_addr, false⟩ ∧
      (Binary.eltmul_broadcast_rowwise zeroed A B s).2.tape = s.tape ∧
      ((Binary.eltmul_broadcast_rowwise zeroed A B s).2.mem.w s.mem.next_addr).rows = 1 ∧
      ((Binary.eltmul_broadcast_rowwise zeroed A B s).2.mem.w s.mem.next_addr).cols = 1 ∧
      Binary.eltmul_broadcast_rowwise zeroed A B s
        = Binary.eltmul_broadcast_rowwise zeroed A1 B1 s) ∧
    ((Binary.eltdivide_broadcast_reversed zeroed A B s).1
        = .ok ⟨s.mem.next_addr, s.mem.next_addr, false⟩ ∧
      (Binary.eltdivide_broadcast_reversed zeroed A B s).2.tape = s.tape ∧
      ((Binary.eltdivide_broadcast_reversed zeroed A B s).2.mem.w s.mem.next_addr).rows = 1 ∧
      ((Binary.eltdivide_broadcast_reversed zeroed A B s).2.mem.w s.mem.next_addr).cols = 1 ∧
      Binary.eltdivide_broadcast_reversed zeroed A B s
        = Binary.eltdivide_broadcast_reversed zeroed A1 B1 s) ∧
    ((s.mem.w A.m).rows = 1 → (s.mem.w A.m).cols ≠ (s.mem.w B.m).cols →
      Binary.eltdivide zeroed div_grad A B s = Binary.eltdivide_broadcast_reversed zeroed B A s ∧
      (Binary.eltdivide zeroed div_grad A B s).1
        = .ok ⟨s.mem.next_addr, s.mem.next_addr, false⟩ ∧
      (Binary.eltdivide zeroed div_grad A B s).2.tape = s.tape ∧
      ((Binary.eltdivide zeroed div_grad A B s).2.mem.w s.mem.next_addr).rows = 1 ∧
      ((Binary.eltdivide zeroed div_grad A B s).2.mem.w s.mem.next_addr).cols = 1) := by
  have hnew : ((Mat.new 1 1 zeroed s.mem).2.w s.mem.next_addr).rows = 1 ∧
      ((Mat.new 1 1 zeroed s.mem).2.w s.mem.next_addr).cols = 1 := by
    cases zeroed <;> simp [Mat.new, EigenMat.Zero]
  refine ⟨⟨rfl, rfl, hnew.1, hnew.2, rfl⟩, ⟨rfl, rfl, hnew.1, hnew.2, rfl⟩,
    ⟨rfl, rfl, hnew.1, hnew.2, rfl⟩, ?_⟩
  intro h1 h2
  have he : Binary.eltdivide zeroed div_grad A B s
      = Binary.eltdivide_broadcast_reversed zeroed B A s := by
    simp [Binary.eltdivide, h1, h2]
  rw [he]
  exact ⟨rfl, rfl, rfl, hnew.1, hnew.2⟩

/-- C33. (CUDA build) The copy constructor of `SynchronizedMemory` keeps the
shape and the preferred device of the source.  From a source with a fresh
location, exactly the preferred location of the copy is allocated and fresh,
and it holds the data of the source (of its CPU buffer when `cpu_fresh` is
set, otherwise of its GPU buffer); the other location is neither allocated nor
fresh; the source is unchanged.  From a source with no fresh location nothing
is allocated and both flags of the copy are false. -/
theorem copy_constructor_fills_preferred_location (other : SynchronizedMemory)
    (cpu0 gpu0 : Nat → R) :
    ((SynchronizedMemory.copy other cpu0 gpu0).1.mem_cpu.shape_ = other.mem_cpu.shape_ ∧
      (SynchronizedMemory.copy other cpu0 gpu0).1.mem_gpu.shape_ = other.mem_gpu.shape_ ∧
      (SynchronizedMemory.copy other cpu0 gpu0).1.preferred_device = other.preferred_device ∧
      (SynchronizedMemory.copy other cpu0 gpu0).2 = other) ∧
    ((other.cpu_fresh = true ∨ other.gpu_fresh = true) →
      other.preferred_device = .DEVICE_CPU →
      (SynchronizedMemory.copy other cpu0 gpu0).1.allocated_cpu = true ∧
      (SynchronizedMemory.copy other cpu0 gpu0).1.cpu_fresh = true ∧
      (SynchronizedMemory.copy other cpu0 gpu0).1.allocated_gpu = false ∧
      (SynchronizedMemory.copy other cpu0 gpu0).1.gpu_fresh = false ∧
      (SynchronizedMemory.copy other cpu0 gpu0).1.mem_cpu.dptr_
        = (if other.cpu_fresh then other.mem_cpu.dptr_ else other.mem_gpu.dptr_) ∧
      (SynchronizedMemory.copy other cpu0 gpu0).1.calls
        = [Call.AllocSpace .cpu, Call.Copy .cpu]) ∧
    ((other.cpu_fresh = true ∨ other.gpu_fresh = true) →
      other.preferred_device = .DEVICE_GPU →
      (SynchronizedMemory.copy other cpu0 gpu0).1.allocated_gpu = true ∧
      (SynchronizedMemory.copy other cpu0 gpu0).1.gpu_fresh = true ∧
      (SynchronizedMemory.copy other cpu0 gpu0).1.allocated_cpu = false ∧
      (SynchronizedMemory.copy other cpu0 gpu0).1.cpu_fresh = false ∧
      (SynchronizedMemory.copy other cpu0 gpu0).1.mem_gpu.dptr_
        = (if other.cpu_fresh then other.mem_cpu.dptr_ else other.mem_gpu.dptr_) ∧
      (SynchronizedMemory.copy other cpu0 gpu0).1.calls
        = [Call.AllocSpace .gpu, Call.Copy .gpu]) ∧
    (other.cpu_fresh = false → other.gpu_fresh = false →
      (SynchronizedMemory.copy other cpu0 gpu0).1.allocated_cpu = false ∧
      (SynchronizedMemory.copy other cpu0 gpu0).1.allocated_gpu = false ∧
      (SynchronizedMemory.copy other cpu0 gpu0).1.cpu_fresh = false ∧
      (SynchronizedMemory.copy other cpu0 gpu0).1.gpu_fresh = false ∧
      (SynchronizedMemory.copy other cpu0 gpu0).1.calls = []) := by
  refine ⟨?_, ?_, ?_, ?_⟩
  · cases hc : other.cpu_fresh <;> cases hg : other.gpu_fresh <;>
      cases hp : other.preferred_device <;>
      simp [SynchronizedMemory.copy, SynchronizedMemory.copy_data_from,
        SynchronizedMemory.prefers_cpu, SynchronizedMemory.cpu_data,
        SynchronizedMemory.gpu_data, SynchronizedMemory.to_cpu, SynchronizedMemory.to_gpu,
        Copy, hc, hg, hp]
  · intro hf hp
    cases hc : other.cpu_fresh <;> cases hg : other.gpu_fresh <;>
      simp [hc, hg] at hf <;>
      simp [SynchronizedMemory.copy, SynchronizedMemory.copy_data_from,
        SynchronizedMemory.prefers_cpu, SynchronizedMemory.cpu_data,
        SynchronizedMemory.gpu_data, SynchronizedMemory.to_cpu, SynchronizedMemory.to_gpu,
        Copy, hc, hg, hp]
  · intro hf hp
    cases hc : other.cpu_fresh <;> cases hg : other.gpu_fresh <;>
      simp [hc, hg] at hf <;>
      simp [SynchronizedMemory.copy, SynchronizedMemory.copy_data_from,
        SynchronizedMemory.prefers_cpu, SynchronizedMemory.cpu_data,
        SynchronizedMemory.gpu_data, SynchronizedMemory.to_cpu, SynchronizedMemory.to_gpu,
        Copy, hc, hg, hp]
  · intro hc hg
    simp [SynchronizedMemory.copy, hc, hg]

section ClipIdentity

theorem clamp_eq_self (x V : R) (h : |x| ≤ V) : max (min x V) (-V) = x := by
  rw [abs_le] at h
  rw [min_eq_left h.2, max_eq_left h.1]

theorem agreesWithin_refl (V : R) (st : Stmt) : Stmt.AgreesWithin V st st :=
  ⟨rfl, fun _ _ _ _ => rfl⟩

theorem agreesWithin_addAssign (V : R) (lhs : Target) (e : EigenMat → EigenMat) :
    Stmt.AgreesWithin V (Stmt.addAssign lhs e) (Stmt.addAssign lhs (fun dout => CLIP (e dout) V)) := by
  refine ⟨rfl, fun dout i j h => ?_⟩
  simp only [Stmt.addAssign, CLIP_coeff] at h ⊢
  exact clamp_eq_self _ _ h

theorem agreesWithin_subAssign (V : R) (lhs : Target) (e : EigenMat → EigenMat) :
    Stmt.AgreesWithin V (Stmt.subAssign lhs e) (Stmt.subAssign lhs (fun dout => CLIP (e dout) V)) := by
  refine ⟨rfl, fun dout i j h => ?_⟩
  simp only [Stmt.subAssign, CLIP_coeff, abs_neg] at h ⊢
  rw [clamp_eq_self _ _ h]

theorem agreesWithin_rowAddAssign (V : R) (lhs : Target) (r : Nat) (e : EigenMat → EigenMat) :
    Stmt.AgreesWithin V (Stmt.rowAddAssign lhs r e)
      (Stmt.rowAddAssign lhs r (fun dout => CLIP (e dout) V)) := by
  refine ⟨rfl, fun dout i j h => ?_⟩
  simp only [Stmt.rowAddAssign, CLIP_coeff] at h ⊢
  by_cases hi : i = r
  · rw [if_pos hi] at h
    rw [if_pos hi, if_pos hi]
    exact clamp_eq_self _ _ h
  · rw [if_neg hi, if_neg hi]

theorem exec_agreesWithin (V : R) (out : Mat) (st st' : Stmt) (s : State)
    (h : Stmt.AgreesWithin V st st') (hb : ∀ i j, |st.inc (s.dw out.g) i j| ≤ V) :
    st'.exec out s = st.exec out s := by
  obtain ⟨hl, hi⟩ := h
  have hinc : ∀ i j, st'.inc (s.dw out.g) i j = st.inc (s.dw out.g) i j :=
    fun i j => hi _ i j (hb i j)
  unfold Stmt.exec Stmt.active
  rw [hl]
  have : (fun i j => (s.dw st.lhs.x.g).coeff i j + st'.inc (s.dw out.g) i j)
      = (fun i j => (s.dw st.lhs.x.g).coeff i j + st.inc (s.dw out.g) i j) := by
    funext i j
    rw [hinc]
  rw [this]

theorem foldl_agreesWithin (V : R) (out : Mat) (L L' : List Stmt)
    (h : List.Forall₂ (Stmt.AgreesWithin V) L L') :
    ∀ s : State, Stmt.BoundedRun V out L s →
      L'.foldl (fun t st => st.exec out t) s = L.foldl (fun t st => st.exec out t) s := by
  induction h with
  | nil => intro s _; rfl
  | cons hst _ ih =>
    intro s hb
    simp only [List.foldl_cons]
    rw [exec_agreesWithin V out _ _ s hst hb.1]
    exact ih _ hb.2

theorem forall₂_with1 (P : Stmt → Stmt → Prop) (ms : List Mat) (k k' : Mat → List Stmt)
    (h : ∀ m0, List.Forall₂ P (k m0) (k' m0)) :
    List.Forall₂ P (Backward.with1 ms k) (Backward.with1 ms k') := by
  unfold Backward.with1
  split
  · exact h _
  · exact .nil

theorem forall₂_with2 (P : Stmt → Stmt → Prop) (ms : List Mat) (k k' : Mat → Mat → List Stmt)
    (h : ∀ m0 m1, List.Forall₂ P (k m0 m1) (k' m0 m1)) :
    List.Forall₂ P (Backward.with2 ms k) (Backward.with2 ms k') := by
  unfold Backward.with2
  split
  · exact h _ _
  · exact .nil

theorem forall₂_with3 (P : Stmt → Stmt → Prop) (ms : List Mat)
    (k k' : Mat → Mat → Mat → List Stmt)
    (h : ∀ m0 m1 m2, List.Forall₂ P (k m0 m1 m2) (k' m0 m1 m2)) :
    List.Forall₂ P (Backward.with3 ms k) (Backward.with3 ms k') := by
  unfold Backward.with3
  split
  · exact h _ _ _
  · exact .nil

theorem forall₂_with5 (P : Stmt → Stmt → Prop) (ms : List Mat)
    (k k' : Mat → Mat → Mat → Mat → Mat → List Stmt)
    (h : ∀ m0 m1 m2 m3 m4, List.Forall₂ P (k m0 m1 m2 m3 m4) (k' m0 m1 m2 m3 m4)) :
    List.Forall₂ P (Backward.with5 ms k) (Backward.with5 ms k') := by
  unfold Backward.with5
  split
  · exact h _ _ _ _ _
  · exact .nil

theorem forall₂_map_same (P : Stmt → Stmt → Prop) {α : Type} (g g' : α → Stmt)
    (h : ∀ a, P (g a) (g' a)) : ∀ l : List α, List.Forall₂ P (l.map g) (l.map g')
  | [] => .nil
  | a :: l => .cons (h a) (forall₂_map_same P g g' h l)

theorem mulPair_agreesWithin (V : R) (w : Nat → EigenMat) :
    ∀ ms : List Mat, List.Forall₂ (Stmt.AgreesWithin V) (Backward.mulPairStmts w ms)
      (Backward.mulPairStmtsClip w V ms)
  | [] => .nil
  | [_] => .nil
  | _ :: _ :: rest =>
    .cons (agreesWithin_addAssign V _ _)
      (.cons (agreesWithin_addAssign V _ _) (mulPair_agreesWithin V w rest))

theorem rule_agreesWithin (hdr : Header) (f : Scalars) (w : Nat → EigenMat) (b : Backward)
    (V : R) (L : List Stmt) (h : b.rule hdr f w = some L) :
    ∃ L', b.ruleClip hdr f w V = some L' ∧ List.Forall₂ (Stmt.AgreesWithin V) L L' := by
  unfold Backward.rule at h
  unfold Backward.ruleClip
  cases ht : ops.ofType hdr.code b.type with
  | none => rw [ht] at h; cases h
  | some t =>
    rw [ht] at h
    cases t <;> simp only [Option.some.injEq] at h <;> subst h <;>
      refine ⟨_, rfl, ?_⟩
    case add => exact forall₂_map_same _ _ _ (fun m => agreesWithin_addAssign V _ _) _
    case sub =>
      exact forall₂_with2 _ _ _ _ (fun m0 m1 =>
        .cons (agreesWithin_addAssign V _ _) (.cons (agreesWithin_subAssign V _ _) .nil))
    case add_broadcast =>
      exact forall₂_with2 _ _ _ _ (fun m0 m1 =>
        .cons (agreesWithin_addAssign V _ _) (.cons (agreesWithin_addAssign V _ _) .nil))
    case sub_broadcast =>
      exact forall₂_with2 _ _ _ _ (fun m0 m1 =>
        .cons (agreesWithin_addAssign V _ _) (.cons (agreesWithin_subAssign V _ _) .nil))
    case sub_broadcast_reversed =>
      exact forall₂_with2 _ _ _ _ (fun m0 m1 =>
        .cons (agreesWithin_subAssign V _ _) (.cons (agreesWithin_addAssign V _ _) .nil))
    case eltmul =>
      exact forall₂_with2 _ _ _ _ (fun m0 m1 =>
        .cons (agreesWithin_addAssign V _ _) (.cons (agreesWithin_addAssign V _ _) .nil))
    case eltmul_rowwise =>
      exact forall₂_with2 _ _ _ _ (fun m0 m1 =>
        .cons (agreesWithin_addAssign V _ _) (.cons (agreesWithin_addAssign V _ _) .nil))
    case eltmul_broadcast =>
      exact forall₂_with2 _ _ _ _ (fun m0 m1 =>
        .cons (agreesWithin_addAssign V _ _) (.cons (agreesWithin_addAssign V _ _) .nil))
    case eltmul_broadcast_rowwise =>
      exact forall₂_with2 _ _ _ _ (fun m0 m1 =>
        .cons (agreesWithin_addAssign V _ _) (.cons (agreesWithin_addAssign V _ _) .nil))
    case square =>
      exact forall₂_with1 _ _ _ _ (fun m0 => .cons (agreesWithin_addAssign V _ _) .nil)
    case sigmoid =>
      exact forall₂_with1 _ _ _ _ (fun m0 => .cons (agreesWithin_addAssign V _ _) .nil)
    case mul =>
      exact forall₂_with2 _ _ _ _ (fun m0 m1 =>
        .cons (agreesWithin_addAssign V _ _) (.cons (agreesWithin_addAssign V _ _) .nil))
    case relu =>
      exact forall₂_with1 _ _ _ _ (fun m0 => .cons (agreesWithin_addAssign V _ _) .nil)
    case tanh =>
      exact forall₂_with1 _ _ _ _ (fun m0 => .cons (agreesWithin_addAssign V _ _) .nil)
    case row_pluck =>
      exact forall₂_with1 _ _ _ _ (fun m0 => .cons (agreesWithin_rowAddAssign V _ _ _) .nil)
    case rows_pluck =>
      unfold Backward.rowsPluckStmts Backward.rowsPluckStmtsClip
      cases b.matrices with
      | nil => exact .nil
      | cons x _ =>
        exact forall₂_map_same _ _ _ (fun i => agreesWithin_rowAddAssign V _ _ _) _
    case mul_with_bias =>
      exact forall₂_with3 _ _ _ _ (fun m0 m1 m2 =>
        .cons (agreesWithin_addAssign V _ _) (.cons (agreesWithin_addAssign V _ _)
          (.cons (agreesWithin_addAssign V _ _) .nil)))
    case mul_add_mul_with_bias =>
      unfold Backward.mulAddMulWithBiasStmts Backward.mulAddMulWithBiasStmtsClip
      refine List.rel_append ?_ (mulPair_agreesWithin V w _)
      cases b.matrices.getLast? with
      | none => exact .nil
      | some bias => exact .cons (agreesWithin_addAssign V _ _) .nil
    case mul_add_broadcast_mul_with_bias =>
      exact forall₂_with5 _ _ _ _ (fun m0 m1 m2 m3 m4 =>
        .cons (agreesWithin_addAssign V _ _) (.cons (agreesWithin_addAssign V _ _)
          (.cons (agreesWithin_addAssign V _ _) (.cons (agreesWithin_addAssign V _ _)
            (.cons (agreesWithin_addAssign V _ _) .nil)))))
    case transpose =>
      exact forall₂_with1 _ _ _ _ (fun m0 => .cons (agreesWithin_addAssign V _ _) .nil)
    case sum =>
      exact forall₂_with1 _ _ _ _ (fun m0 => .cons (agreesWithin_refl V _) .nil)
    case mean =>
      exact forall₂_with1 _ _ _ _ (fun m0 => .cons (agreesWithin_refl V _) .nil)

theorem operator_call_clip_eq (hdr : Header) (f : Scalars) (b : Backward) (V : R) (s : State)
    (hb : ∀ L, b.rule hdr f s.w = some L → Stmt.BoundedRun V b.out L s) :
    b.operator_call_clip hdr f V s = b.operator_call hdr f s := by
  unfold Backward.operator_call_clip Backward.operator_call
  cases hr : b.rule hdr f s.w with
  | none =>
    have := (ruleClip_eq_none_iff hdr f s.w b V).2 ((rule_eq_none_iff hdr f s.w b).1 hr)
    rw [this]
  | some L =>
    obtain ⟨L', hL', hrel⟩ := rule_agreesWithin hdr f s.w b V L hr
    rw [hL']
    simp only
    rw [foldl_agreesWithin V b.out L L' hrel s (hb L hr)]

end ClipIdentity

/-- C31. For `clip_val ≥ 0`, `CLIP(X, clip_val)` has the shape of `X` and its
coefficients are those of `X` clamped to `[-clip_val, clip_val]`; it returns
`X` when every coefficient of `X` is within the bounds, and it is idempotent.
For every record (whatever its tag) and every state in which each contribution
of the unclipped rule, taken when its statement runs, has every coefficient
within the bounds, `operator()(clip_val)` returns the same result and leaves
the same state (the same gradients) as `operator()()`. -/
theorem clip_is_identity_on_small_contributions (clip_val : R) (hV : 0 ≤ clip_val) :
    (∀ X : EigenMat, (CLIP X clip_val).rows = X.rows ∧ (CLIP X clip_val).cols = X.cols ∧
      ∀ i j, (CLIP X clip_val).coeff i j = max (min (X.coeff i j) clip_val) (-clip_val) ∧
        -clip_val ≤ (CLIP X clip_val).coeff i j ∧ (CLIP X clip_val).coeff i j ≤ clip_val) ∧
    (∀ X : EigenMat, (∀ i j, |X.coeff i j| ≤ clip_val) → CLIP X clip_val = X) ∧
    (∀ X : EigenMat, CLIP (CLIP X clip_val) clip_val = CLIP X clip_val) ∧
    (∀ (hdr : Header) (f : Scalars) (b : Backward) (s : State),
      (∀ L, b.rule hdr f s.w = some L → Stmt.BoundedRun clip_val b.out L s) →
      b.operator_call_clip hdr f clip_val s = b.operator_call hdr f s) := by
  refine ⟨fun X => ⟨rfl, rfl, fun i j => ⟨rfl, ?_, ?_⟩⟩, fun X h => ?_, fun X => ?_,
    fun hdr f b s hb => operator_call_clip_eq hdr f b clip_val s hb⟩
  · exact (abs_le.1 (abs_clip_le _ _ hV)).1
  · exact (abs_le.1 (abs_clip_le _ _ hV)).2
  · exact eigenMat_ext _ _ rfl rfl (fun i j => clamp_eq_self _ _ (h i j))
  · exact eigenMat_ext _ _ rfl rfl
      (fun i j => clamp_eq_self _ _ (abs_clip_le _ _ hV))

theorem clip_is_identity_on_small_contributions_witness :
    (0 : R) ≤ 1 ∧
    CLIP ⟨2, 2, fun _ _ => 1 / 2⟩ 1 = (⟨2, 2, fun _ _ => 1 / 2⟩ : EigenMat) ∧
    (clipRecord .add).operator_call_clip exampleHeader exampleScalars 1 smallState
      = (clipRecord .add).operator_call exampleHeader exampleScalars smallState :=
  ⟨by norm_num,
    (clip_is_identity_on_small_contributions 1 (by norm_num)).2.1 _
      (fun _ _ => by
        show |(1 / 2 : R)| ≤ 1
        rw [abs_le]
        constructor <;> norm_num),
    (clip_is_identity_on_small_contributions 1 (by norm_num)).2.2.2 exampleHeader
      exampleScalars (clipRecord .add) smallState
      (fun L hL => by
        simp only [Backward.rule, clipRecord, exampleHeader_ofType, Option.some.injEq] at hL
        subst hL
        simp only [List.map_cons, List.map_nil, Stmt.BoundedRun, and_true]
        intro i j
        show |(1 / 2 : R)| ≤ 1
        rw [abs_le]
        constructor <;> norm_num)⟩

section PairLoop

theorem pairsOf_length : ∀ L : List Mat, (pairsOf L).length = L.length / 2
  | [] => rfl
  | [_] => by simp [pairsOf]
  | _ :: _ :: rest => by
    simp only [pairsOf, List.length_cons, pairsOf_length rest]
    omega

theorem pairsOf_getElem? : ∀ (L : List Mat) (i : Nat) (p : Mat × Mat),
    (pairsOf L)[i]? = some p ↔ L[2 * i]? = some p.1 ∧ L[2 * i + 1]? = some p.2
  | [], i, p => by simp [pairsOf]
  | [x], i, p => by
    simp only [pairsOf, List.getElem?_nil]
    constructor
    · intro h
      cases h
    · rintro ⟨_, h⟩
      simp at h
  | a :: b :: rest, 0, p => by
    simp only [pairsOf, List.getElem?_cons_zero, Option.some.injEq, Nat.mul_zero,
      Nat.zero_add, List.getElem?_cons_succ]
    constructor
    · rintro rfl
      exact ⟨rfl, rfl⟩
    · rintro ⟨h1, h2⟩
      exact Prod.ext h1 h2
  | a :: b :: rest, i + 1, p => by
    have h := pairsOf_getElem? rest i p
    have e1 : 2 * (i + 1) = (2 * i + 1) + 1 := by ring
    have e2 : 2 * (i + 1) + 1 = (2 * i + 1 + 1) + 1 := by ring
    simp only [pairsOf, List.getElem?_cons_succ, e1]
    exact h

theorem getElem?_append_length (pre : List Mat) (a : Mat) (r : List Mat) :
    (pre ++ a :: r)[pre.length]? = some a := by
  rw [List.getElem?_append_right (le_refl _)]
  simp

theorem getElem?_append_length_succ (pre : List Mat) (a b : Mat) (r : List Mat) :
    (pre ++ a :: b :: r)[pre.length + 1]? = some b := by
  rw [List.getElem?_append_right (Nat.le_succ _)]
  simp

theorem getElem?_append_nil_length (pre : List Mat) : (pre ++ ([] : List Mat))[pre.length]? = none := by
  simp

theorem pairLoop_step {σ : Type} (body : Mat → Mat → σ → σ) (pre : List Mat) (a b : Mat)
    (r : List Mat) (fuel : Nat) (s : σ) :
    pairLoop (pre ++ a :: b :: r) body (fuel + 1) pre.length s
      = pairLoop ((pre ++ [a, b]) ++ r) body fuel (pre ++ [a, b]).length (body a b s) := by
  have hne : ¬ ((pre.length : Int) = ((pre ++ a :: b :: r).length : Int) - 1) := by
    simp only [List.length_append, List.length_cons]
    push_cast
    omega
  rw [pairLoop, if_neg hne, getElem?_append_length, getElem?_append_length_succ]
  simp only [List.append_assoc, List.cons_append, List.nil_append, List.length_append,
    List.length_cons, List.length_nil]

theorem pairLoop_last {σ : Type} (body : Mat → Mat → σ → σ) (pre : List Mat) (x : Mat)
    (fuel : Nat) (s : σ) :
    pairLoop (pre ++ [x]) body (fuel + 1) pre.length s = .exit s := by
  have h : (pre.length : Int) = ((pre ++ [x]).length : Int) - 1 := by
    simp only [List.length_append, List.length_cons, List.length_nil]
    push_cast
    omega
  rw [pairLoop, if_pos h]

theorem pairLoop_end {σ : Type} (body : Mat → Mat → σ → σ) (pre : List Mat)
    (fuel : Nat) (s : σ) :
    pairLoop (pre ++ []) body (fuel + 1) pre.length s = .pastEnd pre.length s := by
  have hne : ¬ ((pre.length : Int) = ((pre ++ ([] : List Mat)).length : Int) - 1) := by
    simp only [List.length_append, List.length_nil]
    push_cast
    omega
  rw [pairLoop, if_neg hne, getElem?_append_nil_length]

/-- With enough iterations the loop started at the end of `pre` runs its body on
the pairs of the rest in order; it is then left when the rest has odd length,
and reads past the end otherwise. -/
theorem pairLoop_spec {σ : Type} (body : Mat → Mat → σ → σ) :
    ∀ (rest pre : List Mat) (fuel : Nat) (s : σ), (pairsOf rest).length < fuel →
      pairLoop (pre ++ rest) body fuel pre.length s
        = if rest.length % 2 = 1 then
            .exit ((pairsOf rest).foldl (fun t p => body p.1 p.2 t) s)
          else .pastEnd (pre.length + rest.length)
            ((pairsOf rest).foldl (fun t p => body p.1 p.2 t) s)
  | [], pre, fuel, s, h => by
    obtain ⟨k, rfl⟩ : ∃ k, fuel = k + 1 := ⟨fuel - 1, by omega⟩
    rw [pairLoop_end]
    simp [pairsOf]
  | [x], pre, fuel, s, h => by
    obtain ⟨k, rfl⟩ : ∃ k, fuel = k + 1 := ⟨fuel - 1, by omega⟩
    rw [pairLoop_last]
    simp [pairsOf]
  | a :: b :: r, pre, fuel, s, h => by
    obtain ⟨k, rfl⟩ : ∃ k, fuel = k + 1 := ⟨fuel - 1, by omega⟩
    simp only [pairsOf, List.length_cons] at h
    rw [pairLoop_step, pairLoop_spec body r (pre ++ [a, b]) k (body a b s) (by omega)]
    have hp : (r.length + 1 + 1) % 2 = r.length % 2 := by omega
    simp only [pairsOf, List.foldl_cons, List.length_cons, hp, List.length_append,
      List.length_nil]
    have hl : pre.length + (0 + 1 + 1) + r.length = pre.length + (r.length + 1 + 1) := by omega
    rw [hl]

/-- After `fuel` iterations, at most as many as there are pairs, the pointer has
advanced by `2 * fuel` and the body has run on the first `fuel` pairs. -/
theorem pairLoop_running {σ : Type} (body : Mat → Mat → σ → σ) :
    ∀ (rest pre : List Mat) (fuel : Nat) (s : σ), fuel ≤ (pairsOf rest).length →
      pairLoop (pre ++ rest) body fuel pre.length s
        = .running (pre.length + 2 * fuel)
            (((pairsOf rest).take fuel).foldl (fun t p => body p.1 p.2 t) s)
  | rest, pre, 0, s, _ => by simp [pairLoop]
  | [], pre, k + 1, s, h => by simp [pairsOf] at h
  | [x], pre, k + 1, s, h => by simp [pairsOf] at h
  | a :: b :: r, pre, k + 1, s, h => by
    simp only [pairsOf, List.length_cons] at h
    rw [pairLoop_step, pairLoop_running body r (pre ++ [a, b]) k (body a b s) (by omega)]
    simp only [pairsOf, List.take_succ_cons, List.foldl_cons, List.length_append,
      List.length_cons, List.length_nil]
    have hl : pre.length + (0 + 1 + 1) + 2 * k = pre.length + 2 * (k + 1) := by omega
    rw [hl]

/-- On a rest of even length the loop is never left, whatever the number of
iterations. -/
theorem pairLoop_even_no_exit {σ : Type} (body : Mat → Mat → σ → σ) :
    ∀ (rest pre : List Mat) (fuel : Nat) (s : σ), rest.length % 2 = 0 →
      ∀ t, pairLoop (pre ++ rest) body fuel pre.length s ≠ .exit t
  | rest, pre, 0, s, _ => by simp [pairLoop]
  | [], pre, k + 1, s, _ => by
    rw [pairLoop_end]
    simp
  | [x], pre, k + 1, s, h => by simp at h
  | a :: b :: r, pre, k + 1, s, h => by
    rw [pairLoop_step]
    exact pairLoop_even_no_exit body r (pre ++ [a, b]) k (body a b s)
      (by simp only [List.length_cons] at h; omega)

theorem getLast?_eq_getElem?_pred (L : List Mat) : L[L.length - 1]? = L.getLast? := by
  rw [List.getLast?_eq_getElem?]

theorem getLast?_cons_cons (a b : Mat) (r : List Mat) :
    (a :: b :: r).getLast? = (b :: r).getLast? := by
  simp [List.getLast?_cons_cons]

theorem odd_getLast (L : List Mat) (h : L.length % 2 = 1) : ∃ bias, L.getLast? = some bias := by
  cases L with
  | nil => simp at h
  | cons a r => exact ⟨_, List.getLast?_eq_getLast _ (List.cons_ne_nil _ _)⟩

/-- The structural form of the forward loop on a list of odd length: the body on
the pairs in order, then the bias. -/
theorem mulAddMulFill_odd (out : Mat) :
    ∀ (L : List Mat) (s : State) (bias : Mat), L.length % 2 = 1 → L.getLast? = some bias →
      MatOps.mulAddMulFill out L s
        = .ok (((pairsOf L).foldl (fun t p => MatOps.mulAddMulBody out p.1 p.2 t) s).assign out
            ((((pairsOf L).foldl (fun t p => MatOps.mulAddMulBody out p.1 p.2 t) s).w
                out.m).colwiseAdd
              (((pairsOf L).foldl (fun t p => MatOps.mulAddMulBody out p.1 p.2 t) s).w bias.m)))
  | [], s, bias, h, _ => by simp at h
  | [x], s, bias, _, hb => by
    simp only [List.getLast?_singleton, Option.some.injEq] at hb
    subst hb
    simp [MatOps.mulAddMulFill, pairsOf]
  | a :: b :: r, s, bias, h, hb => by
    rw [getLast?_cons_cons] at hb
    have hr : r.length % 2 = 1 := by simp only [List.length_cons] at h; omega
    cases r with
    | nil => simp at hr
    | cons c r =>
      rw [getLast?_cons_cons] at hb
      have hb' : (c :: r).getLast? = some bias := by
        cases r with
        | nil => simpa using hb
        | cons d r => rw [getLast?_cons_cons]; exact hb
      rw [MatOps.mulAddMulFill, mulAddMulFill_odd out (c :: r) _ bias hr hb']
      simp only [pairsOf, List.foldl_cons, MatOps.mulAddMulBody]

theorem mulAddMulFill_even (out : Mat) :
    ∀ (L : List Mat) (s : State), L.length % 2 = 0 →
      MatOps.mulAddMulFill out L s = .error "read past the end of the vector"
  | [], s, _ => rfl
  | [x], s, h => by simp at h
  | a :: b :: r, s, h => by
    rw [MatOps.mulAddMulFill]
    exact mulAddMulFill_even out r _ (by simp only [List.length_cons] at h; omega)

end PairLoop

section PairLoopUses

theorem pairsOf_mem : ∀ (L : List Mat) (p : Mat × Mat), p ∈ pairsOf L → p.1 ∈ L ∧ p.2 ∈ L
  | [], p, h => by simp [pairsOf] at h
  | [_], p, h => by simp [pairsOf] at h
  | a :: b :: r, p, h => by
    simp only [pairsOf, List.mem_cons] at h
    rcases h with rfl | h
    · simp
    · have := pairsOf_mem r p h
      simp [this.1, this.2]

theorem foldl_append_flatMap {α β : Type} (g : α → List β) :
    ∀ (P : List α) (init : List β),
      P.foldl (fun acc p => acc ++ g p) init = init ++ (P.map g).flatten
  | [], init => by simp
  | p :: P, init => by
    simp only [List.foldl_cons, foldl_append_flatMap g P, List.map_cons, List.flatten_cons,
      List.append_assoc]

theorem mulAddMulStmts_odd (w : Nat → EigenMat) :
    ∀ (L : List Mat) (bias : Mat), L.length % 2 = 1 → L.getLast? = some bias →
      mulAddMulStmts w L
        = ((pairsOf L).map (fun p =>
            [ Stmt.addAssign (GRAD p.1) (fun dout => dout.mul (w p.2.m).transpose),
              Stmt.addAssign (GRAD p.2) (fun dout => (w p.1.m).transpose.mul dout) ])).flatten
          ++ [ Stmt.addAssign (GRAD bias) (fun dout => dout.rowwiseSum) ]
  | [], bias, h, _ => by simp at h
  | [x], bias, _, hb => by
    simp only [List.getLast?_singleton, Option.some.injEq] at hb
    subst hb
    simp [mulAddMulStmts, pairsOf]
  | a :: b :: r, bias, h, hb => by
    rw [getLast?_cons_cons] at hb
    have hr : r.length % 2 = 1 := by simp only [List.length_cons] at h; omega
    cases r with
    | nil => simp at hr
    | cons c r =>
      have hb' : (c :: r).getLast? = some bias := by
        cases r with
        | nil => simpa using hb
        | cons d r => rw [getLast?_cons_cons] at hb; rw [getLast?_cons_cons]; exact hb
      rw [mulAddMulStmts, mulAddMulStmts_odd w (c :: r) bias hr hb']
      simp only [pairsOf, List.map_cons, List.flatten_cons, List.cons_append, List.nil_append]

theorem mulPairStmts_eq (w : Nat → EigenMat) :
    ∀ L : List Mat, Backward.mulPairStmts w L
      = ((pairsOf L).map (fun p =>
          [ Stmt.addAssign (DW p.1) (fun dout => dout.mul (w p.2.m).transpose),
            Stmt.addAssign (DW p.2) (fun dout => (w p.1.m).transpose.mul dout) ])).flatten
  | [] => rfl
  | [_] => by simp [Backward.mulPairStmts, pairsOf]
  | a :: b :: r => by
    rw [Backward.mulPairStmts, mulPairStmts_eq w r]
    simp only [pairsOf, List.map_cons, List.flatten_cons, List.cons_append, List.nil_append]

/-- The values after the forward body has run on a list of pairs, none of which
holds the output tensor. -/
theorem fold_mulAddMulBody (out : Mat) :
    ∀ (P : List (Mat × Mat)) (s : State), (∀ p ∈ P, p.1.m ≠ out.m ∧ p.2.m ≠ out.m) →
      (∀ a, a ≠ out.m →
        (P.foldl (fun t p => MatOps.mulAddMulBody out p.1 p.2 t) s).w a = s.w a) ∧
      ((P.foldl (fun t p => MatOps.mulAddMulBody out p.1 p.2 t) s).w out.m).rows
        = (s.w out.m).rows ∧
      ((P.foldl (fun t p => MatOps.mulAddMulBody out p.1 p.2 t) s).w out.m).cols
        = (s.w out.m).cols ∧
      ∀ i j, ((P.foldl (fun t p => MatOps.mulAddMulBody out p.1 p.2 t) s).w out.m).coeff i j
        = (s.w out.m).coeff i j
          + (P.map (fun p => ((s.w p.1.m).mul (s.w p.2.m)).coeff i j)).sum
  | [], s, _ => by simp
  | p :: P, s, h => by
    have hp := h p (List.mem_cons_self _ _)
    have hP : ∀ q ∈ P, q.1.m ≠ out.m ∧ q.2.m ≠ out.m :=
      fun q hq => h q (List.mem_cons_of_mem _ hq)
    obtain ⟨h1, h2, h3, h4⟩ := fold_mulAddMulBody out P (MatOps.mulAddMulBody out p.1 p.2 s) hP
    have hw : ∀ a, a ≠ out.m → (MatOps.mulAddMulBody out p.1 p.2 s).w a = s.w a := by
      intro a ha
      simp [MatOps.mulAddMulBody, State.assign, Function.update_noteq ha]
    have hout : (MatOps.mulAddMulBody out p.1 p.2 s).w out.m
        = (s.w out.m).add ((s.w p.1.m).mul (s.w p.2.m)) := by
      simp [MatOps.mulAddMulBody, State.assign]
    simp only [List.foldl_cons]
    refine ⟨fun a ha => (h1 a ha).trans (hw a ha), ?_, ?_, fun i j => ?_⟩
    · rw [h2, hout]; rfl
    · rw [h3, hout]; rfl
    · rw [h4, hout]
      have hmap : P.map (fun q => (((MatOps.mulAddMulBody out p.1 p.2 s).w q.1.m).mul
            ((MatOps.mulAddMulBody out p.1 p.2 s).w q.2.m)).coeff i j)
          = P.map (fun q => ((s.w q.1.m).mul (s.w q.2.m)).coeff i j) := by
        apply List.map_congr_left
        intro q hq
        rw [hw _ (hP q hq).1, hw _ (hP q hq).2]
      rw [hmap]
      simp only [List.map_cons, List.sum_cons, EigenMat.add]
      ring

end PairLoopUses

section PairLoopClaim

theorem pairLoop_from_start {σ : Type} (matrices : List Mat) (body : Mat → Mat → σ → σ)
    (fuel : Nat) (s : σ) (h : matrices.length / 2 < fuel) :
    pairLoop matrices body fuel 0 s
      = if matrices.length % 2 = 1 then
          .exit ((pairsOf matrices).foldl (fun t p => body p.1 p.2 t) s)
        else .pastEnd matrices.length
          ((pairsOf matrices).foldl (fun t p => body p.1 p.2 t) s) := by
  have := pairLoop_spec body matrices [] fuel s (by rw [pairsOf_length]; exact h)
  simp only [List.nil_append, List.length_nil, Nat.zero_add] at this
  exact this

theorem pairLoop_start_running {σ : Type} (matrices : List Mat) (body : Mat → Mat → σ → σ)
    (fuel : Nat) (s : σ) (h : fuel ≤ matrices.length / 2) :
    pairLoop matrices body fuel 0 s
      = .running (2 * fuel)
          (((pairsOf matrices).take fuel).foldl (fun t p => body p.1 p.2 t) s) := by
  have := pairLoop_running body matrices [] fuel s (by rw [pairsOf_length]; exact h)
  simp only [List.nil_append, List.length_nil, Nat.zero_add] at this
  exact this

theorem pairLoop_start_no_exit {σ : Type} (matrices : List Mat) (body : Mat → Mat → σ → σ)
    (fuel : Nat) (s : σ) (h : matrices.length % 2 = 0) (t : σ) :
    pairLoop matrices body fuel 0 s ≠ .exit t := by
  have := pairLoop_even_no_exit body matrices [] fuel s h t
  simp only [List.nil_append, List.length_nil] at this
  exact this

theorem mulAddMulFillPtr_odd (out : Mat) (matrices : List Mat) (bias : Mat) (fuel : Nat)
    (s : State) (h : matrices.length % 2 = 1) (hb : matrices.getLast? = some bias)
    (hf : matrices.length / 2 < fuel) :
    MatOps.mulAddMulFillPtr out matrices fuel s
      = .exit (((pairsOf matrices).foldl (fun t p => MatOps.mulAddMulBody out p.1 p.2 t)
          s).assign out
          ((((pairsOf matrices).foldl (fun t p => MatOps.mulAddMulBody out p.1 p.2 t) s).w
              out.m).colwiseAdd
            (((pairsOf matrices).foldl (fun t p => MatOps.mulAddMulBody out p.1 p.2 t) s).w
              bias.m))) := by
  unfold MatOps.mulAddMulFillPtr
  rw [pairLoop_from_start matrices _ fuel s hf, if_pos h]
  simp only [getLast?_eq_getElem?_pred, hb]

theorem mulAddMulStmtsPtr_odd (w : Nat → EigenMat) (matrices : List Mat) (bias : Mat)
    (fuel : Nat) (h : matrices.length % 2 = 1) (hb : matrices.getLast? = some bias)
    (hf : matrices.length / 2 < fuel) :
    mulAddMulStmtsPtr w matrices fuel = .exit (mulAddMulStmts w matrices) := by
  unfold mulAddMulStmtsPtr
  rw [pairLoop_from_start matrices _ fuel [] hf, if_pos h]
  simp only [getLast?_eq_getElem?_pred, hb]
  rw [mulAddMulStmts_odd w matrices bias h hb,
    foldl_append_flatMap (fun p : Mat × Mat =>
      [ Stmt.addAssign (GRAD p.1) (fun dout => dout.mul (w p.2.m).transpose),
        Stmt.addAssign (GRAD p.2) (fun dout => (w p.1.m).transpose.mul dout) ])]
  simp only [List.nil_append]

theorem mulAddMulWithBiasStmtsPtr_odd (w : Nat → EigenMat) (b : Backward) (bias : Mat)
    (fuel : Nat) (h : b.matrices.length % 2 = 1) (hb : b.matrices.getLast? = some bias)
    (hf : b.matrices.length / 2 < fuel) :
    Backward.mulAddMulWithBiasStmtsPtr w b fuel = .exit (Backward.mulAddMulWithBiasStmts w b) := by
  unfold Backward.mulAddMulWithBiasStmtsPtr Backward.mulAddMulWithBiasStmts
  simp only [hb]
  rw [pairLoop_from_start b.matrices _ fuel _ hf, if_pos h, mulPairStmts_eq,
    foldl_append_flatMap (fun p : Mat × Mat =>
      [ Stmt.addAssign (DW p.1) (fun dout => dout.mul (w p.2.m).transpose),
        Stmt.addAssign (DW p.2) (fun dout => (w p.1.m).transpose.mul dout) ])]

theorem mulAddMulFillPtr_even (out : Mat) (matrices : List Mat) (fuel : Nat) (s t : State)
    (h : matrices.length % 2 = 0) : MatOps.mulAddMulFillPtr out matrices fuel s ≠ .exit t := by
  unfold MatOps.mulAddMulFillPtr
  have hne := pairLoop_start_no_exit matrices (MatOps.mulAddMulBody out) fuel s h
  cases hl : pairLoop matrices (MatOps.mulAddMulBody out) fuel 0 s with
  | exit u => exact absurd hl (hne u)
  | pastEnd pos u => simp
  | running ptr u => simp

theorem mulAddMulStmtsPtr_even (w : Nat → EigenMat) (matrices : List Mat) (fuel : Nat)
    (L : List Stmt) (h : matrices.length % 2 = 0) :
    mulAddMulStmtsPtr w matrices fuel ≠ .exit L := by
  unfold mulAddMulStmtsPtr
  generalize hbody : (fun (a b : Mat) (L : List Stmt) => L ++
      [ Stmt.addAssign (GRAD a) (fun dout => dout.mul (w b.m).transpose),
        Stmt.addAssign (GRAD b) (fun dout => (w a.m).transpose.mul dout) ]) = body
  have hne := pairLoop_start_no_exit matrices body fuel [] h
  cases hl : pairLoop matrices body fuel 0 [] with
  | exit u => exact absurd hl (hne u)
  | pastEnd pos u => simp
  | running ptr u => simp

theorem mulAddMulWithBiasStmtsPtr_even (w : Nat → EigenMat) (b : Backward) (fuel : Nat)
    (L : List Stmt) (h : b.matrices.length % 2 = 0) :
    Backward.mulAddMulWithBiasStmtsPtr w b fuel ≠ .exit L := by
  unfold Backward.mulAddMulWithBiasStmtsPtr
  cases b.matrices.getLast? with
  | none => simp
  | some bias => exact pairLoop_start_no_exit b.matrices _ fuel _ h L

/-- The values of the output after the forward loop and the bias statement, on
a vector of odd length that does not hold the output tensor. -/
theorem mulAddMulFill_value (matrices : List Mat) (bias out : Mat) (s t : State)
    (h : matrices.length % 2 = 1) (hb : matrices.getLast? = some bias)
    (hx : ∀ x ∈ matrices, x.m ≠ out.m) (ht : MatOps.mulAddMulFill out matrices s = .ok t) :
    (∀ a, a ≠ out.m → t.w a = s.w a) ∧
    (t.w out.m).rows = (s.w out.m).rows ∧ (t.w out.m).cols = (s.w out.m).cols ∧
    ∀ i j, (t.w out.m).coeff i j
      = (s.w out.m).coeff i j
        + ((pairsOf matrices).map (fun p => ((s.w p.1.m).mul (s.w p.2.m)).coeff i j)).sum
        + (s.w bias.m).coeff i 0 := by
  have hbm : bias ∈ matrices := List.mem_of_mem_getLast? hb
  have hne : ∀ p ∈ pairsOf matrices, p.1.m ≠ out.m ∧ p.2.m ≠ out.m := by
    intro p hp
    have := pairsOf_mem _ p hp
    exact ⟨hx _ this.1, hx _ this.2⟩
  obtain ⟨f1, f2, f3, f4⟩ := fold_mulAddMulBody out (pairsOf matrices) s hne
  rw [mulAddMulFill_odd out matrices s bias h hb, Except.ok.injEq] at ht
  subst ht
  refine ⟨fun a ha => ?_, ?_, ?_, fun i j => ?_⟩
  · simp only [State.assign, Function.update_noteq ha]
    exact f1 a ha
  · simp only [State.assign, Function.update_same, EigenMat.colwiseAdd]
    exact f2
  · simp only [State.assign, Function.update_same, EigenMat.colwiseAdd]
    exact f3
  · simp only [State.assign, Function.update_same, EigenMat.colwiseAdd]
    rw [f4, f1 _ (hx _ hbm)]

/-- The value of `mul_add_mul_with_bias` on a vector of odd length, at least
three, of tensors that exist in the state. -/
theorem mul_add_mul_with_bias_vector_value (matrices : List Mat) (bias : Mat) (s : State)
    (h : matrices.length % 2 = 1) (h3 : 3 ≤ matrices.length)
    (hb : matrices.getLast? = some bias) (hx : ∀ x ∈ matrices, x.m < s.next_addr) :
    (MatOps.mul_add_mul_with_bias_vector matrices s).1 = .ok ⟨s.next_addr, s.next_addr, false⟩ ∧
    (∀ m0 m1, matrices[0]? = some m0 → matrices[1]? = some m1 →
      ((MatOps.mul_add_mul_with_bias_vector matrices s).2.w s.next_addr).rows = (s.w m0.m).rows ∧
      ((MatOps.mul_add_mul_with_bias_vector matrices s).2.w s.next_addr).cols
        = (s.w m1.m).cols) ∧
    ∀ i j, ((MatOps.mul_add_mul_with_bias_vector matrices s).2.w s.next_addr).coeff i j
      = ((pairsOf matrices).map (fun p => ((s.w p.1.m).mul (s.w p.2.m)).coeff i j)).sum
        + (s.w bias.m).coeff i 0 := by
  match matrices, h, h3, hb, hx with
  | [], _, h3, _, _ => simp at h3
  | [_], _, h3, _, _ => simp at h3
  | m0 :: m1 :: rest, h, _, hb, hx =>
    have hbm : bias ∈ m0 :: m1 :: rest := List.mem_of_mem_getLast? hb
    have hw0 : ∀ a, a < s.next_addr →
        (Mat.new (s.w m0.m).rows (s.w m1.m).cols true s).2.w a = s.w a := by
      intro a ha
      simp [Mat.new, Function.update_noteq (Nat.ne_of_lt ha)]
    have hwout : (Mat.new (s.w m0.m).rows (s.w m1.m).cols true s).2.w s.next_addr
        = EigenMat.Zero (s.w m0.m).rows (s.w m1.m).cols := by
      simp [Mat.new]
    have hfill := mulAddMulFill_odd (Mat.new (s.w m0.m).rows (s.w m1.m).cols true s).1
      (m0 :: m1 :: rest) (Mat.new (s.w m0.m).rows (s.w m1.m).cols true s).2 bias h hb
    obtain ⟨_, g2, g3, g4⟩ := mulAddMulFill_value (m0 :: m1 :: rest) bias
      (Mat.new (s.w m0.m).rows (s.w m1.m).cols true s).1
      (Mat.new (s.w m0.m).rows (s.w m1.m).cols true s).2 _ h hb
      (fun x hxm => Nat.ne_of_lt (hx x hxm)) hfill
    have hm : (Mat.new (s.w m0.m).rows (s.w m1.m).cols true s).1.m = s.next_addr := rfl
    simp only [MatOps.mul_add_mul_with_bias_vector, hfill, record_w]
    refine ⟨rfl, ?_, ?_⟩
    · intro a b ha hb'
      simp only [List.getElem?_cons_zero, List.getElem?_cons_succ, Option.some.injEq] at ha hb'
      subst ha
      subst hb'
      exact ⟨g2.trans (by rw [hm, hwout]; rfl), g3.trans (by rw [hm, hwout]; rfl)⟩
    · intro i j
      refine (g4 i j).trans ?_
      rw [hm, hwout, hw0 _ (hx _ hbm)]
      have hmap : (pairsOf (m0 :: m1 :: rest)).map (fun p =>
            (((Mat.new (s.w m0.m).rows (s.w m1.m).cols true s).2.w p.1.m).mul
              ((Mat.new (s.w m0.m).rows (s.w m1.m).cols true s).2.w p.2.m)).coeff i j)
          = (pairsOf (m0 :: m1 :: rest)).map
              (fun p => ((s.w p.1.m).mul (s.w p.2.m)).coeff i j) := by
        apply List.map_congr_left
        intro p hp
        have := pairsOf_mem _ p hp
        rw [hw0 _ (hx _ this.1), hw0 _ (hx _ this.2)]
      rw [hmap]
      simp [EigenMat.Zero]

end PairLoopClaim

/-- C32. The pair loop of `mul_add_mul_with_bias` over a vector of length `L`
(the pointer starts at offset `0`, the loop is left when the offset is `L - 1`,
the body reads the elements at the offset and the next one, the offset advances
by `2`): after `k ≤ L / 2` iterations the offset is `2 * k` and the body has run
on the first `k` pairs `(M_0, M_1), (M_2, M_3), …`; the loop is left after some
number of iterations exactly when `L` is odd.  For odd `L` it is left after the
`(L - 1) / 2` pairs, every one inside the vector and before the last element,
which is the bias; the forward loop, the statements of the closure and those of
`Backward::backward_mul_add_mul_with_bias` are then the body on these pairs in
order with the bias statement, and the forward value is the sum of the products
`M_2i · M_2i+1` plus the first column of the bias in every column.  For even
`L` the loop is never left: after `L / 2` iterations the offset is `L`, beyond
`L - 1`, and the body reads the element at position `L`, past the end. -/
theorem pair_loop_terminates_iff_odd_length (matrices : List Mat) :
    (∀ (σ : Type) (body : Mat → Mat → σ → σ) (s : σ),
      ((∃ fuel t, pairLoop matrices body fuel 0 s = .exit t) ↔ matrices.length % 2 = 1) ∧
      (∀ fuel, fuel ≤ matrices.length / 2 →
        pairLoop matrices body fuel 0 s
          = .running (2 * fuel)
              (((pairsOf matrices).take fuel).foldl (fun t p => body p.1 p.2 t) s)) ∧
      (matrices.length % 2 = 1 → ∀ fuel, (matrices.length - 1) / 2 < fuel →
        pairLoop matrices body fuel 0 s
          = .exit ((pairsOf matrices).foldl (fun t p => body p.1 p.2 t) s)) ∧
      (matrices.length % 2 = 0 → ∀ fuel, matrices.length / 2 < fuel →
        pairLoop matrices body fuel 0 s
          = .pastEnd matrices.length
              ((pairsOf matrices).foldl (fun t p => body p.1 p.2 t) s))) ∧
    ((∀ i p, (pairsOf matrices)[i]? = some p ↔
        matrices[2 * i]? = some p.1 ∧ matrices[2 * i + 1]? = some p.2) ∧
      (matrices.length % 2 = 1 →
        (pairsOf matrices).length = (matrices.length - 1) / 2 ∧
        ∀ i, i < (pairsOf matrices).length → 2 * i + 1 < matrices.length - 1)) ∧
    (matrices.length % 2 = 1 →
      ∃ bias, matrices[matrices.length - 1]? = some bias ∧ matrices.getLast? = some bias ∧
        (∀ (out : Mat) (s : State) (fuel : Nat), (matrices.length - 1) / 2 < fuel →
          ∃ t, MatOps.mulAddMulFillPtr out matrices fuel s = .exit t ∧
            MatOps.mulAddMulFill out matrices s = .ok t ∧
            ((∀ x ∈ matrices, x.m ≠ out.m) →
              (t.w out.m).rows = (s.w out.m).rows ∧ (t.w out.m).cols = (s.w out.m).cols ∧
              ∀ i j, (t.w out.m).coeff i j
                = (s.w out.m).coeff i j
                  + ((pairsOf matrices).map
                      (fun p => ((s.w p.1.m).mul (s.w p.2.m)).coeff i j)).sum
                  + (s.w bias.m).coeff i 0)) ∧
        (∀ s : State, 3 ≤ matrices.length → (∀ x ∈ matrices, x.m < s.next_addr) →
          (MatOps.mul_add_mul_with_bias_vector matrices s).1
            = .ok ⟨s.next_addr, s.next_addr, false⟩ ∧
          ∀ i j, ((MatOps.mul_add_mul_with_bias_vector matrices s).2.w s.next_addr).coeff i j
            = ((pairsOf matrices).map
                (fun p => ((s.w p.1.m).mul (s.w p.2.m)).coeff i j)).sum
              + (s.w bias.m).coeff i 0) ∧
        (∀ (w : Nat → EigenMat) (fuel : Nat), (matrices.length - 1) / 2 < fuel →
          mulAddMulStmtsPtr w matrices fuel = .exit (mulAddMulStmts w matrices) ∧
          mulAddMulStmts w matrices
            = ((pairsOf matrices).map (fun p =>
                [ Stmt.addAssign (GRAD p.1) (fun dout => dout.mul (w p.2.m).transpose),
                  Stmt.addAssign (GRAD p.2) (fun dout => (w p.1.m).transpose.mul dout) ])).flatten
              ++ [ Stmt.addAssign (GRAD bias) (fun dout => dout.rowwiseSum) ]) ∧
        (∀ (w : Nat → EigenMat) (b : Backward) (fuel : Nat), b.matrices = matrices →
          (matrices.length - 1) / 2 < fuel →
          Backward.mulAddMulWithBiasStmtsPtr w b fuel
            = .exit (Backward.mulAddMulWithBiasStmts w b) ∧
          Backward.mulAddMulWithBiasStmts w b
            = Stmt.addAssign (DW bias) (fun dout => dout.rowwiseSum)
              :: ((pairsOf matrices).map (fun p =>
                [ Stmt.addAssign (DW p.1) (fun dout => dout.mul (w p.2.m).transpose),
                  Stmt.addAssign (DW p.2) (fun dout => (w p.1.m).transpose.mul dout) ])).flatten)) ∧
    (matrices.length % 2 = 0 → ∀ fuel : Nat,
      (∀ (out : Mat) (s t : State), MatOps.mulAddMulFillPtr out matrices fuel s ≠ .exit t) ∧
      (∀ (out : Mat) (s : State),
        MatOps.mulAddMulFill out matrices s = .error "read past the end of the vector") ∧
      (∀ (w : Nat → EigenMat) (L : List Stmt), mulAddMulStmtsPtr w matrices fuel ≠ .exit L) ∧
      (∀ (w : Nat → EigenMat) (b : Backward) (L : List Stmt), b.matrices = matrices →
        Backward.mulAddMulWithBiasStmtsPtr w b fuel ≠ .exit L)) := by
  refine ⟨fun σ body s => ⟨⟨?_, ?_⟩, ?_, ?_, ?_⟩, ⟨pairsOf_getElem? matrices, ?_⟩, ?_, ?_⟩
  · rintro ⟨fuel, t, ht⟩
    by_contra hodd
    exact pairLoop_start_no_exit matrices body fuel s (by omega) t ht
  · intro hodd
    refine ⟨matrices.length / 2 + 1,
      (pairsOf matrices).foldl (fun t p => body p.1 p.2 t) s, ?_⟩
    rw [pairLoop_from_start matrices body _ s (Nat.lt_succ_self _), if_pos hodd]
  · exact fun fuel hf => pairLoop_start_running matrices body fuel s hf
  · intro hodd fuel hf
    rw [pairLoop_from_start matrices body _ s (by omega), if_pos hodd]
  · intro heven fuel hf
    rw [pairLoop_from_start matrices body _ s hf, if_neg (by omega)]
  · intro hodd
    rw [pairsOf_length]
    exact ⟨by omega, fun i hi => by omega⟩
  · intro hodd
    obtain ⟨bias, hb⟩ := odd_getLast matrices hodd
    refine ⟨bias, by rw [getLast?_eq_getElem?_pred]; exact hb, hb, ?_, ?_, ?_, ?_⟩
    · intro out s fuel hf
      refine ⟨_, mulAddMulFillPtr_odd out matrices bias fuel s hodd hb (by omega),
        mulAddMulFill_odd out matrices s bias hodd hb, fun hx => ?_⟩
      exact (mulAddMulFill_value matrices bias out s _ hodd hb hx
        (mulAddMulFill_odd out matrices s bias hodd hb)).2
    · intro s h3 hx
      have := mul_add_mul_with_bias_vector_value matrices bias s hodd h3 hb hx
      exact ⟨this.1, this.2.2⟩
    · intro w fuel hf
      exact ⟨mulAddMulStmtsPtr_odd w matrices bias fuel hodd hb (by omega),
        mulAddMulStmts_odd w matrices bias hodd hb⟩
    · intro w b fuel hbm hf
      subst hbm
      refine ⟨mulAddMulWithBiasStmtsPtr_odd w b bias fuel hodd hb (by omega), ?_⟩
      unfold Backward.mulAddMulWithBiasStmts
      rw [hb, mulPairStmts_eq]
      rfl
  · intro heven fuel
    refine ⟨fun out s t => mulAddMulFillPtr_even out matrices fuel s t heven,
      fun out s => mulAddMulFill_even out matrices s heven,
      fun w L => mulAddMulStmtsPtr_even w matrices fuel L heven, fun w b L hbm => ?_⟩
    subst hbm
    exact mulAddMulWithBiasStmtsPtr_even w b fuel L heven

section LayersAbstract

variable {σ α β γ : Type}

theorem thenCall_assoc (c : σ → Except String α × σ) (k : α → σ → Except String β × σ)
    (k' : β → σ → Except String γ × σ) :
    thenCall (thenCall c k) k' = thenCall c (fun a => thenCall (k a) k') := by
  funext s
  unfold thenCall
  cases h : c s with
  | mk r t =>
    cases r with
    | ok a => simp only
    | error e => simp only

theorem preserves_thenCall (Sim : σ → σ → Prop) (good : α → Prop) (good' : β → Prop)
    (c : σ → Except String α × σ) (k : α → σ → Except String β × σ)
    (hc : Preserves Sim good c) (hk : ∀ a, good a → Preserves Sim good' (k a)) :
    Preserves Sim good' (thenCall c k) := by
  intro s1 s2 hs
  obtain ⟨h1, h2, h3⟩ := hc s1 s2 hs
  unfold thenCall
  cases e1 : c s1 with
  | mk r1 t1 =>
    cases e2 : c s2 with
    | mk r2 t2 =>
      rw [e1, e2] at h1 h2
      rw [e1] at h3
      simp only at h1 h2 h3
      subst h1
      cases r1 with
      | ok a => exact hk a (h3 a rfl) t1 t2 h2
      | error e => exact ⟨rfl, h2, fun r hr => by cases hr⟩

theorem preserves_pure (Sim : σ → σ → Prop) (good : α → Prop) (a : α) (ha : good a) :
    Preserves Sim good (fun s : σ => (.ok a, s)) := by
  intro s1 s2 hs
  exact ⟨rfl, hs, fun r hr => by cases hr; exact ha⟩

theorem rnn_activate_preserves (G : Graph σ) (Sim : σ → σ → Prop) (good : Mat → Prop)
    (hG : G.Respects Sim good) (left_first : Bool) (L : RNN) (x h : Mat)
    (hWx : good L.Wx) (hWh : good L.Wh) (hb : good L.b) (hx : good x) (hh : good h) :
    Preserves Sim good (L.activate G left_first x h) := by
  obtain ⟨gmul, gadd, gaddb, -, -, -⟩ := hG
  unfold RNN.activate
  cases left_first
  · simp only [Bool.false_eq_true, if_false]
    exact preserves_thenCall Sim good good _ _ (gmul _ _ hWh hh) fun m2 h2 =>
      preserves_thenCall Sim good good _ _ (gmul _ _ hWx hx) fun m1 h1 =>
        preserves_thenCall Sim good good _ _ (gadd _ _ h1 h2) fun sum hs => gaddb _ _ hs hb
  · simp only [if_true]
    exact preserves_thenCall Sim good good _ _ (gmul _ _ hWx hx) fun m1 h1 =>
      preserves_thenCall Sim good good _ _ (gmul _ _ hWh hh) fun m2 h2 =>
        preserves_thenCall Sim good good _ _ (gadd _ _ h1 h2) fun sum hs => gaddb _ _ hs hb

theorem lstm_activate_preserves (G : Graph σ) (Sim : σ → σ → Prop) (good : Mat → Prop)
    (hG : G.Respects Sim good) (left_first : Bool) (L : LSTM) (x c h : Mat)
    (hi : good L.input_layer.Wx ∧ good L.input_layer.Wh ∧ good L.input_layer.b)
    (hf : good L.forget_layer.Wx ∧ good L.forget_layer.Wh ∧ good L.forget_layer.b)
    (ho : good L.output_layer.Wx ∧ good L.output_layer.Wh ∧ good L.output_layer.b)
    (hx : good x) (hc : good c) (hh : good h) :
    Preserves Sim (fun p : Mat × Mat => good p.1 ∧ good p.2)
      (L.activate G left_first x c h) := by
  have hR := rnn_activate_preserves G Sim good hG left_first
  obtain ⟨-, gadd, -, geltmul, gsig, gtanh⟩ := hG
  unfold LSTM.activate
  refine preserves_thenCall Sim good _ _ _ (hR _ x h hi.1 hi.2.1 hi.2.2 hx hh) fun a1 h1 => ?_
  refine preserves_thenCall Sim good _ _ _ (gsig _ h1) fun ig hig => ?_
  refine preserves_thenCall Sim good _ _ _ (hR _ x h hf.1 hf.2.1 hf.2.2 hx hh) fun a2 h2 => ?_
  refine preserves_thenCall Sim good _ _ _ (gsig _ h2) fun fg hfg => ?_
  refine preserves_thenCall Sim good _ _ _ (hR _ x h ho.1 ho.2.1 ho.2.2 hx hh) fun a3 h3 => ?_
  refine preserves_thenCall Sim good _ _ _ (gsig _ h3) fun og hog => ?_
  refine preserves_thenCall Sim good _ _ _ (hR _ x h ho.1 ho.2.1 ho.2.2 hx hh) fun a4 h4 => ?_
  refine preserves_thenCall Sim good _ _ _ (gtanh _ h4) fun cw hcw => ?_
  refine preserves_thenCall Sim good _ _ _ (geltmul _ _ hfg hc) fun rc hrc => ?_
  refine preserves_thenCall Sim good _ _ _ (geltmul _ _ hig hcw) fun wc hwc => ?_
  refine preserves_thenCall Sim good _ _ _ (gadd _ _ hrc hwc) fun cd hcd => ?_
  refine preserves_thenCall Sim good _ _ _ (gtanh _ hcd) fun tc htc => ?_
  refine preserves_thenCall Sim good _ _ _ (geltmul _ _ hog htc) fun hd hhd => ?_
  exact preserves_pure Sim _ (cd, hd) ⟨hcd, hhd⟩

/-- `LSTM::activate` is its first four statements followed by the rest. -/
theorem lstm_activate_eq_gates (G : Graph σ) (left_first : Bool) (L : LSTM) (x c h : Mat) :
    L.activate G left_first x c h
      = thenCall (L.gates G left_first x h) (fun g =>
          thenCall (G.eltmul g.2.1 c) fun retain_cell =>
          thenCall (G.eltmul g.1 g.2.2.2) fun write_cell =>
          thenCall (G.add retain_cell write_cell) fun cell_d =>
          thenCall (G.tanh cell_d) fun tanh_cell =>
          thenCall (G.eltmul g.2.2.1 tanh_cell) fun hidden_d =>
          fun s => (.ok (cell_d, hidden_d), s)) := by
  unfold LSTM.activate LSTM.gates
  simp only [thenCall_assoc]
  rfl

/-- `LSTM::activate` does not read the member `cell_layer` (nor the sizes). -/
theorem lstm_activate_congr (G : Graph σ) (left_first : Bool) (L1 L2 : LSTM)
    (hi : L1.input_layer = L2.input_layer) (hf : L1.forget_layer = L2.forget_layer)
    (ho : L1.output_layer = L2.output_layer) (x c h : Mat) :
    L1.activate G left_first x c h = L2.activate G left_first x c h := by
  unfold LSTM.activate
  rw [hi, hf, ho]

end LayersAbstract

section LayersConcrete

theorem agreeOff_w {A : Set Nat} {s1 s2 : State} (h : AgreeOff A s1 s2) {a : Nat} (ha : a ∉ A) :
    s1.w a = s2.w a := (h.2.2.2.2 a ha).1

theorem agreeOff_dw {A : Set Nat} {s1 s2 : State} (h : AgreeOff A s1 s2) {a : Nat}
    (ha : a ∉ A) : s1.dw a = s2.dw a := (h.2.2.2.2 a ha).2.1

theorem agreeOff_new (A : Set Nat) (s1 s2 : State) (h : AgreeOff A s1 s2)
    (hn : s1.next_addr ∉ A) (n d : Nat) (e : Bool) :
    (Mat.new n d e s1).1 = (Mat.new n d e s2).1 ∧
    AgreeOff A (Mat.new n d e s1).2 (Mat.new n d e s2).2 := by
  obtain ⟨h1, h2, h3, h4, h5⟩ := h
  have hw0 : s1.w s1.next_addr = s2.w s1.next_addr := (h5 _ hn).1
  refine ⟨?_, ?_, ?_, h3, h4, fun a ha => ?_⟩
  · simp only [Mat.new, h1]
  · simp only [Mat.new, h1]
  · simp only [Mat.new, h2]
  · simp only [Mat.new]
    rw [← h1, ← h2]
    by_cases hx : a = s1.next_addr
    · subst hx
      simp only [Function.update_same, hw0, and_self]
    · simp only [Function.update_noteq hx]
      exact h5 a ha

theorem agreeOff_assign (A : Set Nat) (s1 s2 : State) (h : AgreeOff A s1 s2) (x : Mat)
    (v : EigenMat) : AgreeOff A (s1.assign x v) (s2.assign x v) := by
  obtain ⟨h1, h2, h3, h4, h5⟩ := h
  refine ⟨h1, h2, h3, h4, fun a ha => ?_⟩
  simp only [State.assign]
  by_cases hx : a = x.m
  · subst hx
    simp only [Function.update_same, true_and]
    exact (h5 _ ha).2
  · simp only [Function.update_noteq hx]
    exact h5 a ha

theorem agreeOff_record (A : Set Nat) (s1 s2 : State) (h : AgreeOff A s1 s2) (c : Closure) :
    AgreeOff A (s1.record c) (s2.record c) := by
  obtain ⟨h1, h2, h3, h4, h5⟩ := h
  unfold State.record
  rw [h4]
  split
  · exact ⟨h1, h2, by simp only [graph.emplace_back, h3], h4, h5⟩
  · exact ⟨h1, h2, h3, h4, h5⟩

theorem agreeOff_setDw (A : Set Nat) (s1 s2 : State) (h : AgreeOff A s1 s2) (x : Mat)
    (G : EigenMat) : AgreeOff A (s1.setDw x G) (s2.setDw x G) := by
  obtain ⟨h1, h2, h3, h4, h5⟩ := h
  refine ⟨h1, h2, h3, h4, fun a ha => ?_⟩
  simp only [State.setDw]
  by_cases hx : a = x.g
  · subst hx
    simp only [Function.update_same, true_and]
    exact ⟨(h5 _ ha).1, (h5 _ ha).2.2⟩
  · simp only [Function.update_noteq hx]
    exact h5 a ha

theorem exec_agreeOff (A : Set Nat) (out : Mat) (hout : out.g ∉ A) (st : Stmt)
    (t1 t2 : State) (h : AgreeOff A t1 t2) : AgreeOff A (st.exec out t1) (st.exec out t2) := by
  have hd : t1.dw out.g = t2.dw out.g := agreeOff_dw h hout
  obtain ⟨h1, h2, h3, h4, h5⟩ := h
  unfold Stmt.exec
  split
  · refine ⟨h1, h2, h3, h4, fun a ha => ?_⟩
    simp only
    by_cases hx : a = st.lhs.x.g
    · subst hx
      simp only [Function.update_same, hd, (h5 _ ha).2.1]
      exact ⟨(h5 _ ha).1, trivial, (h5 _ ha).2.2⟩
    · simp only [Function.update_noteq hx]
      exact h5 a ha
  · exact ⟨h1, h2, h3, h4, h5⟩

theorem foldl_agreeOff (A : Set Nat) (out : Mat) (hout : out.g ∉ A) (L : List Stmt) :
    ∀ t1 t2 : State, AgreeOff A t1 t2 →
      AgreeOff A (L.foldl (fun t st => st.exec out t) t1) (L.foldl (fun t st => st.exec out t) t2) := by
  induction L with
  | nil => intro t1 t2 h; exact h
  | cons st L ih =>
    intro t1 t2 h
    simp only [List.foldl_cons]
    exact ih _ _ (exec_agreeOff A out hout st t1 t2 h)

theorem closureOK_of (A : Set Nat) (c : Closure) (hout : c.out.g ∉ A)
    (hst : ∀ t1 t2, AgreeOff A t1 t2 → c.stmts t1.w = c.stmts t2.w) : ClosureOK A c := by
  intro t1 t2 h
  unfold Closure.run
  rw [hst t1 t2 h]
  exact foldl_agreeOff A c.out hout _ t1 t2 h

theorem closureOK_mul (A : Set Nat) (x y o : Mat) (hx : x.Off A) (hy : y.Off A) (ho : o.Off A) :
    ClosureOK A (.mul x y o) :=
  closureOK_of A _ ho.2 fun t1 t2 h => by
    simp only [Closure.stmts, agreeOff_w h hx.1, agreeOff_w h hy.1]

theorem closureOK_add (A : Set Nat) (x y o : Mat) (ho : o.Off A) :
    ClosureOK A (.add x y o) :=
  closureOK_of A _ ho.2 fun t1 t2 _ => by simp only [Closure.stmts]

theorem closureOK_add_broadcast (A : Set Nat) (x y o : Mat) (ho : o.Off A) :
    ClosureOK A (.add_broadcast x y o) :=
  closureOK_of A _ ho.2 fun t1 t2 _ => by simp only [Closure.stmts]

theorem closureOK_eltmul (A : Set Nat) (x y o : Mat) (hx : x.Off A) (hy : y.Off A)
    (ho : o.Off A) : ClosureOK A (.eltmul x y o) :=
  closureOK_of A _ ho.2 fun t1 t2 h => by
    simp only [Closure.stmts, agreeOff_w h hx.1, agreeOff_w h hy.1]

theorem closureOK_eltmul_broadcast (A : Set Nat) (x y o : Mat) (hx : x.Off A) (hy : y.Off A)
    (ho : o.Off A) : ClosureOK A (.eltmul_broadcast x y o) :=
  closureOK_of A _ ho.2 fun t1 t2 h => by
    simp only [Closure.stmts, agreeOff_w h hx.1, agreeOff_w h hy.1]

theorem closureOK_sigmoid (A : Set Nat) (x o : Mat) (ho : o.Off A) :
    ClosureOK A (.sigmoid x o) :=
  closureOK_of A _ ho.2 fun t1 t2 h => by
    simp only [Closure.stmts, agreeOff_w h ho.1]

theorem closureOK_tanh (A : Set Nat) (x o : Mat) (d : R → R) (ho : o.Off A) :
    ClosureOK A (.tanh x o d) :=
  closureOK_of A _ ho.2 fun t1 t2 h => by
    simp only [Closure.stmts, agreeOff_w h ho.1]

/-- The common last part of a primitive: the output tensor is allocated, its
value is assigned, and the closure is recorded. -/
theorem alloc_agree (A : Set Nat) (s1 s2 : State) (hs : SimOff A s1 s2) (n d : Nat)
    (e : Bool) (V : (Nat → EigenMat) → EigenMat) (C : Mat → Closure)
    (hV : ∀ t1 t2 : State, AgreeOff A t1 t2 → V t1.w = V t2.w)
    (hC : ∀ o : Mat, o.Off A → ClosureOK A (C o)) :
    (Mat.new n d e s1).1 = (Mat.new n d e s2).1 ∧
    SimOff A
      (((Mat.new n d e s1).2.assign (Mat.new n d e s1).1 (V (Mat.new n d e s1).2.w)).record
        (C (Mat.new n d e s1).1))
      (((Mat.new n d e s2).2.assign (Mat.new n d e s2).1 (V (Mat.new n d e s2).2.w)).record
        (C (Mat.new n d e s2).1)) ∧
    (Mat.new n d e s1).1.Off A := by
  obtain ⟨hag, hb, ht⟩ := hs
  have hn : s1.next_addr ∉ A := fun hmem => Nat.lt_irrefl _ (hb _ hmem)
  obtain ⟨e1, e2⟩ := agreeOff_new A s1 s2 hag hn n d e
  have hoff : (Mat.new n d e s1).1.Off A := ⟨hn, hn⟩
  have hv := hV _ _ e2
  refine ⟨e1, ⟨?_, ?_, ?_⟩, hoff⟩
  · rw [← e1, ← hv]
    exact agreeOff_record A _ _ (agreeOff_assign A _ _ e2 _ _) _
  · intro a ha
    have : a < s1.next_addr := hb a ha
    have hna : (((Mat.new n d e s1).2.assign (Mat.new n d e s1).1
        (V (Mat.new n d e s1).2.w)).record (C (Mat.new n d e s1).1)).next_addr
        = s1.next_addr + 1 := by
      unfold State.record
      split <;> rfl
    rw [hna]
    omega
  · intro c hc
    have htape : (((Mat.new n d e s1).2.assign (Mat.new n d e s1).1
        (V (Mat.new n d e s1).2.w)).record (C (Mat.new n d e s1).1)).tape
        = if s1.backprop_enabled = true then s1.tape ++ [C (Mat.new n d e s1).1]
          else s1.tape := by
      unfold State.record
      split <;> rename_i hbe
      · have : s1.backprop_enabled = true := hbe
        rw [if_pos this]
        rfl
      · have : ¬ s1.backprop_enabled = true := hbe
        rw [if_neg this]
        rfl
    rw [htape] at hc
    split at hc
    · rcases List.mem_append.1 hc with h | h
      · exact ht c h
      · rw [List.mem_singleton] at h
        subst h
        exact hC _ hoff
    · exact ht c hc

theorem alloc_preserves (A : Set Nat) (s1 s2 : State) (hs : SimOff A s1 s2) (n d : Nat)
    (e : Bool) (V : (Nat → EigenMat) → EigenMat) (C : Mat → Closure)
    (hV : ∀ t1 t2 : State, AgreeOff A t1 t2 → V t1.w = V t2.w)
    (hC : ∀ o : Mat, o.Off A → ClosureOK A (C o)) :
    ((.ok (Mat.new n d e s1).1,
        ((Mat.new n d e s1).2.assign (Mat.new n d e s1).1 (V (Mat.new n d e s1).2.w)).record
          (C (Mat.new n d e s1).1)) : Except String Mat × State).1
      = ((.ok (Mat.new n d e s2).1,
        ((Mat.new n d e s2).2.assign (Mat.new n d e s2).1 (V (Mat.new n d e s2).2.w)).record
          (C (Mat.new n d e s2).1)) : Except String Mat × State).1 ∧
    SimOff A
      ((.ok (Mat.new n d e s1).1,
        ((Mat.new n d e s1).2.assign (Mat.new n d e s1).1 (V (Mat.new n d e s1).2.w)).record
          (C (Mat.new n d e s1).1)) : Except String Mat × State).2
      ((.ok (Mat.new n d e s2).1,
        ((Mat.new n d e s2).2.assign (Mat.new n d e s2).1 (V (Mat.new n d e s2).2.w)).record
          (C (Mat.new n d e s2).1)) : Except String Mat × State).2 ∧
    ∀ r, ((.ok (Mat.new n d e s1).1,
        ((Mat.new n d e s1).2.assign (Mat.new n d e s1).1 (V (Mat.new n d e s1).2.w)).record
          (C (Mat.new n d e s1).1)) : Except String Mat × State).1 = .ok r → r.Off A := by
  obtain ⟨h1, h2, h3⟩ := alloc_agree A s1 s2 hs n d e V C hV hC
  refine ⟨congrArg Except.ok h1, h2, fun r hr => ?_⟩
  cases hr
  exact h3

theorem error_preserves (A : Set Nat) (s1 s2 : State) (hs : SimOff A s1 s2) (msg : String) :
    ((.error msg, s1) : Except String Mat × State).1 = ((.error msg, s2) : Except String Mat × State).1 ∧
    SimOff A ((.error msg, s1) : Except String Mat × State).2
      ((.error msg, s2) : Except String Mat × State).2 ∧
    ∀ r, ((.error msg, s1) : Except String Mat × State).1 = .ok r → r.Off A :=
  ⟨rfl, hs, fun r hr => by cases hr⟩

end LayersConcrete

section LayersPrimitives

theorem mul_preserves (A : Set Nat) (x y : Mat) (hx : x.Off A) (hy : y.Off A) :
    Preserves (SimOff A) (Mat.Off A) (MatOps.mul x y) := by
  intro s1 s2 hs
  have e1 := agreeOff_w hs.1 hx.1
  have e2 := agreeOff_w hs.1 hy.1
  unfold MatOps.mul
  rw [e1, e2]
  by_cases hc : (s2.w x.m).cols ≠ (s2.w y.m).rows
  · rw [if_pos hc, if_pos hc]
    exact error_preserves A s1 s2 hs _
  · rw [if_neg hc, if_neg hc]
    exact alloc_preserves A s1 s2 hs _ _ false (fun w => (w x.m).mul (w y.m))
      (fun o => .mul x y o)
      (fun t1 t2 h => by simp only [agreeOff_w h hx.1, agreeOff_w h hy.1])
      (fun o ho => closureOK_mul A x y o hx hy ho)

theorem add_broadcast_preserves (A : Set Nat) (x y : Mat) (hx : x.Off A) (hy : y.Off A) :
    Preserves (SimOff A) (Mat.Off A) (MatOps.add_broadcast x y) := by
  intro s1 s2 hs
  have e1 := agreeOff_w hs.1 hx.1
  have e2 := agreeOff_w hs.1 hy.1
  unfold MatOps.add_broadcast Mat.empty_like
  rw [e1, e2]
  by_cases hc : (s2.w x.m).rows ≠ (s2.w y.m).rows ∨ (s2.w y.m).cols ≠ 1
  · rw [if_pos hc, if_pos hc]
    exact error_preserves A s1 s2 hs _
  · rw [if_neg hc, if_neg hc]
    exact alloc_preserves A s1 s2 hs _ _ false (fun w => (w x.m).colwiseAdd (w y.m))
      (fun o => .add_broadcast x y o)
      (fun t1 t2 h => by simp only [agreeOff_w h hx.1, agreeOff_w h hy.1])
      (fun o ho => closureOK_add_broadcast A x y o ho)

theorem add_preserves (A : Set Nat) (x y : Mat) (hx : x.Off A) (hy : y.Off A) :
    Preserves (SimOff A) (Mat.Off A) (MatOps.add x y) := by
  intro s1 s2 hs
  have e1 := agreeOff_w hs.1 hx.1
  have e2 := agreeOff_w hs.1 hy.1
  unfold MatOps.add
  rw [e1, e2]
  by_cases hc : (s2.w x.m).cols ≠ (s2.w y.m).cols ∧ ((s2.w x.m).cols = 1 ∨ (s2.w y.m).cols = 1)
  · rw [if_pos hc, if_pos hc]
    by_cases h1 : (s2.w x.m).cols = 1
    · rw [if_pos h1, if_pos h1]
      exact add_broadcast_preserves A y x hy hx s1 s2 hs
    · rw [if_neg h1, if_neg h1]
      exact add_broadcast_preserves A x y hx hy s1 s2 hs
  · rw [if_neg hc, if_neg hc]
    by_cases h2 : (s2.w x.m).rows ≠ (s2.w y.m).rows ∨ (s2.w x.m).cols ≠ (s2.w y.m).cols
    · rw [if_pos h2, if_pos h2]
      exact error_preserves A s1 s2 hs _
    · rw [if_neg h2, if_neg h2]
      unfold Mat.empty_like
      rw [e1]
      exact alloc_preserves A s1 s2 hs _ _ false (fun w => (w x.m).add (w y.m))
        (fun o => .add x y o)
        (fun t1 t2 h => by simp only [agreeOff_w h hx.1, agreeOff_w h hy.1])
        (fun o ho => closureOK_add A x y o ho)

theorem eltmul_broadcast_preserves (A : Set Nat) (x y : Mat) (hx : x.Off A) (hy : y.Off A) :
    Preserves (SimOff A) (Mat.Off A) (MatOps.eltmul_broadcast x y) := by
  intro s1 s2 hs
  have e1 := agreeOff_w hs.1 hx.1
  have e2 := agreeOff_w hs.1 hy.1
  unfold MatOps.eltmul_broadcast
  rw [e1, e2]
  by_cases hc : (s2.w x.m).rows = (s2.w y.m).rows ∧ (s2.w y.m).cols = 1
  · have ha : ∀ msg, assert2 (decide ((s2.w x.m).rows = (s2.w y.m).rows ∧ (s2.w y.m).cols = 1)) msg
        = .ok () := fun msg => by simp [assert2, hc]
    rw [ha]
    unfold Mat.empty_like
    rw [e1]
    exact alloc_preserves A s1 s2 hs _ _ false (fun w => (w x.m).colwiseMul (w y.m))
      (fun o => .eltmul_broadcast x y o)
      (fun t1 t2 h => by simp only [agreeOff_w h hx.1, agreeOff_w h hy.1])
      (fun o ho => closureOK_eltmul_broadcast A x y o hx hy ho)
  · have ha : ∀ msg, assert2 (decide ((s2.w x.m).rows = (s2.w y.m).rows ∧ (s2.w y.m).cols = 1)) msg
        = .error msg := fun msg => by simp [assert2, hc]
    rw [ha]
    exact error_preserves A s1 s2 hs _

theorem eltmul_preserves (A : Set Nat) (x y : Mat) (hx : x.Off A) (hy : y.Off A) :
    Preserves (SimOff A) (Mat.Off A) (MatOps.eltmul x y) := by
  intro s1 s2 hs
  have e1 := agreeOff_w hs.1 hx.1
  have e2 := agreeOff_w hs.1 hy.1
  unfold MatOps.eltmul
  rw [e1, e2]
  by_cases hc : (s2.w x.m).cols ≠ (s2.w y.m).cols ∧ ((s2.w x.m).cols = 1 ∨ (s2.w y.m).cols = 1)
  · rw [if_pos hc, if_pos hc]
    by_cases h1 : (s2.w x.m).cols = 1
    · rw [if_pos h1, if_pos h1]
      exact eltmul_broadcast_preserves A y x hy hx s1 s2 hs
    · rw [if_neg h1, if_neg h1]
      exact eltmul_broadcast_preserves A x y hx hy s1 s2 hs
  · rw [if_neg hc, if_neg hc]
    by_cases h2 : (s2.w x.m).rows = (s2.w y.m).rows ∧ (s2.w x.m).cols = (s2.w y.m).cols
    · have ha : ∀ msg, assert2 (decide ((s2.w x.m).rows = (s2.w y.m).rows ∧
          (s2.w x.m).cols = (s2.w y.m).cols)) msg = .ok () := fun msg => by simp [assert2, h2]
      rw [ha]
      unfold Mat.empty_like
      rw [e1]
      exact alloc_preserves A s1 s2 hs _ _ false (fun w => (w x.m).cwiseMul (w y.m))
        (fun o => .eltmul x y o)
        (fun t1 t2 h => by simp only [agreeOff_w h hx.1, agreeOff_w h hy.1])
        (fun o ho => closureOK_eltmul A x y o hx hy ho)
    · have ha : ∀ msg, assert2 (decide ((s2.w x.m).rows = (s2.w y.m).rows ∧
          (s2.w x.m).cols = (s2.w y.m).cols)) msg = .error msg := fun msg => by
        simp [assert2, h2]
      rw [ha]
      exact error_preserves A s1 s2 hs _

theorem sigmoid_preserves (A : Set Nat) (f : Scalars) (x : Mat) (hx : x.Off A) :
    Preserves (SimOff A) (Mat.Off A) (MatOps.sigmoid f x) := by
  intro s1 s2 hs
  have e1 := agreeOff_w hs.1 hx.1
  unfold MatOps.sigmoid Mat.empty_like
  rw [e1]
  exact alloc_preserves A s1 s2 hs _ _ false (fun w => (w x.m).unaryExpr f.sigmoid_operator)
    (fun o => .sigmoid x o)
    (fun t1 t2 h => by simp only [agreeOff_w h hx.1])
    (fun o ho => closureOK_sigmoid A x o ho)

theorem tanh_preserves (A : Set Nat) (f : Scalars) (x : Mat) (hx : x.Off A) :
    Preserves (SimOff A) (Mat.Off A) (MatOps.tanh f x) := by
  intro s1 s2 hs
  have e1 := agreeOff_w hs.1 hx.1
  unfold MatOps.tanh Mat.empty_like
  rw [e1]
  exact alloc_preserves A s1 s2 hs _ _ false (fun w => (w x.m).unaryExpr f.tanh_operator)
    (fun o => .tanh x o f.dtanh_operator)
    (fun t1 t2 h => by simp only [agreeOff_w h hx.1])
    (fun o ho => closureOK_tanh A x o _ ho)

theorem matOpsGraph_respects (A : Set Nat) (f : Scalars) :
    (matOpsGraph f).Respects (SimOff A) (Mat.Off A) :=
  ⟨mul_preserves A, add_preserves A, add_broadcast_preserves A, eltmul_preserves A,
    sigmoid_preserves A f, tanh_preserves A f⟩

theorem backward_agreeOff (A : Set Nat) (s1 s2 : State) (hs : SimOff A s1 s2) :
    AgreeOff A (graph.backward s1) (graph.backward s2) := by
  obtain ⟨hag, -, ht⟩ := hs
  have key : ∀ (L : List Closure), (∀ c ∈ L, ClosureOK A c) → ∀ t1 t2, AgreeOff A t1 t2 →
      AgreeOff A (L.foldl (fun t c => c.run t) t1) (L.foldl (fun t c => c.run t) t2) := by
    intro L
    induction L with
    | nil => intro _ t1 t2 h; exact h
    | cons c L ih =>
      intro hL t1 t2 h
      simp only [List.foldl_cons]
      exact ih (fun c' hc' => hL c' (List.mem_cons_of_mem _ hc')) _ _
        (hL c (List.mem_cons_self _ _) t1 t2 h)
  have h := key s1.tape.reverse (fun c hc => ht c (List.mem_reverse.1 hc)) s1 s2 hag
  unfold graph.backward
  rw [← hag.2.2.1]
  obtain ⟨h1, h2, -, h4, h5⟩ := h
  exact ⟨h1, h2, rfl, h4, h5⟩

theorem simOff_setDw (A : Set Nat) (s1 s2 : State) (hs : SimOff A s1 s2) (x : Mat)
    (G : EigenMat) : SimOff A (s1.setDw x G) (s2.setDw x G) :=
  ⟨agreeOff_setDw A s1 s2 hs.1 x G, hs.2.1, hs.2.2⟩

end LayersPrimitives

section LayersValues

theorem thenCall_ok {σ α β : Type} (c : σ → Except String α × σ)
    (k : α → σ → Except String β × σ) (s t : σ) (r : β) (h : thenCall c k s = (.ok r, t)) :
    ∃ a u, c s = (.ok a, u) ∧ k a u = (.ok r, t) := by
  unfold thenCall at h
  cases hc : c s with
  | mk ra u =>
    rw [hc] at h
    cases ra with
    | ok a => exact ⟨a, u, rfl, h⟩
    | error e => simp at h

theorem alloc_returns (s : State) (n d : Nat) (e : Bool) (v : EigenMat) (c : Closure) :
    ReturnsValue s (((Mat.new n d e s).2.assign (Mat.new n d e s).1 v).record c)
      (Mat.new n d e s).1 v := by
  have hrec : ∀ u : State, (u.record c).w = u.w ∧ (u.record c).next_addr = u.next_addr := by
    intro u
    unfold State.record
    split <;> exact ⟨rfl, rfl⟩
  refine ⟨le_refl _, ?_, fun a ha => ?_, ?_⟩
  · rw [(hrec _).2]
    exact Nat.lt_succ_self _
  · rw [(hrec _).1]
    simp only [State.assign, Mat.new, Function.update_noteq (Nat.ne_of_lt ha)]
  · rw [(hrec _).1]
    simp only [State.assign, Mat.new, Function.update_same]

theorem new_w_of_lt (s : State) (n d : Nat) (e : Bool) (a : Nat) (ha : a < s.next_addr) :
    (Mat.new n d e s).2.w a = s.w a := by
  simp only [Mat.new, Function.update_noteq (Nat.ne_of_lt ha)]

theorem mul_returns (x y : Mat) (s t : State) (r : Mat) (hx : x.m < s.next_addr)
    (hy : y.m < s.next_addr) (h : MatOps.mul x y s = (.ok r, t)) :
    ReturnsValue s t r ((s.w x.m).mul (s.w y.m)) := by
  unfold MatOps.mul at h
  split at h
  · simp at h
  · simp only [Prod.mk.injEq, Except.ok.injEq] at h
    obtain ⟨h1, h2⟩ := h
    subst h1
    subst h2
    have := alloc_returns s (s.w x.m).rows (s.w y.m).cols false
      (((Mat.new (s.w x.m).rows (s.w y.m).cols false s).2.w x.m).mul
        ((Mat.new (s.w x.m).rows (s.w y.m).cols false s).2.w y.m))
      (.mul x y (Mat.new (s.w x.m).rows (s.w y.m).cols false s).1)
    rw [new_w_of_lt _ _ _ _ _ hx, new_w_of_lt _ _ _ _ _ hy] at this ⊢
    exact this

theorem add_broadcast_returns (x y : Mat) (s t : State) (r : Mat) (hx : x.m < s.next_addr)
    (hy : y.m < s.next_addr) (h : MatOps.add_broadcast x y s = (.ok r, t)) :
    ReturnsValue s t r ((s.w x.m).colwiseAdd (s.w y.m)) := by
  unfold MatOps.add_broadcast Mat.empty_like at h
  split at h
  · simp at h
  · simp only [Prod.mk.injEq, Except.ok.injEq] at h
    obtain ⟨h1, h2⟩ := h
    subst h1
    subst h2
    have := alloc_returns s (s.w x.m).rows (s.w x.m).cols false
      (((Mat.new (s.w x.m).rows (s.w x.m).cols false s).2.w x.m).colwiseAdd
        ((Mat.new (s.w x.m).rows (s.w x.m).cols false s).2.w y.m))
      (.add_broadcast x y (Mat.new (s.w x.m).rows (s.w x.m).cols false s).1)
    rw [new_w_of_lt _ _ _ _ _ hx, new_w_of_lt _ _ _ _ _ hy] at this ⊢
    exact this

theorem add_returns (x y : Mat) (s t : State) (r : Mat) (hx : x.m < s.next_addr)
    (hy : y.m < s.next_addr) (h : MatOps.add x y s = (.ok r, t)) :
    ReturnsValue s t r (addValue (s.w x.m) (s.w y.m)) := by
  unfold MatOps.add at h
  unfold addValue
  by_cases hc : (s.w x.m).cols ≠ (s.w y.m).cols ∧ ((s.w x.m).cols = 1 ∨ (s.w y.m).cols = 1)
  · rw [if_pos hc] at h
    rw [if_pos hc]
    by_cases h1 : (s.w x.m).cols = 1
    · rw [if_pos h1] at h
      rw [if_pos h1]
      exact add_broadcast_returns y x s t r hy hx h
    · rw [if_neg h1] at h
      rw [if_neg h1]
      exact add_broadcast_returns x y s t r hx hy h
  · rw [if_neg hc] at h
    rw [if_neg hc]
    split at h
    · simp at h
    · unfold Mat.empty_like at h
      simp only [Prod.mk.injEq, Except.ok.injEq] at h
      obtain ⟨h1, h2⟩ := h
      subst h1
      subst h2
      have := alloc_returns s (s.w x.m).rows (s.w x.m).cols false
        (((Mat.new (s.w x.m).rows (s.w x.m).cols false s).2.w x.m).add
          ((Mat.new (s.w x.m).rows (s.w x.m).cols false s).2.w y.m))
        (.add x y (Mat.new (s.w x.m).rows (s.w x.m).cols false s).1)
      rw [new_w_of_lt _ _ _ _ _ hx, new_w_of_lt _ _ _ _ _ hy] at this ⊢
      exact this

theorem sigmoid_returns (f : Scalars) (x : Mat) (s t : State) (r : Mat)
    (hx : x.m < s.next_addr) (h : MatOps.sigmoid f x s = (.ok r, t)) :
    ReturnsValue s t r ((s.w x.m).unaryExpr f.sigmoid_operator) := by
  unfold MatOps.sigmoid Mat.empty_like at h
  simp only [Prod.mk.injEq, Except.ok.injEq] at h
  obtain ⟨h1, h2⟩ := h
  subst h1
  subst h2
  have := alloc_returns s (s.w x.m).rows (s.w x.m).cols false
    (((Mat.new (s.w x.m).rows (s.w x.m).cols false s).2.w x.m).unaryExpr f.sigmoid_operator)
    (.sigmoid x (Mat.new (s.w x.m).rows (s.w x.m).cols false s).1)
  rw [new_w_of_lt _ _ _ _ _ hx] at this ⊢
  exact this

theorem tanh_returns (f : Scalars) (x : Mat) (s t : State) (r : Mat)
    (hx : x.m < s.next_addr) (h : MatOps.tanh f x s = (.ok r, t)) :
    ReturnsValue s t r ((s.w x.m).unaryExpr f.tanh_operator) := by
  unfold MatOps.tanh Mat.empty_like at h
  simp only [Prod.mk.injEq, Except.ok.injEq] at h
  obtain ⟨h1, h2⟩ := h
  subst h1
  subst h2
  have := alloc_returns s (s.w x.m).rows (s.w x.m).cols false
    (((Mat.new (s.w x.m).rows (s.w x.m).cols false s).2.w x.m).unaryExpr f.tanh_operator)
    (.tanh x (Mat.new (s.w x.m).rows (s.w x.m).cols false s).1 f.dtanh_operator)
  rw [new_w_of_lt _ _ _ _ _ hx] at this ⊢
  exact this

/-- The value of `RNN::activate` over the primitives of `MatOps.cpp`. -/
theorem rnn_returns (f : Scalars) (left_first : Bool) (L : RNN) (x h : Mat) (s t : State)
    (r : Mat) (hWx : L.Wx.m < s.next_addr) (hWh : L.Wh.m < s.next_addr)
    (hb : L.b.m < s.next_addr) (hx : x.m < s.next_addr) (hh : h.m < s.next_addr)
    (hr : L.activate (matOpsGraph f) left_first x h s = (.ok r, t)) :
    ReturnsValue s t r
      (RNN.preActivation (s.w L.Wx.m) (s.w x.m) (s.w L.Wh.m) (s.w h.m) (s.w L.b.m)) := by
  unfold RNN.activate at hr
  unfold RNN.preActivation
  cases left_first
  · simp only [Bool.false_eq_true, if_false] at hr
    obtain ⟨m2, u1, e1, hr⟩ := thenCall_ok _ _ _ _ _ hr
    obtain ⟨m1, u2, e2, hr⟩ := thenCall_ok _ _ _ _ _ hr
    obtain ⟨sm, u3, e3, hr⟩ := thenCall_ok _ _ _ _ _ hr
    obtain ⟨a1, a2, a3, a4⟩ := mul_returns L.Wh h s u1 m2 hWh hh e1
    obtain ⟨b1, b2, b3, b4⟩ := mul_returns L.Wx x u1 u2 m1 (by omega) (by omega) e2
    obtain ⟨c1, c2, c3, c4⟩ := add_returns m1 m2 u2 u3 sm (by omega) (by omega) e3
    obtain ⟨d1, d2, d3, d4⟩ := add_broadcast_returns sm L.b u3 t r (by omega) (by omega) hr
    refine ⟨by omega, d2, fun a ha => ?_, ?_⟩
    · rw [d3 a (by omega), c3 a (by omega), b3 a (by omega), a3 a ha]
    · rw [d4, c4, b4, b3 m2.m a2, a4, a3 _ hWx, a3 _ hx,
        c3 _ (by omega : L.b.m < u2.next_addr), b3 _ (by omega : L.b.m < u1.next_addr), a3 _ hb]
  · simp only [if_true] at hr
    obtain ⟨m1, u1, e1, hr⟩ := thenCall_ok _ _ _ _ _ hr
    obtain ⟨m2, u2, e2, hr⟩ := thenCall_ok _ _ _ _ _ hr
    obtain ⟨sm, u3, e3, hr⟩ := thenCall_ok _ _ _ _ _ hr
    obtain ⟨a1, a2, a3, a4⟩ := mul_returns L.Wx x s u1 m1 hWx hx e1
    obtain ⟨b1, b2, b3, b4⟩ := mul_returns L.Wh h u1 u2 m2 (by omega) (by omega) e2
    obtain ⟨c1, c2, c3, c4⟩ := add_returns m1 m2 u2 u3 sm (by omega) (by omega) e3
    obtain ⟨d1, d2, d3, d4⟩ := add_broadcast_returns sm L.b u3 t r (by omega) (by omega) hr
    refine ⟨by omega, d2, fun a ha => ?_, ?_⟩
    · rw [d3 a (by omega), c3 a (by omega), b3 a (by omega), a3 a ha]
    · rw [d4, c4, b4, b3 m1.m a2, a4, a3 _ hWh, a3 _ hh,
        c3 _ (by omega : L.b.m < u2.next_addr), b3 _ (by omega : L.b.m < u1.next_addr), a3 _ hb]

end LayersValues

section LayersGates

theorem returns_keeps {s t : State} {r : Mat} {V : EigenMat} (h : ReturnsValue s t r V) :
    s.next_addr ≤ t.next_addr ∧ ∀ a, a < s.next_addr → t.w a = s.w a :=
  ⟨by have := h.1; have := h.2.1; omega, h.2.2.1⟩

theorem keeps_trans {s t u : State}
    (h1 : s.next_addr ≤ t.next_addr ∧ ∀ a, a < s.next_addr → t.w a = s.w a)
    (h2 : t.next_addr ≤ u.next_addr ∧ ∀ a, a < t.next_addr → u.w a = t.w a) :
    s.next_addr ≤ u.next_addr ∧ ∀ a, a < s.next_addr → u.w a = s.w a :=
  ⟨le_trans h1.1 h2.1, fun a ha => (h2.2 a (lt_of_lt_of_le ha h1.1)).trans (h1.2 a ha)⟩

/-- A layer followed by a coefficient-wise primitive, over the primitives of
`MatOps.cpp`, started in a state `u` that has kept the tensors of `s`. -/
theorem rnn_returns_from (f : Scalars) (left_first : Bool) (L : RNN) (x h : Mat)
    (s u t : State) (r : Mat)
    (hk : s.next_addr ≤ u.next_addr ∧ ∀ a, a < s.next_addr → u.w a = s.w a)
    (hWx : L.Wx.m < s.next_addr) (hWh : L.Wh.m < s.next_addr)
    (hb : L.b.m < s.next_addr) (hx : x.m < s.next_addr) (hh : h.m < s.next_addr)
    (hr : L.activate (matOpsGraph f) left_first x h u = (.ok r, t)) :
    ReturnsValue u t r
      (RNN.preActivation (s.w L.Wx.m) (s.w x.m) (s.w L.Wh.m) (s.w h.m) (s.w L.b.m)) := by
  have := rnn_returns f left_first L x h u t r (by omega) (by omega) (by omega) (by omega)
    (by omega) hr
  rw [hk.2 _ hWx, hk.2 _ hWh, hk.2 _ hb, hk.2 _ hx, hk.2 _ hh] at this
  exact this

/-- The values of the three gates and of the cell-write candidate after the
first four statements of `LSTM::activate`, over the primitives of
`MatOps.cpp`. -/
theorem gates_returns (f : Scalars) (left_first : Bool) (L : LSTM) (x h : Mat) (s t : State)
    (ig fg og cw : Mat)
    (hi : L.input_layer.Wx.m < s.next_addr ∧ L.input_layer.Wh.m < s.next_addr ∧
      L.input_layer.b.m < s.next_addr)
    (hf : L.forget_layer.Wx.m < s.next_addr ∧ L.forget_layer.Wh.m < s.next_addr ∧
      L.forget_layer.b.m < s.next_addr)
    (ho : L.output_layer.Wx.m < s.next_addr ∧ L.output_layer.Wh.m < s.next_addr ∧
      L.output_layer.b.m < s.next_addr)
    (hx : x.m < s.next_addr) (hh : h.m < s.next_addr)
    (hr : L.gates (matOpsGraph f) left_first x h s = (.ok (ig, fg, og, cw), t)) :
    t.w ig.m = (RNN.preActivation (s.w L.input_layer.Wx.m) (s.w x.m) (s.w L.input_layer.Wh.m)
        (s.w h.m) (s.w L.input_layer.b.m)).unaryExpr f.sigmoid_operator ∧
    t.w fg.m = (RNN.preActivation (s.w L.forget_layer.Wx.m) (s.w x.m)
        (s.w L.forget_layer.Wh.m) (s.w h.m) (s.w L.forget_layer.b.m)).unaryExpr
          f.sigmoid_operator ∧
    t.w og.m = (RNN.preActivation (s.w L.output_layer.Wx.m) (s.w x.m)
        (s.w L.output_layer.Wh.m) (s.w h.m) (s.w L.output_layer.b.m)).unaryExpr
          f.sigmoid_operator ∧
    t.w cw.m = (RNN.preActivation (s.w L.output_layer.Wx.m) (s.w x.m)
        (s.w L.output_layer.Wh.m) (s.w h.m) (s.w L.output_layer.b.m)).unaryExpr
          f.tanh_operator := by
  unfold LSTM.gates at hr
  obtain ⟨a1, u1, e1, hr⟩ := thenCall_ok _ _ _ _ _ hr
  obtain ⟨ig', u2, e2, hr⟩ := thenCall_ok _ _ _ _ _ hr
  obtain ⟨a2, u3, e3, hr⟩ := thenCall_ok _ _ _ _ _ hr
  obtain ⟨fg', u4, e4, hr⟩ := thenCall_ok _ _ _ _ _ hr
  obtain ⟨a3, u5, e5, hr⟩ := thenCall_ok _ _ _ _ _ hr
  obtain ⟨og', u6, e6, hr⟩ := thenCall_ok _ _ _ _ _ hr
  obtain ⟨a4, u7, e7, hr⟩ := thenCall_ok _ _ _ _ _ hr
  obtain ⟨cw', u8, e8, hr⟩ := thenCall_ok _ _ _ _ _ hr
  simp only [Prod.mk.injEq, Except.ok.injEq] at hr
  obtain ⟨⟨rfl, rfl, rfl, rfl⟩, rfl⟩ := hr
  have k0 : s.next_addr ≤ s.next_addr ∧ ∀ a, a < s.next_addr → s.w a = s.w a :=
    ⟨le_refl _, fun _ _ => rfl⟩
  have R1 := rnn_returns_from f left_first _ x h s s u1 a1 k0 hi.1 hi.2.1 hi.2.2 hx hh e1
  have R2 := sigmoid_returns f a1 u1 u2 ig' R1.2.1 e2
  have K2 := keeps_trans (returns_keeps R1) (returns_keeps R2)
  have R3 := rnn_returns_from f left_first _ x h s u2 u3 a2 K2 hf.1 hf.2.1 hf.2.2 hx hh e3
  have R4 := sigmoid_returns f a2 u3 u4 fg' R3.2.1 e4
  have K4 := keeps_trans K2 (keeps_trans (returns_keeps R3) (returns_keeps R4))
  have R5 := rnn_returns_from f left_first _ x h s u4 u5 a3 K4 ho.1 ho.2.1 ho.2.2 hx hh e5
  have R6 := sigmoid_returns f a3 u5 u6 og' R5.2.1 e6
  have K6 := keeps_trans K4 (keeps_trans (returns_keeps R5) (returns_keeps R6))
  have R7 := rnn_returns_from f left_first _ x h s u6 u7 a4 K6 ho.1 ho.2.1 ho.2.2 hx hh e7
  have R8 := tanh_returns f a4 u7 u8 cw' R7.2.1 e8
  have K68 := keeps_trans (returns_keeps R7) (returns_keeps R8)
  have K48 := keeps_trans (keeps_trans (returns_keeps R5) (returns_keeps R6)) K68
  have K28 := keeps_trans (keeps_trans (returns_keeps R3) (returns_keeps R4)) K48
  refine ⟨?_, ?_, ?_, ?_⟩
  · rw [K28.2 _ R2.2.1, R2.2.2.2, R1.2.2.2]
  · rw [K48.2 _ R4.2.1, R4.2.2.2, R3.2.2.2]
  · rw [K68.2 _ R6.2.1, R6.2.2.2, R5.2.2.2]
  · rw [R8.2.2.2, R7.2.2.2]

end LayersGates

section LayersExample

theorem agreeOff_setW (A : Set Nat) (s : State) (x : Mat) (V : EigenMat) (hx : x.m ∈ A) :
    AgreeOff A s (s.setW x V) := by
  refine ⟨rfl, rfl, rfl, rfl, fun a ha => ⟨?_, rfl, rfl⟩⟩
  have hne : a ≠ x.m := fun h => ha (h ▸ hx)
  simp only [State.setW, Function.update_noteq hne]

/-- On the example, `LSTM::activate` returns normally: the new cell is the
tensor at address `37` and the new hidden state the tensor at address `39`. -/
theorem lstm_example_returns :
    (exampleLSTM.activate (matOpsGraph exampleScalars) true (Mat.ofAddr 12) (Mat.ofAddr 13)
      (Mat.ofAddr 14) lstmState).1 = .ok (Mat.ofAddr 37, Mat.ofAddr 39) := rfl

/-- On the example, the first four statements of `LSTM::activate` return
normally. -/
theorem lstm_example_gates :
    (exampleLSTM.gates (matOpsGraph exampleScalars) true (Mat.ofAddr 12) (Mat.ofAddr 14)
      lstmState).1 = .ok (Mat.ofAddr 19, Mat.ofAddr 24, Mat.ofAddr 29, Mat.ofAddr 34) := rfl

theorem lstm_example_simOff : SimOff {9, 10, 11} lstmState lstmState2 := by
  refine ⟨agreeOff_setW _ _ _ _ (by simp [Mat.ofAddr]), fun a ha => ?_, fun c hc => ?_⟩
  · show a < 15
    simp only [Set.mem_insert_iff, Set.mem_singleton_iff] at ha
    omega
  · have : lstmState.tape = [] := rfl
    rw [this] at hc
    cases hc

end LayersExample

/-- C35. `LSTM::activate` does not depend on `cell_layer`.  Take two `LSTM`
objects with the same `input_layer`, `forget_layer` and `output_layer`, and two
states of the memory that agree but for what is stored at a set `A` of
addresses, of which the parameters of these three layers and the three
arguments are clear (so that the parameters of `cell_layer`, their handles
and what `A` stores, are free).  Then, whatever the class `Graph` is, the two
calls are the same function of the graph; and over the primitives of
`MatOps.cpp` the two calls return the same result (the same pair of handles or
the same exception), end in states that agree off `A`, and after any common
seed of a gradient `backward` ends in states that agree off `A`: the values,
and the gradients that `backward` produces, are identical at every address
off `A`.  The function is its first four statements followed by the rest, and
after these four statements the value of `output_gate` is the sigmoid and the
value of `cell_write` the tanh of one and the same matrix, the activation of
`output_layer`. -/
theorem lstm_activate_ignores_cell_layer (f : Scalars) (left_first : Bool) (A : Set Nat)
    (L1 L2 : LSTM) (input_vector cell_prev hidden_prev : Mat) (s1 s2 : State)
    (hi : L1.input_layer = L2.input_layer) (hf : L1.forget_layer = L2.forget_layer)
    (ho : L1.output_layer = L2.output_layer) (hs : SimOff A s1 s2)
    (hio : L1.input_layer.Off A) (hfo : L1.forget_layer.Off A) (hoo : L1.output_layer.Off A)
    (hx : input_vector.Off A) (hc : cell_prev.Off A) (hh : hidden_prev.Off A) :
    (∀ (σ : Type) (G : Graph σ),
      L1.activate G left_first input_vector cell_prev hidden_prev
        = L2.activate G left_first input_vector cell_prev hidden_prev) ∧
    (L1.activate (matOpsGraph f) left_first input_vector cell_prev hidden_prev s1).1
      = (L2.activate (matOpsGraph f) left_first input_vector cell_prev hidden_prev s2).1 ∧
    AgreeOff A
      (L1.activate (matOpsGraph f) left_first input_vector cell_prev hidden_prev s1).2
      (L2.activate (matOpsGraph f) left_first input_vector cell_prev hidden_prev s2).2 ∧
    (∀ (seed : Mat) (G : EigenMat),
      AgreeOff A
        (graph.backward
          ((L1.activate (matOpsGraph f) left_first input_vector cell_prev hidden_prev
            s1).2.setDw seed G))
        (graph.backward
          ((L2.activate (matOpsGraph f) left_first input_vector cell_prev hidden_prev
            s2).2.setDw seed G))) ∧
    (∀ (σ : Type) (G : Graph σ),
      L1.activate G left_first input_vector cell_prev hidden_prev
        = thenCall (L1.gates G left_first input_vector hidden_prev) (fun g =>
            thenCall (G.eltmul g.2.1 cell_prev) fun retain_cell =>
            thenCall (G.eltmul g.1 g.2.2.2) fun write_cell =>
            thenCall (G.add retain_cell write_cell) fun cell_d =>
            thenCall (G.tanh cell_d) fun tanh_cell =>
            thenCall (G.eltmul g.2.2.1 tanh_cell) fun hidden_d =>
            fun s => (.ok (cell_d, hidden_d), s))) ∧
    (∀ (s t : State) (input_gate forget_gate output_gate cell_write : Mat),
      (L1.input_layer.Wx.m < s.next_addr ∧ L1.input_layer.Wh.m < s.next_addr ∧
        L1.input_layer.b.m < s.next_addr) →
      (L1.forget_layer.Wx.m < s.next_addr ∧ L1.forget_layer.Wh.m < s.next_addr ∧
        L1.forget_layer.b.m < s.next_addr) →
      (L1.output_layer.Wx.m < s.next_addr ∧ L1.output_layer.Wh.m < s.next_addr ∧
        L1.output_layer.b.m < s.next_addr) →
      input_vector.m < s.next_addr → hidden_prev.m < s.next_addr →
      L1.gates (matOpsGraph f) left_first input_vector hidden_prev s
        = (.ok (input_gate, forget_gate, output_gate, cell_write), t) →
      t.w output_gate.m
        = (RNN.preActivation (s.w L1.output_layer.Wx.m) (s.w input_vector.m)
            (s.w L1.output_layer.Wh.m) (s.w hidden_prev.m)
            (s.w L1.output_layer.b.m)).unaryExpr f.sigmoid_operator ∧
      t.w cell_write.m
        = (RNN.preActivation (s.w L1.output_layer.Wx.m) (s.w input_vector.m)
            (s.w L1.output_layer.Wh.m) (s.w hidden_prev.m)
            (s.w L1.output_layer.b.m)).unaryExpr f.tanh_operator) := by
  have hcongr := fun (σ : Type) (G : Graph σ) =>
    lstm_activate_congr G left_first L1 L2 hi hf ho input_vector cell_prev hidden_prev
  have hP := lstm_activate_preserves (matOpsGraph f) (SimOff A) (Mat.Off A)
    (matOpsGraph_respects A f) left_first L1 input_vector cell_prev hidden_prev
    hio hfo hoo hx hc hh s1 s2 hs
  rw [← hcongr State (matOpsGraph f)]
  refine ⟨hcongr, hP.1, hP.2.1.1, fun seed G => ?_, fun σ G =>
    lstm_activate_eq_gates G left_first L1 input_vector cell_prev hidden_prev,
    fun s t ig fg og cw h1 h2 h3 h4 h5 hr => ?_⟩
  · exact backward_agreeOff A _ _ (simOff_setDw A _ _ hP.2.1 seed G)
  · have := gates_returns f left_first L1 input_vector hidden_prev s t ig fg og cw
      h1 h2 h3 h4 h5 hr
    exact ⟨this.2.2.1, this.2.2.2⟩

theorem lstm_activate_ignores_cell_layer_witness :
    (exampleLSTM.activate (matOpsGraph exampleScalars) true (Mat.ofAddr 12) (Mat.ofAddr 13)
        (Mat.ofAddr 14) lstmState).1
      = (exampleLSTM2.activate (matOpsGraph exampleScalars) true (Mat.ofAddr 12)
        (Mat.ofAddr 13) (Mat.ofAddr 14) lstmState2).1 ∧
    AgreeOff {9, 10, 11}
      (graph.backward
        ((exampleLSTM.activate (matOpsGraph exampleScalars) true (Mat.ofAddr 12)
          (Mat.ofAddr 13) (Mat.ofAddr 14) lstmState).2.setDw (Mat.ofAddr 39) (EigenMat.ones 1 1)))
      (graph.backward
        ((exampleLSTM2.activate (matOpsGraph exampleScalars) true (Mat.ofAddr 12)
          (Mat.ofAddr 13) (Mat.ofAddr 14) lstmState2).2.setDw (Mat.ofAddr 39)
            (EigenMat.ones 1 1))) :=
  have h := lstm_activate_ignores_cell_layer exampleScalars true {9, 10, 11} exampleLSTM
    exampleLSTM2 (Mat.ofAddr 12) (Mat.ofAddr 13) (Mat.ofAddr 14) lstmState lstmState2 rfl rfl rfl
    lstm_example_simOff
    (by simp [RNN.Off, Mat.Off, Mat.ofAddr, exampleLSTM])
    (by simp [RNN.Off, Mat.Off, Mat.ofAddr, exampleLSTM])
    (by simp [RNN.Off, Mat.Off, Mat.ofAddr, exampleLSTM])
    (by simp [Mat.Off, Mat.ofAddr]) (by simp [Mat.Off, Mat.ofAddr]) (by simp [Mat.Off, Mat.ofAddr])
  ⟨h.2.1, h.2.2.2.1 (Mat.ofAddr 39) (EigenMat.ones 1 1)⟩

end Dali
